import Mathlib

/-!
# Cosmographia: ephemeris decoder and catalog resolution engine

A shallow embedding of `JPLEphemeris::load` (src/main/JPLEphemeris.cpp) and of
the catalog item loop of `UniverseLoader` (src/main/catalog/UniverseLoader.cpp),
with the properties of the specification proved about them.

Conventions of the embedding:
* `double` values are exact rationals (`ℚ`) and arithmetic on them is exact,
  except where a result is converted to an integer: the operations that lead
  to the conversion round as IEEE 754 does;
* `quint32` values are natural numbers below `2 ^ 32`, every arithmetic
  operation on them is reduced modulo `2 ^ 32` explicitly;
* a pointer that may be `NULL` is an `Option`.
-/

namespace Cosmographia

/-! ## The binary stream -/

/-- One byte of the ephemeris file. -/
abbrev Byte := Fin 256

/-- A `QDataStream` over a read-only file: `device` is the contents of the
file, `pos` the read position, and `ok` says that `status()` is still
`QDataStream::Ok`.  The status is sticky: once a read has taken it from `Ok`
no later operation restores it. -/
structure QDataStream where
  device : List Byte
  pos : Nat
  ok : Bool
deriving DecidableEq, Repr

/-- A piece of decoder code: it runs on a stream and either leaves the function
with `return NULL` (`none`) or continues with a value and the new stream. -/
def Decoder (α : Type) : Type := QDataStream → Option (α × QDataStream)

/-- Sequencing of decoder code. -/
def Decoder.andThen {α β : Type} (m : Decoder α) (f : α → Decoder β) : Decoder β :=
  fun s =>
    match m s with
    | none => none
    | some (a, s') => f a s'

instance : Monad Decoder where
  pure a := fun s => some (a, s)
  bind := Decoder.andThen

/-- The statement `return NULL;`. -/
def returnNull {α : Type} : Decoder α := fun _ => none

/-- The guard `if (in.status() != QDataStream::Ok) return NULL;`. -/
def checkStatus : Decoder Unit := fun s => if s.ok then some ((), s) else none

/-- Read `n` raw bytes.  When fewer than `n` bytes are left the device is
drained, the status becomes `ReadPastEnd` and the value read is all zero. -/
def readRawData (n : Nat) : Decoder (List Byte) := fun s =>
  if s.pos + n ≤ s.device.length then
    some ((s.device.drop s.pos).take n, { s with pos := s.pos + n })
  else
    some (List.replicate n 0, { s with pos := s.device.length, ok := false })

/-- The call `in.skipRawData(n)` on a file, a device with random access, in
the Qt 4 that the program is written for: when fewer than `n` bytes are left
the length is cut to what is left, then the device seeks forward.  The status
is not touched, so the status checks that follow the skips in `load` see
nothing of a skip that was cut short. -/
def skipRawData (n : Nat) : Decoder Unit := fun s =>
  some ((), { s with pos := min (s.pos + n) s.device.length })

/-- Big-endian value of a byte string. -/
def fromBigEndian (bs : List Byte) : Nat :=
  bs.foldl (fun acc b => acc * 256 + b.val) 0

/-- The value of an IEEE-754 binary64 bit pattern as an exact rational: the
sign bit, the 11-bit exponent field `e` and the 52-bit fraction `m` stand for
`± (2 ^ 52 + m) * 2 ^ (e - 1075)`, or `± m * 2 ^ (-1074)` when `e = 0`.
The finite doubles are the values of magnitude below `2 ^ 1024`.  The
patterns with exponent field 2047 are read by the same formula, which tells
them from every finite double: an infinity (`m = 0`) is read as `± 2 ^ 1024`
and a NaN (`m ≠ 0`) as a value of greater magnitude. -/
def doubleOfBits (bits : Nat) : ℚ :=
  let e : Nat := bits / 2 ^ 52 % 2 ^ 11
  let m : Nat := bits % 2 ^ 52
  let magnitude : Nat × Nat :=
    if e = 0 then (m, 2 ^ 1074)
    else if 1075 ≤ e then ((2 ^ 52 + m) * 2 ^ (e - 1075), 1)
    else (2 ^ 52 + m, 2 ^ (1075 - e))
  let q : ℚ := (magnitude.1 : ℚ) / (magnitude.2 : ℚ)
  if bits / 2 ^ 63 % 2 = 1 then -q else q

/-! ## Arithmetic on doubles -/

/-- The magnitude that stands for an infinity. -/
def doubleInfinity : ℚ := 2 ^ 1024

/-- A value that stands for a NaN. -/
def doubleNaN : ℚ := 2 ^ 1025

/-- Whether a value stands for a NaN. -/
def isNaN (x : ℚ) : Bool := decide (doubleInfinity < |x|)

/-- Whether a value stands for an infinity. -/
def isInfinite (x : ℚ) : Bool := decide (|x| = doubleInfinity)

/-- The number of binary digits of `n`, for `n ≤ fuel`. -/
def bitLength : Nat → Nat → Nat
  | 0, _ => 0
  | fuel + 1, n => if n = 0 then 0 else bitLength fuel (n / 2) + 1

/-- The integer `e` with `2 ^ e ≤ a < 2 ^ (e + 1)`, for a positive `a`. -/
def floorLog2 (a : ℚ) : Int :=
  let e : Int := (bitLength a.num.natAbs a.num.natAbs : Int) - (bitLength a.den a.den : Int)
  if (2 : ℚ) ^ e ≤ a then e else e - 1

/-- The integer nearest to `x`, the even one of the two when `x` lies half way
between them. -/
def roundHalfEven (x : ℚ) : Int :=
  let f := Rat.floor x
  let rest := x - f
  if rest < 1 / 2 then f else if 1 / 2 < rest then f + 1 else if f % 2 = 0 then f else f + 1

/-- The double nearest to an exact result (IEEE 754 binary64, round to
nearest, ties to even): the magnitude is rounded to 53 significant binary
digits, or to a multiple of `2 ^ (-1074)` in the subnormal range; a magnitude
that rounds to `2 ^ 1024` or more gives the infinity. -/
def roundToDouble (x : ℚ) : ℚ :=
  if x = 0 then 0
  else
    let e := max (-1022) (floorLog2 |x|)
    let quantum : ℚ := 2 ^ (e - 52)
    let rounded : ℚ := (roundHalfEven (|x| / quantum) : ℚ) * quantum
    let magnitude := if doubleInfinity ≤ rounded then doubleInfinity else rounded
    if x < 0 then -magnitude else magnitude

/-- The difference `a - b` of two doubles. -/
def doubleSub (a b : ℚ) : ℚ :=
  if isNaN a || isNaN b then doubleNaN
  else if isInfinite a && isInfinite b then (if a = b then doubleNaN else a)
  else if isInfinite a then a
  else if isInfinite b then -b
  else roundToDouble (a - b)

/-- The quotient `a / b` of two doubles.  The sign of a zero is not
represented, so the infinity that a division by zero gives has the sign of
the dividend. -/
def doubleDiv (a b : ℚ) : ℚ :=
  if isNaN a || isNaN b then doubleNaN
  else if isInfinite a && isInfinite b then doubleNaN
  else if isInfinite a then (if b < 0 then -a else a)
  else if isInfinite b then 0
  else if b = 0 then
    (if a = 0 then doubleNaN else if a < 0 then -doubleInfinity else doubleInfinity)
  else roundToDouble (a / b)

/-- The operator `in >> x` for a `quint32`. -/
def readUInt32 : Decoder Nat := do
  let bs ← readRawData 4
  pure (fromBigEndian bs)

/-- The operator `in >> x` for a `qint32` (two's complement). -/
def readInt32 : Decoder Int := do
  let bs ← readRawData 4
  let u := fromBigEndian bs
  pure (if u < 2 ^ 31 then (u : Int) else (u : Int) - 2 ^ 32)

/-- The operator `in >> x` for a `double`. -/
def readDouble : Decoder ℚ := do
  let bs ← readRawData 8
  pure (doubleOfBits (fromBigEndian bs))

/-! ## `JPLEphemeris` -/

/-- Modelled from the spec: `vesta::J2000`, the Julian day of the reference
epoch (vesta/Units.h is not part of the sources at hand). -/
def J2000 : ℚ := 2451545

/-- Modelled from the spec: `vesta::daysToSeconds`, days times 86400
(vesta/Units.h is not part of the sources at hand). -/
def daysToSeconds (d : ℚ) : ℚ := d * 86400

/-- What the platform does where C++ leaves the behaviour of the program
undefined. -/
structure Platform where
  /-- The `unsigned int` that the conversion of a `double` gives when the
  truncated value is not among the values of `unsigned int` (a value of -1 or
  less, a value of `2 ^ 32` or more, an infinity, a NaN). -/
  undefinedCast : ℚ → Nat

/-- The conversion `(unsigned int) x` of a `double`: the value is truncated
toward zero; when the truncated value is not in `0 .. 2 ^ 32 - 1` the result
is what the platform gives. -/
def castToUInt (platform : Platform) (x : ℚ) : Nat :=
  let truncated : Int := if x < 0 then -Rat.floor (-x) else Rat.floor x
  if 0 ≤ truncated ∧ truncated < 2 ^ 32 then truncated.toNat
  else platform.undefinedCast x % 2 ^ 32

/-- The arguments a `ChebyshevPolyTrajectory` is constructed from. -/
structure ChebyshevPolyTrajectory where
  coeffs : List ℚ
  degree : Nat
  granuleCount : Nat
  startTime : ℚ
  granuleLength : ℚ
deriving DecidableEq, Repr

/-- Modelled from the spec: `JPLEphemeris::ObjectCount`, the number of
trajectory slots of a `JPLEphemeris` (JPLEphemeris.h is not part of the
sources at hand; the spec counts 12 object slots). -/
def ObjectCount : Nat := 12

/-- The class `JPLEphemeris`: one trajectory pointer per object id. -/
structure JPLEphemeris where
  m_trajectories : List (Option ChebyshevPolyTrajectory)
deriving DecidableEq, Repr

/-- The constructor `JPLEphemeris::JPLEphemeris()`: all slots null. -/
def JPLEphemeris.new : JPLEphemeris := { m_trajectories := List.replicate ObjectCount none }

/-- The method `JPLEphemeris::trajectory`. -/
def JPLEphemeris.trajectory (eph : JPLEphemeris) (id : Nat) : Option ChebyshevPolyTrajectory :=
  if id ≥ ObjectCount then none else (eph.m_trajectories.getD id none)

/-- The method `JPLEphemeris::setTrajectory`. -/
def JPLEphemeris.setTrajectory (eph : JPLEphemeris) (id : Nat)
    (trajectory : ChebyshevPolyTrajectory) : JPLEphemeris :=
  if id < ObjectCount then { m_trajectories := eph.m_trajectories.set id (some trajectory) }
  else eph

/-- The struct `JplEphCoeffInfo` (three `quint32`). -/
structure JplEphCoeffInfo where
  offset : Nat
  coeffCount : Nat
  granuleCount : Nat
deriving DecidableEq, Repr, Inhabited

def JplEph_LabelSize : Nat := 84
def JplEph_ConstantCount : Nat := 400
def JplEph_ConstantNameLength : Nat := 6
def JplEph_ObjectCount : Nat := 12
def DE406_RecordSize : Nat := 728

/-- The header loop of `load` over the object slots: three `quint32` per slot,
a status check, and the offset made zero-based (`offset--` on a `quint32`). -/
def readCoeffInfo : Nat → Decoder (List JplEphCoeffInfo)
  | 0 => pure []
  | n + 1 => do
    let offset ← readUInt32
    let coeffCount ← readUInt32
    let granuleCount ← readUInt32
    checkStatus
    let rest ← readCoeffInfo n
    pure ({ offset := (offset + 2 ^ 32 - 1) % 2 ^ 32, coeffCount := coeffCount,
            granuleCount := granuleCount } :: rest)

/-- Append `xs` to the vector `objectCoeffs[objectIndex]`. -/
def pushBack (objectCoeffs : List (List ℚ)) (objectIndex : Nat) (xs : List ℚ) : List (List ℚ) :=
  match objectCoeffs, objectIndex with
  | [], _ => []
  | v :: vs, 0 => (v ++ xs) :: vs
  | v :: vs, i + 1 => v :: pushBack vs i xs

/-- The innermost loop of `load`: `coeffCount` times read `x`, `y`, `z` and
push them onto `objectCoeffs[objectIndex]`. -/
def readTriples : Nat → Nat → List (List ℚ) → Decoder (List (List ℚ))
  | 0, _, objectCoeffs => pure objectCoeffs
  | j + 1, objectIndex, objectCoeffs => do
    let x ← readDouble
    let y ← readDouble
    let z ← readDouble
    readTriples j objectIndex (pushBack objectCoeffs objectIndex [x, y, z])

/-- The loop of `load` over the object slots of one record; `coeffInfo` is
the part of the table from `objectIndex` on. -/
def readObjects : List JplEphCoeffInfo → Nat → List (List ℚ) → Decoder (List (List ℚ))
  | [], _, objectCoeffs => pure objectCoeffs
  | info :: rest, objectIndex, objectCoeffs => do
    let coeffCount := info.coeffCount * info.granuleCount % 2 ^ 32
    let objectCoeffs ← readTriples coeffCount objectIndex objectCoeffs
    readObjects rest (objectIndex + 1) objectCoeffs

/-- The record loop of `load`: a (startTime, endTime) pair, the slots, and the
status check that ends each record. -/
def readRecords : Nat → List JplEphCoeffInfo → List (List ℚ) → Decoder (List (List ℚ))
  | 0, _, objectCoeffs => pure objectCoeffs
  | i + 1, coeffInfo, objectCoeffs => do
    let _startTime ← readDouble
    let _endTime ← readDouble
    let objectCoeffs ← readObjects coeffInfo 0 objectCoeffs
    checkStatus
    readRecords i coeffInfo objectCoeffs

/-- The trajectory `load` constructs for slot `objectIndex`. -/
def makeTrajectory (coeffInfo : List JplEphCoeffInfo) (objectCoeffs : List (List ℚ))
    (recordCount : Nat) (startSec secsPerRecord : ℚ) (objectIndex : Nat) :
    ChebyshevPolyTrajectory :=
  let info := coeffInfo.getD objectIndex default
  { coeffs := objectCoeffs.getD objectIndex []
    degree := (info.coeffCount + 2 ^ 32 - 1) % 2 ^ 32
    granuleCount := info.granuleCount * recordCount % 2 ^ 32
    startTime := startSec
    granuleLength := secsPerRecord / info.granuleCount }

/-- The last loop of `load`: a trajectory for each `objectIndex` below
`JplEph_ObjectCount - 1`. -/
def buildEphemeris (coeffInfo : List JplEphCoeffInfo) (objectCoeffs : List (List ℚ))
    (recordCount : Nat) (startSec secsPerRecord : ℚ) : JPLEphemeris :=
  (List.range (JplEph_ObjectCount - 1)).foldl
    (fun eph objectIndex =>
      eph.setTrajectory objectIndex
        (makeTrajectory coeffInfo objectCoeffs recordCount startSec secsPerRecord objectIndex))
    JPLEphemeris.new

/-- The body of `JPLEphemeris::load` once the file is open, as code over the
stream. -/
def loadStream (platform : Platform) : Decoder JPLEphemeris := do
  skipRawData (JplEph_LabelSize * 3)
  checkStatus
  skipRawData (JplEph_ConstantCount * JplEph_ConstantNameLength)
  checkStatus
  let startJd ← readDouble
  let endJd ← readDouble
  let daysPerRecord ← readDouble
  checkStatus
  skipRawData 4
  let _kmPerAu ← readDouble
  let _earthMoonMassRatio ← readDouble
  let coeffInfo ← readCoeffInfo JplEph_ObjectCount
  let ephemNumber ← readInt32
  if ephemNumber ≠ 406 then returnNull else do
  skipRawData (4 * 3)
  checkStatus
  skipRawData (DE406_RecordSize * 8 - 2856)
  skipRawData (DE406_RecordSize * 8)
  checkStatus
  let recordCount := castToUInt platform (doubleDiv (doubleSub endJd startJd) daysPerRecord)
  let objectCoeffs ← readRecords recordCount coeffInfo (List.replicate JplEph_ObjectCount [])
  let startSec := daysToSeconds (startJd - J2000)
  let secsPerRecord := daysToSeconds daysPerRecord
  pure (buildEphemeris coeffInfo objectCoeffs recordCount startSec secsPerRecord)

/-- The function `JPLEphemeris::load` on the contents of a file that could be
opened: `none` is the `NULL` result. -/
def load (platform : Platform) (contents : List Byte) : Option JPLEphemeris :=
  (loadStream platform { device := contents, pos := 0, ok := true }).map Prod.fst

/-! ## The DE406 layout, by byte offsets -/

/-- The `double` stored at byte offset `pos` of a file. -/
def doubleAt (contents : List Byte) (pos : Nat) : ℚ :=
  doubleOfBits (fromBigEndian ((contents.drop pos).take 8))

/-- The `quint32` stored at byte offset `pos` of a file. -/
def uint32At (contents : List Byte) (pos : Nat) : Nat :=
  fromBigEndian ((contents.drop pos).take 4)

/-- The (offset, coeffCount, granuleCount) triple stored at byte offset `pos`,
the offset made zero-based. -/
def coeffInfoAt (contents : List Byte) (pos : Nat) : JplEphCoeffInfo :=
  { offset := (uint32At contents pos + 2 ^ 32 - 1) % 2 ^ 32
    coeffCount := uint32At contents (pos + 4)
    granuleCount := uint32At contents (pos + 8) }

/-- Header field: start Julian day (after three labels of 84 bytes and 400
constant names of 6 bytes). -/
def headerStartJd (contents : List Byte) : ℚ := doubleAt contents 2652

/-- Header field: end Julian day. -/
def headerEndJd (contents : List Byte) : ℚ := doubleAt contents 2660

/-- Header field: days per record. -/
def headerDaysPerRecord (contents : List Byte) : ℚ := doubleAt contents 2668

/-- Header field: the triple of object slot `k`; the table starts at offset
2696, after the constant count and the two scale doubles. -/
def headerCoeffInfo (contents : List Byte) (k : Nat) : JplEphCoeffInfo :=
  coeffInfoAt contents (2696 + 12 * k)

/-- Header field: the ephemeris number, a signed 32-bit integer right after
the 12 slot triples. -/
def headerEphemNumber (contents : List Byte) : Int :=
  let u := uint32At contents 2840
  if u < 2 ^ 31 then (u : Int) else (u : Int) - 2 ^ 32

/-- The table of the 12 slot triples. -/
def headerCoeffTable (contents : List Byte) : List JplEphCoeffInfo :=
  (List.range 12).map (headerCoeffInfo contents)

/-- The quotient `(endJd - startJd) / daysPerRecord` of the header fields, as
`load` computes it in double arithmetic. -/
def headerQuotient (contents : List Byte) : ℚ :=
  doubleDiv (doubleSub (headerEndJd contents) (headerStartJd contents))
    (headerDaysPerRecord contents)

/-- The number of records `load` computes from the header. -/
def headerRecordCount (platform : Platform) (contents : List Byte) : Nat :=
  castToUInt platform (headerQuotient contents)

/-- The number of (x, y, z) triples `load` reads for a slot in each record:
the `unsigned int` product `coeffCount * granuleCount`. -/
def tripleCount (info : JplEphCoeffInfo) : Nat :=
  info.coeffCount * info.granuleCount % 2 ^ 32

/-- The number of bytes of one record: the (startTime, endTime) pair and the
triples of the 12 slots. -/
def recordSize (contents : List Byte) : Nat :=
  16 + 24 * ((headerCoeffTable contents).map tripleCount).sum

/-- The byte offset of record `i`: the records follow the two header blocks
of `DE406_RecordSize * 8` bytes. -/
def recordStart (contents : List Byte) (i : Nat) : Nat :=
  11648 + i * recordSize contents

/-- The byte offset of the triples of slot `k` inside record `i`: after the
time pair and the triples of the slots before `k`. -/
def slotStart (contents : List Byte) (i k : Nat) : Nat :=
  recordStart contents i + 16 + 24 * (((headerCoeffTable contents).take k).map tripleCount).sum

/-- The coefficients of slot `k` in record `i`, in file order. -/
def recordCoeffs (contents : List Byte) (i k : Nat) : List ℚ :=
  (List.range (3 * tripleCount (headerCoeffInfo contents k))).map
    (fun t => doubleAt contents (slotStart contents i k + 8 * t))

/-- The coefficient lists of the slots `infos` of one record whose slot data
start at byte offset `pos`. -/
def slotData (contents : List Byte) : List JplEphCoeffInfo → Nat → List (List ℚ)
  | [], _ => []
  | info :: rest, pos =>
    (List.range (3 * tripleCount info)).map (fun t => doubleAt contents (pos + 8 * t)) ::
      slotData contents rest (pos + 24 * tripleCount info)

/-- The coefficient lists of the slots `infos` over `n` consecutive records,
the first starting at byte offset `pos`. -/
def recordsData (contents : List Byte) (infos : List JplEphCoeffInfo) : Nat → Nat → List (List ℚ)
  | 0, _ => List.replicate infos.length []
  | n + 1, pos =>
    List.zipWith (fun a b => a ++ b) (slotData contents infos (pos + 16))
      (recordsData contents infos n (pos + (16 + 24 * (infos.map tripleCount).sum)))

/-- The number of bytes `load` consumes from a file with this header that is
long enough. -/
def requiredSize (platform : Platform) (contents : List Byte) : Nat :=
  11648 + headerRecordCount platform contents * recordSize contents

/-- A well-formed ephemeris byte stream, by the layout that `load` reads: the
ephemeris number is 406 and the stream holds the two header blocks and the
records that the header announces, and nothing more. -/
def WellFormed (platform : Platform) (contents : List Byte) : Prop :=
  headerEphemNumber contents = 406 ∧ contents.length = requiredSize platform contents

/-! ## A small file in the DE406 layout -/

/-- The header fields of the sample file, from the start day on: start day
2451545.0, end day 2451609.0, 32 days per record, the constant count and the
two scale doubles (zero), the table of the 12 slots (slots 0..10 have two
coefficients in one granule, slot 11 has none) and the ephemeris number. -/
def sampleFields (number : List Byte) : List Byte :=
  [0x41, 0x42, 0xB4, 0x2C, 0x80, 0, 0, 0,
   0x41, 0x42, 0xB4, 0x4C, 0x80, 0, 0, 0,
   0x40, 0x40, 0, 0, 0, 0, 0, 0]
    ++ List.replicate 20 0
    ++ (List.replicate 11 [0, 0, 0, 1, 0, 0, 0, 2, 0, 0, 0, 1]).flatten
    ++ [0, 0, 0, 1, 0, 0, 0, 0, 0, 0, 0, 0]
    ++ number

/-- A record of the sample file: a time pair and, for each of the slots 0..10,
the six doubles whose second bytes are `bs` (the first byte is 0x40). -/
def sampleRecord (bs : List Byte) : List Byte :=
  List.replicate 16 0
    ++ (List.replicate 11 (bs.map (fun b => [0x40, b, 0, 0, 0, 0, 0, 0])).flatten).flatten

/-- The two records of the sample file, with the coefficients 2..7 and 8..13
for every slot. -/
def sampleRecords : List Byte :=
  sampleRecord [0x00, 0x08, 0x10, 0x14, 0x18, 0x1C]
    ++ sampleRecord [0x20, 0x22, 0x24, 0x26, 0x28, 0x2A]

/-- The sample file with the given ephemeris-number bytes: labels and constant
names (zero), the header fields, the rest of the two header blocks (zero) and
the records. -/
def sampleFileWith (number : List Byte) : List Byte :=
  List.replicate 2652 0 ++ (sampleFields number ++ (List.replicate 8804 0 ++ sampleRecords))

/-- The sample file, with ephemeris number 406. -/
def sampleFile : List Byte := sampleFileWith [0, 0, 1, 0x96]

/-- The sample file with ephemeris number 405 in place of 406. -/
def sampleFile405 : List Byte := sampleFileWith [0, 0, 1, 0x95]

/-- The ephemeris decoded from the sample file, which has two records. -/
def sampleEphemeris : JPLEphemeris :=
  buildEphemeris (headerCoeffTable sampleFile)
    (List.zipWith (fun a b => a ++ b) (List.replicate JplEph_ObjectCount [])
      (recordsData sampleFile (headerCoeffTable sampleFile) 2 11648))
    2 (daysToSeconds (headerStartJd sampleFile - J2000))
    (daysToSeconds (headerDaysPerRecord sampleFile))

/-- A platform on which the conversions that C++ leaves undefined give 0. -/
def samplePlatform : Platform := { undefinedCast := fun _ => 0 }

/-- The header fields of a file without records: the start day and the end
day are both 2451545.0, with 32 days per record; the slots and the ephemeris
number are those of the sample file. -/
def zeroRecordFields : List Byte :=
  [0x41, 0x42, 0xB4, 0x2C, 0x80, 0, 0, 0,
   0x41, 0x42, 0xB4, 0x2C, 0x80, 0, 0, 0,
   0x40, 0x40, 0, 0, 0, 0, 0, 0]
    ++ List.replicate 20 0
    ++ (List.replicate 11 [0, 0, 0, 1, 0, 0, 0, 2, 0, 0, 0, 1]).flatten
    ++ [0, 0, 0, 1, 0, 0, 0, 0, 0, 0, 0, 0]
    ++ [0, 0, 1, 0x96]

/-- A file without records: labels and constant names, the header fields and
the rest of the two header blocks, 11648 bytes in all. -/
def zeroRecordFile : List Byte :=
  List.replicate 2652 0 ++ (zeroRecordFields ++ List.replicate 8804 0)

/-- The header fields of a file that starts at day 2451545.0, ends at day
2451546.0 and has records of 0.1 days (the double nearest to 0.1, which is
a little above 0.1); the slots and the ephemeris number are those of the sample
file. -/
def tenthDayFields : List Byte :=
  [0x41, 0x42, 0xB4, 0x2C, 0x80, 0, 0, 0,
   0x41, 0x42, 0xB4, 0x2D, 0x00, 0, 0, 0,
   0x3F, 0xB9, 0x99, 0x99, 0x99, 0x99, 0x99, 0x9A]
    ++ List.replicate 20 0
    ++ (List.replicate 11 [0, 0, 0, 1, 0, 0, 0, 2, 0, 0, 0, 1]).flatten
    ++ [0, 0, 0, 1, 0, 0, 0, 0, 0, 0, 0, 0]
    ++ [0, 0, 1, 0x96]

/-- A file with the tenth-day header and ten records of 544 bytes, all zero:
17088 bytes in all. -/
def tenthDayFile : List Byte :=
  List.replicate 2652 0 ++ (tenthDayFields ++ List.replicate 14244 0)

end Cosmographia

namespace Cosmographia

/-! ## Catalog documents -/

/-- A `QVariant` of one of the types that the loader meets: invalid (absent
or null), a boolean, an integer of one of the four integer types (`Int`,
`UInt`, `LongLong`, `ULongLong`), a double, a string, a list or a map. -/
inductive QVariant where
  | invalid
  | bool (b : Bool)
  | int (i : Int)
  | uint (u : Nat)
  | longlong (i : Int)
  | ulonglong (u : Nat)
  | double (d : ℚ)
  | string (s : String)
  | list (l : List QVariant)
  | map (m : List (String × QVariant))

/-- A `QVariantMap`: the entries of a map by key. -/
abbrev QVariantMap := List (String × QVariant)

/-- The method `QVariantMap::value(key)`: the invalid variant when the key is
absent. -/
def QVariantMap.value (m : QVariantMap) (key : String) : QVariant :=
  match m.lookup key with
  | some v => v
  | none => QVariant.invalid

/-- The method `QVariantMap::value(key, defaultValue)`. -/
def QVariantMap.valueD (m : QVariantMap) (key : String) (defaultValue : QVariant) : QVariant :=
  match m.lookup key with
  | some v => v
  | none => defaultValue

/-- The method `QVariantMap::contains(key)`. -/
def QVariantMap.contains (m : QVariantMap) (key : String) : Bool :=
  (m.lookup key).isSome

/-- The method `QVariant::isValid()`. -/
def QVariant.isValid : QVariant → Bool
  | QVariant.invalid => false
  | _ => true

/-- The test `v.type() == QVariant::String`. -/
def QVariant.isString : QVariant → Bool
  | QVariant.string _ => true
  | _ => false

/-- The test `v.type() == QVariant::Map`. -/
def QVariant.isMap : QVariant → Bool
  | QVariant.map _ => true
  | _ => false

/-- The test `v.type() == QVariant::List`. -/
def QVariant.isList : QVariant → Bool
  | QVariant.list _ => true
  | _ => false

/-- The method `QVariant::toMap()`. -/
def QVariant.toMap : QVariant → QVariantMap
  | QVariant.map m => m
  | _ => []

/-- The method `QVariant::toList()`. -/
def QVariant.toList : QVariant → List QVariant
  | QVariant.list l => l
  | _ => []

/-- The method `QVariant::toBool()`: a string is true unless it is empty, "0"
or "false" after lowering. -/
def QVariant.toBool : QVariant → Bool
  | QVariant.bool b => b
  | QVariant.int i => i != 0
  | QVariant.uint u => u != 0
  | QVariant.longlong i => i != 0
  | QVariant.ulonglong u => u != 0
  | QVariant.double d => d != 0
  | QVariant.string s => !(s.toLower == "0" || s.toLower == "false" || s.isEmpty)
  | _ => false

/-! ## Engine objects -/

/-- An object of the rendering engine that one of the builders of the loader
produces (a geometry, a trajectory, a rotation model, a constructed frame, a
visualizer, a viewpoint, a `BodyInfo`).  The item loop only stores such
objects and passes them on, so an object is represented by a tag that tells
it from the others. -/
structure EngineObject where
  tag : Nat
deriving DecidableEq, Repr

abbrev Geometry := EngineObject
abbrev Trajectory := EngineObject
abbrev RotationModel := EngineObject
abbrev Visualizer := EngineObject
abbrev Viewpoint := EngineObject
abbrev BodyInfo := EngineObject

/-- A frame of an arc: one of the four named inertial frames or a frame built
by `loadFrame`. -/
inductive Frame where
  | eclipticJ2000
  | equatorJ2000
  | equatorB1950
  | icrf
  | constructed (frame : EngineObject)
deriving DecidableEq, Repr

/-- Modelled from the spec: the class `vesta::Arc` (the vesta sources are not
at hand), with the attributes the spec lists.  The center is a pointer to an
entity (the address of a body, or null); a component that `loadArc` does not
set keeps the value the constructor gave it (`none`). -/
structure Arc where
  center : Option Nat
  trajectory : Option Trajectory
  rotationModel : Option RotationModel
  trajectoryFrame : Option Frame
  bodyFrame : Option Frame
  duration : ℚ
deriving DecidableEq, Repr

/-- Modelled from the spec: the constructor `vesta::Arc()`. -/
def Arc.new : Arc :=
  { center := none, trajectory := none, rotationModel := none, trajectoryFrame := none,
    bodyFrame := none, duration := 0 }

/-- Modelled from the spec: the class `vesta::Body` (the vesta sources are not
at hand) with its chronology (beginning and arcs), its geometry, its
visibility flag and its visualizers by tag. -/
structure Body where
  name : String
  lightSource : Option EngineObject
  geometry : Option Geometry
  visible : Bool
  beginning : ℚ
  arcs : List Arc
  visualizers : List (String × Visualizer)
deriving DecidableEq, Repr

/-- Modelled from the spec: the constructor `vesta::Body()`. -/
def Body.new : Body :=
  { name := "", lightSource := none, geometry := none, visible := true, beginning := 0,
    arcs := [], visualizers := [] }

/-- Modelled from the spec: the method `Entity::setVisualizer(tag, visualizer)`,
visualizers being keyed by tag. -/
def Body.setVisualizer (body : Body) (tag : String) (visualizer : Visualizer) : Body :=
  { body with visualizers := (tag, visualizer) :: body.visualizers.filter (fun p => p.1 != tag) }

/-! ## The entity registry -/

/-- Modelled from the spec: the class `UniverseCatalog` (UniverseCatalog.h and
UniverseCatalog.cpp are not part of the sources at hand).  The registry maps a
name to an entity (the address of a body), separately a name to a viewpoint,
and keeps the per-body metadata by name. -/
structure UniverseCatalog where
  m_bodies : List (String × Nat)
  m_info : List (String × BodyInfo)
  m_viewpoints : List (String × Viewpoint)
deriving DecidableEq, Repr

/-- Modelled from the spec: `UniverseCatalog::find(name)`, lookup by name; null
when the name is not registered. -/
def UniverseCatalog.find (catalog : UniverseCatalog) (name : String) : Option Nat :=
  catalog.m_bodies.lookup name

/-- Modelled from the spec: `UniverseCatalog::addBody(name, body)`, addition
(of a name that `find` did not find, in the loader). -/
def UniverseCatalog.addBody (catalog : UniverseCatalog) (name : String) (body : Nat) :
    UniverseCatalog :=
  { catalog with m_bodies := (name, body) :: catalog.m_bodies.filter (fun p => p.1 != name) }

/-- Modelled from the spec: `UniverseCatalog::removeBody(name)`, removal of the
entry of a name. -/
def UniverseCatalog.removeBody (catalog : UniverseCatalog) (name : String) : UniverseCatalog :=
  { catalog with m_bodies := catalog.m_bodies.filter (fun p => p.1 != name) }

/-- Modelled from the spec: `UniverseCatalog::setBodyInfo(name, info)`. -/
def UniverseCatalog.setBodyInfo (catalog : UniverseCatalog) (name : String) (info : BodyInfo) :
    UniverseCatalog :=
  { catalog with m_info := (name, info) :: catalog.m_info.filter (fun p => p.1 != name) }

/-- Modelled from the spec: the metadata kept for a name. -/
def UniverseCatalog.findInfo (catalog : UniverseCatalog) (name : String) : Option BodyInfo :=
  catalog.m_info.lookup name

/-- Modelled from the spec: `UniverseCatalog::addViewpoint(name, viewpoint)`. -/
def UniverseCatalog.addViewpoint (catalog : UniverseCatalog) (name : String)
    (viewpoint : Viewpoint) : UniverseCatalog :=
  { catalog with
    m_viewpoints := (name, viewpoint) :: catalog.m_viewpoints.filter (fun p => p.1 != name) }

/-- The registry together with the body objects it points to: `bodies` holds
the `vesta::Body` objects created so far, the address of an object being its
index; an object that has been destroyed leaves `none` at its address.  The
loader registers bodies only (`addBody` is called at one place, with a new
`vesta::Body`), so the `dynamic_cast<Body*>` of a registered entity
succeeds. -/
structure Universe where
  catalog : UniverseCatalog
  bodies : List (Option Body)
deriving DecidableEq, Repr

/-- The universe before anything is loaded. -/
def Universe.empty : Universe :=
  { catalog := { m_bodies := [], m_info := [], m_viewpoints := [] }, bodies := [] }

/-- The body object at an address. -/
def Universe.body (world : Universe) (address : Nat) : Option Body :=
  (world.bodies.get? address).join

/-- The body registered under a name. -/
def Universe.findBody (world : Universe) (name : String) : Option Body :=
  match world.catalog.find name with
  | some address => world.body address
  | none => none

/-- Change the body object at an address. -/
def Universe.modifyBody (world : Universe) (address : Nat) (f : Body → Body) : Universe :=
  { world with
    bodies := match world.body address with
      | some body => world.bodies.set address (some (f body))
      | none => world.bodies }

/-- Destroy the body object at an address. -/
def Universe.deleteBody (world : Universe) (address : Nat) : Universe :=
  { world with bodies := world.bodies.set address none }

/-! ## The loader -/

/-- The members of `UniverseLoader` that the item loop and the file loads
read and write: the name of the current item, the message log, the search
paths, the flag for textures in the model directory, and the set of the
canonical paths of the catalog files marked as loaded. -/
structure UniverseLoader where
  m_currentBodyName : String
  m_messageLog : String
  m_dataSearchPath : String := ""
  m_textureSearchPath : String := ""
  m_modelSearchPath : String := ""
  m_texturesInModelDirectory : Bool := true
  m_loadedCatalogFiles : List String := []
deriving DecidableEq, Repr

/-- The method `UniverseLoader::errorMessage`. -/
def UniverseLoader.errorMessage (loader : UniverseLoader) (message : String) : UniverseLoader :=
  let prefixed :=
    if !loader.m_currentBodyName.isEmpty then
      loader.m_messageLog ++ ("Item '" ++ loader.m_currentBodyName ++ "': ")
    else
      loader.m_messageLog
  { loader with m_messageLog := prefixed ++ message ++ "\n" }

/-- The messages a builder passes to `errorMessage` or `warningMessage`
(the two append the same text), in order. -/
def UniverseLoader.logMessages (loader : UniverseLoader) (messages : List String) :
    UniverseLoader :=
  messages.foldl UniverseLoader.errorMessage loader

/-- The parts of the loader that are taken as given: the conversions of Qt and
vesta that the item loop relies on, and the builders of the objects that hang
off a body.  A builder reads the map, the universe and the loader; it yields
its object (or null) and the messages it logs, and changes neither the
registry nor a body. -/
structure Builders where
  /-- The seconds since the epoch of an ISO-8601 date string
  (`QDateTime::fromString(s, Qt::ISODate)` then `GregorianDate::toTDBSec`),
  or nothing when the string is not a valid date. -/
  isoDateToSeconds : String → Option ℚ
  /-- The text of a double (`QVariant::toString`). -/
  doubleToString : ℚ → String
  loadGeometry : QVariantMap → Universe → UniverseLoader → Option Geometry × List String
  loadTrajectory : QVariantMap → Universe → UniverseLoader → Option Trajectory × List String
  loadRotationModel : QVariantMap → Universe → UniverseLoader →
    Option RotationModel × List String
  loadFrame : QVariantMap → Universe → UniverseLoader → Option EngineObject × List String
  loadVisualizer : QVariantMap → Universe → UniverseLoader → Option Visualizer × List String
  loadViewpoint : QVariantMap → Universe → UniverseLoader →
    Option (String × Viewpoint) × List String
  loadBodyInfo : QVariantMap → BodyInfo

/-- The method `QVariant::toString()`: the text of a string, a number or a
boolean, empty for every other variant. -/
def QVariant.toString (builders : Builders) : QVariant → String
  | QVariant.string s => s
  | QVariant.bool b => if b then "true" else "false"
  | QVariant.int i => ToString.toString i
  | QVariant.uint u => ToString.toString u
  | QVariant.longlong i => ToString.toString i
  | QVariant.ulonglong u => ToString.toString u
  | QVariant.double d => builders.doubleToString d
  | _ => ""

/-- The constant `DefaultStartTime`. -/
def DefaultStartTime : ℚ := daysToSeconds (-36525 * 2)

/-- The constant `DefaultEndTime`. -/
def DefaultEndTime : ℚ := daysToSeconds 36525

/-- The function `dateValue`: the seconds and the `ok` flag.  The number
branch is taken for the types `Double` and `Int` only; an integer of another
type goes to the last branch. -/
def dateValue (builders : Builders) (v : QVariant) : ℚ × Bool :=
  match v with
  | QVariant.string dateString =>
    match builders.isoDateToSeconds dateString with
    | some tsec => (tsec, true)
    | none => (0, false)
  | QVariant.double jd => (daysToSeconds (jd - J2000), true)
  | QVariant.int jd => (daysToSeconds ((jd : ℚ) - J2000), true)
  | _ => (0, false)

/-- The method `UniverseLoader::loadInertialFrame`. -/
def loadInertialFrame (name : String) (loader : UniverseLoader) : Option Frame × UniverseLoader :=
  if name == "EclipticJ2000" then (some Frame.eclipticJ2000, loader)
  else if name == "EquatorJ2000" then (some Frame.equatorJ2000, loader)
  else if name == "EquatorB1950" then (some Frame.equatorB1950, loader)
  else if name == "ICRF" then (some Frame.icrf, loader)
  else (none, loader.errorMessage ("Unknown inertial frame: '" ++ name ++ "'"))

/-- The frame part of `loadArc`, for `trajectoryFrame` and for `bodyFrame`: a
string names an inertial frame, a map is handed to `loadFrame`; the result is
the frame to set, if any. -/
def loadArcFrame (builders : Builders) (frameData : QVariant) (world : Universe)
    (loader : UniverseLoader) : Option Frame × UniverseLoader :=
  match frameData with
  | QVariant.string name => loadInertialFrame name loader
  | QVariant.map m =>
    let r := builders.loadFrame m world loader
    (r.1.map Frame.constructed, loader.logMessages r.2)
  | _ => (none, loader)

/-- The part of `loadArc` between the center and the end time: the
trajectory, the rotation model, the trajectory frame and the body frame are
built and set on the arc, each only if its builder returns an object; what
the builders log is appended to the log. -/
def loadArcComponents (builders : Builders) (map : QVariantMap) (world : Universe) (arc : Arc)
    (loader : UniverseLoader) : Arc × UniverseLoader :=
  let trajectoryData := map.value "trajectory"
  let rotationModelData := map.value "rotationModel"
  let trajectoryFrameData := map.value "trajectoryFrame"
  let bodyFrameData := map.value "bodyFrame"
  let (arc, loader) :=
    match trajectoryData with
    | QVariant.map m =>
      let r := builders.loadTrajectory m world loader
      (match r.1 with
        | some trajectory => { arc with trajectory := some trajectory }
        | none => arc, loader.logMessages r.2)
    | _ => (arc, loader)
  let (arc, loader) :=
    match rotationModelData with
    | QVariant.map m =>
      let r := builders.loadRotationModel m world loader
      (match r.1 with
        | some rotationModel => { arc with rotationModel := some rotationModel }
        | none => arc, loader.logMessages r.2)
    | _ => (arc, loader)
  let (arc, loader) :=
    let r := loadArcFrame builders trajectoryFrameData world loader
    (match r.1 with
      | some frame => { arc with trajectoryFrame := some frame }
      | none => arc, r.2)
  let r := loadArcFrame builders bodyFrameData world loader
  (match r.1 with
    | some frame => { arc with bodyFrame := some frame }
    | none => arc, r.2)

/-- The method `UniverseLoader::loadArc`. -/
def loadArc (builders : Builders) (map : QVariantMap) (world : Universe) (startTime : ℚ)
    (loader : UniverseLoader) : Option Arc × UniverseLoader :=
  match map.value "center" with
  | QVariant.string centerName =>
    let arc := { Arc.new with center := world.catalog.find centerName }
    let built := loadArcComponents builders map world arc loader
    let endTimeVar := map.value "endTime"
    let endTime :=
      if endTimeVar.isValid then dateValue builders endTimeVar else (DefaultEndTime, true)
    if !endTime.2 then
      (none, built.2.errorMessage "Invalid endTime specified.")
    else if endTime.1 ≤ startTime then
      (none, built.2.errorMessage "End time must be after the start time")
    else
      (some { built.1 with duration := endTime.1 - startTime }, built.2)
  | _ => (none, loader.errorMessage "Missing center for object.")

/-- The loop of `UniverseLoader::loadChronology`: `arcs` and `nextStartTime`
are the local variables; an element that is not a map or an arc that fails
clears the list and leaves the loop. -/
def loadChronologyLoop (builders : Builders) (world : Universe) :
    List QVariant → List Arc → ℚ → UniverseLoader → List Arc × UniverseLoader
  | [], arcs, _, loader => (arcs, loader)
  | v :: rest, arcs, nextStartTime, loader =>
    match v with
    | QVariant.map map =>
      match loadArc builders map world nextStartTime loader with
      | (some arc, loader) =>
        loadChronologyLoop builders world rest (arcs ++ [arc]) (nextStartTime + arc.duration)
          loader
      | (none, loader) => ([], loader)
    | _ => ([], loader.errorMessage "Invalid arc in arcs list.")

/-- The method `UniverseLoader::loadChronology`. -/
def loadChronology (builders : Builders) (list : List QVariant) (world : Universe)
    (startTime : ℚ) (loader : UniverseLoader) : List Arc × UniverseLoader :=
  loadChronologyLoop builders world list [] startTime loader

/-- The state the item loop works on: the loader, the universe and the list
`bodyNames` that `loadCatalogItems` returns. -/
structure LoadState where
  loader : UniverseLoader
  world : Universe
  bodyNames : List String
deriving DecidableEq, Repr

/-- The local variables of the body branch of `loadCatalogItems` once the
properties of the item have been read: the values that are assigned to the
body if it can be loaded, the flag `valid`, and the loader. -/
structure BodyBuild where
  geometry : Option Geometry
  startTime : ℚ
  arcs : List Arc
  valid : Bool
  loader : UniverseLoader
deriving DecidableEq, Repr

/-- The geometry part of the body branch: the geometry, whether the field
is acceptable (absent or a map), and the loader. -/
def loadItemGeometry (builders : Builders) (item : QVariantMap) (world : Universe)
    (loader : UniverseLoader) : Option Geometry × Bool × UniverseLoader :=
  if item.contains "geometry" then
    match item.value "geometry" with
    | QVariant.map m =>
      let r := builders.loadGeometry m world loader
      (r.1, true, loader.logMessages r.2)
    | _ => (none, false, loader.errorMessage "Invalid geometry for body.")
  else (none, true, loader)

/-- The start time part of the body branch: the start time, whether the
field is acceptable (absent or a valid date), and the loader. -/
def loadItemStartTime (builders : Builders) (item : QVariantMap) (loader : UniverseLoader) :
    ℚ × Bool × UniverseLoader :=
  let startTimeVar := item.value "startTime"
  if startTimeVar.isValid then
    let r := dateValue builders startTimeVar
    if !r.2 then (r.1, false, loader.errorMessage "Invalid startTime specified")
    else (r.1, true, loader)
  else (DefaultStartTime, true, loader)

/-- The arcs part of the body branch: the chronology of the `arcs` list, or
else the single arc read from the item itself. -/
def loadItemArcs (builders : Builders) (item : QVariantMap) (world : Universe) (startTime : ℚ)
    (loader : UniverseLoader) : List Arc × UniverseLoader :=
  let arcsVar := item.value "arcs"
  if arcsVar.isValid then
    match arcsVar with
    | QVariant.list l => loadChronology builders l world startTime loader
    | _ => ([], loader.errorMessage "Arcs must be an array")
  else
    match loadArc builders item world startTime loader with
    | (some arc, loader) => ([arc], loader)
    | (none, loader) => ([], loader)

/-- The part of the body branch of `loadCatalogItems` that reads the item:
the geometry, the start time and the arcs, in this order; `valid` is cleared
by an unacceptable geometry or start time field and when no arc is built. -/
def buildBody (builders : Builders) (item : QVariantMap) (world : Universe)
    (loader : UniverseLoader) : BodyBuild :=
  let g := loadItemGeometry builders item world loader
  let t := loadItemStartTime builders item g.2.2
  let a := loadItemArcs builders item world t.1 t.2.2
  { geometry := g.1, startTime := t.1, arcs := a.1,
    valid := if a.1.isEmpty then false else (g.2.1 && t.2.1),
    loader := a.2 }

/-- The body branch of the item loop of `loadCatalogItems` (an item whose
`type` is "body" or empty): the body is looked up or created and registered,
the item is read (`buildBody`), and then either the body takes the new
values and its name is added to `bodyNames`, or the error is logged and a
body that was created here is taken out of the registry again.  The registry
held the only reference to such a body that outlives the item, so the object
is destroyed. -/
def loadBodyItem (builders : Builders) (item : QVariantMap) (s : LoadState) : LoadState :=
  let bodyName := (item.value "name").toString builders
  let loader := { s.loader with m_currentBodyName := bodyName }
  let found := s.world.catalog.find bodyName
  let newBody := found.isNone
  let body := found.getD s.world.bodies.length
  let world : Universe :=
    match found with
    | some _ => s.world
    | none =>
      { catalog := s.world.catalog.addBody bodyName s.world.bodies.length
        bodies := s.world.bodies ++ [some { Body.new with name := bodyName }] }
  let build := buildBody builders item world loader
  if build.valid then
    let info := builders.loadBodyInfo item
    let catalog := world.catalog.setBodyInfo bodyName info
    let visible := (item.valueD "visible" (QVariant.bool true)).toBool
    let world : Universe := { world with catalog := catalog }
    let world := world.modifyBody body (fun b =>
      { b with lightSource := none, geometry := build.geometry, visible := visible,
               beginning := build.startTime, arcs := build.arcs })
    { loader := build.loader, world := world, bodyNames := s.bodyNames ++ [bodyName] }
  else
    let loader :=
      build.loader.errorMessage ("Skipping body '" ++ bodyName ++ "' because of errors.")
    let world : Universe :=
      if newBody then
        Universe.deleteBody { world with catalog := world.catalog.removeBody bodyName } body
      else world
    { loader := loader, world := world, bodyNames := s.bodyNames }

/-- The visualizer branch of the item loop of `loadCatalogItems`. -/
def loadVisualizerItem (builders : Builders) (item : QVariantMap) (s : LoadState) : LoadState :=
  match item.value "tag", item.value "body" with
  | QVariant.string tag, QVariant.string bodyName =>
    match s.world.catalog.find bodyName with
    | none =>
      let message := "Can't find body '" ++ bodyName ++ "' for visualizer."
      { s with loader := s.loader.errorMessage message }
    | some body =>
      let r := builders.loadVisualizer item s.world s.loader
      let loader := s.loader.logMessages r.2
      match r.1 with
      | some visualizer =>
        { s with loader := loader
                 world := s.world.modifyBody body (fun b => b.setVisualizer tag visualizer) }
      | none => { s with loader := loader }
  | QVariant.string _, _ =>
    { s with loader := s.loader.errorMessage "Bad or missing body name for visualizer" }
  | _, _ => { s with loader := s.loader.errorMessage "Bad or missing tag for visualizer" }

/-- The viewpoint branch of the item loop of `loadCatalogItems`. -/
def loadViewpointItem (builders : Builders) (item : QVariantMap) (s : LoadState) : LoadState :=
  let r := builders.loadViewpoint item s.world s.loader
  let loader := s.loader.logMessages r.2
  match r.1 with
  | some (name, viewpoint) =>
    { s with loader := loader
             world := { s.world with
                           catalog := s.world.catalog.addViewpoint name viewpoint } }
  | none => { s with loader := loader }

/-- One turn of the item loop of `loadCatalogItems` (the body of
`foreach (QVariant itemVar, items)`). -/
def loadItem (builders : Builders) (s : LoadState) (itemVar : QVariant) : LoadState :=
  let s := { s with loader := { s.loader with m_currentBodyName := "" } }
  match itemVar with
  | QVariant.map m =>
    let item : QVariantMap := m
    let type := (item.value "type").toString builders
    if type == "body" || type.isEmpty then loadBodyItem builders item s
    else if type == "Visualizer" then loadVisualizerItem builders item s
    else if type == "Viewpoint" then loadViewpointItem builders item s
    else s
  | _ => { s with loader := s.loader.errorMessage "Invalid item in bodies list." }

/-- The item loop of `loadCatalogItems`. -/
def loadItems (builders : Builders) (items : List QVariant) (s : LoadState) : LoadState :=
  items.foldl (loadItem builders) s

/-- The nested file loads of `loadCatalogItems`: `loadSSC(fileName, catalog,
requireDepth)` and `loadCatalogFile(fileName, catalog, requireDepth)`, each
giving the names it returns and the loader and universe it leaves. -/
structure NestedLoads where
  loadSSC : String → Nat → UniverseLoader → Universe → List String × UniverseLoader × Universe
  loadCatalogFile : String → Nat → UniverseLoader → Universe →
    List String × UniverseLoader × Universe

/-- One turn of the loop over the `require` list in `loadCatalogItems`. -/
def loadRequired (nested : NestedLoads) (requireDepth : Nat) (s : LoadState)
    (v : QVariant) : LoadState :=
  match v with
  | QVariant.string fileName =>
    let r :=
      if fileName.toLower.endsWith ".ssc" then
        nested.loadSSC fileName requireDepth s.loader s.world
      else
        nested.loadCatalogFile fileName requireDepth s.loader s.world
    { loader := r.2.1, world := r.2.2, bodyNames := s.bodyNames ++ r.1 }
  | _ => s

/-- The method `UniverseLoader::loadCatalogItems(contents, catalog,
requireDepth)`; the result holds the returned list of body names. -/
def loadCatalogItems (builders : Builders) (nested : NestedLoads) (contents : QVariantMap)
    (requireDepth : Nat) (loader : UniverseLoader) (world : Universe) : LoadState :=
  let loader := { loader with m_currentBodyName := "" }
  let s : LoadState := { loader := loader, world := world, bodyNames := [] }
  let versionVar := contents.value "version"
  if !versionVar.isValid then
    { s with loader := s.loader.errorMessage "Version missing from catalog file" }
  else if versionVar.toString builders != "1.0" then
    let message := "Unsupported catalog file version " ++ versionVar.toString builders
      ++ " (only version 1.0 allowed)"
    { s with loader := s.loader.errorMessage message }
  else
    let s :=
      if contents.contains "require" then
        match contents.value "require" with
        | QVariant.list requireList =>
          requireList.foldl (loadRequired nested requireDepth) s
        | _ =>
          let message := "Require property must be a list of filenames"
          { s with loader := s.loader.errorMessage message }
      else s
    if !contents.contains "items" then s
    else
      match contents.value "items" with
      | QVariant.list items => loadItems builders items s
      | _ => { s with loader := s.loader.errorMessage "items is not a list." }

/-! ## Items that build -/

/-- The end time of the arc `loadArc` builds from `map` at `startTime`, or
nothing when `loadArc` gives up: the center must be a string, the end time
(the default when absent) valid and after the start time. -/
def arcEndTime (builders : Builders) (map : QVariantMap) (startTime : ℚ) : Option ℚ :=
  match map.value "center" with
  | QVariant.string _ =>
    let endTimeVar := map.value "endTime"
    let r := if endTimeVar.isValid then dateValue builders endTimeVar else (DefaultEndTime, true)
    if r.2 && decide (startTime < r.1) then some r.1 else none
  | _ => none

/-- Whether `loadChronology` builds every arc of the list, starting at
`startTime`. -/
def chronologyBuilds (builders : Builders) : List QVariant → ℚ → Bool
  | [], _ => true
  | v :: rest, startTime =>
    match v with
    | QVariant.map map =>
      match arcEndTime builders map startTime with
      | some endTime => chronologyBuilds builders rest endTime
      | none => false
    | _ => false

/-- The start time `loadCatalogItems` uses for the arcs of a body item. -/
def itemStartTime (builders : Builders) (item : QVariantMap) : ℚ :=
  if (item.value "startTime").isValid then (dateValue builders (item.value "startTime")).1
  else DefaultStartTime

/-- Whether a body item builds: the `geometry` field, if present, is a map,
the `startTime` field, if present, is a valid date, and at least one arc
is built, from the `arcs` list or else from the item itself. -/
def bodyItemBuilds (builders : Builders) (item : QVariantMap) : Bool :=
  (!item.contains "geometry" || (item.value "geometry").isMap)
  && (!(item.value "startTime").isValid || (dateValue builders (item.value "startTime")).2)
  && (if (item.value "arcs").isValid then
        match item.value "arcs" with
        | QVariant.list l => !l.isEmpty && chronologyBuilds builders l (itemStartTime builders item)
        | _ => false
      else (arcEndTime builders item (itemStartTime builders item)).isSome)

/-- The name under which a body item registers. -/
def itemName (builders : Builders) (item : QVariantMap) : String :=
  (item.value "name").toString builders

/-- Whether an element of `items` is a body item: a map whose `type` is
"body" or empty. -/
def isBodyItem (builders : Builders) : QVariant → Bool
  | QVariant.map item =>
    (QVariantMap.value item "type").toString builders == "body"
      || ((QVariantMap.value item "type").toString builders).isEmpty
  | _ => false

/-- The name an element of `items` adds to the returned list: that of a body
item that builds. -/
def builtName (builders : Builders) : QVariant → Option String
  | QVariant.map item =>
    if isBodyItem builders (QVariant.map item) && bodyItemBuilds builders item then
      some (itemName builders item)
    else none
  | _ => none

/-- Whether an element of an `arcs` list is a map without a `center` field. -/
def arcMissingCenter : QVariant → Bool
  | QVariant.map map => !QVariantMap.contains map "center"
  | _ => false

/-- Whether the `center` of a body item is missing where `loadCatalogItems`
has it read: in an element of the `arcs` list when the item has such a list
(`loadChronology` hands each element to `loadArc`), and in the item itself
otherwise (`loadArc` is then applied to the item). -/
def missingCenter (item : QVariantMap) : Bool :=
  match item.value "arcs" with
  | QVariant.list l => l.any arcMissingCenter
  | _ => !item.contains "center"

/-- The number of lines of a message log. -/
def lineCount (log : String) : Nat := (log.toList.filter (fun c => c == '\n')).length

/-! ## Closed examples -/

/-- Builders that build nothing and log nothing, for documents in which no
item has a geometry, trajectory, rotation model, frame, visualizer or
viewpoint to build. -/
def Builders.none : Builders :=
  { isoDateToSeconds := fun _ => Option.none
    doubleToString := fun _ => ""
    loadGeometry := fun _ _ _ => (Option.none, [])
    loadTrajectory := fun _ _ _ => (Option.none, [])
    loadRotationModel := fun _ _ _ => (Option.none, [])
    loadFrame := fun _ _ _ => (Option.none, [])
    loadVisualizer := fun _ _ _ => (Option.none, [])
    loadViewpoint := fun _ _ _ => (Option.none, [])
    loadBodyInfo := fun _ => { tag := 0 } }

/-- Nested loads that load nothing, for documents without `require`. -/
def NestedLoads.none : NestedLoads :=
  { loadSSC := fun _ _ loader world => ([], loader, world)
    loadCatalogFile := fun _ _ loader world => ([], loader, world) }

/-- A loader with an empty message log. -/
def UniverseLoader.new : UniverseLoader := { m_currentBodyName := "", m_messageLog := "" }

/-- A version-1.0 document with the given items and no `require` list. -/
def sampleDocument (items : List QVariant) : QVariantMap :=
  [("version", QVariant.string "1.0"), ("items", QVariant.list items)]

/-- A body item that builds: a name and a center. -/
def sampleItemSun : QVariantMap :=
  [("name", QVariant.string "Earth"), ("center", QVariant.string "Sun")]

/-- A body item without `center` (and without `arcs`). -/
def sampleItemNoCenter : QVariantMap := [("name", QVariant.string "Moon")]

/-- A body item whose start time is the Julian day 2451545 as an integer of
the type `ULongLong`. -/
def sampleItemDated : QVariantMap :=
  [("name", QVariant.string "Earth"), ("center", QVariant.string "Sun"),
   ("startTime", QVariant.ulonglong 2451545)]

/-- The body item `sampleItemDated` with the start time as a double. -/
def sampleItemDatedDouble : QVariantMap :=
  [("name", QVariant.string "Earth"), ("center", QVariant.string "Sun"),
   ("startTime", QVariant.double 2451545)]

/-- A body item without `center` whose arcs are given by an `arcs` list. -/
def sampleItemArcs : QVariantMap :=
  [("name", QVariant.string "Moon"),
   ("arcs", QVariant.list [QVariant.map [("center", QVariant.string "Earth")]])]

end Cosmographia

namespace Cosmographia

/-! ## Frames, frame directions and the builders that dispatch on `type` -/

/-- Modelled from the spec: the enumeration `TwoVectorFrame::Axis` (the vesta
sources are not at hand), the three axes and their negations. -/
inductive Axis where
  | PositiveX
  | PositiveY
  | PositiveZ
  | NegativeX
  | NegativeY
  | NegativeZ
deriving DecidableEq, Repr

/-- The function `parseAxisLabel`: the axis of a label, or nothing (the
result `false`) when the label is not valid. -/
def parseAxisLabel (label : String) : Option Axis :=
  let lcLabel := label.toLower
  if lcLabel == "x" || lcLabel == "+x" then some Axis.PositiveX
  else if lcLabel == "y" || lcLabel == "+y" then some Axis.PositiveY
  else if lcLabel == "z" || lcLabel == "+z" then some Axis.PositiveZ
  else if lcLabel == "-x" then some Axis.NegativeX
  else if lcLabel == "-y" then some Axis.NegativeY
  else if lcLabel == "-z" then some Axis.NegativeZ
  else none

/-- The line an axis lies on: 0 for x, 1 for y, 2 for z. -/
def Axis.line : Axis → Nat
  | Axis.PositiveX => 0
  | Axis.NegativeX => 0
  | Axis.PositiveY => 1
  | Axis.NegativeY => 1
  | Axis.PositiveZ => 2
  | Axis.NegativeZ => 2

/-- The negation of an axis. -/
def Axis.negate : Axis → Axis
  | Axis.PositiveX => Axis.NegativeX
  | Axis.NegativeX => Axis.PositiveX
  | Axis.PositiveY => Axis.NegativeY
  | Axis.NegativeY => Axis.PositiveY
  | Axis.PositiveZ => Axis.NegativeZ
  | Axis.NegativeZ => Axis.PositiveZ

/-- Modelled from the spec: `TwoVectorFrame::orthogonalAxes`, the table of
the orthogonal pairs of axes: every pair but an axis with itself or with its
negation. -/
def orthogonalAxes (a b : Axis) : Bool := a.line != b.line

/-- An Eigen `Vector3d`. -/
structure Vector3d where
  x : ℚ
  y : ℚ
  z : ℚ
deriving DecidableEq, Repr

/-- The test `canConvert(QVariant::Double)`: booleans, numbers and strings
convert. -/
def QVariant.canConvertDouble : QVariant → Bool
  | QVariant.bool _ => true
  | QVariant.int _ => true
  | QVariant.uint _ => true
  | QVariant.longlong _ => true
  | QVariant.ulonglong _ => true
  | QVariant.double _ => true
  | QVariant.string _ => true
  | _ => false

/-- The method `QVariant::toDouble()`: a string that is not a number gives
0, as does every variant that does not convert; `stringToDouble` is
`QString::toDouble`. -/
def QVariant.toDouble (stringToDouble : String → Option ℚ) : QVariant → ℚ
  | QVariant.bool b => if b then 1 else 0
  | QVariant.int i => i
  | QVariant.uint u => u
  | QVariant.longlong i => i
  | QVariant.ulonglong u => u
  | QVariant.double d => d
  | QVariant.string s => (stringToDouble s).getD 0
  | _ => 0

/-- The function `vec3Value`: the vector and the `ok` flag. -/
def vec3Value (stringToDouble : String → Option ℚ) (v : QVariant) : Vector3d × Bool :=
  match v with
  | QVariant.list [a, b, c] =>
    if a.canConvertDouble && b.canConvertDouble && c.canConvertDouble then
      ({ x := a.toDouble stringToDouble, y := b.toDouble stringToDouble,
         z := c.toDouble stringToDouble }, true)
    else ({ x := 0, y := 0, z := 0 }, false)
  | _ => ({ x := 0, y := 0, z := 0 }, false)

/-- Modelled from the spec: Eigen's `isZero()` (Eigen is not among the
sources), the test for a zero-magnitude vector; Eigen compares every
coefficient with zero within its precision for doubles, `1e-12`. -/
def Vector3d.isZero (v : Vector3d) : Bool :=
  decide (|v.x| ≤ 1 / 10 ^ 12) && decide (|v.y| ≤ 1 / 10 ^ 12) && decide (|v.z| ≤ 1 / 10 ^ 12)

/-- The square of the length of a vector. -/
def Vector3d.squaredNorm (v : Vector3d) : ℚ := v.x * v.x + v.y * v.y + v.z * v.z

/-- A vector divided by a length that is given by its square:
`vector / sqrt divisorSquared`. -/
structure ScaledVector3d where
  vector : Vector3d
  divisorSquared : ℚ
deriving DecidableEq, Repr

/-- Modelled from the spec: Eigen's `normalize()`, the vector divided by its
own length.  The length is a square root, which the rationals do not hold, so
the result is kept as the vector and the square of the length. -/
def Vector3d.normalize (v : Vector3d) : ScaledVector3d :=
  { vector := v, divisorSquared := v.squaredNorm }

/-- The square of the length of a scaled vector. -/
def ScaledVector3d.squaredNorm (u : ScaledVector3d) : ℚ :=
  u.vector.squaredNorm / u.divisorSquared

/-- Modelled from the spec: a `TwoVectorFrameDirection`, one of
`RelativePositionVector(observer, target)`,
`RelativeVelocityVector(observer, target)` and
`ConstantFrameDirection(frame, direction)`; entities are addresses. -/
inductive TwoVectorFrameDirection where
  | relativePosition (observer target : Nat)
  | relativeVelocity (observer target : Nat)
  | constant (frame : Frame) (direction : ScaledVector3d)
deriving DecidableEq, Repr

/-- Modelled from the spec: the frames `loadFrame` returns, an inertial frame,
a `BodyFixedFrame(body)` or a
`TwoVectorFrame(primaryDir, primaryAxis, secondaryDir, secondaryAxis)`. -/
inductive LoadedFrame where
  | inertial (frame : Frame)
  | bodyFixed (body : Nat)
  | twoVector (primaryDir : TwoVectorFrameDirection) (primaryAxis : Axis)
      (secondaryDir : TwoVectorFrameDirection) (secondaryAxis : Axis)
deriving DecidableEq, Repr

/-- The method `UniverseLoader::loadBodyFixedFrame`. -/
def loadBodyFixedFrame (map : QVariantMap) (world : Universe) (loader : UniverseLoader) :
    Option LoadedFrame × UniverseLoader :=
  match map.value "body" with
  | QVariant.string bodyName =>
    match world.catalog.find bodyName with
    | some body => (some (LoadedFrame.bodyFixed body), loader)
    | none =>
      (none, loader.errorMessage ("BodyFixed frame refers to unknown body '" ++ bodyName ++ "'"))
  | _ => (none, loader.errorMessage "BodyFixed frame is missing body name.")

/-- The function `loadRelativePosition` (its messages go to `qDebug`, not to
the message log). -/
def loadRelativePosition (map : QVariantMap) (world : Universe) :
    Option TwoVectorFrameDirection :=
  match map.value "observer", map.value "target" with
  | QVariant.string observerName, QVariant.string targetName =>
    match world.catalog.find observerName with
    | none => none
    | some observer =>
      match world.catalog.find targetName with
      | none => none
      | some target => some (TwoVectorFrameDirection.relativePosition observer target)
  | _, _ => none

/-- The function `loadRelativeVelocity` (its messages go to `qDebug`, not to
the message log). -/
def loadRelativeVelocity (map : QVariantMap) (world : Universe) :
    Option TwoVectorFrameDirection :=
  match map.value "observer", map.value "target" with
  | QVariant.string observerName, QVariant.string targetName =>
    match world.catalog.find observerName with
    | none => none
    | some observer =>
      match world.catalog.find targetName with
      | none => none
      | some target => some (TwoVectorFrameDirection.relativeVelocity observer target)
  | _, _ => none

/-- The frame part of `loadConstantFrameVector`: the equator of J2000 when
no frame is given, a named inertial frame, or a frame built by `loadFrame`
(the nested call, taken through `builders.loadFrame`). -/
def loadConstantFrame (builders : Builders) (frameVar : QVariant) (world : Universe)
    (loader : UniverseLoader) : Option Frame × UniverseLoader :=
  if frameVar.isValid then
    match frameVar with
    | QVariant.string name => loadInertialFrame name loader
    | QVariant.map m =>
      let r := builders.loadFrame m world loader
      (r.1.map Frame.constructed, loader.logMessages r.2)
    | _ => (none, loader.errorMessage "Invalid frame given for ConstantVector")
  else (some Frame.equatorJ2000, loader)

/-- The method `UniverseLoader::loadConstantFrameVector`. -/
def loadConstantFrameVector (builders : Builders) (stringToDouble : String → Option ℚ)
    (map : QVariantMap) (world : Universe) (loader : UniverseLoader) :
    Option TwoVectorFrameDirection × UniverseLoader :=
  let directionVar := map.value "direction"
  let frameVar := map.value "frame"
  if !directionVar.isValid then
    (none, loader.errorMessage "Direction missing for ConstantVector")
  else
    let direction := vec3Value stringToDouble directionVar
    if !direction.2 then
      (none, loader.errorMessage "Invalid vector given for ConstantVector direction")
    else if direction.1.isZero then
      (none, loader.errorMessage "Zero vector is not permitted for ConstantVector direction")
    else
      let normalized := direction.1.normalize
      let frame := loadConstantFrame builders frameVar world loader
      match frame.1 with
      | none => (none, frame.2)
      | some f => (some (TwoVectorFrameDirection.constant f normalized), frame.2)

/-- The method `UniverseLoader::loadFrameVector`. -/
def loadFrameVector (builders : Builders) (stringToDouble : String → Option ℚ)
    (map : QVariantMap) (world : Universe) (loader : UniverseLoader) :
    Option TwoVectorFrameDirection × UniverseLoader :=
  match map.value "type" with
  | QVariant.string type =>
    if type == "RelativePosition" then (loadRelativePosition map world, loader)
    else if type == "RelativeVelocity" then (loadRelativeVelocity map world, loader)
    else if type == "ConstantVector" then
      loadConstantFrameVector builders stringToDouble map world loader
    else
      (none, loader.errorMessage ("Unknoown TwoVector frame direction type '" ++ type ++ "'"))
  | _ => (none, loader.errorMessage "Bad or missing type for TwoVector frame direction.")

/-- The method `UniverseLoader::loadTwoVectorFrame`. -/
def loadTwoVectorFrame (builders : Builders) (stringToDouble : String → Option ℚ)
    (map : QVariantMap) (world : Universe) (loader : UniverseLoader) :
    Option LoadedFrame × UniverseLoader :=
  match map.value "primary" with
  | QVariant.map primary =>
    match map.value "secondary" with
    | QVariant.map secondary =>
      match map.value "primaryAxis" with
      | QVariant.string primaryLabel =>
        match map.value "secondaryAxis" with
        | QVariant.string secondaryLabel =>
          match parseAxisLabel primaryLabel with
          | none =>
            (none, loader.errorMessage
              ("Invalid label '" ++ primaryLabel ++ "' for primary axis in TwoVector frame"))
          | some primaryAxis =>
            match parseAxisLabel secondaryLabel with
            | none =>
              (none, loader.errorMessage
                ("Invalid label '" ++ secondaryLabel
                  ++ "' for secondary axis in TwoVector frame"))
            | some secondaryAxis =>
              if !orthogonalAxes primaryAxis secondaryAxis then
                (none, loader.errorMessage
                  "Bad two vector frame. Primary and secondary axes must be orthogonal")
              else
                let primaryDir := loadFrameVector builders stringToDouble primary world loader
                let secondaryDir :=
                  loadFrameVector builders stringToDouble secondary world primaryDir.2
                match primaryDir.1, secondaryDir.1 with
                | some p, some s =>
                  (some (LoadedFrame.twoVector p primaryAxis s secondaryAxis), secondaryDir.2)
                | _, _ => (none, secondaryDir.2)
        | _ =>
          (none, loader.errorMessage "Invalid or missing secondary axis in TwoVector frame")
      | _ => (none, loader.errorMessage "Invalid or missing primary axis in TwoVector frame")
    | _ => (none, loader.errorMessage "Invalid or missing secondary direction in TwoVector frame")
  | _ => (none, loader.errorMessage "Invalid or missing primary direction in TwoVector frame")

/-- The method `UniverseLoader::loadFrame`. -/
def loadFrame (builders : Builders) (stringToDouble : String → Option ℚ)
    (map : QVariantMap) (world : Universe) (loader : UniverseLoader) :
    Option LoadedFrame × UniverseLoader :=
  let typeVar := map.value "type"
  let loader :=
    if !typeVar.isString then loader.errorMessage "Frame definition is missing type."
    else loader
  let type := typeVar.toString builders
  if type == "BodyFixed" then loadBodyFixedFrame map world loader
  else if type == "TwoVector" then loadTwoVectorFrame builders stringToDouble map world loader
  else
    let frame := loadInertialFrame type loader
    match frame.1 with
    | none => (none, frame.2.errorMessage ("Unknown frame type '" ++ type ++ "'"))
    | some f => (some (LoadedFrame.inertial f), frame.2)

/-- The builders `loadTrajectory` and `loadRotationModel` dispatch to, one
for each recognised `type`; each reads the map and the loader and yields its
object (or null) and the messages it logs. -/
structure TypeBuilders where
  loadFixedPointTrajectory : QVariantMap → UniverseLoader → Option Trajectory × List String
  loadFixedSphericalTrajectory : QVariantMap → UniverseLoader → Option Trajectory × List String
  loadKeplerianTrajectory : QVariantMap → UniverseLoader → Option Trajectory × List String
  loadBuiltinTrajectory : QVariantMap → UniverseLoader → Option Trajectory × List String
  loadInterpolatedStatesTrajectory :
    QVariantMap → UniverseLoader → Option Trajectory × List String
  loadTleTrajectory : QVariantMap → UniverseLoader → Option Trajectory × List String
  loadFixedRotationModel : QVariantMap → UniverseLoader → Option RotationModel × List String
  loadUniformRotationModel : QVariantMap → UniverseLoader → Option RotationModel × List String
  loadBuiltinRotationModel : QVariantMap → UniverseLoader → Option RotationModel × List String
  loadInterpolatedRotationModel :
    QVariantMap → UniverseLoader → Option RotationModel × List String

/-- The call of one of the builders of `TypeBuilders`: its object, and the
loader with its messages logged. -/
def callBuilder {α : Type} (builder : QVariantMap → UniverseLoader → Option α × List String)
    (map : QVariantMap) (loader : UniverseLoader) : Option α × UniverseLoader :=
  ((builder map loader).1, loader.logMessages (builder map loader).2)

/-- The method `UniverseLoader::loadTrajectory`. -/
def loadTrajectory (builders : Builders) (types : TypeBuilders) (map : QVariantMap)
    (loader : UniverseLoader) : Option Trajectory × UniverseLoader :=
  let typeData := map.value "type"
  let loader :=
    if !typeData.isString then loader.errorMessage "Trajectory definition is missing type."
    else loader
  let type := typeData.toString builders
  if type == "FixedPoint" then callBuilder types.loadFixedPointTrajectory map loader
  else if type == "FixedSpherical" then
    callBuilder types.loadFixedSphericalTrajectory map loader
  else if type == "Keplerian" then callBuilder types.loadKeplerianTrajectory map loader
  else if type == "Builtin" then callBuilder types.loadBuiltinTrajectory map loader
  else if type == "InterpolatedStates" then
    callBuilder types.loadInterpolatedStatesTrajectory map loader
  else if type == "TLE" then callBuilder types.loadTleTrajectory map loader
  else (none, loader.errorMessage ("Unknown trajectory type '" ++ type ++ "'"))

/-- The method `UniverseLoader::loadRotationModel`. -/
def loadRotationModel (builders : Builders) (types : TypeBuilders) (map : QVariantMap)
    (loader : UniverseLoader) : Option RotationModel × UniverseLoader :=
  let typeVar := map.value "type"
  let loader :=
    if !typeVar.isString then loader.errorMessage "RotationModel definition is missing type."
    else loader
  let type := typeVar.toString builders
  if type == "Fixed" then callBuilder types.loadFixedRotationModel map loader
  else if type == "Uniform" then callBuilder types.loadUniformRotationModel map loader
  else if type == "Builtin" then callBuilder types.loadBuiltinRotationModel map loader
  else if type == "Interpolated" then callBuilder types.loadInterpolatedRotationModel map loader
  else (none, loader.errorMessage ("Unknown rotation model type '" ++ type ++ "'"))

/-- Type builders that build nothing and log nothing. -/
def TypeBuilders.none : TypeBuilders :=
  { loadFixedPointTrajectory := fun _ _ => (Option.none, [])
    loadFixedSphericalTrajectory := fun _ _ => (Option.none, [])
    loadKeplerianTrajectory := fun _ _ => (Option.none, [])
    loadBuiltinTrajectory := fun _ _ => (Option.none, [])
    loadInterpolatedStatesTrajectory := fun _ _ => (Option.none, [])
    loadTleTrajectory := fun _ _ => (Option.none, [])
    loadFixedRotationModel := fun _ _ => (Option.none, [])
    loadUniformRotationModel := fun _ _ => (Option.none, [])
    loadBuiltinRotationModel := fun _ _ => (Option.none, [])
    loadInterpolatedRotationModel := fun _ _ => (Option.none, []) }

end Cosmographia

namespace Cosmographia

/-! ## Catalog files -/

/-- The file system and the two parsers, as the file loads use them. -/
structure FileSystem where
  /-- The path `QFileInfo(path).canonicalFilePath()`. -/
  canonicalFilePath : String → String
  /-- The directory `QFileInfo(path).absolutePath()`. -/
  absolutePath : String → String
  /-- The text of the file at a path (`QFile::open`, then `readAll`), or nothing
  when the file cannot be opened. -/
  readAll : String → Option String
  /-- The JSON parser on the text of a file, comments stripped: the value, or
  the line and the text of the error. -/
  parse : String → Except (Int × String) QVariant
  /-- The objects of the SSC file at a path, each as `TransformSscObject`
  leaves it. -/
  sscObjects : String → List QVariantMap

/-- The method `QVariantMap::insert(key, value)`: the value replaces the one
the key had. -/
def QVariantMap.insert (m : QVariantMap) (key : String) (value : QVariant) : QVariantMap :=
  (key, value) :: m.filter (fun p => p.1 != key)

/-- The method `UniverseLoader::dataFileName`. -/
def UniverseLoader.dataFileName (loader : UniverseLoader) (fileName : String) : String :=
  loader.m_dataSearchPath ++ "/" ++ fileName

/-- The items `loadSSC` makes of the objects of an SSC file: the name of each
becomes `<_parent>/<name>`. -/
def sscItems (builders : Builders) (objects : List QVariantMap) : List QVariant :=
  objects.map (fun map =>
    let fullName := (map.value "_parent").toString builders ++ "/"
      ++ (map.value "name").toString builders
    QVariant.map (QVariantMap.insert map "name" (QVariant.string fullName)))

/-- The method `UniverseLoader::loadSSC(fileName, catalog, requireDepth)`;
`nested` stands for the file loads that `loadCatalogItems` calls.  The local
search path of the texture loader, an object outside the loader, is left out. -/
def loadSSC (fs : FileSystem) (builders : Builders) (nested : NestedLoads) (fileName : String)
    (requireDepth : Nat) (loader : UniverseLoader) (world : Universe) :
    List String × UniverseLoader × Universe :=
  let info := loader.dataFileName fileName
  let path := fs.canonicalFilePath info
  match fs.readAll path with
  | none => ([], loader.errorMessage ("Cannot open SSC file " ++ path), world)
  | some _ =>
    let searchPath := fs.absolutePath info
    let saveDataSearchPath := loader.m_dataSearchPath
    let saveModelSearchPath := loader.m_modelSearchPath
    let loader := { loader with
      m_dataSearchPath := searchPath ++ "/data"
      m_modelSearchPath := searchPath ++ "/models"
      m_textureSearchPath := searchPath ++ "/textures/medres"
      m_texturesInModelDirectory := false }
    let items := sscItems builders (fs.sscObjects path)
    let contents : QVariantMap :=
      QVariantMap.insert
        (QVariantMap.insert (QVariantMap.insert [] "name" (QVariant.string fileName))
          "version" (QVariant.string "1.0"))
        "items" (QVariant.list items)
    let r := loadCatalogItems builders nested contents (requireDepth + 1) loader world
    (r.bodyNames,
     { r.loader with
       m_dataSearchPath := saveDataSearchPath
       m_modelSearchPath := saveModelSearchPath
       m_texturesInModelDirectory := true },
     r.world)

/-- The method `UniverseLoader::loadCatalogFile(fileName, catalog,
requireDepth)`; `nested` stands for the file loads that `loadCatalogItems`
calls. -/
def loadCatalogFile (fs : FileSystem) (builders : Builders) (nested : NestedLoads)
    (fileName : String) (requireDepth : Nat) (loader : UniverseLoader) (world : Universe) :
    List String × UniverseLoader × Universe :=
  let info := loader.dataFileName fileName
  let path := fs.canonicalFilePath info
  if loader.m_loadedCatalogFiles.contains path then ([], loader, world)
  else if requireDepth > 10 then
    ([], loader.errorMessage "'require' is nested too deeply (recursive requires?)", world)
  else
    match fs.readAll path with
    | none => ([], loader.errorMessage ("Cannot open required file " ++ path), world)
    | some catalogText =>
      match fs.parse catalogText with
      | Except.error e =>
        ([], loader.errorMessage ("Error in " ++ path ++ ", line " ++ toString e.1 ++ ": " ++ e.2),
         world)
      | Except.ok result =>
        let contents := result.toMap
        if contents.isEmpty then ([], loader.errorMessage "Solar system file is empty.", world)
        else
          let searchPath := fs.absolutePath info
          let saveDataSearchPath := loader.m_dataSearchPath
          let saveModelSearchPath := loader.m_modelSearchPath
          let loader := { loader with
            m_dataSearchPath := searchPath
            m_modelSearchPath := searchPath }
          let r := loadCatalogItems builders nested contents (requireDepth + 1) loader world
          (r.bodyNames,
           { r.loader with
             m_dataSearchPath := saveDataSearchPath
             m_modelSearchPath := saveModelSearchPath },
           r.world)

/-- The file loads unrolled `n` levels deep: `loadSSC` and `loadCatalogFile`
whose own nested loads are those of `n - 1` levels (none at level 0). -/
def requiredLoads (fs : FileSystem) (builders : Builders) : Nat → NestedLoads
  | 0 => NestedLoads.none
  | n + 1 =>
    { loadSSC := fun fileName requireDepth loader world =>
        loadSSC fs builders (requiredLoads fs builders n) fileName requireDepth loader world
      loadCatalogFile := fun fileName requireDepth loader world =>
        loadCatalogFile fs builders (requiredLoads fs builders n) fileName requireDepth loader
          world }

/-- The file loads as `loadCatalogItems` calls them: `loadSSC` and
`loadCatalogFile` at a depth, with the recursion of the program unrolled as
far as the depth guard lets it go, `11 - requireDepth` levels. -/
def fileLoads (fs : FileSystem) (builders : Builders) : NestedLoads :=
  { loadSSC := fun fileName requireDepth loader world =>
      loadSSC fs builders (requiredLoads fs builders (11 - requireDepth)) fileName requireDepth
        loader world
    loadCatalogFile := fun fileName requireDepth loader world =>
      loadCatalogFile fs builders (requiredLoads fs builders (11 - requireDepth)) fileName
        requireDepth loader world }

/-- The public method `UniverseLoader::loadCatalogFile(fileName, catalog)`. -/
def UniverseLoader.loadCatalogFile (loader : UniverseLoader) (fs : FileSystem)
    (builders : Builders) (fileName : String) (world : Universe) :
    List String × UniverseLoader × Universe :=
  if fileName.toLower.endsWith ".ssc" then
    (fileLoads fs builders).loadSSC fileName 0 loader world
  else
    (fileLoads fs builders).loadCatalogFile fileName 0 loader world

/-- The public method `UniverseLoader::loadCatalogItems(contents, catalog)`. -/
def UniverseLoader.loadCatalogItems (loader : UniverseLoader) (fs : FileSystem)
    (builders : Builders) (contents : QVariantMap) (world : Universe) : LoadState :=
  Cosmographia.loadCatalogItems builders (fileLoads fs builders) contents 0 loader world

/-- Whether a message log holds the line of the depth guard. -/
def hasDepthError (log : String) : Prop :=
  ∃ before after : String,
    log = before ++ "'require' is nested too deeply (recursive requires?)\n" ++ after

/-- The part of `loadCatalogItems` that reads the `require` property. -/
def requirePart (nested : NestedLoads) (requireDepth : Nat) (contents : QVariantMap)
    (s : LoadState) : LoadState :=
  if contents.contains "require" then
    match contents.value "require" with
    | QVariant.list requireList => requireList.foldl (loadRequired nested requireDepth) s
    | _ =>
      let message := "Require property must be a list of filenames"
      { s with loader := s.loader.errorMessage message }
  else s

/-- The part of `loadCatalogItems` that reads the `items` property. -/
def itemsPart (builders : Builders) (contents : QVariantMap) (s : LoadState) : LoadState :=
  if !contents.contains "items" then s
  else
    match contents.value "items" with
    | QVariant.list items => loadItems builders items s
    | _ => { s with loader := s.loader.errorMessage "items is not a list." }

/-- A later state of the loader in which messages may have been logged: the
set of loaded files and the data and model search paths are the same, the
log is the earlier one with text added. -/
def UniverseLoader.grows (earlier later : UniverseLoader) : Prop :=
  later.m_loadedCatalogFiles = earlier.m_loadedCatalogFiles ∧
  later.m_dataSearchPath = earlier.m_dataSearchPath ∧
  later.m_modelSearchPath = earlier.m_modelSearchPath ∧
    ∃ t : String, later.m_messageLog = earlier.m_messageLog ++ t

/-- The nested loads of a depth leave the set of loaded files and the data and
model search paths as they are and only add to the log. -/
def NestedLoads.grow (nested : NestedLoads) (requireDepth : Nat) : Prop :=
  ∀ (fileName : String) (loader : UniverseLoader) (world : Universe),
    loader.grows (nested.loadSSC fileName requireDepth loader world).2.1 ∧
    loader.grows (nested.loadCatalogFile fileName requireDepth loader world).2.1

/-- The document that `loadCatalogFile` reads for a file name in a state of
the loader, when the file opens and parses. -/
def FileSystem.document (fs : FileSystem) (loader : UniverseLoader) (fileName : String) :
    Option QVariantMap :=
  match fs.readAll (fs.canonicalFilePath (loader.dataFileName fileName)) with
  | none => none
  | some catalogText =>
    match fs.parse catalogText with
    | Except.error _ => none
    | Except.ok result => some result.toMap

/-- In a state of the loader, the file `fileName` is a version-1.0 document
whose `require` list names the catalog file `required` (not an SSC file). -/
def FileSystem.requires (fs : FileSystem) (builders : Builders) (loader : UniverseLoader)
    (fileName required : String) : Prop :=
  ∃ (contents : QVariantMap) (requireList : List QVariant),
    fs.document loader fileName = some contents ∧
    (contents.value "version").isValid = true ∧
    (contents.value "version").toString builders = "1.0" ∧
    contents.value "require" = QVariant.list requireList ∧
    QVariant.string required ∈ requireList ∧
    required.toLower.endsWith ".ssc" = false

/-! ## A sample file system -/

/-- A version-1.0 document that requires one file and has no items. -/
def sampleRequiring (fileName : String) : QVariant :=
  QVariant.map [("version", QVariant.string "1.0"),
    ("require", QVariant.list [QVariant.string fileName])]

/-- The documents of the sample file system, by path: `a.json` and `b.json`
require each other; `c0.json` requires `c1.json`, and so on up to `c10.json`,
which requires `moons.ssc`; `earth.json` holds the item "Earth", which builds,
and the item "Moon", which has no center. -/
def sampleDocuments : List (String × QVariant) :=
  [("/a.json", sampleRequiring "b.json"),
   ("/b.json", sampleRequiring "a.json"),
   ("/c0.json", sampleRequiring "c1.json"),
   ("/c1.json", sampleRequiring "c2.json"),
   ("/c2.json", sampleRequiring "c3.json"),
   ("/c3.json", sampleRequiring "c4.json"),
   ("/c4.json", sampleRequiring "c5.json"),
   ("/c5.json", sampleRequiring "c6.json"),
   ("/c6.json", sampleRequiring "c7.json"),
   ("/c7.json", sampleRequiring "c8.json"),
   ("/c8.json", sampleRequiring "c9.json"),
   ("/c9.json", sampleRequiring "c10.json"),
   ("/c10.json", sampleRequiring "moons.ssc"),
   ("/earth.json",
     QVariant.map (sampleDocument [QVariant.map sampleItemSun, QVariant.map sampleItemNoCenter]))]

/-- A file system with one directory, whose name is empty: the files of
`sampleDocuments` and the SSC file `moons.ssc` with the one object "Moon" of
parent "Sol/Earth".  The text of a file is its path. -/
def sampleFileSystem : FileSystem :=
  { canonicalFilePath := fun path => path
    absolutePath := fun _ => ""
    readAll := fun path =>
      if (sampleDocuments.lookup path).isSome || path == "/moons.ssc" then some path else none
    parse := fun text =>
      match sampleDocuments.lookup text with
      | some document => Except.ok document
      | none => Except.error (1, "syntax error")
    sscObjects := fun path =>
      if path == "/moons.ssc" then
        [[("name", QVariant.string "Moon"), ("_parent", QVariant.string "Sol/Earth"),
          ("center", QVariant.string "Sol/Earth")]]
      else [] }

end Cosmographia

namespace Cosmographia

/-! ## Chronologies -/

/-- The end time an arc map declares, as `loadArc` reads it, and whether it
is valid: the `endTime` field through `dateValue`, or `DefaultEndTime` when
the field is not there. -/
def declaredEndTime (builders : Builders) (map : QVariantMap) : ℚ × Bool :=
  if (map.value "endTime").isValid then dateValue builders (map.value "endTime")
  else (DefaultEndTime, true)

/-- The end times the elements of an `arcs` list declare. -/
def declaredEndTimes (builders : Builders) (list : List QVariant) : List ℚ :=
  list.map (fun v => (declaredEndTime builders v.toMap).1)

/-- The condition under which `loadChronology` builds all the arcs of a
list from `startTime`: every element is a map whose `center` is a string and
whose end time is valid, and the start time and the declared end times
increase strictly. -/
def ChronologyAccepted (builders : Builders) (list : List QVariant) (startTime : ℚ) : Prop :=
  (∀ v ∈ list, v.isMap = true ∧ (v.toMap.value "center").isString = true
    ∧ (declaredEndTime builders v.toMap).2 = true)
  ∧ List.Chain (fun a b => a < b) startTime (declaredEndTimes builders list)

/-- The steps of a list of instants that begins at `start`: every instant
minus the one before it. -/
def differences : ℚ → List ℚ → List ℚ
  | _, [] => []
  | start, e :: rest => (e - start) :: differences e rest

/-- Modelled from the spec: the intervals the arcs of a chronology cover (the
chronology of `vesta::Body` is not among the sources): the first arc begins
at the start time of the chronology, every arc covers the half-open interval
of its duration, and the next arc begins where it ends. -/
def arcIntervals : ℚ → List Arc → List (ℚ × ℚ)
  | _, [] => []
  | start, arc :: rest => (start, start + arc.duration) :: arcIntervals (start + arc.duration) rest

/-- The number of intervals that hold the instant `t`. -/
def coverCount (intervals : List (ℚ × ℚ)) (t : ℚ) : Nat :=
  (intervals.filter (fun i => decide (i.1 ≤ t) && decide (t < i.2))).length

/-- An `arcs` list of two arcs that end one day and three days after
J2000. -/
def sampleArcs : List QVariant :=
  [QVariant.map [("center", QVariant.string "Sun"), ("endTime", QVariant.double (J2000 + 1))],
   QVariant.map [("center", QVariant.string "Sun"), ("endTime", QVariant.int 2451548)]]

/-! ## Values with units -/

/-- The enumeration `TimeUnit`. -/
inductive TimeUnit where
  | Unit_Millisecond
  | Unit_Second
  | Unit_Minute
  | Unit_Hour
  | Unit_Day
  | Unit_Year
  | InvalidTimeUnit
deriving DecidableEq, Repr

/-- The enumeration `DistanceUnit`. -/
inductive DistanceUnit where
  | Unit_Millimeter
  | Unit_Centimeter
  | Unit_Meter
  | Unit_Kilometer
  | Unit_AU
  | InvalidDistanceUnit
deriving DecidableEq, Repr

/-- The constant `AU`, 149597870.691 kilometers. -/
def AU : ℚ := 149597870691 / 1000

/-- The function `parseDistanceUnit`. -/
def parseDistanceUnit (unitString : String) : DistanceUnit :=
  if unitString == "mm" then DistanceUnit.Unit_Millimeter
  else if unitString == "cm" then DistanceUnit.Unit_Centimeter
  else if unitString == "m" then DistanceUnit.Unit_Meter
  else if unitString == "km" then DistanceUnit.Unit_Kilometer
  else if unitString == "au" then DistanceUnit.Unit_AU
  else DistanceUnit.InvalidDistanceUnit

/-- The function `parseTimeUnit`. -/
def parseTimeUnit (unitString : String) : TimeUnit :=
  if unitString == "ms" then TimeUnit.Unit_Millisecond
  else if unitString == "s" then TimeUnit.Unit_Second
  else if unitString == "m" then TimeUnit.Unit_Minute
  else if unitString == "h" then TimeUnit.Unit_Hour
  else if unitString == "d" then TimeUnit.Unit_Day
  else if unitString == "y" || unitString == "a" then TimeUnit.Unit_Year
  else TimeUnit.InvalidTimeUnit

/-- The function `timeUnitConversion`: the seconds of a unit. -/
def timeUnitConversion : TimeUnit → ℚ
  | TimeUnit.Unit_Millisecond => 1 / 1000
  | TimeUnit.Unit_Second => 1
  | TimeUnit.Unit_Minute => 60
  | TimeUnit.Unit_Hour => 3600
  | TimeUnit.Unit_Day => 86400
  | TimeUnit.Unit_Year => 36525 / 100 * 86400
  | TimeUnit.InvalidTimeUnit => 0

/-- The function `distanceUnitConversion`: the kilometers of a unit. -/
def distanceUnitConversion : DistanceUnit → ℚ
  | DistanceUnit.Unit_Millimeter => 1 / 10 ^ 6
  | DistanceUnit.Unit_Centimeter => 1 / 10 ^ 5
  | DistanceUnit.Unit_Meter => 1 / 10 ^ 3
  | DistanceUnit.Unit_Kilometer => 1
  | DistanceUnit.Unit_AU => AU
  | DistanceUnit.InvalidDistanceUnit => 0

/-- The function `convertTime`. -/
def convertTime (value : ℚ) (fromUnit toUnit : TimeUnit) : ℚ :=
  value * timeUnitConversion fromUnit / timeUnitConversion toUnit

/-- The function `convertDistance`. -/
def convertDistance (value : ℚ) (fromUnit toUnit : DistanceUnit) : ℚ :=
  value * distanceUnitConversion fromUnit / distanceUnitConversion toUnit

/-! ### The pattern of a value with a unit

`ValueUnitsRegexpString` is
`^\s*([-+]?[0-9]*\.?[0-9]+(?:[eE][-+]?[0-9]+)?)\s*([A-Za-z]+)?\s*$`:
white space, a number (the first captured text), white space, a run of
letters that may be missing (the second captured text), white space.  The
number ends in a digit and the letters are followed by white space only, so a
string matches in one way at most, and the match is found from the end of
the string: the letters are the last run of letters before the closing white
space. -/

/-- The class `\s` of `QRegExp`, which is `QChar::isSpace`: the characters 9
to 13, the space, and the separators of Unicode. -/
def isSpace (c : Char) : Bool :=
  decide (9 ≤ c.toNat ∧ c.toNat ≤ 13) || decide (c.toNat = 32) || decide (c.toNat = 133)
    || decide (c.toNat = 160) || decide (c.toNat = 5760)
    || decide (8192 ≤ c.toNat ∧ c.toNat ≤ 8202) || decide (c.toNat = 8232)
    || decide (c.toNat = 8233) || decide (c.toNat = 8239) || decide (c.toNat = 8287)
    || decide (c.toNat = 12288)

/-- The class `[0-9]`. -/
def isDigit (c : Char) : Bool := decide (48 ≤ c.toNat ∧ c.toNat ≤ 57)

/-- The class `[A-Za-z]`. -/
def isLetter (c : Char) : Bool :=
  decide (65 ≤ c.toNat ∧ c.toNat ≤ 90) || decide (97 ≤ c.toNat ∧ c.toNat ≤ 122)

/-- The class `[eE]`. -/
def isExponentMark (c : Char) : Bool := c == 'e' || c == 'E'

/-- The class `[-+]`. -/
def isSign (c : Char) : Bool := c == '-' || c == '+'

/-- A text without the sign `[-+]?` it may begin with. -/
def dropSign : List Char → List Char
  | [] => []
  | c :: cs => if isSign c then cs else c :: cs

/-- Whether a text is `[0-9]*\.?[0-9]+`: digits only, or digits (maybe none),
a point and one digit at least. -/
def isMantissaText (cs : List Char) : Bool :=
  match cs.dropWhile isDigit with
  | [] => !cs.isEmpty
  | c :: fraction => c == '.' && !fraction.isEmpty && fraction.all isDigit

/-- Whether a text is `[-+]?[0-9]+`, what follows the exponent mark. -/
def isExponentText (cs : List Char) : Bool :=
  !(dropSign cs).isEmpty && (dropSign cs).all isDigit

/-- Whether a text is `[-+]?[0-9]*\.?[0-9]+(?:[eE][-+]?[0-9]+)?`, the number
of the pattern.  A mantissa has no exponent mark, so the exponent begins at
the first one. -/
def isNumberText (cs : List Char) : Bool :=
  let body := dropSign cs
  match body.dropWhile (fun c => !isExponentMark c) with
  | [] => isMantissaText body
  | _ :: exponent =>
    isMantissaText (body.takeWhile (fun c => !isExponentMark c)) && isExponentText exponent

/-- The captured texts of `ValueUnitsRegexpString` on a text whose opening
white space is gone, read from its end: the closing white space, the letters,
the white space before them, and the number, which is all the rest. -/
def capturedTextsFromEnd (reversed : List Char) : Option (List Char × List Char) :=
  let fromUnit := reversed.dropWhile isSpace
  let unitString := (fromUnit.takeWhile isLetter).reverse
  let number := ((fromUnit.dropWhile isLetter).dropWhile isSpace).reverse
  if isNumberText number then some (number, unitString) else none

/-- The first and the second captured text of `ValueUnitsRegexpString` on a
string (`re.capturedTexts()` after `re.indexIn(s) != -1`), or nothing when
the string does not match; the second text is empty when there is no
unit. -/
def valueUnitsCapturedTexts (s : String) : Option (String × String) :=
  match capturedTextsFromEnd (s.toList.dropWhile isSpace).reverse with
  | some (number, unitString) => some (String.mk number, String.mk unitString)
  | none => none

/-- What the pattern `ValueUnitsRegexpString` says of a string: it is white
space, the number, white space, the letters of the unit (maybe none) and
white space. -/
def MatchesValueUnits (s : List Char) (number unitString : List Char) : Prop :=
  ∃ opening between closing : List Char,
    s = opening ++ number ++ between ++ unitString ++ closing ∧
    opening.all isSpace = true ∧ between.all isSpace = true ∧ closing.all isSpace = true ∧
    isNumberText number = true ∧ unitString.all isLetter = true

/-- The number a run of digits denotes. -/
def digitsValue (cs : List Char) : Nat :=
  cs.foldl (fun n c => 10 * n + (c.toNat - 48)) 0

/-- The value of a `[0-9]*\.?[0-9]+` text. -/
def mantissaValue (cs : List Char) : ℚ :=
  let fraction := (cs.dropWhile isDigit).drop 1
  (digitsValue (cs.takeWhile isDigit) : ℚ) + (digitsValue fraction : ℚ) / 10 ^ fraction.length

/-- The value `QString::toDouble` gives for a text of the number pattern, in
exact arithmetic: the decimal number the text denotes (not rounded to a
double). -/
def numberValue (s : String) : ℚ :=
  let cs := s.toList
  let body := dropSign cs
  let mantissa := mantissaValue (body.takeWhile (fun c => !isExponentMark c))
  let exponent := (body.dropWhile (fun c => !isExponentMark c)).drop 1
  let scaled :=
    if exponent.head? == some '-' then mantissa / 10 ^ digitsValue (dropSign exponent)
    else mantissa * 10 ^ digitsValue (dropSign exponent)
  if cs.head? == some '-' then -scaled else scaled

/-- The function `distanceValue`: the distance in kilometers and the `ok`
flag.  A string is matched with `ValueUnitsRegexpString`; every other variant
goes through `QVariant::toDouble`, which converts a boolean, an integer and a
double. -/
def distanceValue (v : QVariant) (defaultUnit : DistanceUnit) (defaultValue : ℚ) : ℚ × Bool :=
  let read : ℚ × DistanceUnit :=
    match v with
    | QVariant.string s =>
      match valueUnitsCapturedTexts s with
      | some (number, unitString) =>
        (numberValue number,
          if !unitString.isEmpty then parseDistanceUnit unitString else defaultUnit)
      | none => (defaultValue, DistanceUnit.InvalidDistanceUnit)
    | QVariant.bool b => (if b then 1 else 0, defaultUnit)
    | QVariant.int i => (i, defaultUnit)
    | QVariant.uint u => (u, defaultUnit)
    | QVariant.longlong i => (i, defaultUnit)
    | QVariant.ulonglong u => (u, defaultUnit)
    | QVariant.double d => (d, defaultUnit)
    | _ => (0, DistanceUnit.InvalidDistanceUnit)
  if read.2 = DistanceUnit.InvalidDistanceUnit then (0, false)
  else (convertDistance read.1 read.2 DistanceUnit.Unit_Kilometer, true)

/-- The function `durationValue`: the duration in seconds and the `ok`
flag. -/
def durationValue (v : QVariant) (defaultUnit : TimeUnit) (defaultValue : ℚ) : ℚ × Bool :=
  let read : ℚ × TimeUnit :=
    match v with
    | QVariant.string s =>
      match valueUnitsCapturedTexts s with
      | some (number, unitString) =>
        (numberValue number,
          if !unitString.isEmpty then parseTimeUnit unitString else defaultUnit)
      | none => (defaultValue, TimeUnit.InvalidTimeUnit)
    | QVariant.bool b => (if b then 1 else 0, defaultUnit)
    | QVariant.int i => (i, defaultUnit)
    | QVariant.uint u => (u, defaultUnit)
    | QVariant.longlong i => (i, defaultUnit)
    | QVariant.ulonglong u => (u, defaultUnit)
    | QVariant.double d => (d, defaultUnit)
    | _ => (0, TimeUnit.InvalidTimeUnit)
  if read.2 = TimeUnit.InvalidTimeUnit then (0, false)
  else (convertTime read.1 read.2 TimeUnit.Unit_Second, true)

/-! ## Live updates -/

/-- The structure `TleRecord`. -/
structure TleRecord where
  source : String
  name : String
  line1 : String
  line2 : String
deriving DecidableEq, Repr

/-- The function `TleKey`. -/
def TleKey (source name : String) : String := source ++ "!" ++ name

/-- Modelled from the spec: the class `TleTrajectory` (`TleTrajectory.h` is
not among the sources), a trajectory that wraps a two-line-element record:
it holds the state derived from the two lines, kept here as the list of its
numbers. -/
structure TleTrajectory where
  state : List ℚ
deriving DecidableEq, Repr

/-- Modelled from the spec: the method `TleTrajectory::copy`, which copies
the derived state of another trajectory into this one. -/
def TleTrajectory.copy (trajectory other : TleTrajectory) : TleTrajectory :=
  { trajectory with state := other.state }

/-- The members of `UniverseLoader` that the live updates read and write,
and the TLE trajectory objects that `m_tleTrajectories` points to.  An object
is at an address, its index in `trajectories`; the multi-hash
`m_tleTrajectories` holds a key and an address for every registered object,
the hash `m_tleCache` one record for a key. -/
structure LiveUpdates where
  m_tleCache : List (String × TleRecord)
  m_tleTrajectories : List (String × Nat)
  m_tleUpdates : List TleRecord
  m_resourceRequests : List String
  trajectories : List TleTrajectory
deriving DecidableEq, Repr

/-- The method `QHash::insert`: the value replaces the one the key had. -/
def hashInsert (hash : List (String × TleRecord)) (key : String) (value : TleRecord) :
    List (String × TleRecord) :=
  (key, value) :: hash.filter (fun entry => entry.1 != key)

/-- The method `QMultiHash::values(key)`: the addresses registered under a
key. -/
def hashValues (hash : List (String × Nat)) (key : String) : List Nat :=
  (hash.filter (fun entry => entry.1 == key)).map (fun entry => entry.2)

/-- The body of the inner loop of `processUpdates`, for the trajectory at
`address`: a temporary trajectory is created from the two lines of the
record, and when it is valid its state is copied into the trajectory, in
place; when it is not, a debug message is written and the trajectory is left
alone.  `create` is `TleTrajectory::Create`, which gives nothing for lines
that do not parse. -/
def updateTrajectory (create : String → String → Option TleTrajectory) (tleData : TleRecord)
    (trajectories : List TleTrajectory) (address : Nat) : List TleTrajectory :=
  match create tleData.line1 tleData.line2 with
  | some tempTle => trajectories.modify (fun trajectory => trajectory.copy tempTle) address
  | none => trajectories

/-- The body of the loop of `processUpdates`, for one pending record: it is
put in the cache and every trajectory registered under its key is
updated. -/
def processUpdate (create : String → String → Option TleTrajectory) (s : LiveUpdates)
    (tleData : TleRecord) : LiveUpdates :=
  let key := TleKey tleData.source tleData.name
  { s with
    m_tleCache := hashInsert s.m_tleCache key tleData
    trajectories :=
      (hashValues s.m_tleTrajectories key).foldl (updateTrajectory create tleData)
        s.trajectories }

/-- The method `UniverseLoader::processUpdates`. -/
def processUpdates (create : String → String → Option TleTrajectory) (s : LiveUpdates) :
    LiveUpdates :=
  { (s.m_tleUpdates.foldl (processUpdate create) s) with m_tleUpdates := [] }

/-- A `Create` for the examples: two lines that begin with "1 " and "2 " are
valid, and the state is the lengths of the lines. -/
def sampleCreate (line1 line2 : String) : Option TleTrajectory :=
  if line1.toList.take 2 == ['1', ' '] && line2.toList.take 2 == ['2', ' '] then
    some { state := [(line1.length : ℚ), (line2.length : ℚ)] }
  else none

/-- A loader with one TLE trajectory, registered under the source "a" and the
name "b!c", its record in the cache, and one pending record, for the source
"a!b" and the name "c". -/
def sampleLiveUpdates : LiveUpdates :=
  { m_tleCache := [(TleKey "a" "b!c", TleRecord.mk "a" "b!c" "1 25544U" "2 25544")]
    m_tleTrajectories := [(TleKey "a" "b!c", 0)]
    m_tleUpdates := [TleRecord.mk "a!b" "c" "1 00005U 58002B" "2 00005  34.2"]
    m_resourceRequests := []
    trajectories := [{ state := [8, 7] }] }

/-- A loader with three TLE trajectories, two registered for the name "ISS"
and one for the name "HST" of the source "celestrak", and two pending
records: lines that parse for "ISS" and lines that do not for "HST". -/
def sampleLiveUpdatesTwo : LiveUpdates :=
  { m_tleCache := []
    m_tleTrajectories := [(TleKey "celestrak" "ISS", 0), (TleKey "celestrak" "HST", 1),
      (TleKey "celestrak" "ISS", 2)]
    m_tleUpdates := [TleRecord.mk "celestrak" "ISS" "1 25544U 98067A" "2 25544  51.64",
      TleRecord.mk "celestrak" "HST" "garbled" ""]
    m_resourceRequests := ["celestrak"]
    trajectories := [{ state := [1] }, { state := [2] }, { state := [3] }] }

/-! ## Calendar dates -/

/-- A valid `QDateTime`, by the fields `dateValue` reads from it: the year,
the month and the day of `d.date()`, the hour, the minute, the second and the
millisecond of `d.time()`. -/
structure QDateTime where
  year : Nat
  month : Nat
  day : Nat
  hour : Nat
  minute : Nat
  second : Nat
  msec : Nat
deriving DecidableEq, Repr

/-- Modelled from the spec: the class `vesta::GregorianDate` (not among the
sources), a calendar date with the time of the day down to the microsecond;
`dateValue` builds it in the time scale TDB. -/
structure GregorianDate where
  year : Nat
  month : Nat
  day : Nat
  hour : Nat
  minute : Nat
  second : Nat
  usec : Nat
deriving DecidableEq, Repr

/-- Whether a year of the Gregorian calendar is a leap year. -/
def isLeapYear (year : Nat) : Bool :=
  (year % 4 == 0 && year % 100 != 0) || year % 400 == 0

/-- The days of a month of the Gregorian calendar. -/
def daysInMonth (year month : Nat) : Nat :=
  if month = 2 then (if isLeapYear year then 29 else 28)
  else if month = 4 ∨ month = 6 ∨ month = 9 ∨ month = 11 then 30
  else 31

/-- The days of the years before a year, from the year 0 on. -/
def daysBeforeYear : Nat → Nat
  | 0 => 0
  | year + 1 => daysBeforeYear year + (if isLeapYear year then 366 else 365)

/-- The days of the months of a year before a month. -/
def daysBeforeMonth (year : Nat) : Nat → Nat
  | 0 => 0
  | month + 1 => if month = 0 then 0 else daysBeforeMonth year month + daysInMonth year month

/-- The days of the Gregorian calendar from the beginning of the year 0 to a
date, the date counted. -/
def dayCount (year month day : Nat) : Nat :=
  daysBeforeYear year + daysBeforeMonth year month + day

/-- Modelled from the spec: the method `GregorianDate::toTDBSec` (not among
the sources), the Gregorian-to-continuous-time function: the seconds from
J2000, which is noon of 1 January 2000, to the date, by the days of the
Gregorian calendar between the two. -/
def GregorianDate.toTDBSec (date : GregorianDate) : ℚ :=
  ((dayCount date.year date.month date.day : ℚ) - (dayCount 2000 1 1 : ℚ)) * 86400
    + ((date.hour : ℚ) - 12) * 3600 + (date.minute : ℚ) * 60 + (date.second : ℚ)
    + (date.usec : ℚ) / 10 ^ 6

/-- The string branch of `dateValue`: the string is read by
`QDateTime::fromString(dateString, Qt::ISODate)`, which is `fromString` and
gives nothing for a string that is not a valid date, and the fields of the
date and of the time make a `GregorianDate`, with the milliseconds times 1000
as its microseconds, that `toTDBSec` converts. -/
def isoDateToSeconds (fromString : String → Option QDateTime) (dateString : String) :
    Option ℚ :=
  match fromString dateString with
  | some d =>
    some (GregorianDate.toTDBSec
      { year := d.year, month := d.month, day := d.day, hour := d.hour, minute := d.minute,
        second := d.second, usec := d.msec * 1000 })
  | none => none

/-- The Julian Day number of a day of the Gregorian calendar, by the formula
of Fliegel and Van Flandern; the Julian Day of the noon of the day. -/
def julianDayNumber (year month day : Nat) : Nat :=
  let a := (14 - month) / 12
  let y := year + 4800 - a
  let m := month + 12 * a - 3
  day + (153 * m + 2) / 5 + 365 * y + y / 4 - y / 100 + y / 400 - 32045

/-- The Julian Day of an instant of the Gregorian calendar: the number of the
day and the fraction of a day since its noon. -/
def julianDay (d : QDateTime) : ℚ :=
  (julianDayNumber d.year d.month d.day : ℚ) + ((d.hour : ℚ) - 12) / 24 + (d.minute : ℚ) / 1440
    + (d.second : ℚ) / 86400 + (d.msec : ℚ) / 86400000

/-- A `fromString` for the examples, which reads the one form
`yyyy-MM-ddTHH:mm:ss`. -/
def sampleFromString (s : String) : Option QDateTime :=
  let cs := s.toList
  if cs.length = 19 ∧ cs.get? 4 = some '-' ∧ cs.get? 7 = some '-' ∧ cs.get? 10 = some 'T'
      ∧ cs.get? 13 = some ':' ∧ cs.get? 16 = some ':' then
    some { year := digitsValue (cs.take 4), month := digitsValue ((cs.drop 5).take 2),
           day := digitsValue ((cs.drop 8).take 2), hour := digitsValue ((cs.drop 11).take 2),
           minute := digitsValue ((cs.drop 14).take 2),
           second := digitsValue ((cs.drop 17).take 2), msec := 0 }
  else none

/-- Builders that read dates with `sampleFromString` and build nothing. -/
def sampleDateBuilders : Builders :=
  { Builders.none with isoDateToSeconds := isoDateToSeconds sampleFromString }

end Cosmographia

namespace Cosmographia

/-! ## The operations of the live updates -/

/-- The method `UniverseLoader::updateTle`: the record goes to the end of the
pending queue. -/
def updateTle (s : LiveUpdates) (source name line1 line2 : String) : LiveUpdates :=
  { s with m_tleUpdates := s.m_tleUpdates ++ [TleRecord.mk source name line1 line2] }

/-- The method `QSet::insert`. -/
def setInsert (set : List String) (value : String) : List String :=
  if set.contains value then set else set ++ [value]

/-- The method `UniverseLoader::resourceRequests`. -/
def resourceRequests (s : LiveUpdates) : List String := s.m_resourceRequests

/-- The method `UniverseLoader::clearResourceRequests`. -/
def clearResourceRequests (s : LiveUpdates) : LiveUpdates :=
  { s with m_resourceRequests := [] }

/-- The method `UniverseLoader::loadTleTrajectory`: the address of the new
trajectory (or null), the live-update members and the loader.  `create` is
`TleTrajectory::Create`; a trajectory that is created is a new object, at the
next free address. -/
def loadTleTrajectory (create : String → String → Option TleTrajectory) (builders : Builders)
    (info : QVariantMap) (s : LiveUpdates) (loader : UniverseLoader) :
    Option Nat × LiveUpdates × UniverseLoader :=
  let nameVar := info.value "name"
  let line1Var := info.value "line1"
  let line2Var := info.value "line2"
  let sourceVar := info.value "source"
  if !nameVar.isString then
    (none, s, loader.errorMessage "Bad or missing name for TLE trajectory")
  else if !line1Var.isString then
    (none, s, loader.errorMessage "Bad or missing first line (line1) for TLE trajectory")
  else if !line2Var.isString then
    (none, s, loader.errorMessage "Bad or missing second line (line2) for TLE trajectory")
  else
    let name := nameVar.toString builders
    let source := sourceVar.toString builders
    let key := if !source.isEmpty then TleKey source name else ""
    let cached := if !source.isEmpty then s.m_tleCache.lookup key else none
    let line1 :=
      match cached with
      | some cachedTle => cachedTle.line1
      | none => line1Var.toString builders
    let line2 :=
      match cached with
      | some cachedTle => cachedTle.line2
      | none => line2Var.toString builders
    let s :=
      if !source.isEmpty && cached.isNone then
        { s with m_resourceRequests := setInsert s.m_resourceRequests source }
      else s
    match create line1 line2 with
    | none => (none, s, loader.errorMessage ("Invalid TLE data for '" ++ name ++ "'"))
    | some tleTrajectory =>
      let address := s.trajectories.length
      let s := { s with trajectories := s.trajectories ++ [tleTrajectory] }
      let s :=
        if !key.isEmpty then
          { s with m_tleTrajectories := (key, address) :: s.m_tleTrajectories }
        else s
      (some address, s, loader)

/-- The operations of the loader on the live-update members, apart from
`clearResourceRequests`: an update that comes in, the drain, a TLE trajectory
that the catalog load builds, and the reading of the resource requests. -/
inductive LiveOperation where
  | updateTle (source name line1 line2 : String)
  | processUpdates
  | loadTleTrajectory (info : QVariantMap)
  | resourceRequests

/-- The live-update members and the loader after an operation. -/
def LiveOperation.run (create : String → String → Option TleTrajectory) (builders : Builders)
    (state : LiveUpdates × UniverseLoader) : LiveOperation → LiveUpdates × UniverseLoader
  | LiveOperation.updateTle source name line1 line2 =>
    (Cosmographia.updateTle state.1 source name line1 line2, state.2)
  | LiveOperation.processUpdates => (Cosmographia.processUpdates create state.1, state.2)
  | LiveOperation.loadTleTrajectory info =>
    (Cosmographia.loadTleTrajectory create builders info state.1 state.2).2
  | LiveOperation.resourceRequests => state

/-- The last pending record with a key, if there is one. -/
def lastPending (updates : List TleRecord) (key : String) : Option TleRecord :=
  updates.reverse.find? (fun r => TleKey r.source r.name == key)

/-- The live-update members of a loader that has loaded nothing. -/
def LiveUpdates.new : LiveUpdates :=
  { m_tleCache := [], m_tleTrajectories := [], m_tleUpdates := [], m_resourceRequests := [],
    trajectories := [] }

/-- A TLE trajectory definition with a source and its two lines. -/
def sampleTleInfo : QVariantMap :=
  [("type", QVariant.string "TLE"), ("name", QVariant.string "ISS"),
   ("source", QVariant.string "celestrak"), ("line1", QVariant.string "1 25544U 98067A"),
   ("line2", QVariant.string "2 25544  51.64")]

/-- A TLE trajectory definition with a source and no lines. -/
def sampleTleInfoNoLines : QVariantMap :=
  [("type", QVariant.string "TLE"), ("name", QVariant.string "ISS"),
   ("source", QVariant.string "celestrak")]

/-! ## Information on a body -/

/-- The function `std::max`. -/
def std.max {α : Type} [LinearOrder α] (a b : α) : α := if a < b then b else a

/-- The function `std::min`. -/
def std.min {α : Type} [LinearOrder α] (a b : α) : α := if b < a then b else a

/-- A `Spectrum`: red, green and blue. -/
structure Spectrum where
  red : ℚ
  green : ℚ
  blue : ℚ
deriving DecidableEq, Repr

/-- The color `Spectrum::White()`. -/
def Spectrum.White : Spectrum := { red := 1, green := 1, blue := 1 }

/-- The conversions of Qt and of `BodyInfo` that the loaders of the body
information and of the particle emitters rely on. -/
structure ValueConversions where
  /-- The method `QString::toDouble`, or nothing when the text is not a
  number. -/
  stringToDouble : String → Option ℚ
  /-- The method `QString::toInt`, or nothing when the text is not an
  integer. -/
  stringToInt : String → Option Int
  /-- The integer a double converts to (`QVariant::toInt` of a double). -/
  doubleToInt : ℚ → Int
  /-- The color of a color name or of "#rrggbb" (`QVariant::value<QColor>()`,
  then `redF`, `greenF` and `blueF`). -/
  stringToColor : String → Spectrum
  /-- The function `BodyInfo::parseClassification`, the classification as a
  number. -/
  parseClassification : String → Nat

/-- The value an integer has as an `int` of 32 bits. -/
def toInt32 (i : Int) : Int := (i + 2 ^ 31) % 2 ^ 32 - 2 ^ 31

/-- The test `canConvert(QVariant::Int)`: booleans, numbers and strings
convert. -/
def QVariant.canConvertInt : QVariant → Bool
  | QVariant.bool _ => true
  | QVariant.int _ => true
  | QVariant.uint _ => true
  | QVariant.longlong _ => true
  | QVariant.ulonglong _ => true
  | QVariant.double _ => true
  | QVariant.string _ => true
  | _ => false

/-- The method `QVariant::toInt()`: an `int`; a string that is not an integer
gives 0, as does every variant that does not convert. -/
def QVariant.toInt (qt : ValueConversions) : QVariant → Int
  | QVariant.bool b => if b then 1 else 0
  | QVariant.int i => toInt32 i
  | QVariant.uint u => toInt32 u
  | QVariant.longlong i => toInt32 i
  | QVariant.ulonglong u => toInt32 u
  | QVariant.double d => toInt32 (qt.doubleToInt d)
  | QVariant.string s => toInt32 ((qt.stringToInt s).getD 0)
  | _ => 0

/-- The function `doubleValue`: the double of a variant that converts, the
default otherwise. -/
def doubleValue (qt : ValueConversions) (v : QVariant) (defaultValue : ℚ) : ℚ :=
  match v with
  | QVariant.bool b => if b then 1 else 0
  | QVariant.int i => i
  | QVariant.uint u => u
  | QVariant.longlong i => i
  | QVariant.ulonglong u => u
  | QVariant.double d => d
  | QVariant.string s => (qt.stringToDouble s).getD defaultValue
  | _ => defaultValue

/-- The function `colorValue`. -/
def colorValue (qt : ValueConversions) (v : QVariant) (defaultValue : Spectrum) : Spectrum :=
  match v with
  | QVariant.list _ =>
    let vec := vec3Value qt.stringToDouble v
    if vec.2 then { red := vec.1.x, green := vec.1.y, blue := vec.1.z } else defaultValue
  | QVariant.string s => qt.stringToColor s
  | _ => defaultValue

/-- The fields of the class `BodyInfo` that `loadBodyInfo` writes. -/
structure BodyInfoData where
  classification : Nat
  description : String
  labelColor : Spectrum
  labelFadeSize : ℚ
  trajectoryPlotColor : Spectrum
  trajectoryPlotDuration : ℚ
  trajectoryPlotSamples : Nat
  trajectoryPlotFade : ℚ
  trajectoryPlotLead : ℚ
deriving DecidableEq, Repr

/-- The function `loadTrajectoryPlotInfo`. -/
def loadTrajectoryPlotInfo (qt : ValueConversions) (info : BodyInfoData) (plot : QVariantMap) :
    BodyInfoData :=
  let colorVar := plot.value "color"
  let durationVar := plot.value "duration"
  let sampleCountVar := plot.value "sampleCount"
  let fadeVar := plot.value "fade"
  let leadVar := plot.value "lead"
  let info :=
    if sampleCountVar.canConvertInt then
      let count := sampleCountVar.toInt qt
      { info with
        trajectoryPlotSamples := ((std.max 100 (std.min 50000 count)) % 2 ^ 32).toNat }
    else info
  let duration := (durationValue durationVar TimeUnit.Unit_Day 0).1
  let info := if duration != 0 then { info with trajectoryPlotDuration := duration } else info
  let info :=
    if leadVar.isValid then
      { info with trajectoryPlotLead := (durationValue leadVar TimeUnit.Unit_Day 0).1 }
    else info
  let info :=
    if fadeVar.canConvertDouble then
      { info with
        trajectoryPlotFade := std.max 0 (std.min 1 (fadeVar.toDouble qt.stringToDouble)) }
    else info
  if colorVar.isValid then
    { info with trajectoryPlotColor := colorValue qt colorVar Spectrum.White }
  else info

/-- The function `loadLabelInfo`. -/
def loadLabelInfo (qt : ValueConversions) (info : BodyInfoData) (map : QVariantMap) :
    BodyInfoData :=
  let colorVar := map.value "color"
  let labelFadeSizeVar := map.value "fadeSize"
  let info :=
    if colorVar.isValid then { info with labelColor := colorValue qt colorVar Spectrum.White }
    else info
  if labelFadeSizeVar.isValid then
    { info with labelFadeSize := doubleValue qt labelFadeSizeVar 0 }
  else info

/-- The function `loadBodyInfo`; `defaults` holds the values the constructor
`BodyInfo()` gives. -/
def loadBodyInfo (qt : ValueConversions) (defaults : BodyInfoData) (item : QVariantMap) :
    BodyInfoData :=
  let info := defaults
  let info :=
    match item.value "class" with
    | QVariant.string s => { info with classification := qt.parseClassification s }
    | _ => info
  let info :=
    match item.value "description" with
    | QVariant.string s => { info with description := s }
    | _ => info
  let info :=
    match item.value "label" with
    | QVariant.map m => loadLabelInfo qt info m
    | _ => info
  let info := { info with trajectoryPlotColor := info.labelColor }
  match item.value "trajectoryPlot" with
  | QVariant.map trajectoryPlot => loadTrajectoryPlotInfo qt info trajectoryPlot
  | _ => info

/-! ## The color ramp of a particle emitter -/

/-- The local variables of the color ramp in `loadParticleEmitter`: the
arrays `colors[5]` and `opacities[5]` (an element that has not been written
holds nothing) and `colorCount`. -/
structure ColorRamp where
  colors : List (Option Spectrum)
  opacities : List (Option ℚ)
  colorCount : Nat
deriving DecidableEq, Repr

/-- The assignment `array[i] = value` to an array of fixed size: nothing when
the index is not below the size of the array, where the write is outside the
array. -/
def arrayWrite {α : Type} (array : List α) (i : Nat) (value : α) : Option (List α) :=
  if i < array.length then some (array.set i value) else none

/-- The loop `for (i = 0; i < colorCount; ++i)` over the color ramp, with
`remaining = colorCount - i`: the two writes of each turn; the error is the
index of a write outside the arrays. -/
def loadColorRampLoop (qt : ValueConversions) (colorsList : List QVariant) :
    Nat → Nat → ColorRamp → Except Nat ColorRamp
  | 0, _, ramp => Except.ok ramp
  | remaining + 1, i, ramp =>
    match arrayWrite ramp.colors i
        (some (colorValue qt (colorsList.getD (i * 2) QVariant.invalid) Spectrum.White)),
      arrayWrite ramp.opacities i
        (some (doubleValue qt (colorsList.getD (i * 2 + 1) QVariant.invalid) 1)) with
    | some colors, some opacities =>
      loadColorRampLoop qt colorsList remaining (i + 1)
        { ramp with colors := colors, opacities := opacities }
    | _, _ => Except.error i

/-- The color ramp part of `loadParticleEmitter`, up to the call of
`setColorCount`: the arrays and the color count, or the index of a write
outside the arrays. -/
def loadColorRamp (qt : ValueConversions) (colorsVar : QVariant) : Except Nat ColorRamp :=
  let ramp : ColorRamp :=
    { colors := [some Spectrum.White, none, none, none, none]
      opacities := [some 1, none, none, none, none]
      colorCount := 1 }
  match colorsVar with
  | QVariant.list colorsList =>
    let colorCount := colorsList.length % 2 ^ 32 / 2
    loadColorRampLoop qt colorsList colorCount 0 { ramp with colorCount := colorCount }
  | _ => Except.ok ramp

/-! ## The arcs of the earlier loader -/

/-- The builders of the earlier loader (`trunk/src/main/UniverseLoader.cpp`)
that `loadArc` calls; they report to `qDebug`, there is no message log. -/
structure LegacyBuilders where
  loadTrajectory : QVariantMap → Option Trajectory
  loadRotationModel : QVariantMap → Option RotationModel
  loadFrame : QVariantMap → Universe → Option EngineObject

/-- The function `loadInertialFrame` of the earlier loader. -/
def Legacy.loadInertialFrame (name : String) : Option Frame :=
  if name == "EclipticJ2000" then some Frame.eclipticJ2000
  else if name == "EquatorJ2000" then some Frame.equatorJ2000
  else if name == "EquatorB1950" then some Frame.equatorB1950
  else if name == "ICRF" then some Frame.icrf
  else none

/-- The method `UniverseLoader::loadArc` of the earlier loader. -/
def Legacy.loadArc (builders : LegacyBuilders) (map : QVariantMap) (world : Universe) :
    Option Arc :=
  let centerData := map.value "center"
  let trajectoryData := map.value "trajectory"
  let rotationModelData := map.value "rotationModel"
  let trajectoryFrameData := map.value "trajectoryFrame"
  let bodyFrameData := map.value "bodyFrame"
  let arc := { Arc.new with duration := daysToSeconds (100 * (36525 / 100)) }
  match centerData with
  | QVariant.string centerName =>
    let arc := { arc with center := world.catalog.find centerName }
    let arc :=
      match trajectoryData with
      | QVariant.map m =>
        match builders.loadTrajectory m with
        | some trajectory => { arc with trajectory := some trajectory }
        | none => arc
      | _ => arc
    let arc :=
      match rotationModelData with
      | QVariant.map m =>
        match builders.loadRotationModel m with
        | some rotationModel => { arc with rotationModel := some rotationModel }
        | none => arc
      | _ => arc
    let arc :=
      match trajectoryFrameData with
      | QVariant.string name =>
        match Legacy.loadInertialFrame name with
        | some frame => { arc with trajectoryFrame := some frame }
        | none => arc
      | QVariant.map m =>
        match builders.loadFrame m world with
        | some frame => { arc with trajectoryFrame := some (Frame.constructed frame) }
        | none => arc
      | _ => arc
    let arc :=
      match bodyFrameData with
      | QVariant.string name =>
        match Legacy.loadInertialFrame name with
        | some frame => { arc with trajectoryFrame := some frame }
        | none => arc
      | QVariant.map m =>
        match builders.loadFrame m world with
        | some frame => { arc with bodyFrame := some (Frame.constructed frame) }
        | none => arc
      | _ => arc
    some arc
  | _ => none

/-! ## More closed examples -/

/-- Conversions that convert no text. -/
def ValueConversions.none : ValueConversions :=
  { stringToDouble := fun _ => Option.none
    stringToInt := fun _ => Option.none
    doubleToInt := fun d => Rat.floor d
    stringToColor := fun _ => { red := 0, green := 0, blue := 0 }
    parseClassification := fun _ => 0 }

/-- The values of a `BodyInfo` for the examples: white colors, zero in the
other fields. -/
def sampleBodyInfo : BodyInfoData :=
  { classification := 0, description := "", labelColor := Spectrum.White, labelFadeSize := 0,
    trajectoryPlotColor := Spectrum.White, trajectoryPlotDuration := 0,
    trajectoryPlotSamples := 0, trajectoryPlotFade := 0, trajectoryPlotLead := 0 }

/-- A body item whose trajectory plot asks for 7 samples and a fade of 5/2. -/
def sampleItemPlot : QVariantMap :=
  [("name", QVariant.string "Earth"), ("center", QVariant.string "Sun"),
   ("trajectoryPlot", QVariant.map
      [("sampleCount", QVariant.int 7), ("fade", QVariant.double (5 / 2))])]

/-- A color ramp of six pairs of a color and an opacity, twelve values. -/
def sampleColors : QVariant :=
  QVariant.list
    [QVariant.string "#ff0000", QVariant.double 0, QVariant.string "#ff8000", QVariant.double 1,
     QVariant.string "#ffff00", QVariant.double 1, QVariant.string "#00ff00", QVariant.double 1,
     QVariant.string "#0000ff", QVariant.double 1, QVariant.string "#ff00ff", QVariant.double 0]

/-- Builders of the earlier loader that build nothing. -/
def LegacyBuilders.none : LegacyBuilders :=
  { loadTrajectory := fun _ => Option.none
    loadRotationModel := fun _ => Option.none
    loadFrame := fun _ _ => Option.none }

/-- An arc whose trajectory frame and body frame are named inertial frames. -/
def sampleArcFrames : QVariantMap :=
  [("center", QVariant.string "Sun"), ("trajectoryFrame", QVariant.string "EclipticJ2000"),
   ("bodyFrame", QVariant.string "EquatorJ2000")]

/-- The header fields of a file whose slots 0..10 have 65536 coefficients in
65536 granules and whose slot 11 has none: start day 2451545.0, end day
2451609.0, 32 days per record, ephemeris number 406. -/
def overflowFields : List Byte :=
  [0x41, 0x42, 0xB4, 0x2C, 0x80, 0, 0, 0,
   0x41, 0x42, 0xB4, 0x4C, 0x80, 0, 0, 0,
   0x40, 0x40, 0, 0, 0, 0, 0, 0]
    ++ List.replicate 20 0
    ++ (List.replicate 11 [0, 0, 0, 1, 0, 1, 0, 0, 0, 1, 0, 0]).flatten
    ++ [0, 0, 0, 1, 0, 0, 0, 0, 0, 0, 0, 0]
    ++ [0, 0, 1, 0x96]

/-- A file with the header fields `overflowFields` and two records that hold
a time pair each and no coefficient. -/
def overflowFile : List Byte :=
  List.replicate 2652 0 ++ (overflowFields ++ (List.replicate 8804 0 ++ List.replicate 32 0))

/-- Builders whose trajectory builder knows no type: it returns null and logs
the message of `loadTrajectory` for an unknown type. -/
def Builders.unknownTypes : Builders :=
  { Builders.none with
    loadTrajectory := fun map _ _ =>
      (Option.none,
        ["Unknown trajectory type '" ++ (map.value "type").toString Builders.none ++ "'"]) }

/-- A body item whose trajectory has an unknown type. -/
def sampleItemBogus : QVariantMap :=
  [("name", QVariant.string "Probe"), ("center", QVariant.string "Sun"),
   ("trajectory", QVariant.map [("type", QVariant.string "Bogus")])]

end Cosmographia

namespace Cosmographia

/-! ## Lemmas on the stream operations -/

theorem Decoder.bind_eq_some {α β : Type} (m : Decoder α) (f : α → Decoder β)
    (s : QDataStream) (r : β × QDataStream) :
    (m >>= f) s = some r ↔ ∃ a s1, m s = some (a, s1) ∧ f a s1 = some r := by
  show Decoder.andThen m f s = some r ↔ _
  unfold Decoder.andThen
  cases h : m s with
  | none => simp
  | some p =>
    obtain ⟨a, s1⟩ := p
    constructor
    · intro hf; exact ⟨a, s1, rfl, hf⟩
    · rintro ⟨a', s1', heq, hf⟩
      simp only [Option.some.injEq, Prod.mk.injEq] at heq
      obtain ⟨rfl, rfl⟩ := heq
      exact hf

theorem Decoder.pure_eq_some {α : Type} (a : α) (s : QDataStream) (r : α × QDataStream) :
    (pure a : Decoder α) s = some r ↔ r = (a, s) := by
  show some (a, s) = some r ↔ _
  constructor
  · intro h; exact (Option.some.inj h).symm
  · intro h; rw [h]

theorem checkStatus_eq_some {s : QDataStream} {r : Unit × QDataStream} :
    checkStatus s = some r ↔ s.ok = true ∧ r = ((), s) := by
  unfold checkStatus
  by_cases h : s.ok = true
  · simp [h, eq_comm]
  · simp [h]

theorem readRawData_ok {n : Nat} {s s' : QDataStream} {bs : List Byte}
    (h : readRawData n s = some (bs, s')) (hok : s'.ok = true) :
    s.ok = true ∧ s' = { s with pos := s.pos + n } ∧ s.pos + n ≤ s.device.length ∧
      bs = (s.device.drop s.pos).take n := by
  unfold readRawData at h
  by_cases hle : s.pos + n ≤ s.device.length
  · simp only [hle, if_true, Option.some.injEq, Prod.mk.injEq] at h
    obtain ⟨h1, h2⟩ := h
    subst h1 h2
    exact ⟨hok, rfl, hle, rfl⟩
  · simp only [hle, if_false, Option.some.injEq, Prod.mk.injEq] at h
    obtain ⟨_, h2⟩ := h
    subst h2
    simp at hok

theorem skipRawData_ok {n : Nat} {s s' : QDataStream} {u : Unit}
    (h : skipRawData n s = some (u, s')) :
    s' = { s with pos := min (s.pos + n) s.device.length } := by
  unfold skipRawData at h
  simp only [Option.some.injEq, Prod.mk.injEq] at h
  exact h.2.symm

theorem readUInt32_ok {s s' : QDataStream} {v : Nat}
    (h : readUInt32 s = some (v, s')) (hok : s'.ok = true) :
    s.ok = true ∧ s' = { s with pos := s.pos + 4 } ∧ s.pos + 4 ≤ s.device.length ∧
      v = uint32At s.device s.pos := by
  unfold readUInt32 at h
  rw [Decoder.bind_eq_some] at h
  obtain ⟨bs, s1, h1, h2⟩ := h
  rw [Decoder.pure_eq_some] at h2
  simp only [Prod.mk.injEq] at h2
  obtain ⟨rfl, rfl⟩ := h2
  obtain ⟨a, b, c, rfl⟩ := readRawData_ok h1 hok
  exact ⟨a, b, c, rfl⟩

theorem readInt32_ok {s s' : QDataStream} {v : Int}
    (h : readInt32 s = some (v, s')) (hok : s'.ok = true) :
    s.ok = true ∧ s' = { s with pos := s.pos + 4 } ∧ s.pos + 4 ≤ s.device.length ∧
      v = (if uint32At s.device s.pos < 2 ^ 31 then (uint32At s.device s.pos : Int)
            else (uint32At s.device s.pos : Int) - 2 ^ 32) := by
  unfold readInt32 at h
  rw [Decoder.bind_eq_some] at h
  obtain ⟨bs, s1, h1, h2⟩ := h
  rw [Decoder.pure_eq_some] at h2
  simp only [Prod.mk.injEq] at h2
  obtain ⟨rfl, rfl⟩ := h2
  obtain ⟨a, b, c, rfl⟩ := readRawData_ok h1 hok
  exact ⟨a, b, c, rfl⟩

theorem readDouble_ok {s s' : QDataStream} {v : ℚ}
    (h : readDouble s = some (v, s')) (hok : s'.ok = true) :
    s.ok = true ∧ s' = { s with pos := s.pos + 8 } ∧ s.pos + 8 ≤ s.device.length ∧
      v = doubleAt s.device s.pos := by
  unfold readDouble at h
  rw [Decoder.bind_eq_some] at h
  obtain ⟨bs, s1, h1, h2⟩ := h
  rw [Decoder.pure_eq_some] at h2
  simp only [Prod.mk.injEq] at h2
  obtain ⟨rfl, rfl⟩ := h2
  obtain ⟨a, b, c, rfl⟩ := readRawData_ok h1 hok
  exact ⟨a, b, c, rfl⟩

theorem readCoeffInfo_ok : ∀ (n : Nat) (s s' : QDataStream) (infos : List JplEphCoeffInfo),
    readCoeffInfo n s = some (infos, s') → s'.ok = true → s.pos ≤ s.device.length →
    s.ok = true ∧ s' = { s with pos := s.pos + 12 * n } ∧ s.pos + 12 * n ≤ s.device.length ∧
      infos = (List.range n).map (fun i => coeffInfoAt s.device (s.pos + 12 * i))
  | 0 => by
    intro s s' infos h hok hpos
    simp only [readCoeffInfo, Decoder.pure_eq_some, Prod.mk.injEq] at h
    obtain ⟨rfl, rfl⟩ := h
    exact ⟨hok, rfl, by simpa using hpos, by simp⟩
  | n + 1 => by
    intro s s' infos h hok hpos
    simp only [readCoeffInfo, Decoder.bind_eq_some, Decoder.pure_eq_some] at h
    obtain ⟨offset, s1, h1, coeffCount, s2, h2, granuleCount, s3, h3, u, s4, h4, rest, s5, h5, h6⟩ := h
    simp only [Prod.mk.injEq] at h6
    obtain ⟨rfl, rfl⟩ := h6
    obtain ⟨hok3, h4'⟩ := checkStatus_eq_some.mp h4
    simp only [Prod.mk.injEq] at h4'
    obtain ⟨-, rfl⟩ := h4'
    obtain ⟨hok2, rfl, hle3, rfl⟩ := readUInt32_ok h3 hok3
    obtain ⟨hok1, rfl, hle2, rfl⟩ := readUInt32_ok h2 hok2
    obtain ⟨hok0, rfl, hle1, rfl⟩ := readUInt32_ok h1 hok1
    dsimp only at hle1 hle2 hle3 h5
    obtain ⟨-, rfl, hle5, rfl⟩ := readCoeffInfo_ok n _ _ _ h5 hok hle3
    dsimp only at hle5
    refine ⟨hok0, ?_, ?_, ?_⟩
    · simp only [QDataStream.mk.injEq, true_and, and_true]; omega
    · omega
    · rw [List.range_succ_eq_map, List.map_cons, List.map_map]
      simp only [coeffInfoAt, Nat.mul_zero, Nat.add_zero, List.cons.injEq, true_and]
      apply List.map_congr_left
      intro i _
      simp only [Function.comp, Nat.succ_eq_add_one]
      have e : s.pos + 4 + 4 + 4 + 12 * i = s.pos + 12 * (i + 1) := by omega
      rw [e]

theorem readCoeffInfo_status : ∀ (n : Nat) (s s' : QDataStream) (infos : List JplEphCoeffInfo),
    readCoeffInfo n s = some (infos, s') → s.ok = true → s'.ok = true
  | 0 => by
    intro s s' infos h hok
    simp only [readCoeffInfo, Decoder.pure_eq_some, Prod.mk.injEq] at h
    obtain ⟨-, rfl⟩ := h
    exact hok
  | n + 1 => by
    intro s s' infos h _
    simp only [readCoeffInfo, Decoder.bind_eq_some, Decoder.pure_eq_some] at h
    obtain ⟨offset, s1, h1, coeffCount, s2, h2, granuleCount, s3, h3, u, s4, h4, rest, s5, h5,
      h6⟩ := h
    simp only [Prod.mk.injEq] at h6
    obtain ⟨-, rfl⟩ := h6
    obtain ⟨hok3, h4'⟩ := checkStatus_eq_some.mp h4
    simp only [Prod.mk.injEq] at h4'
    obtain ⟨-, rfl⟩ := h4'
    exact readCoeffInfo_status n _ _ _ h5 hok3

/-- The status check of the last slot leaves the stream with the status `Ok`. -/
theorem readCoeffInfo_succ_status (n : Nat) (s s' : QDataStream) (infos : List JplEphCoeffInfo)
    (h : readCoeffInfo (n + 1) s = some (infos, s')) : s'.ok = true := by
  simp only [readCoeffInfo, Decoder.bind_eq_some, Decoder.pure_eq_some] at h
  obtain ⟨offset, s1, h1, coeffCount, s2, h2, granuleCount, s3, h3, u, s4, h4, rest, s5, h5,
    h6⟩ := h
  simp only [Prod.mk.injEq] at h6
  obtain ⟨-, rfl⟩ := h6
  obtain ⟨hok3, h4'⟩ := checkStatus_eq_some.mp h4
  simp only [Prod.mk.injEq] at h4'
  obtain ⟨-, rfl⟩ := h4'
  exact readCoeffInfo_status n _ _ _ h5 hok3

/-- A `qint32` that is read as a value other than 0 has been read in full: a
read past the end gives 0. -/
theorem readInt32_nonzero {s s' : QDataStream} {v : Int}
    (h : readInt32 s = some (v, s')) (hv : v ≠ 0) :
    s.pos + 4 ≤ s.device.length ∧ s' = { s with pos := s.pos + 4 } ∧
      v = (if uint32At s.device s.pos < 2 ^ 31 then (uint32At s.device s.pos : Int)
            else (uint32At s.device s.pos : Int) - 2 ^ 32) := by
  unfold readInt32 at h
  rw [Decoder.bind_eq_some] at h
  obtain ⟨bs, s1, h1, h2⟩ := h
  rw [Decoder.pure_eq_some] at h2
  simp only [Prod.mk.injEq] at h2
  obtain ⟨rfl, rfl⟩ := h2
  unfold readRawData at h1
  by_cases hle : s.pos + 4 ≤ s.device.length
  · simp only [hle, if_true, Option.some.injEq, Prod.mk.injEq] at h1
    obtain ⟨rfl, rfl⟩ := h1
    exact ⟨hle, rfl, rfl⟩
  · simp only [hle, if_false, Option.some.injEq, Prod.mk.injEq] at h1
    obtain ⟨rfl, -⟩ := h1
    exact absurd (by decide) hv

/-! ## Lemmas on the coefficient vectors -/

theorem pushBack_length (oc : List (List ℚ)) (i : Nat) (xs : List ℚ) :
    (pushBack oc i xs).length = oc.length := by
  induction oc generalizing i with
  | nil => cases i <;> rfl
  | cons v vs ih =>
    cases i with
    | zero => rfl
    | succ i => simp [pushBack, ih]

theorem pushBack_nil (oc : List (List ℚ)) (i : Nat) : pushBack oc i [] = oc := by
  induction oc generalizing i with
  | nil => cases i <;> rfl
  | cons v vs ih =>
    cases i with
    | zero => simp [pushBack]
    | succ i => simp [pushBack, ih]

theorem pushBack_pushBack (oc : List (List ℚ)) (i : Nat) (xs ys : List ℚ) :
    pushBack (pushBack oc i xs) i ys = pushBack oc i (xs ++ ys) := by
  induction oc generalizing i with
  | nil => cases i <;> rfl
  | cons v vs ih =>
    cases i with
    | zero => simp [pushBack]
    | succ i => simp [pushBack, ih]

theorem pushBack_append (done : List (List ℚ)) (v : List ℚ) (vs : List (List ℚ)) (xs : List ℚ) :
    pushBack (done ++ v :: vs) done.length xs = done ++ (v ++ xs) :: vs := by
  induction done with
  | nil => rfl
  | cons d ds ih => simp [pushBack, ih]

theorem range_map_add_three {α : Type} (f : Nat → α) (n : Nat) :
    (List.range (n + 3)).map f = f 0 :: f 1 :: f 2 :: (List.range n).map (fun t => f (t + 3)) := by
  rw [List.range_succ_eq_map, List.map_cons, List.map_map,
    List.range_succ_eq_map, List.map_cons, List.map_map,
    List.range_succ_eq_map, List.map_cons, List.map_map]
  rfl

theorem readRawData_pos {n : Nat} {s s' : QDataStream} {bs : List Byte}
    (h : readRawData n s = some (bs, s')) : s'.pos ≤ s'.device.length := by
  unfold readRawData at h
  by_cases hle : s.pos + n ≤ s.device.length
  · simp only [hle, if_true, Option.some.injEq, Prod.mk.injEq] at h
    obtain ⟨_, h2⟩ := h
    subst h2
    exact hle
  · simp only [hle, if_false, Option.some.injEq, Prod.mk.injEq] at h
    obtain ⟨_, h2⟩ := h
    subst h2
    exact Nat.le_refl _

theorem readDouble_pos {s s' : QDataStream} {v : ℚ}
    (h : readDouble s = some (v, s')) : s'.pos ≤ s'.device.length := by
  unfold readDouble at h
  rw [Decoder.bind_eq_some] at h
  obtain ⟨bs, s1, h1, h2⟩ := h
  rw [Decoder.pure_eq_some] at h2
  simp only [Prod.mk.injEq] at h2
  obtain ⟨rfl, rfl⟩ := h2
  exact readRawData_pos h1

theorem readTriples_ok : ∀ (j idx : Nat) (oc : List (List ℚ)) (s s' : QDataStream)
    (r : List (List ℚ)),
    readTriples j idx oc s = some (r, s') → s'.ok = true → s.pos ≤ s.device.length →
    s.ok = true ∧ s' = { s with pos := s.pos + 24 * j } ∧ s.pos + 24 * j ≤ s.device.length ∧
      r = pushBack oc idx ((List.range (3 * j)).map (fun t => doubleAt s.device (s.pos + 8 * t)))
  | 0 => by
    intro idx oc s s' r h hok hpos
    simp only [readTriples, Decoder.pure_eq_some, Prod.mk.injEq] at h
    obtain ⟨rfl, rfl⟩ := h
    exact ⟨hok, rfl, by simpa using hpos, by simp [pushBack_nil]⟩
  | j + 1 => by
    intro idx oc s s' r h hok hpos
    simp only [readTriples, Decoder.bind_eq_some] at h
    obtain ⟨x, s1, h1, y, s2, h2, z, s3, h3, h4⟩ := h
    obtain ⟨hok3, rfl, hle4, rfl⟩ := readTriples_ok j idx _ s3 s' r h4 hok (readDouble_pos h3)
    obtain ⟨hok2, rfl, hle3, rfl⟩ := readDouble_ok h3 hok3
    obtain ⟨hok1, rfl, hle2, rfl⟩ := readDouble_ok h2 hok2
    obtain ⟨hok0, rfl, hle1, rfl⟩ := readDouble_ok h1 hok1
    dsimp only at hle1 hle2 hle3 hle4 ⊢
    refine ⟨hok0, ?_, ?_, ?_⟩
    · simp only [QDataStream.mk.injEq, true_and, and_true]; omega
    · omega
    · rw [pushBack_pushBack]
      have e : 3 * (j + 1) = 3 * j + 3 := by omega
      rw [e, range_map_add_three]
      have e2 : s.pos + 8 * 2 = s.pos + 8 + 8 := by omega
      have e3 : ∀ t, s.pos + 8 * (t + 3) = s.pos + 8 + 8 + 8 + 8 * t := by intro t; omega
      simp only [Nat.mul_zero, Nat.add_zero, List.cons_append, List.nil_append, Nat.mul_one,
        e2, e3]

theorem readTriples_shape : ∀ (j idx : Nat) (oc : List (List ℚ)) (s s' : QDataStream)
    (r : List (List ℚ)),
    readTriples j idx oc s = some (r, s') → s.pos ≤ s.device.length →
    s'.pos ≤ s'.device.length ∧ ∃ xs, r = pushBack oc idx xs
  | 0 => by
    intro idx oc s s' r h hpos
    simp only [readTriples, Decoder.pure_eq_some, Prod.mk.injEq] at h
    obtain ⟨rfl, rfl⟩ := h
    exact ⟨hpos, [], (pushBack_nil _ _).symm⟩
  | j + 1 => by
    intro idx oc s s' r h hpos
    simp only [readTriples, Decoder.bind_eq_some] at h
    obtain ⟨x, s1, h1, y, s2, h2, z, s3, h3, h4⟩ := h
    obtain ⟨hp, xs, rfl⟩ := readTriples_shape j idx _ s3 s' r h4 (readDouble_pos h3)
    exact ⟨hp, [x, y, z] ++ xs, pushBack_pushBack _ _ _ _⟩

/-- The vectors after the slot loop of one record: `done` are the slots
before `objectIndex`, each slot from `objectIndex` on grows by its data. -/
theorem readObjects_ok : ∀ (infos : List JplEphCoeffInfo) (done todo : List (List ℚ))
    (s s' : QDataStream) (r : List (List ℚ)),
    readObjects infos done.length (done ++ todo) s = some (r, s') → s'.ok = true →
    s.pos ≤ s.device.length → todo.length = infos.length →
    s.ok = true ∧ s' = { s with pos := s.pos + 24 * (infos.map tripleCount).sum } ∧
      s.pos + 24 * (infos.map tripleCount).sum ≤ s.device.length ∧
      r = done ++ List.zipWith (fun a b => a ++ b) todo (slotData s.device infos s.pos)
  | [] => by
    intro done todo s s' r h hok hpos hlen
    simp only [readObjects, Decoder.pure_eq_some, Prod.mk.injEq] at h
    obtain ⟨rfl, rfl⟩ := h
    have : todo = [] := List.length_eq_zero.mp (by simpa using hlen)
    subst this
    exact ⟨hok, rfl, by simpa using hpos, by simp [slotData]⟩
  | info :: rest => by
    intro done todo s s' r h hok hpos hlen
    cases todo with
    | nil => simp at hlen
    | cons v vs =>
      simp only [readObjects, Decoder.bind_eq_some] at h
      obtain ⟨oc1, s1, h1, h2⟩ := h
      obtain ⟨hpos1, xs, hxs⟩ := readTriples_shape _ _ _ _ _ _ h1 hpos
      rw [pushBack_append] at hxs
      have h2' : readObjects rest (done ++ [v ++ xs]).length ((done ++ [v ++ xs]) ++ vs) s1
          = some (r, s') := by
        rw [hxs] at h2
        simpa using h2
      have hlen' : vs.length = rest.length := by simpa using hlen
      obtain ⟨hok1, rfl, hle2, rfl⟩ := readObjects_ok rest _ vs s1 s' r h2' hok hpos1 hlen'
      obtain ⟨hok0, rfl, hle1, hr⟩ := readTriples_ok _ _ _ _ _ _ h1 hok1 hpos
      rw [pushBack_append] at hr
      rw [hr] at hxs
      have hx : xs = (List.range (3 * (info.coeffCount * info.granuleCount % 2 ^ 32))).map
          (fun t => doubleAt s.device (s.pos + 8 * t)) := by
        have := List.append_cancel_left hxs
        simp only [List.cons.injEq, and_true] at this
        exact (List.append_cancel_left this).symm
      subst hx
      dsimp only at hle1 hle2 ⊢
      refine ⟨hok0, ?_, ?_, ?_⟩
      · simp only [QDataStream.mk.injEq, true_and, and_true, List.map_cons, List.sum_cons,
          tripleCount]
        omega
      · simp only [List.map_cons, List.sum_cons, tripleCount]; omega
      · simp only [slotData, tripleCount, List.zipWith_cons_cons, List.append_assoc,
          List.singleton_append]

theorem readObjects_pos : ∀ (infos : List JplEphCoeffInfo) (idx : Nat) (oc : List (List ℚ))
    (s s' : QDataStream) (r : List (List ℚ)),
    readObjects infos idx oc s = some (r, s') → s.pos ≤ s.device.length →
    s'.pos ≤ s'.device.length ∧ r.length = oc.length
  | [] => by
    intro idx oc s s' r h hpos
    simp only [readObjects, Decoder.pure_eq_some, Prod.mk.injEq] at h
    obtain ⟨rfl, rfl⟩ := h
    exact ⟨hpos, rfl⟩
  | info :: rest => by
    intro idx oc s s' r h hpos
    simp only [readObjects, Decoder.bind_eq_some] at h
    obtain ⟨oc1, s1, h1, h2⟩ := h
    obtain ⟨hpos1, xs, rfl⟩ := readTriples_shape _ _ _ _ _ _ h1 hpos
    obtain ⟨hp, hl⟩ := readObjects_pos rest _ _ _ _ _ h2 hpos1
    exact ⟨hp, by rw [hl, pushBack_length]⟩

theorem zipWith_append_replicate_nil (oc : List (List ℚ)) :
    List.zipWith (fun a b => a ++ b) oc (List.replicate oc.length []) = oc := by
  induction oc with
  | nil => rfl
  | cons v vs ih => simp [List.replicate_succ, ih]

theorem zipWith_append_assoc : ∀ (a b c : List (List ℚ)),
    List.zipWith (fun x y => x ++ y) (List.zipWith (fun x y => x ++ y) a b) c =
      List.zipWith (fun x y => x ++ y) a (List.zipWith (fun x y => x ++ y) b c)
  | [], _, _ => by simp
  | _ :: _, [], _ => by simp
  | _ :: _, _ :: _, [] => by simp
  | x :: a, y :: b, z :: c => by simp [zipWith_append_assoc a b c]

theorem readRecords_ok : ∀ (n : Nat) (infos : List JplEphCoeffInfo) (oc : List (List ℚ))
    (s s' : QDataStream) (r : List (List ℚ)),
    readRecords n infos oc s = some (r, s') → s.ok = true → s.pos ≤ s.device.length →
    oc.length = infos.length →
    s' = { s with pos := s.pos + n * (16 + 24 * (infos.map tripleCount).sum) } ∧
      s.pos + n * (16 + 24 * (infos.map tripleCount).sum) ≤ s.device.length ∧
      r = List.zipWith (fun a b => a ++ b) oc (recordsData s.device infos n s.pos)
  | 0 => by
    intro infos oc s s' r h hok hpos hlen
    simp only [readRecords, Decoder.pure_eq_some, Prod.mk.injEq] at h
    obtain ⟨rfl, rfl⟩ := h
    refine ⟨by simp, by simpa using hpos, ?_⟩
    rw [recordsData, ← hlen, zipWith_append_replicate_nil]
  | n + 1 => by
    intro infos oc s s' r h hok hpos hlen
    simp only [readRecords, Decoder.bind_eq_some] at h
    obtain ⟨t0, s1, h1, t1, s2, h2, oc3, s3, h3, u, s4, h4, h5⟩ := h
    obtain ⟨hok3, h4'⟩ := checkStatus_eq_some.mp h4
    simp only [Prod.mk.injEq] at h4'
    obtain ⟨-, rfl⟩ := h4'
    obtain ⟨hok2, rfl, hle3, hr3⟩ := readObjects_ok infos [] oc s2 _ oc3 h3 hok3
      (readDouble_pos h2) hlen
    obtain ⟨hok1, rfl, hle2, -⟩ := readDouble_ok h2 hok2
    obtain ⟨-, rfl, hle1, -⟩ := readDouble_ok h1 hok1
    dsimp only at hle1 hle2 hle3 hr3 h5 hok3
    have hlen3 : oc3.length = infos.length := by
      rw [(readObjects_pos _ _ _ _ _ _ h3 (readDouble_pos h2)).2, hlen]
    obtain ⟨rfl, hle5, rfl⟩ := readRecords_ok n infos oc3 _ s' r h5 hok3 hle3 hlen3
    dsimp only at hle5 ⊢
    refine ⟨?_, ?_, ?_⟩
    · simp only [QDataStream.mk.injEq, true_and, and_true]
      rw [Nat.add_mul]; omega
    · rw [Nat.add_mul]; omega
    · rw [hr3, List.nil_append, zipWith_append_assoc, recordsData]
      have e : s.pos + 8 + 8 + 24 * (infos.map tripleCount).sum
          = s.pos + (16 + 24 * (infos.map tripleCount).sum) := by omega
      have e2 : s.pos + 8 + 8 = s.pos + 16 := by omega
      rw [e, e2]

theorem recordsData_zero (c : List Byte) (infos : List JplEphCoeffInfo) (p q : Nat) :
    recordsData c infos 0 p = recordsData c infos 0 q := rfl

/-- What a successful `loadStream` has read: the header up to the ephemeris
number lies inside the file, and so do the records when there are any. -/
theorem loadStream_ok (platform : Platform) (c : List Byte) (eph : JPLEphemeris)
    (s' : QDataStream)
    (h : loadStream platform { device := c, pos := 0, ok := true } = some (eph, s')) :
    s' = { device := c, pos := min (requiredSize platform c) c.length, ok := true } ∧
      2844 ≤ c.length ∧
      (headerRecordCount platform c ≠ 0 → requiredSize platform c ≤ c.length) ∧
      headerEphemNumber c = 406 ∧
      eph = buildEphemeris (headerCoeffTable c)
        (List.zipWith (fun a b => a ++ b) (List.replicate JplEph_ObjectCount [])
          (recordsData c (headerCoeffTable c) (headerRecordCount platform c) 11648))
        (headerRecordCount platform c) (daysToSeconds (headerStartJd c - J2000))
        (daysToSeconds (headerDaysPerRecord c)) := by
  simp only [loadStream, Decoder.bind_eq_some] at h
  obtain ⟨u1, s1, h1, u2, s2, h2, u3, s3, h3, u4, s4, h4, startJd, s5, h5, endJd, s6, h6,
    daysPerRecord, s7, h7, u8, s8, h8, u9, s9, h9, kmPerAu, s10, h10, emrat, s11, h11,
    coeffInfo, s12, h12, ephemNumber, s13, h13, h14⟩ := h
  by_cases hnum : ephemNumber = 406
  swap
  · simp [hnum, returnNull] at h14
  simp only [hnum, ne_eq, not_true_eq_false, if_false, Decoder.bind_eq_some,
    Decoder.pure_eq_some, Prod.mk.injEq] at h14
  obtain ⟨u14, s14, h14a, u15, s15, h15, u16, s16, h16, u17, s17, h17, u18, s18, h18,
    objectCoeffs, s19, h19, rfl, rfl⟩ := h14
  -- the skips and the status checks of the header, in the order of the code
  have e1 := skipRawData_ok h1
  subst e1
  obtain ⟨-, e2⟩ := checkStatus_eq_some.mp h2
  simp only [Prod.mk.injEq] at e2
  obtain ⟨-, rfl⟩ := e2
  have e3 := skipRawData_ok h3
  subst e3
  obtain ⟨-, e4⟩ := checkStatus_eq_some.mp h4
  simp only [Prod.mk.injEq] at e4
  obtain ⟨-, rfl⟩ := e4
  -- the three doubles are checked right after they are read
  obtain ⟨hok7, e8⟩ := checkStatus_eq_some.mp h8
  simp only [Prod.mk.injEq] at e8
  obtain ⟨-, rfl⟩ := e8
  obtain ⟨hok6, rfl, hle7, rfl⟩ := readDouble_ok h7 hok7
  obtain ⟨hok5, rfl, hle6, rfl⟩ := readDouble_ok h6 hok6
  obtain ⟨-, rfl, hle5, rfl⟩ := readDouble_ok h5 hok5
  have e9 := skipRawData_ok h9
  subst e9
  -- the slots are checked one by one; the ephemeris number is 406 only if it was read
  have hok12 : s12.ok = true := readCoeffInfo_succ_status 11 _ _ _ h12
  obtain ⟨hle13, rfl, rfl⟩ := readInt32_nonzero h13 (by rw [hnum]; decide)
  obtain ⟨hok11, rfl, hle12, rfl⟩ := readCoeffInfo_ok _ _ _ _ h12 hok12 (readDouble_pos h11)
  obtain ⟨hok10, rfl, hle11, -⟩ := readDouble_ok h11 hok11
  obtain ⟨-, rfl, hle10, -⟩ := readDouble_ok h10 hok10
  have e14 := skipRawData_ok h14a
  subst e14
  obtain ⟨-, e15⟩ := checkStatus_eq_some.mp h15
  simp only [Prod.mk.injEq] at e15
  obtain ⟨-, rfl⟩ := e15
  have e16 := skipRawData_ok h16
  subst e16
  have e17 := skipRawData_ok h17
  subst e17
  obtain ⟨-, e18⟩ := checkStatus_eq_some.mp h18
  simp only [Prod.mk.injEq] at e18
  obtain ⟨-, rfl⟩ := e18
  simp only [JplEph_LabelSize, JplEph_ConstantCount, JplEph_ConstantNameLength,
    JplEph_ObjectCount, DE406_RecordSize, Nat.reduceMul, Nat.reduceAdd, Nat.reduceSub,
    Nat.zero_add] at *
  have hp2652 : min (min 252 c.length + 2400) c.length = 2652 := by omega
  rw [hp2652] at hle5 hle6 hle7 hle10 hle11 hle12 hle13 h19 hnum ⊢
  simp only [Nat.reduceAdd] at hle5 hle6 hle7 hle10 hle11 hle12 hle13 h19 hnum ⊢
  have hp2680 : min 2680 c.length = 2680 := by omega
  rw [hp2680] at hle10 hle11 hle12 hle13 h19 hnum ⊢
  simp only [Nat.reduceAdd] at hle10 hle11 hle12 hle13 h19 hnum ⊢
  have hlen : 2844 ≤ c.length := by omega
  have hp11648 : min (min (min 2856 c.length + 2968) c.length + 5824) c.length
      = min 11648 c.length := by omega
  rw [hp11648] at h19
  have htab : headerCoeffTable c
      = List.map (fun i => coeffInfoAt c (2696 + 12 * i)) (List.range 12) := rfl
  have hrc : headerRecordCount platform c
      = castToUInt platform
          (doubleDiv (doubleSub (doubleAt c 2660) (doubleAt c 2652)) (doubleAt c 2668)) := rfl
  have hpos19 : min 11648 c.length ≤ c.length := Nat.min_le_right _ _
  have h20 := readRecords_ok _ _ _ _ _ _ h19 rfl hpos19
    (by rw [List.length_replicate, List.length_map, List.length_range])
  obtain ⟨hs19, hle19, hr19⟩ := h20
  subst hs19
  rw [hr19]
  dsimp only at hle19 ⊢
  rw [← htab, ← hrc] at hle19 ⊢
  have hsize : headerRecordCount platform c ≠ 0 → requiredSize platform c ≤ c.length := by
    intro hne
    have hpos : 0 < headerRecordCount platform c := Nat.pos_of_ne_zero hne
    have hmul : 16 ≤ headerRecordCount platform c
        * (16 + 24 * ((headerCoeffTable c).map tripleCount).sum) :=
      Nat.le_trans (Nat.le_add_right 16 _) (Nat.le_mul_of_pos_left _ hpos)
    unfold requiredSize recordSize
    omega
  refine ⟨?_, hlen, hsize, hnum, ?_⟩
  · by_cases hz : headerRecordCount platform c = 0
    · have hr : requiredSize platform c = 11648 := by
        unfold requiredSize
        rw [hz, Nat.zero_mul]
      rw [hz, hr, Nat.zero_mul, Nat.add_zero]
    · have hs := hsize hz
      have hr : requiredSize platform c
          = 11648 + headerRecordCount platform c
            * (16 + 24 * ((headerCoeffTable c).map tripleCount).sum) := rfl
      rw [Nat.min_eq_left hs]
      simp only [QDataStream.mk.injEq, true_and, and_true]
      omega
  · by_cases hz : headerRecordCount platform c = 0
    · rw [hz]
      rfl
    · have hs := hsize hz
      have hge := Nat.le_trans (Nat.le_add_right 11648 _) hs
      have hmin : min 11648 c.length = 11648 := Nat.min_eq_left hge
      rw [hmin]
      rfl

theorem load_eq_some (platform : Platform) (c : List Byte) (eph : JPLEphemeris)
    (h : load platform c = some eph) :
    2844 ≤ c.length ∧
      (headerRecordCount platform c ≠ 0 → requiredSize platform c ≤ c.length) ∧
      headerEphemNumber c = 406 ∧
      eph = buildEphemeris (headerCoeffTable c)
        (List.zipWith (fun a b => a ++ b) (List.replicate JplEph_ObjectCount [])
          (recordsData c (headerCoeffTable c) (headerRecordCount platform c) 11648))
        (headerRecordCount platform c) (daysToSeconds (headerStartJd c - J2000))
        (daysToSeconds (headerDaysPerRecord c)) := by
  unfold load at h
  cases hs : loadStream platform { device := c, pos := 0, ok := true } with
  | none => rw [hs] at h; simp at h
  | some p =>
    obtain ⟨e, s'⟩ := p
    rw [hs] at h
    simp only [Option.map_some', Option.some.injEq] at h
    subst h
    exact (loadStream_ok platform c e s' hs).2

/-! ## Lemmas on the constructed ephemeris -/

theorem buildEphemeris_trajectory (ci : List JplEphCoeffInfo) (oc : List (List ℚ)) (rc : Nat)
    (ss sp : ℚ) (k : Nat) :
    (buildEphemeris ci oc rc ss sp).trajectory k =
      if k < 11 then some (makeTrajectory ci oc rc ss sp k) else none := by
  have hr : List.range (JplEph_ObjectCount - 1) = [0, 1, 2, 3, 4, 5, 6, 7, 8, 9, 10] := by decide
  unfold buildEphemeris JPLEphemeris.trajectory
  rw [hr]
  by_cases hk : k < 12
  · interval_cases k <;>
      simp [JPLEphemeris.setTrajectory, JPLEphemeris.new, ObjectCount, List.replicate]
  · have h11 : ¬ k < 11 := by omega
    have h12 : k ≥ ObjectCount := by simp only [ObjectCount]; omega
    simp [h11, h12]

theorem headerCoeffTable_getD (c : List Byte) (k : Nat) (hk : k < 12) :
    (headerCoeffTable c).getD k default = headerCoeffInfo c k := by
  unfold headerCoeffTable
  interval_cases k <;> rfl

theorem fromBigEndian_lt (bs : List Byte) : fromBigEndian bs < 256 ^ bs.length := by
  unfold fromBigEndian
  have key : ∀ (l : List Byte) (acc : Nat),
      l.foldl (fun acc b => acc * 256 + b.val) acc < (acc + 1) * 256 ^ l.length := by
    intro l
    induction l with
    | nil => intro acc; simp
    | cons b bs ih =>
      intro acc
      simp only [List.foldl_cons, List.length_cons]
      have hb : b.val < 256 := b.isLt
      calc bs.foldl (fun acc b => acc * 256 + b.val) (acc * 256 + b.val)
          < (acc * 256 + b.val + 1) * 256 ^ bs.length := ih _
        _ ≤ ((acc + 1) * 256) * 256 ^ bs.length := by
            apply Nat.mul_le_mul_right
            omega
        _ = (acc + 1) * 256 ^ (bs.length + 1) := by ring
  simpa using key bs 0

theorem uint32At_lt (c : List Byte) (pos : Nat) : uint32At c pos < 2 ^ 32 := by
  unfold uint32At
  have h := fromBigEndian_lt ((c.drop pos).take 4)
  have hl : ((c.drop pos).take 4).length ≤ 4 := by simp
  calc fromBigEndian ((c.drop pos).take 4) < 256 ^ ((c.drop pos).take 4).length := h
    _ ≤ 256 ^ 4 := Nat.pow_le_pow_right (by norm_num) hl
    _ = 2 ^ 32 := by norm_num

/-! ## The coefficient vectors by file offsets -/

theorem slotData_length (c : List Byte) : ∀ (infos : List JplEphCoeffInfo) (p : Nat),
    (slotData c infos p).length = infos.length
  | [], _ => rfl
  | _ :: rest, p => by simp [slotData, slotData_length c rest]

theorem recordsData_length (c : List Byte) (infos : List JplEphCoeffInfo) :
    ∀ (n p : Nat), (recordsData c infos n p).length = infos.length
  | 0, _ => by simp [recordsData]
  | n + 1, p => by
    simp [recordsData, slotData_length, recordsData_length c infos n]

theorem zipWith_replicate_nil_append : ∀ (n : Nat) (xs : List (List ℚ)), xs.length = n →
    List.zipWith (fun a b => a ++ b) (List.replicate n []) xs = xs
  | 0, xs, h => by
    have : xs = [] := List.length_eq_zero.mp h
    subst this; rfl
  | n + 1, [], h => by simp at h
  | n + 1, x :: xs, h => by
    have h' : xs.length = n := by simpa using h
    simp [List.replicate_succ, zipWith_replicate_nil_append n xs h']

theorem zipWith_append_getD : ∀ (a b : List (List ℚ)) (k : Nat), a.length = b.length →
    (List.zipWith (fun x y => x ++ y) a b).getD k [] = a.getD k [] ++ b.getD k []
  | [], [], _, _ => by simp
  | [], _ :: _, _, h => by simp at h
  | _ :: _, [], _, h => by simp at h
  | x :: a, y :: b, 0, _ => by simp
  | x :: a, y :: b, k + 1, h => by
    have h' : a.length = b.length := by simpa using h
    simpa using zipWith_append_getD a b k h'

theorem slotData_getD (c : List Byte) : ∀ (infos : List JplEphCoeffInfo) (p k : Nat),
    k < infos.length →
    (slotData c infos p).getD k [] =
      (List.range (3 * tripleCount (infos.getD k default))).map
        (fun t => doubleAt c (p + 24 * ((infos.take k).map tripleCount).sum + 8 * t))
  | [], _, _, h => by simp at h
  | info :: rest, p, 0, _ => by simp [slotData]
  | info :: rest, p, k + 1, h => by
    have h' : k < rest.length := by simpa using h
    have ih := slotData_getD c rest (p + 24 * tripleCount info) k h'
    simp only [slotData, List.getD_cons_succ, List.take_succ_cons, List.map_cons, List.sum_cons]
    rw [ih]
    apply List.map_congr_left
    intro t _
    have e : p + 24 * tripleCount info + 24 * ((rest.take k).map tripleCount).sum + 8 * t
        = p + 24 * (tripleCount info + ((rest.take k).map tripleCount).sum) + 8 * t := by
      rw [Nat.mul_add]; omega
    rw [e]

theorem recordsData_getD (c : List Byte) (infos : List JplEphCoeffInfo) (k : Nat)
    (hk : k < infos.length) : ∀ (n p : Nat),
    (recordsData c infos n p).getD k [] =
      ((List.range n).map (fun i =>
        (slotData c infos (p + i * (16 + 24 * (infos.map tripleCount).sum) + 16)).getD k [])).flatten
  | 0, p => by
    simp only [recordsData, List.range_zero, List.map_nil, List.flatten_nil]
    rw [List.getD_eq_getElem _ _ (by simpa using hk)]
    simp
  | n + 1, p => by
    rw [recordsData, zipWith_append_getD _ _ _ (by rw [slotData_length, recordsData_length]),
      recordsData_getD c infos k hk n, List.range_succ_eq_map, List.map_cons, List.map_map,
      List.flatten_cons]
    simp only [Nat.zero_mul, Nat.add_zero]
    congr 2
    apply List.map_congr_left
    intro i _
    simp only [Function.comp, Nat.succ_eq_add_one]
    have e : p + (16 + 24 * (infos.map tripleCount).sum)
        + i * (16 + 24 * (infos.map tripleCount).sum)
        = p + (i + 1) * (16 + 24 * (infos.map tripleCount).sum) := by
      rw [Nat.add_mul]; omega
    rw [e]

theorem flatten_map_length_const {α : Type} (f : Nat → List α) (m : Nat) :
    ∀ (l : List Nat), (∀ i ∈ l, (f i).length = m) → ((l.map f).flatten).length = l.length * m
  | [], _ => by simp
  | i :: l, h => by
    have h1 : (f i).length = m := h i (by simp)
    have h2 := flatten_map_length_const f m l (fun j hj => h j (by simp [hj]))
    simp only [List.map_cons, List.flatten_cons, List.length_append, List.length_cons, h1, h2]
    rw [Nat.add_mul]; omega

/-! ## Truncated files -/

theorem take_drop_take (c : List Byte) (n pos w : Nat) (h : pos + w ≤ n) :
    ((c.take n).drop pos).take w = (c.drop pos).take w := by
  rw [List.drop_take, List.take_take]
  congr 1
  omega

theorem doubleAt_take (c : List Byte) (n pos : Nat) (h : pos + 8 ≤ n) :
    doubleAt (c.take n) pos = doubleAt c pos := by
  unfold doubleAt
  rw [take_drop_take c n pos 8 h]

theorem uint32At_take (c : List Byte) (n pos : Nat) (h : pos + 4 ≤ n) :
    uint32At (c.take n) pos = uint32At c pos := by
  unfold uint32At
  rw [take_drop_take c n pos 4 h]

theorem headerCoeffTable_take (c : List Byte) (n : Nat) (h : 2840 ≤ n) :
    headerCoeffTable (c.take n) = headerCoeffTable c := by
  unfold headerCoeffTable
  apply List.map_congr_left
  intro k hk
  have hk' : k < 12 := List.mem_range.mp hk
  unfold headerCoeffInfo coeffInfoAt
  rw [uint32At_take c n _ (by omega), uint32At_take c n _ (by omega),
    uint32At_take c n _ (by omega)]

theorem headerQuotient_take (c : List Byte) (n : Nat) (h : 2676 ≤ n) :
    headerQuotient (c.take n) = headerQuotient c := by
  unfold headerQuotient headerStartJd headerEndJd headerDaysPerRecord
  rw [doubleAt_take c n _ (by omega), doubleAt_take c n _ (by omega),
    doubleAt_take c n _ (by omega)]

theorem headerRecordCount_take (platform : Platform) (c : List Byte) (n : Nat)
    (h : 2676 ≤ n) : headerRecordCount platform (c.take n) = headerRecordCount platform c := by
  unfold headerRecordCount
  rw [headerQuotient_take c n h]

theorem headerEphemNumber_take (c : List Byte) (n : Nat) (h : 2844 ≤ n) :
    headerEphemNumber (c.take n) = headerEphemNumber c := by
  unfold headerEphemNumber
  rw [uint32At_take c n _ (by omega)]

theorem requiredSize_take (platform : Platform) (c : List Byte) (n : Nat) (h : 2840 ≤ n) :
    requiredSize platform (c.take n) = requiredSize platform c := by
  unfold requiredSize recordSize
  rw [headerCoeffTable_take c n h, headerRecordCount_take platform c n (by omega)]

theorem requiredSize_ge (platform : Platform) (c : List Byte) : 11648 ≤ requiredSize platform c := by
  unfold requiredSize
  omega

/-! ## Files that are long enough are decoded -/

theorem Decoder.bind_of_eq {α β : Type} {m : Decoder α} {f : α → Decoder β}
    {s s1 : QDataStream} {a : α} (h : m s = some (a, s1)) : (m >>= f) s = f a s1 := by
  show Decoder.andThen m f s = _
  unfold Decoder.andThen
  rw [h]

theorem readRawData_eq (n : Nat) (s : QDataStream) (h : s.pos + n ≤ s.device.length) :
    readRawData n s = some ((s.device.drop s.pos).take n, { s with pos := s.pos + n }) := by
  unfold readRawData
  rw [if_pos h]

theorem skipRawData_eq (n : Nat) (s : QDataStream) (h : s.pos + n ≤ s.device.length) :
    skipRawData n s = some ((), { s with pos := s.pos + n }) := by
  unfold skipRawData
  rw [Nat.min_eq_left h]

theorem skipRawData_apply (n : Nat) (s : QDataStream) :
    skipRawData n s = some ((), { s with pos := min (s.pos + n) s.device.length }) := rfl

theorem checkStatus_eq (s : QDataStream) (h : s.ok = true) : checkStatus s = some ((), s) := by
  unfold checkStatus
  rw [if_pos h]

theorem readUInt32_eq (s : QDataStream) (h : s.pos + 4 ≤ s.device.length) :
    readUInt32 s = some (uint32At s.device s.pos, { s with pos := s.pos + 4 }) := by
  unfold readUInt32
  rw [Decoder.bind_of_eq (readRawData_eq 4 s h)]
  rfl

theorem readInt32_eq (s : QDataStream) (h : s.pos + 4 ≤ s.device.length) :
    readInt32 s = some ((if uint32At s.device s.pos < 2 ^ 31 then (uint32At s.device s.pos : Int)
        else (uint32At s.device s.pos : Int) - 2 ^ 32), { s with pos := s.pos + 4 }) := by
  unfold readInt32
  rw [Decoder.bind_of_eq (readRawData_eq 4 s h)]
  rfl

theorem readDouble_eq (s : QDataStream) (h : s.pos + 8 ≤ s.device.length) :
    readDouble s = some (doubleAt s.device s.pos, { s with pos := s.pos + 8 }) := by
  unfold readDouble
  rw [Decoder.bind_of_eq (readRawData_eq 8 s h)]
  rfl

theorem readCoeffInfo_eq : ∀ (n : Nat) (s : QDataStream), s.ok = true →
    s.pos + 12 * n ≤ s.device.length →
    readCoeffInfo n s = some ((List.range n).map (fun i => coeffInfoAt s.device (s.pos + 12 * i)),
      { s with pos := s.pos + 12 * n })
  | 0, s, _, _ => by
    simp only [readCoeffInfo, List.range_zero, List.map_nil, Nat.mul_zero, Nat.add_zero]
    rfl
  | n + 1, s, hok, h => by
    have h3 : ({ s with pos := s.pos + 4 + 4 + 4 } : QDataStream).pos + 12 * n
        ≤ ({ s with pos := s.pos + 4 + 4 + 4 } : QDataStream).device.length := by
      dsimp only; omega
    have ih := readCoeffInfo_eq n { s with pos := s.pos + 4 + 4 + 4 } hok h3
    simp only [readCoeffInfo]
    rw [Decoder.bind_of_eq (readUInt32_eq s (by omega))]
    try dsimp only
    rw [Decoder.bind_of_eq (readUInt32_eq _ (by dsimp only; omega))]
    try dsimp only
    rw [Decoder.bind_of_eq (readUInt32_eq _ (by dsimp only; omega))]
    try dsimp only
    rw [Decoder.bind_of_eq (checkStatus_eq { s with pos := s.pos + 4 + 4 + 4 } hok),
      Decoder.bind_of_eq ih]
    show some _ = some _
    rw [List.range_succ_eq_map, List.map_cons, List.map_map]
    simp only [coeffInfoAt, Nat.mul_zero, Nat.add_zero, Option.some.injEq, Prod.mk.injEq,
      List.cons.injEq, true_and, QDataStream.mk.injEq, and_true]
    refine ⟨?_, by omega⟩
    apply List.map_congr_left
    intro i _
    simp only [Function.comp, Nat.succ_eq_add_one]
    have e : s.pos + 4 + 4 + 4 + 12 * i = s.pos + 12 * (i + 1) := by omega
    rw [e]

theorem readTriples_eq : ∀ (j idx : Nat) (oc : List (List ℚ)) (s : QDataStream),
    s.pos + 24 * j ≤ s.device.length →
    readTriples j idx oc s = some (pushBack oc idx
        ((List.range (3 * j)).map (fun t => doubleAt s.device (s.pos + 8 * t))),
      { s with pos := s.pos + 24 * j })
  | 0, idx, oc, s, _ => by
    simp only [readTriples, Nat.mul_zero, List.range_zero, List.map_nil, pushBack_nil,
      Nat.add_zero]
    rfl
  | j + 1, idx, oc, s, h => by
    have h3 : ({ s with pos := s.pos + 8 + 8 + 8 } : QDataStream).pos + 24 * j
        ≤ ({ s with pos := s.pos + 8 + 8 + 8 } : QDataStream).device.length := by
      dsimp only; omega
    simp only [readTriples]
    rw [Decoder.bind_of_eq (readDouble_eq s (by omega))]
    try dsimp only
    rw [Decoder.bind_of_eq (readDouble_eq _ (by dsimp only; omega))]
    try dsimp only
    rw [Decoder.bind_of_eq (readDouble_eq _ (by dsimp only; omega))]
    try dsimp only
    rw [readTriples_eq j idx _ { s with pos := s.pos + 8 + 8 + 8 } h3, pushBack_pushBack]
    have e : 3 * (j + 1) = 3 * j + 3 := by omega
    have e2 : s.pos + 8 * 2 = s.pos + 8 + 8 := by omega
    have e3 : ∀ t, s.pos + 8 * (t + 3) = s.pos + 8 + 8 + 8 + 8 * t := by intro t; omega
    have e4 : s.pos + 8 + 8 + 8 + 24 * j = s.pos + 24 * (j + 1) := by omega
    rw [e, range_map_add_three]
    simp only [Nat.mul_zero, Nat.add_zero, List.cons_append, List.nil_append, Nat.mul_one,
      e2, e3, e4]

theorem readObjects_eq : ∀ (infos : List JplEphCoeffInfo) (done todo : List (List ℚ))
    (s : QDataStream), s.pos + 24 * (infos.map tripleCount).sum ≤ s.device.length →
    todo.length = infos.length →
    readObjects infos done.length (done ++ todo) s =
      some (done ++ List.zipWith (fun a b => a ++ b) todo (slotData s.device infos s.pos),
        { s with pos := s.pos + 24 * (infos.map tripleCount).sum })
  | [], done, todo, s, _, hlen => by
    have : todo = [] := List.length_eq_zero.mp (by simpa using hlen)
    subst this
    simp only [readObjects, slotData, List.map_nil, List.sum_nil, Nat.mul_zero, Nat.add_zero,
      List.zipWith_nil_right]
    rfl
  | info :: rest, done, [], s, _, hlen => by simp at hlen
  | info :: rest, done, v :: vs, s, h, hlen => by
    simp only [List.map_cons, List.sum_cons] at h
    have hlen' : vs.length = rest.length := by simpa using hlen
    have h1 : s.pos + 24 * tripleCount info ≤ s.device.length := by omega
    have h2 : ({ s with pos := s.pos + 24 * tripleCount info } : QDataStream).pos
        + 24 * (rest.map tripleCount).sum
        ≤ ({ s with pos := s.pos + 24 * tripleCount info } : QDataStream).device.length := by
      dsimp only; omega
    have ih := readObjects_eq rest (done ++ [v ++ (List.range (3 * tripleCount info)).map
      (fun t => doubleAt s.device (s.pos + 8 * t))]) vs
      { s with pos := s.pos + 24 * tripleCount info } h2 hlen'
    have ht := readTriples_eq (tripleCount info) done.length (done ++ v :: vs) s h1
    simp only [readObjects]
    unfold tripleCount at ht ih
    rw [Decoder.bind_of_eq ht, pushBack_append]
    simp only [List.length_append, List.length_singleton, List.append_assoc,
      List.singleton_append] at ih
    rw [ih]
    simp only [slotData, tripleCount, List.zipWith_cons_cons, List.map_cons, List.sum_cons,
      Option.some.injEq, Prod.mk.injEq, QDataStream.mk.injEq, true_and, and_true]
    rw [Nat.mul_add, Nat.add_assoc]
    rfl

theorem readRecords_eq : ∀ (n : Nat) (infos : List JplEphCoeffInfo) (oc : List (List ℚ))
    (s : QDataStream), s.ok = true →
    s.pos + n * (16 + 24 * (infos.map tripleCount).sum) ≤ s.device.length →
    oc.length = infos.length →
    readRecords n infos oc s =
      some (List.zipWith (fun a b => a ++ b) oc (recordsData s.device infos n s.pos),
        { s with pos := s.pos + n * (16 + 24 * (infos.map tripleCount).sum) })
  | 0, infos, oc, s, _, _, hlen => by
    simp only [readRecords, recordsData, Nat.zero_mul, Nat.add_zero]
    rw [← hlen, zipWith_append_replicate_nil]
    rfl
  | n + 1, infos, oc, s, hok, h, hlen => by
    rw [Nat.add_mul, Nat.one_mul] at h
    have hlen3 : (List.zipWith (fun a b => a ++ b) oc
        (slotData s.device infos (s.pos + 8 + 8))).length = infos.length := by
      simp [slotData_length, hlen]
    have h5 : ({ s with pos := s.pos + 8 + 8 + 24 * (infos.map tripleCount).sum }
          : QDataStream).pos + n * (16 + 24 * (infos.map tripleCount).sum)
        ≤ ({ s with pos := s.pos + 8 + 8 + 24 * (infos.map tripleCount).sum }
          : QDataStream).device.length := by
      dsimp only; omega
    have ih := readRecords_eq n infos _
      { s with pos := s.pos + 8 + 8 + 24 * (infos.map tripleCount).sum } hok h5 hlen3
    simp only [readRecords]
    rw [Decoder.bind_of_eq (readDouble_eq s (by omega))]
    try dsimp only
    rw [Decoder.bind_of_eq (readDouble_eq _ (by dsimp only; omega))]
    try dsimp only
    have ho := readObjects_eq infos [] oc { s with pos := s.pos + 8 + 8 }
      (by dsimp only; omega) hlen
    simp only [List.length_nil, List.nil_append] at ho
    rw [Decoder.bind_of_eq ho]
    try dsimp only
    rw [Decoder.bind_of_eq (checkStatus_eq
      { s with pos := s.pos + 8 + 8 + 24 * (infos.map tripleCount).sum } hok)]
    rw [ih, zipWith_append_assoc, recordsData]
    have e : s.pos + 8 + 8 + 24 * (infos.map tripleCount).sum
        = s.pos + (16 + 24 * (infos.map tripleCount).sum) := by omega
    have e2 : s.pos + 8 + 8 = s.pos + 16 := by omega
    simp only [e, e2, Option.some.injEq, Prod.mk.injEq, QDataStream.mk.injEq, true_and,
      and_true]
    rw [Nat.add_mul]; omega

theorem loadStream_eq (platform : Platform) (c : List Byte) (hsize : requiredSize platform c ≤ c.length)
    (hnum : headerEphemNumber c = 406) :
    loadStream platform { device := c, pos := 0, ok := true } =
      some (buildEphemeris (headerCoeffTable c)
        (List.zipWith (fun a b => a ++ b) (List.replicate JplEph_ObjectCount [])
          (recordsData c (headerCoeffTable c) (headerRecordCount platform c) 11648))
        (headerRecordCount platform c) (daysToSeconds (headerStartJd c - J2000))
        (daysToSeconds (headerDaysPerRecord c)),
        { device := c, pos := requiredSize platform c, ok := true }) := by
  have hlen : 11648 ≤ c.length := Nat.le_trans (requiredSize_ge platform c) hsize
  have hnum2 : (if uint32At c 2840 < 2 ^ 31 then (uint32At c 2840 : Int)
      else (uint32At c 2840 : Int) - 2 ^ 32) = 406 := hnum
  have htab : headerCoeffTable c
      = List.map (fun i => coeffInfoAt c (2696 + 12 * i)) (List.range 12) := rfl
  have hrc : headerRecordCount platform c
      = castToUInt platform
          (doubleDiv (doubleSub (doubleAt c 2660) (doubleAt c 2652)) (doubleAt c 2668)) := rfl
  have hrec := readRecords_eq (headerRecordCount platform c) (headerCoeffTable c)
    (List.replicate 12 []) { device := c, pos := 11648, ok := true } rfl hsize
    (by simp [headerCoeffTable])
  simp only [loadStream, JplEph_LabelSize, JplEph_ConstantCount, JplEph_ConstantNameLength,
    JplEph_ObjectCount, DE406_RecordSize, Nat.reduceMul, Nat.reduceSub]
  rw [Decoder.bind_of_eq (skipRawData_eq 252 { device := c, pos := 0, ok := true }
    (by dsimp only; omega))]
  simp only [Nat.zero_add]
  rw [Decoder.bind_of_eq (checkStatus_eq { device := c, pos := 252, ok := true } rfl),
    Decoder.bind_of_eq (skipRawData_eq 2400 { device := c, pos := 252, ok := true }
      (by dsimp only; omega))]
  simp only [Nat.reduceAdd]
  rw [Decoder.bind_of_eq (checkStatus_eq { device := c, pos := 2652, ok := true } rfl),
    Decoder.bind_of_eq (readDouble_eq { device := c, pos := 2652, ok := true }
      (by dsimp only; omega))]
  simp only [Nat.reduceAdd]
  rw [Decoder.bind_of_eq (readDouble_eq { device := c, pos := 2660, ok := true }
      (by dsimp only; omega))]
  simp only [Nat.reduceAdd]
  rw [Decoder.bind_of_eq (readDouble_eq { device := c, pos := 2668, ok := true }
      (by dsimp only; omega))]
  simp only [Nat.reduceAdd]
  rw [Decoder.bind_of_eq (checkStatus_eq { device := c, pos := 2676, ok := true } rfl),
    Decoder.bind_of_eq (skipRawData_eq 4 { device := c, pos := 2676, ok := true }
      (by dsimp only; omega))]
  simp only [Nat.reduceAdd]
  rw [Decoder.bind_of_eq (readDouble_eq { device := c, pos := 2680, ok := true }
      (by dsimp only; omega))]
  simp only [Nat.reduceAdd]
  rw [Decoder.bind_of_eq (readDouble_eq { device := c, pos := 2688, ok := true }
      (by dsimp only; omega))]
  simp only [Nat.reduceAdd]
  rw [Decoder.bind_of_eq (readCoeffInfo_eq 12 { device := c, pos := 2696, ok := true } rfl
      (by dsimp only; omega))]
  simp only [Nat.reduceAdd, Nat.reduceMul]
  rw [Decoder.bind_of_eq (readInt32_eq { device := c, pos := 2840, ok := true }
      (by dsimp only; omega))]
  simp only [Nat.reduceAdd, hnum2, ne_eq, not_true_eq_false, if_false]
  rw [Decoder.bind_of_eq (skipRawData_eq 12 { device := c, pos := 2844, ok := true }
      (by dsimp only; omega))]
  simp only [Nat.reduceAdd]
  rw [Decoder.bind_of_eq (checkStatus_eq { device := c, pos := 2856, ok := true } rfl),
    Decoder.bind_of_eq (skipRawData_eq 2968 { device := c, pos := 2856, ok := true }
      (by dsimp only; omega))]
  simp only [Nat.reduceAdd]
  rw [Decoder.bind_of_eq (skipRawData_eq 5824 { device := c, pos := 5824, ok := true }
      (by dsimp only; omega))]
  simp only [Nat.reduceAdd]
  rw [Decoder.bind_of_eq (checkStatus_eq { device := c, pos := 11648, ok := true } rfl),
    ← htab, ← hrc, Decoder.bind_of_eq hrec]
  rfl

theorem load_eq (platform : Platform) (c : List Byte) (hsize : requiredSize platform c ≤ c.length)
    (hnum : headerEphemNumber c = 406) :
    load platform c = some (buildEphemeris (headerCoeffTable c)
        (List.zipWith (fun a b => a ++ b) (List.replicate JplEph_ObjectCount [])
          (recordsData c (headerCoeffTable c) (headerRecordCount platform c) 11648))
        (headerRecordCount platform c) (daysToSeconds (headerStartJd c - J2000))
        (daysToSeconds (headerDaysPerRecord c))) := by
  unfold load
  rw [loadStream_eq platform c hsize hnum]
  rfl

/-- A file without records is decoded as soon as it holds the header up to the
ephemeris number: the skips over the rest of the header blocks stop at the end
of the file and leave the status of the stream as it is. -/
theorem loadStream_zero (platform : Platform) (c : List Byte) (hlen : 2844 ≤ c.length)
    (hnum : headerEphemNumber c = 406) (hz : headerRecordCount platform c = 0) :
    loadStream platform { device := c, pos := 0, ok := true } =
      some (buildEphemeris (headerCoeffTable c)
        (List.zipWith (fun a b => a ++ b) (List.replicate JplEph_ObjectCount [])
          (recordsData c (headerCoeffTable c) (headerRecordCount platform c) 11648))
        (headerRecordCount platform c) (daysToSeconds (headerStartJd c - J2000))
        (daysToSeconds (headerDaysPerRecord c)),
        { device := c, pos := min 11648 c.length, ok := true }) := by
  have hnum2 : (if uint32At c 2840 < 2 ^ 31 then (uint32At c 2840 : Int)
      else (uint32At c 2840 : Int) - 2 ^ 32) = 406 := hnum
  have htab : headerCoeffTable c
      = List.map (fun i => coeffInfoAt c (2696 + 12 * i)) (List.range 12) := rfl
  have hrc : headerRecordCount platform c
      = castToUInt platform
          (doubleDiv (doubleSub (doubleAt c 2660) (doubleAt c 2652)) (doubleAt c 2668)) := rfl
  simp only [loadStream, JplEph_LabelSize, JplEph_ConstantCount, JplEph_ConstantNameLength,
    JplEph_ObjectCount, DE406_RecordSize, Nat.reduceMul, Nat.reduceSub]
  rw [Decoder.bind_of_eq (skipRawData_eq 252 { device := c, pos := 0, ok := true }
    (by dsimp only; omega))]
  simp only [Nat.zero_add]
  rw [Decoder.bind_of_eq (checkStatus_eq { device := c, pos := 252, ok := true } rfl),
    Decoder.bind_of_eq (skipRawData_eq 2400 { device := c, pos := 252, ok := true }
      (by dsimp only; omega))]
  simp only [Nat.reduceAdd]
  rw [Decoder.bind_of_eq (checkStatus_eq { device := c, pos := 2652, ok := true } rfl),
    Decoder.bind_of_eq (readDouble_eq { device := c, pos := 2652, ok := true }
      (by dsimp only; omega))]
  simp only [Nat.reduceAdd]
  rw [Decoder.bind_of_eq (readDouble_eq { device := c, pos := 2660, ok := true }
      (by dsimp only; omega))]
  simp only [Nat.reduceAdd]
  rw [Decoder.bind_of_eq (readDouble_eq { device := c, pos := 2668, ok := true }
      (by dsimp only; omega))]
  simp only [Nat.reduceAdd]
  rw [Decoder.bind_of_eq (checkStatus_eq { device := c, pos := 2676, ok := true } rfl),
    Decoder.bind_of_eq (skipRawData_eq 4 { device := c, pos := 2676, ok := true }
      (by dsimp only; omega))]
  simp only [Nat.reduceAdd]
  rw [Decoder.bind_of_eq (readDouble_eq { device := c, pos := 2680, ok := true }
      (by dsimp only; omega))]
  simp only [Nat.reduceAdd]
  rw [Decoder.bind_of_eq (readDouble_eq { device := c, pos := 2688, ok := true }
      (by dsimp only; omega))]
  simp only [Nat.reduceAdd]
  rw [Decoder.bind_of_eq (readCoeffInfo_eq 12 { device := c, pos := 2696, ok := true } rfl
      (by dsimp only; omega))]
  simp only [Nat.reduceAdd, Nat.reduceMul]
  rw [Decoder.bind_of_eq (readInt32_eq { device := c, pos := 2840, ok := true }
      (by dsimp only; omega))]
  simp only [Nat.reduceAdd, hnum2, ne_eq, not_true_eq_false, if_false]
  rw [Decoder.bind_of_eq (skipRawData_apply 12 { device := c, pos := 2844, ok := true })]
  simp only [Nat.reduceAdd]
  rw [Decoder.bind_of_eq (checkStatus_eq _ rfl), Decoder.bind_of_eq (skipRawData_apply 2968 _),
    Decoder.bind_of_eq (skipRawData_apply 5824 _), Decoder.bind_of_eq (checkStatus_eq _ rfl),
    ← htab, ← hrc, hz]
  have hp : min (min (min 2856 c.length + 2968) c.length + 5824) c.length
      = min 11648 c.length := by omega
  simp only [hp]
  rfl

theorem load_zero (platform : Platform) (c : List Byte) (hlen : 2844 ≤ c.length)
    (hnum : headerEphemNumber c = 406) (hz : headerRecordCount platform c = 0) :
    load platform c = some (buildEphemeris (headerCoeffTable c)
        (List.zipWith (fun a b => a ++ b) (List.replicate JplEph_ObjectCount [])
          (recordsData c (headerCoeffTable c) (headerRecordCount platform c) 11648))
        (headerRecordCount platform c) (daysToSeconds (headerStartJd c - J2000))
        (daysToSeconds (headerDaysPerRecord c))) := by
  unfold load
  rw [loadStream_zero platform c hlen hnum hz]
  rfl

/-! ## The sample file -/

theorem take_drop_replicate_append (n pos w : Nat) (x : Byte) (rest : List Byte)
    (h : n ≤ pos) :
    ((List.replicate n x ++ rest).drop pos).take w = (rest.drop (pos - n)).take w := by
  have e : pos = (List.replicate n x).length + (pos - n) := by
    rw [List.length_replicate]; omega
  conv_lhs => rw [e]
  rw [List.drop_append]

theorem uint32At_replicate_append (n pos : Nat) (x : Byte) (rest : List Byte) (h : n ≤ pos) :
    uint32At (List.replicate n x ++ rest) pos = uint32At rest (pos - n) := by
  unfold uint32At
  rw [take_drop_replicate_append n pos 4 x rest h]

theorem doubleAt_replicate_append (n pos : Nat) (x : Byte) (rest : List Byte) (h : n ≤ pos) :
    doubleAt (List.replicate n x ++ rest) pos = doubleAt rest (pos - n) := by
  unfold doubleAt
  rw [take_drop_replicate_append n pos 8 x rest h]

theorem take_drop_append_left (p w : Nat) (front rest : List Byte)
    (h : p + w ≤ front.length) :
    ((front ++ rest).drop p).take w = (front.drop p).take w := by
  rw [List.drop_append_of_le_length (by omega),
    List.take_append_of_le_length (by rw [List.length_drop]; omega)]

theorem uint32At_header (front rest : List Byte) (pos : Nat) (h1 : 2652 ≤ pos)
    (h2 : pos - 2652 + 4 ≤ front.length) :
    uint32At (List.replicate 2652 0 ++ (front ++ rest)) pos = uint32At front (pos - 2652) := by
  rw [uint32At_replicate_append _ _ _ _ h1]
  unfold uint32At
  rw [take_drop_append_left _ 4 front rest h2]

theorem doubleAt_header (front rest : List Byte) (pos : Nat) (h1 : 2652 ≤ pos)
    (h2 : pos - 2652 + 8 ≤ front.length) :
    doubleAt (List.replicate 2652 0 ++ (front ++ rest)) pos = doubleAt front (pos - 2652) := by
  rw [doubleAt_replicate_append _ _ _ _ h1]
  unfold doubleAt
  rw [take_drop_append_left _ 8 front rest h2]

theorem headerCoeffTable_header (front rest : List Byte) (h : 192 ≤ front.length) :
    headerCoeffTable (List.replicate 2652 0 ++ (front ++ rest))
      = (List.range 12).map (fun k => coeffInfoAt front (44 + 12 * k)) := by
  unfold headerCoeffTable
  apply List.map_congr_left
  intro k hk
  have hk' : k < 12 := List.mem_range.mp hk
  unfold headerCoeffInfo coeffInfoAt
  rw [uint32At_header front rest _ (by omega) (by omega),
    uint32At_header front rest _ (by omega) (by omega),
    uint32At_header front rest _ (by omega) (by omega)]
  have e1 : 2696 + 12 * k - 2652 = 44 + 12 * k := by omega
  have e2 : 2696 + 12 * k + 4 - 2652 = 44 + 12 * k + 4 := by omega
  have e3 : 2696 + 12 * k + 8 - 2652 = 44 + 12 * k + 8 := by omega
  rw [e1, e2, e3]

theorem headerQuotient_header (front rest : List Byte) (h : 192 ≤ front.length) :
    headerQuotient (List.replicate 2652 0 ++ (front ++ rest))
      = doubleDiv (doubleSub (doubleAt front 8) (doubleAt front 0)) (doubleAt front 16) := by
  unfold headerQuotient headerStartJd headerEndJd headerDaysPerRecord
  rw [doubleAt_header front rest _ (by omega) (by omega),
    doubleAt_header front rest _ (by omega) (by omega),
    doubleAt_header front rest _ (by omega) (by omega)]

/-- The conversion of a value in the range of `unsigned int` is its integer
part, on every platform. -/
theorem castToUInt_eq (platform : Platform) (x : ℚ) (h0 : 0 ≤ x) (h1 : x < 2 ^ 32) :
    castToUInt platform x = (Rat.floor x).toNat := by
  unfold castToUInt
  have hf0 : 0 ≤ Rat.floor x := Int.floor_nonneg.mpr h0
  have hf1 : Rat.floor x < 2 ^ 32 := by
    have e : Rat.floor x = ⌊x⌋ := rfl
    rw [e, Int.floor_lt]
    exact_mod_cast h1
  simp only [not_lt.mpr h0, if_false, hf0, hf1, and_self, if_true]

theorem castToUInt_floor (platform : Platform) (x : ℚ) (h0 : 0 ≤ x) (h1 : x < 2 ^ 32) :
    (castToUInt platform x : ℤ) = ⌊x⌋ := by
  rw [castToUInt_eq platform x h0 h1]
  have e : Rat.floor x = ⌊x⌋ := rfl
  rw [e]
  exact Int.toNat_of_nonneg (Int.floor_nonneg.mpr h0)

theorem headerEphemNumber_header (front rest : List Byte) (h : 192 ≤ front.length) :
    headerEphemNumber (List.replicate 2652 0 ++ (front ++ rest))
      = (if uint32At front 188 < 2 ^ 31 then (uint32At front 188 : Int)
          else (uint32At front 188 : Int) - 2 ^ 32) := by
  unfold headerEphemNumber
  rw [uint32At_header front rest _ (by omega) (by omega)]

theorem sampleFile_length : sampleFile.length = 12736 := by
  have h1 : sampleRecords.length = 1088 := by decide!
  have h2 : (sampleFields [0, 0, 1, 0x96]).length = 192 := by decide!
  simp only [sampleFile, sampleFileWith, List.length_append, List.length_replicate, h1, h2]

theorem sampleFile_table :
    headerCoeffTable sampleFile
      = List.replicate 11 (JplEphCoeffInfo.mk 0 2 1) ++ [JplEphCoeffInfo.mk 0 0 0] := by
  have h2 : 192 ≤ (sampleFields [0, 0, 1, 0x96]).length := by decide!
  unfold sampleFile sampleFileWith
  rw [headerCoeffTable_header _ _ h2]
  decide!

/-- The quotient of the sample file: 64 days in records of 32 days. -/
theorem sampleFile_quotient : headerQuotient sampleFile = 2 := by
  have h2 : 192 ≤ (sampleFields [0, 0, 1, 0x96]).length := by decide!
  unfold sampleFile sampleFileWith
  rw [headerQuotient_header _ _ h2]
  decide!

theorem sampleFile_recordCount (platform : Platform) :
    headerRecordCount platform sampleFile = 2 := by
  unfold headerRecordCount
  rw [sampleFile_quotient, castToUInt_eq platform 2 (by norm_num) (by norm_num)]
  decide!

theorem sampleFile_recordSize : recordSize sampleFile = 544 := by
  unfold recordSize
  rw [sampleFile_table]
  decide!

theorem sampleFile_requiredSize (platform : Platform) :
    requiredSize platform sampleFile = 12736 := by
  unfold requiredSize
  rw [sampleFile_recordCount platform, sampleFile_recordSize]

theorem sampleFile_number : headerEphemNumber sampleFile = 406 := by
  have h2 : 192 ≤ (sampleFields [0, 0, 1, 0x96]).length := by decide!
  unfold sampleFile sampleFileWith
  rw [headerEphemNumber_header _ _ h2]
  decide!

theorem sampleFile405_number : headerEphemNumber sampleFile405 ≠ 406 := by
  have h2 : 192 ≤ (sampleFields [0, 0, 1, 0x95]).length := by decide!
  unfold sampleFile405 sampleFileWith
  rw [headerEphemNumber_header _ _ h2]
  decide!

theorem sampleFile_loadStream (platform : Platform) :
    loadStream platform { device := sampleFile, pos := 0, ok := true }
      = some (sampleEphemeris, { device := sampleFile, pos := sampleFile.length, ok := true }) := by
  have h := loadStream_eq platform sampleFile
    (by rw [sampleFile_requiredSize platform, sampleFile_length]) sampleFile_number
  rw [sampleFile_requiredSize platform, sampleFile_recordCount platform,
    ← sampleFile_length] at h
  exact h

theorem sampleFile_load (platform : Platform) : load platform sampleFile = some sampleEphemeris := by
  unfold load
  rw [sampleFile_loadStream platform]
  rfl

theorem sampleFile_wellFormed (platform : Platform) : WellFormed platform sampleFile :=
  ⟨sampleFile_number, by rw [sampleFile_requiredSize platform, sampleFile_length]⟩

theorem sampleFile_days :
    headerStartJd sampleFile = 2451545 ∧ headerDaysPerRecord sampleFile = 32 := by
  have h2 : 192 ≤ (sampleFields [0, 0, 1, 0x96]).length := by decide!
  unfold headerStartJd headerDaysPerRecord sampleFile sampleFileWith
  rw [doubleAt_header _ _ _ (by omega) (by omega), doubleAt_header _ _ _ (by omega) (by omega)]
  decide!

theorem doubleAt_sampleFile (pos : Nat) (h : 11648 ≤ pos) :
    doubleAt sampleFile pos = doubleAt sampleRecords (pos - 11648) := by
  have h2 : (sampleFields [0, 0, 1, 0x96]).length = 192 := by decide!
  have e : sampleFile = (List.replicate 2652 0 ++ sampleFields [0, 0, 1, 0x96]
      ++ List.replicate 8804 0) ++ sampleRecords := by
    simp only [sampleFile, sampleFileWith, List.append_assoc]
  have hl : (List.replicate 2652 (0 : Byte) ++ sampleFields [0, 0, 1, 0x96]
      ++ List.replicate 8804 0).length = 11648 := by
    simp only [List.length_append, List.length_replicate, h2]
  have hp : pos = (List.replicate 2652 (0 : Byte) ++ sampleFields [0, 0, 1, 0x96]
      ++ List.replicate 8804 0).length + (pos - 11648) := by
    rw [hl]; omega
  unfold doubleAt
  rw [e]
  conv_lhs => rw [hp]
  rw [List.drop_append]

theorem sampleFile_recordCoeffs (i : Nat) :
    recordCoeffs sampleFile i 3 =
      (List.range 6).map (fun t => doubleAt sampleRecords (160 + 544 * i + 8 * t)) := by
  have hinfo : headerCoeffInfo sampleFile 3 = ⟨0, 2, 1⟩ := by
    rw [← headerCoeffTable_getD sampleFile 3 (by omega), sampleFile_table]
    rfl
  have hstart : slotStart sampleFile i 3 = 11808 + 544 * i := by
    unfold slotStart recordStart recordSize
    rw [sampleFile_table]
    have e1 : ((List.replicate 11 (JplEphCoeffInfo.mk 0 2 1)
        ++ [JplEphCoeffInfo.mk 0 0 0]).map tripleCount).sum = 22 := by decide
    have e2 : (((List.replicate 11 (JplEphCoeffInfo.mk 0 2 1)
        ++ [JplEphCoeffInfo.mk 0 0 0]).take 3).map tripleCount).sum = 6 := by decide
    rw [e1, e2]
    omega
  unfold recordCoeffs
  rw [hinfo, hstart]
  have e3 : 3 * tripleCount (⟨0, 2, 1⟩ : JplEphCoeffInfo) = 6 := by decide
  rw [e3]
  apply List.map_congr_left
  intro t _
  have e : 11808 + 544 * i + 8 * t - 11648 = 160 + 544 * i + 8 * t := by omega
  rw [doubleAt_sampleFile _ (by omega), e]

theorem sampleRecords_coeffs_first :
    (List.range 6).map (fun t => doubleAt sampleRecords (160 + 8 * t)) = [2, 3, 4, 5, 6, 7] := by
  decide!

theorem sampleRecords_coeffs_second :
    (List.range 6).map (fun t => doubleAt sampleRecords (704 + 8 * t))
      = [8, 9, 10, 11, 12, 13] := by
  decide!

theorem sampleFile_coeffs (platform : Platform) :
    ((List.range (headerRecordCount platform sampleFile)).map
      (fun i => recordCoeffs sampleFile i 3)).flatten
      = [2, 3, 4, 5, 6, 7, 8, 9, 10, 11, 12, 13] := by
  have h2 : List.range 2 = [0, 1] := by decide
  rw [sampleFile_recordCount platform, h2]
  simp only [List.map_cons, List.map_nil, List.flatten_cons, List.flatten_nil,
    sampleFile_recordCoeffs, Nat.mul_zero, Nat.add_zero, Nat.mul_one, Nat.reduceAdd,
    sampleRecords_coeffs_first, sampleRecords_coeffs_second, List.append_nil,
    List.cons_append, List.nil_append]

theorem sampleFile_info : headerCoeffInfo sampleFile 3 = JplEphCoeffInfo.mk 0 2 1 := by
  rw [← headerCoeffTable_getD sampleFile 3 (by omega), sampleFile_table]
  rfl

/-! ## The file without records and the file with records of a tenth of a day -/

theorem zeroRecordFile_length : zeroRecordFile.length = 11648 := by
  have h2 : zeroRecordFields.length = 192 := by decide!
  simp only [zeroRecordFile, List.length_append, List.length_replicate, h2]

theorem zeroRecordFile_number : headerEphemNumber zeroRecordFile = 406 := by
  have h2 : 192 ≤ zeroRecordFields.length := by decide!
  unfold zeroRecordFile
  rw [headerEphemNumber_header _ _ h2]
  decide!

theorem zeroRecordFile_quotient : headerQuotient zeroRecordFile = 0 := by
  have h2 : 192 ≤ zeroRecordFields.length := by decide!
  unfold zeroRecordFile
  rw [headerQuotient_header _ _ h2]
  decide!

theorem zeroRecordFile_recordCount (platform : Platform) :
    headerRecordCount platform zeroRecordFile = 0 := by
  unfold headerRecordCount
  rw [zeroRecordFile_quotient, castToUInt_eq platform 0 (by norm_num) (by norm_num)]
  decide!

theorem zeroRecordFile_wellFormed (platform : Platform) : WellFormed platform zeroRecordFile := by
  refine ⟨zeroRecordFile_number, ?_⟩
  unfold requiredSize
  rw [zeroRecordFile_recordCount platform, zeroRecordFile_length, Nat.zero_mul]

theorem tenthDayFile_length : tenthDayFile.length = 17088 := by
  have h2 : tenthDayFields.length = 192 := by decide!
  simp only [tenthDayFile, List.length_append, List.length_replicate, h2]

theorem tenthDayFile_number : headerEphemNumber tenthDayFile = 406 := by
  have h2 : 192 ≤ tenthDayFields.length := by decide!
  unfold tenthDayFile
  rw [headerEphemNumber_header _ _ h2]
  decide!

theorem tenthDayFile_table :
    headerCoeffTable tenthDayFile
      = List.replicate 11 (JplEphCoeffInfo.mk 0 2 1) ++ [JplEphCoeffInfo.mk 0 0 0] := by
  have h2 : 192 ≤ tenthDayFields.length := by decide!
  unfold tenthDayFile
  rw [headerCoeffTable_header _ _ h2]
  decide!

/-- The quotient of one day by the double nearest to 0.1 is 10 in double
arithmetic. -/
theorem tenthDayFile_quotient : headerQuotient tenthDayFile = 10 := by
  have h2 : 192 ≤ tenthDayFields.length := by decide!
  unfold tenthDayFile
  rw [headerQuotient_header _ _ h2]
  decide!

/-- The exact quotient of one day by the double nearest to 0.1 is below 10. -/
theorem tenthDayFile_exact :
    ⌊(headerEndJd tenthDayFile - headerStartJd tenthDayFile)
      / headerDaysPerRecord tenthDayFile⌋ = 9 := by
  have h2 : 192 ≤ tenthDayFields.length := by decide!
  unfold headerEndJd headerStartJd headerDaysPerRecord tenthDayFile
  rw [doubleAt_header _ _ _ (by omega) (by omega), doubleAt_header _ _ _ (by omega) (by omega),
    doubleAt_header _ _ _ (by omega) (by omega)]
  show Rat.floor _ = 9
  decide!

theorem tenthDayFile_recordCount (platform : Platform) :
    headerRecordCount platform tenthDayFile = 10 := by
  unfold headerRecordCount
  rw [tenthDayFile_quotient, castToUInt_eq platform 10 (by norm_num) (by norm_num)]
  decide!

theorem tenthDayFile_requiredSize (platform : Platform) :
    requiredSize platform tenthDayFile = 17088 := by
  unfold requiredSize recordSize
  rw [tenthDayFile_recordCount platform, tenthDayFile_table]
  decide!

theorem tenthDayFile_load (platform : Platform) : (load platform tenthDayFile).isSome = true := by
  rw [load_eq platform tenthDayFile
    (by rw [tenthDayFile_requiredSize platform, tenthDayFile_length]) tenthDayFile_number]
  rfl

end Cosmographia

namespace Cosmographia

/-! ## The ephemeris decoder: properties of the specification -/

/-- C1: whenever `JPLEphemeris::load` succeeds on a file (all reads succeed and
the ephemeris number is 406), the result has a Chebyshev trajectory for each
object slot 0..10 and for no other slot; the trajectory of slot `k` has degree
`coeffCount - 1` and granule count `granuleCount * recordCount` (both in the
code's unsigned 32-bit arithmetic, hence the plain difference and product
whenever `coeffCount` is at least 1 and the product is below `2 ^ 32`), start
epoch `(startJD - J2000) * 86400` and granule duration
`(daysPerRecord * 86400) / granuleCount`, where `coeffCount` and
`granuleCount` are the header values of slot `k` and `recordCount` is the
floor of `(endJD - startJD) / daysPerRecord`, the difference and the quotient
being those of double arithmetic, as the code computes them, and the quotient
being in the range of `unsigned int`. -/
theorem load_builds_trajectories (platform : Platform) (c : List Byte) (eph : JPLEphemeris)
    (h : load platform c = some eph) :
    (∀ k, k < 11 → ∃ t, eph.trajectory k = some t ∧
        t.degree = ((headerCoeffInfo c k).coeffCount + 2 ^ 32 - 1) % 2 ^ 32 ∧
        (1 ≤ (headerCoeffInfo c k).coeffCount →
          t.degree = (headerCoeffInfo c k).coeffCount - 1) ∧
        t.granuleCount
          = (headerCoeffInfo c k).granuleCount * headerRecordCount platform c % 2 ^ 32 ∧
        ((headerCoeffInfo c k).granuleCount * headerRecordCount platform c < 2 ^ 32 →
          t.granuleCount = (headerCoeffInfo c k).granuleCount * headerRecordCount platform c) ∧
        t.startTime = (headerStartJd c - J2000) * 86400 ∧
        t.granuleLength =
          headerDaysPerRecord c * 86400 / (headerCoeffInfo c k).granuleCount) ∧
    (∀ k, 11 ≤ k → eph.trajectory k = none) ∧
    headerQuotient c
      = doubleDiv (doubleSub (headerEndJd c) (headerStartJd c)) (headerDaysPerRecord c) ∧
    (0 ≤ headerQuotient c → headerQuotient c < 2 ^ 32 →
      (headerRecordCount platform c : ℤ) = ⌊headerQuotient c⌋) := by
  obtain ⟨-, -, -, rfl⟩ := load_eq_some platform c eph h
  refine ⟨?_, ?_, rfl, ?_⟩
  · intro k hk
    refine ⟨_, by rw [buildEphemeris_trajectory, if_pos hk], ?_⟩
    have hg : (headerCoeffTable c).getD k default = headerCoeffInfo c k :=
      headerCoeffTable_getD c k (by omega)
    simp only [makeTrajectory, hg, daysToSeconds]
    refine ⟨trivial, ?_, trivial, ?_, trivial, trivial⟩
    · intro h1
      have hlt : (headerCoeffInfo c k).coeffCount < 2 ^ 32 := uint32At_lt _ _
      have e : (headerCoeffInfo c k).coeffCount + 2 ^ 32 - 1
          = ((headerCoeffInfo c k).coeffCount - 1) + 2 ^ 32 := by omega
      rw [e, Nat.add_mod_right, Nat.mod_eq_of_lt (by omega)]
    · intro h1
      exact Nat.mod_eq_of_lt h1
  · intro k hk
    rw [buildEphemeris_trajectory, if_neg (by omega)]
  · intro h0 h1
    exact castToUInt_floor platform _ h0 h1

/-- The sample file is decoded; its slot 3 gets a trajectory of degree 1 with
2 granules starting at the epoch, each 32 days long, and slot 11 gets none.
The file whose header spans one day in records of a tenth of a day (the double
nearest to 0.1, which is above 0.1) is decoded with 10 records, the double
quotient being 10, although the floor of the exact quotient of the header
doubles is 9. -/
theorem load_builds_trajectories_witness :
    load samplePlatform sampleFile = some sampleEphemeris ∧
      (∃ t, sampleEphemeris.trajectory 3 = some t ∧ t.degree = 1 ∧ t.granuleCount = 2 ∧
        t.startTime = 0 ∧ t.granuleLength = 2764800) ∧
      sampleEphemeris.trajectory 11 = none ∧
      (load samplePlatform tenthDayFile).isSome = true ∧
      (headerRecordCount samplePlatform tenthDayFile : ℤ) = 10 ∧
      ⌊(headerEndJd tenthDayFile - headerStartJd tenthDayFile)
        / headerDaysPerRecord tenthDayFile⌋ = 9 := by
  have h := load_builds_trajectories samplePlatform sampleFile sampleEphemeris
    (sampleFile_load samplePlatform)
  obtain ⟨t, ht, hd, -, hg, -, hs, hl⟩ := h.1 3 (by omega)
  rw [sampleFile_info] at hd hg hl
  rw [sampleFile_recordCount samplePlatform] at hg
  rw [sampleFile_days.1] at hs
  rw [sampleFile_days.2] at hl
  obtain ⟨e, he⟩ := Option.isSome_iff_exists.mp (tenthDayFile_load samplePlatform)
  have h10 := (load_builds_trajectories samplePlatform tenthDayFile e he).2.2.2
    (by rw [tenthDayFile_quotient]; norm_num) (by rw [tenthDayFile_quotient]; norm_num)
  rw [tenthDayFile_quotient] at h10
  refine ⟨sampleFile_load samplePlatform, ⟨t, ht, ?_, ?_, ?_, ?_⟩, h.2.1 11 (Nat.le_refl _),
    tenthDayFile_load samplePlatform, ?_, tenthDayFile_exact⟩
  · rw [hd]; rfl
  · rw [hg]; rfl
  · rw [hs]; norm_num [J2000]
  · rw [hl]; norm_num
  · rw [h10]
    exact Int.floor_intCast 10

/-- C2: whenever `JPLEphemeris::load` succeeds, the flat coefficient buffer
handed to the trajectory of slot `k` is the concatenation, in record order, of
the slot's (x, y, z) triples of every record as they lie in the file (a
record is a (startTime, endTime) pair followed by the triples of the slots
0..11 in slot order, `slotStart`); all these records lie inside the file, and
the buffer has `3 * (coeffCount * granuleCount) * recordCount` entries, the
per-record triple count being the code's `unsigned int` product. -/
theorem load_coefficient_buffers (platform : Platform) (c : List Byte) (eph : JPLEphemeris)
    (h : load platform c = some eph) (k : Nat) (hk : k < 11) :
    ∃ t, eph.trajectory k = some t ∧
      (∀ i, i < headerRecordCount platform c → recordStart c (i + 1) ≤ c.length) ∧
      t.coeffs = ((List.range (headerRecordCount platform c)).map (fun i => recordCoeffs c i k)).flatten ∧
      t.coeffs.length = 3 * tripleCount (headerCoeffInfo c k) * headerRecordCount platform c ∧
      ((headerCoeffInfo c k).coeffCount * (headerCoeffInfo c k).granuleCount < 2 ^ 32 →
        t.coeffs.length = 3 * (headerCoeffInfo c k).coeffCount *
          (headerCoeffInfo c k).granuleCount * headerRecordCount platform c) := by
  obtain ⟨-, hsize, -, rfl⟩ := load_eq_some platform c eph h
  have hrecords : ∀ i, i < headerRecordCount platform c → recordStart c (i + 1) ≤ c.length := by
    intro i hi
    have h1 : (i + 1) * recordSize c ≤ headerRecordCount platform c * recordSize c :=
      Nat.mul_le_mul_right _ hi
    have h2 := hsize (by omega)
    unfold requiredSize at h2
    unfold recordStart
    omega
  have hlen : (headerCoeffTable c).length = 12 := by simp [headerCoeffTable]
  have hg : (headerCoeffTable c).getD k default = headerCoeffInfo c k :=
    headerCoeffTable_getD c k (by omega)
  have hcoeffs : ∀ rc : Nat,
      (List.zipWith (fun a b => a ++ b) (List.replicate JplEph_ObjectCount [])
        (recordsData c (headerCoeffTable c) rc 11648)).getD k []
      = ((List.range rc).map (fun i => recordCoeffs c i k)).flatten := by
    intro rc
    rw [zipWith_replicate_nil_append _ _ (by rw [recordsData_length, hlen]; rfl),
      recordsData_getD c _ k (by omega)]
    congr 1
    apply List.map_congr_left
    intro i _
    rw [slotData_getD c _ _ k (by omega), hg]
    rfl
  have hl : ∀ rc : Nat,
      (((List.range rc).map (fun i => recordCoeffs c i k)).flatten).length
      = 3 * tripleCount (headerCoeffInfo c k) * rc := by
    intro rc
    rw [flatten_map_length_const _ (3 * tripleCount (headerCoeffInfo c k)) _
      (fun i _ => by simp [recordCoeffs]), List.length_range, Nat.mul_comm]
  refine ⟨_, by rw [buildEphemeris_trajectory, if_pos hk], hrecords, ?_, ?_, ?_⟩
  · simpa only [makeTrajectory] using hcoeffs _
  · simp only [makeTrajectory]
    rw [hcoeffs, hl]
  · intro hlt
    simp only [makeTrajectory]
    rw [hcoeffs, hl, tripleCount, Nat.mod_eq_of_lt hlt]
    ring

/-- The buffer of slot 3 of the sample file: the six coefficients of the
first record followed by the six of the second. -/
theorem load_coefficient_buffers_witness :
    load samplePlatform sampleFile = some sampleEphemeris ∧
      ∃ t, sampleEphemeris.trajectory 3 = some t ∧
        t.coeffs = [2, 3, 4, 5, 6, 7, 8, 9, 10, 11, 12, 13] ∧ t.coeffs.length = 12 := by
  obtain ⟨t, ht, -, hc, -, -⟩ :=
    load_coefficient_buffers samplePlatform sampleFile sampleEphemeris
      (sampleFile_load samplePlatform) 3 (by omega)
  rw [sampleFile_coeffs samplePlatform] at hc
  exact ⟨sampleFile_load samplePlatform, t, ht, hc, by rw [hc]; rfl⟩

/-- C3: for a well-formed ephemeris byte stream and a proper prefix of it,
`load` applied to the prefix returns failure when the header announces at least
one record, and when the prefix ends before the ephemeris number (its first
2844 bytes) is complete.  But when the header announces no record and the
prefix holds the header up to the ephemeris number, `load` returns for the
prefix the very ephemeris that it returns for the whole stream, although bytes
of the header blocks are missing: the `skipRawData` calls over the rest of the
header blocks stop at the end of the file and leave untouched the status that
the checks after them test. -/
theorem load_truncated_without_records (platform : Platform) (c : List Byte) (n : Nat)
    (hwf : WellFormed platform c) (hn : n < c.length) :
    (headerRecordCount platform c ≠ 0 → load platform (c.take n) = none) ∧
      (n < 2844 → load platform (c.take n) = none) ∧
      (headerRecordCount platform c = 0 → 2844 ≤ n →
        ∃ eph, load platform c = some eph ∧ load platform (c.take n) = some eph) := by
  obtain ⟨hnum, hlen⟩ := hwf
  have htake : (c.take n).length = n := by
    rw [List.length_take]; omega
  refine ⟨?_, ?_, ?_⟩
  · intro hcount
    cases hp : load platform (c.take n) with
    | none => rfl
    | some e =>
      exfalso
      obtain ⟨h2844, hsize, -, -⟩ := load_eq_some platform _ e hp
      rw [htake] at h2844
      rw [headerRecordCount_take platform c n (by omega),
        requiredSize_take platform c n (by omega), htake] at hsize
      have := hsize hcount
      omega
  · intro hshort
    cases hp : load platform (c.take n) with
    | none => rfl
    | some e =>
      exfalso
      obtain ⟨h2844, -, -, -⟩ := load_eq_some platform _ e hp
      omega
  · intro hz hge
    refine ⟨_, load_eq platform c (by omega) hnum, ?_⟩
    rw [load_zero platform (c.take n) (by omega)
      (by rw [headerEphemNumber_take c n hge]; exact hnum)
      (by rw [headerRecordCount_take platform c n (by omega)]; exact hz)]
    unfold headerStartJd headerDaysPerRecord
    rw [headerCoeffTable_take c n (by omega), headerRecordCount_take platform c n (by omega),
      doubleAt_take c n _ (by omega), doubleAt_take c n _ (by omega), hz]
    rfl

/-- The file without records has 11648 bytes and is well formed; cut after
the ephemeris number, at 2844 bytes, it is decoded to the ephemeris of the
whole file, and cut one byte earlier it is rejected.  The sample file, which
has two records, is rejected when cut after 12000 of its 12736 bytes. -/
theorem load_truncated_without_records_witness :
    WellFormed samplePlatform zeroRecordFile ∧ zeroRecordFile.length = 11648 ∧
      headerRecordCount samplePlatform zeroRecordFile = 0 ∧
      (∃ eph, load samplePlatform zeroRecordFile = some eph ∧
        load samplePlatform (zeroRecordFile.take 2844) = some eph) ∧
      load samplePlatform (zeroRecordFile.take 2843) = none ∧
      WellFormed samplePlatform sampleFile ∧
      load samplePlatform (sampleFile.take 12000) = none :=
  ⟨zeroRecordFile_wellFormed samplePlatform, zeroRecordFile_length,
    zeroRecordFile_recordCount samplePlatform,
    (load_truncated_without_records samplePlatform zeroRecordFile 2844
      (zeroRecordFile_wellFormed samplePlatform)
      (by rw [zeroRecordFile_length]; omega)).2.2
      (zeroRecordFile_recordCount samplePlatform) (Nat.le_refl _),
    (load_truncated_without_records samplePlatform zeroRecordFile 2843
      (zeroRecordFile_wellFormed samplePlatform)
      (by rw [zeroRecordFile_length]; omega)).2.1 (by omega),
    sampleFile_wellFormed samplePlatform,
    (load_truncated_without_records samplePlatform sampleFile 12000
      (sampleFile_wellFormed samplePlatform)
      (by rw [sampleFile_length]; omega)).1
      (by rw [sampleFile_recordCount samplePlatform]; omega)⟩

/-- C4: `JPLEphemeris::load` returns failure for every file whose 4-byte
big-endian ephemeris-number field (at offset 2840, right after the 12
object-slot triples) is not 406, whatever else the file contains. -/
theorem load_rejects_other_ephemeris_number (platform : Platform) (c : List Byte)
    (h : headerEphemNumber c ≠ 406) : load platform c = none := by
  cases hp : load platform c with
  | none => rfl
  | some e => exact absurd (load_eq_some platform c e hp).2.2.1 h

/-- The sample file with ephemeris number 405 is rejected. -/
theorem load_rejects_other_ephemeris_number_witness :
    headerEphemNumber sampleFile405 ≠ 406 ∧ load samplePlatform sampleFile405 = none :=
  ⟨sampleFile405_number,
    load_rejects_other_ephemeris_number samplePlatform sampleFile405 sampleFile405_number⟩

end Cosmographia

namespace Cosmographia

/-! ## Lemmas on the message log -/

theorem errorMessage_name (loader : UniverseLoader) (message : String) :
    (loader.errorMessage message).m_currentBodyName = loader.m_currentBodyName := rfl

theorem logMessages_name (messages : List String) : ∀ (loader : UniverseLoader),
    (loader.logMessages messages).m_currentBodyName = loader.m_currentBodyName := by
  induction messages with
  | nil => intro loader; rfl
  | cons m ms ih =>
    intro loader
    show ((loader.errorMessage m).logMessages ms).m_currentBodyName = _
    rw [ih, errorMessage_name]

theorem logMessages_nil (loader : UniverseLoader) : loader.logMessages [] = loader := rfl

/-! ## Lemmas on `loadArc` and `loadChronology` -/

/-- The arc `loadArc` returns, by the end time of `arcEndTime`. -/
theorem loadArc_eq (builders : Builders) (map : QVariantMap) (world : Universe)
    (startTime : ℚ) (loader : UniverseLoader) :
    (∀ endTime, arcEndTime builders map startTime = some endTime →
      ∃ arc, (loadArc builders map world startTime loader).1 = some arc ∧
        arc.duration = endTime - startTime ∧ 0 < arc.duration) ∧
    (arcEndTime builders map startTime = none →
      (loadArc builders map world startTime loader).1 = none) := by
  unfold loadArc arcEndTime
  cases h : map.value "center" <;> simp only []
  case string name =>
    by_cases h1 : (if (map.value "endTime").isValid = true
        then dateValue builders (map.value "endTime") else (DefaultEndTime, true)).2 = true
    · by_cases h2 : startTime < (if (map.value "endTime").isValid = true
          then dateValue builders (map.value "endTime") else (DefaultEndTime, true)).1
      · have h3 : ¬ (if (map.value "endTime").isValid = true
            then dateValue builders (map.value "endTime") else (DefaultEndTime, true)).1
            ≤ startTime := not_le.mpr h2
        simp only [h1, h2, h3, Bool.not_true, Bool.false_eq_true, if_false, decide_True,
          Bool.and_self, if_true, Option.some.injEq, reduceCtorEq, false_implies, and_true]
        intro endTime he
        subst he
        exact ⟨_, rfl, rfl, sub_pos.mpr h2⟩
      · have h3 : (if (map.value "endTime").isValid = true
            then dateValue builders (map.value "endTime") else (DefaultEndTime, true)).1
            ≤ startTime := not_lt.mp h2
        simp [h1, h2, h3]
    · simp [h1]
  all_goals simp

theorem loadArc_isSome (builders : Builders) (map : QVariantMap) (world : Universe)
    (startTime : ℚ) (loader : UniverseLoader) :
    (loadArc builders map world startTime loader).1.isSome
      = (arcEndTime builders map startTime).isSome := by
  have h := loadArc_eq builders map world startTime loader
  cases he : arcEndTime builders map startTime with
  | none => rw [h.2 he]; rfl
  | some endTime =>
    obtain ⟨arc, ha, -, -⟩ := h.1 endTime he
    rw [ha]
    rfl

theorem loadArcFrame_name (builders : Builders) (frameData : QVariant) (world : Universe)
    (loader : UniverseLoader) :
    (loadArcFrame builders frameData world loader).2.m_currentBodyName
      = loader.m_currentBodyName := by
  unfold loadArcFrame
  cases frameData <;> simp only []
  case string name =>
    unfold loadInertialFrame
    split_ifs <;> rfl
  case map m => rw [logMessages_name]

theorem loadArcComponents_name (builders : Builders) (map : QVariantMap) (world : Universe)
    (arc : Arc) (loader : UniverseLoader) :
    (loadArcComponents builders map world arc loader).2.m_currentBodyName
      = loader.m_currentBodyName := by
  unfold loadArcComponents
  simp only []
  rw [loadArcFrame_name, loadArcFrame_name]
  cases map.value "rotationModel" <;> cases map.value "trajectory" <;>
    simp only [logMessages_name]

theorem loadArc_name (builders : Builders) (map : QVariantMap) (world : Universe)
    (startTime : ℚ) (loader : UniverseLoader) :
    (loadArc builders map world startTime loader).2.m_currentBodyName
      = loader.m_currentBodyName := by
  unfold loadArc
  cases h : map.value "center" <;> simp only [errorMessage_name]
  case string name =>
    split_ifs <;> simp only [errorMessage_name, loadArcComponents_name]

theorem loadChronologyLoop_arcs (builders : Builders) (world : Universe) :
    ∀ (list : List QVariant) (arcs : List Arc) (startTime : ℚ) (loader : UniverseLoader),
    (chronologyBuilds builders list startTime = true →
      ∃ built, (loadChronologyLoop builders world list arcs startTime loader).1 = arcs ++ built ∧
        built.length = list.length) ∧
    (chronologyBuilds builders list startTime = false →
      (loadChronologyLoop builders world list arcs startTime loader).1 = [])
  | [], arcs, startTime, loader => by
    simp [loadChronologyLoop, chronologyBuilds]
  | v :: rest, arcs, startTime, loader => by
    cases v with
    | map m =>
      have ha := loadArc_eq builders m world startTime loader
      rcases hr : loadArc builders m world startTime loader with ⟨o, loader1⟩
      rw [hr] at ha
      cases he : arcEndTime builders m startTime with
      | none =>
        have ho : o = none := ha.2 he
        subst ho
        simp [loadChronologyLoop, chronologyBuilds, hr, he]
      | some endTime =>
        obtain ⟨arc, ho, hd, -⟩ := ha.1 endTime he
        simp only at ho
        subst ho
        have hn : startTime + arc.duration = endTime := by rw [hd]; ring
        have ih := loadChronologyLoop_arcs builders world rest (arcs ++ [arc]) endTime loader1
        simp only [loadChronologyLoop, chronologyBuilds, hr, he, hn]
        refine ⟨fun hb => ?_, fun hb => ih.2 hb⟩
        obtain ⟨built, h1, h2⟩ := ih.1 hb
        exact ⟨arc :: built, by rw [h1]; simp, by simp [h2]⟩
    | invalid => simp [loadChronologyLoop, chronologyBuilds]
    | bool b => simp [loadChronologyLoop, chronologyBuilds]
    | int i => simp [loadChronologyLoop, chronologyBuilds]
    | uint u => simp [loadChronologyLoop, chronologyBuilds]
    | longlong i => simp [loadChronologyLoop, chronologyBuilds]
    | ulonglong u => simp [loadChronologyLoop, chronologyBuilds]
    | double d => simp [loadChronologyLoop, chronologyBuilds]
    | string s => simp [loadChronologyLoop, chronologyBuilds]
    | list l => simp [loadChronologyLoop, chronologyBuilds]

theorem loadChronology_isEmpty (builders : Builders) (world : Universe) (list : List QVariant)
    (startTime : ℚ) (loader : UniverseLoader) :
    (loadChronology builders list world startTime loader).1.isEmpty
      = !(!list.isEmpty && chronologyBuilds builders list startTime) := by
  unfold loadChronology
  have h := loadChronologyLoop_arcs builders world list [] startTime loader
  cases hb : chronologyBuilds builders list startTime with
  | false => rw [h.2 hb]; simp
  | true =>
    obtain ⟨built, h1, h2⟩ := h.1 hb
    rw [h1]
    cases list with
    | nil =>
      have : built = [] := List.length_eq_zero.mp (by simpa using h2)
      subst this; rfl
    | cons v rest =>
      cases built with
      | nil => simp at h2
      | cons a as => rfl

theorem loadChronologyLoop_name (builders : Builders) (world : Universe) :
    ∀ (list : List QVariant) (arcs : List Arc) (startTime : ℚ) (loader : UniverseLoader),
    (loadChronologyLoop builders world list arcs startTime loader).2.m_currentBodyName
      = loader.m_currentBodyName
  | [], arcs, startTime, loader => rfl
  | v :: rest, arcs, startTime, loader => by
    cases v with
    | map m =>
      have hn := loadArc_name builders m world startTime loader
      rcases hr : loadArc builders m world startTime loader with ⟨o, loader1⟩
      rw [hr] at hn
      cases o with
      | none => simp only [loadChronologyLoop, hr]; exact hn
      | some arc =>
        simp only [loadChronologyLoop, hr]
        rw [loadChronologyLoop_name builders world rest]
        exact hn
    | invalid => rfl
    | bool b => rfl
    | int i => rfl
    | uint u => rfl
    | longlong i => rfl
    | ulonglong u => rfl
    | double d => rfl
    | string s => rfl
    | list l => rfl

/-! ## Lemmas on the body branch -/

theorem loadItemGeometry_valid (builders : Builders) (item : QVariantMap) (world : Universe)
    (loader : UniverseLoader) :
    (loadItemGeometry builders item world loader).2.1
      = (!item.contains "geometry" || (item.value "geometry").isMap) := by
  unfold loadItemGeometry
  by_cases hc : item.contains "geometry" = true
  · simp only [hc, if_true, Bool.not_true, Bool.false_or]
    cases item.value "geometry" <;> rfl
  · simp only [hc, if_false, Bool.not_eq_true] at *
    simp [hc]

theorem loadItemGeometry_name (builders : Builders) (item : QVariantMap) (world : Universe)
    (loader : UniverseLoader) :
    (loadItemGeometry builders item world loader).2.2.m_currentBodyName
      = loader.m_currentBodyName := by
  unfold loadItemGeometry
  split_ifs
  · cases item.value "geometry" <;> simp only [errorMessage_name, logMessages_name]
  · rfl

theorem loadItemStartTime_valid (builders : Builders) (item : QVariantMap)
    (loader : UniverseLoader) :
    (loadItemStartTime builders item loader).2.1
      = (!(item.value "startTime").isValid || (dateValue builders (item.value "startTime")).2) := by
  unfold loadItemStartTime
  by_cases hv : (item.value "startTime").isValid = true
  · by_cases hd : (dateValue builders (item.value "startTime")).2 = true
    · simp [hv, hd]
    · simp [hv, hd]
  · simp [hv]

theorem loadItemStartTime_eq (builders : Builders) (item : QVariantMap)
    (loader : UniverseLoader) :
    (loadItemStartTime builders item loader).1 = itemStartTime builders item := by
  unfold loadItemStartTime itemStartTime
  by_cases hv : (item.value "startTime").isValid = true
  · by_cases hd : (dateValue builders (item.value "startTime")).2 = true
    · simp [hv, hd]
    · simp [hv, hd]
  · simp [hv]

theorem loadItemStartTime_name (builders : Builders) (item : QVariantMap)
    (loader : UniverseLoader) :
    (loadItemStartTime builders item loader).2.2.m_currentBodyName
      = loader.m_currentBodyName := by
  unfold loadItemStartTime
  simp only []
  split_ifs <;> rfl

theorem loadItemArcs_isEmpty (builders : Builders) (item : QVariantMap) (world : Universe)
    (startTime : ℚ) (loader : UniverseLoader) :
    (loadItemArcs builders item world startTime loader).1.isEmpty
      = !(if (item.value "arcs").isValid then
            match item.value "arcs" with
            | QVariant.list l => !l.isEmpty && chronologyBuilds builders l startTime
            | _ => false
          else (arcEndTime builders item startTime).isSome) := by
  unfold loadItemArcs
  by_cases hv : (item.value "arcs").isValid = true
  · simp only [hv, if_true]
    cases item.value "arcs" <;> simp only [loadChronology_isEmpty] <;> rfl
  · simp only [hv, if_false, Bool.false_eq_true]
    have h := loadArc_isSome builders item world startTime loader
    rcases hr : loadArc builders item world startTime loader with ⟨o, loader1⟩
    rw [hr] at h
    cases o with
    | none => simp only at h ⊢; rw [← h]; rfl
    | some arc => simp only at h ⊢; rw [← h]; rfl

theorem loadItemArcs_name (builders : Builders) (item : QVariantMap) (world : Universe)
    (startTime : ℚ) (loader : UniverseLoader) :
    (loadItemArcs builders item world startTime loader).2.m_currentBodyName
      = loader.m_currentBodyName := by
  unfold loadItemArcs
  by_cases hv : (item.value "arcs").isValid = true
  · simp only [hv, if_true]
    cases item.value "arcs" <;>
      simp only [errorMessage_name, loadChronology, loadChronologyLoop_name]
  · simp only [hv, if_false, Bool.false_eq_true]
    have h := loadArc_name builders item world startTime loader
    rcases hr : loadArc builders item world startTime loader with ⟨o, loader1⟩
    rw [hr] at h
    cases o <;> exact h

theorem buildBody_valid (builders : Builders) (item : QVariantMap) (world : Universe)
    (loader : UniverseLoader) :
    (buildBody builders item world loader).valid = bodyItemBuilds builders item := by
  unfold buildBody bodyItemBuilds
  have key : ∀ (g t c : Bool), (if (!c) = true then false else (g && t)) = (g && t && c) := by
    decide
  simp only [loadItemArcs_isEmpty, loadItemGeometry_valid, loadItemStartTime_valid,
    loadItemStartTime_eq]
  exact key _ _ _

theorem buildBody_startTime (builders : Builders) (item : QVariantMap) (world : Universe)
    (loader : UniverseLoader) :
    (buildBody builders item world loader).startTime = itemStartTime builders item := by
  unfold buildBody
  simp only [loadItemStartTime_eq]

theorem buildBody_name (builders : Builders) (item : QVariantMap) (world : Universe)
    (loader : UniverseLoader) :
    (buildBody builders item world loader).loader.m_currentBodyName
      = loader.m_currentBodyName := by
  unfold buildBody
  simp only [loadItemArcs_name, loadItemStartTime_name, loadItemGeometry_name]

theorem buildBody_arcs (builders : Builders) (item : QVariantMap) (world : Universe)
    (loader : UniverseLoader) (h : (buildBody builders item world loader).valid = true) :
    (buildBody builders item world loader).arcs ≠ [] := by
  unfold buildBody at h ⊢
  simp only at h ⊢
  intro he
  rw [he] at h
  simp at h

/-! ## Lemmas on the registry -/

theorem lookup_filter_bne {α : Type} (name n : String) : ∀ (l : List (String × α)),
    (l.filter (fun p => p.1 != name)).lookup n = if n = name then none else l.lookup n
  | [] => by simp
  | (k, v) :: rest => by
    have ih := lookup_filter_bne (α := α) name n rest
    by_cases hk : k = name
    · subst hk
      by_cases hn : n = k
      · subst hn
        simp [List.filter_cons, ih]
      · have hb : (n == k) = false := by simpa using hn
        simp [List.filter_cons, List.lookup_cons, ih, hn, hb]
    · have hkb : (k != name) = true := by simpa using hk
      by_cases hn : n = k
      · subst hn
        simp [List.filter_cons, List.lookup_cons, hkb, hk]
      · have hb : (n == k) = false := by simpa using hn
        simp only [List.filter_cons, hkb, if_true, List.lookup_cons, hb, ih]

theorem filter_bne_of_lookup_none {α : Type} (name : String) : ∀ (l : List (String × α)),
    l.lookup name = none → l.filter (fun p => p.1 != name) = l
  | [], _ => rfl
  | (k, v) :: rest, h => by
    by_cases hk : name = k
    · subst hk
      simp [List.lookup_cons] at h
    · have hb : (name == k) = false := by simpa using hk
      have hkb : (k != name) = true := by
        simpa using (fun e => hk (Eq.symm e) : ¬ k = name)
      simp only [List.lookup_cons, hb] at h
      simp only [List.filter_cons, hkb, if_true, filter_bne_of_lookup_none name rest h]

theorem find_addBody (catalog : UniverseCatalog) (name n : String) (body : Nat) :
    (catalog.addBody name body).find n = if n = name then some body else catalog.find n := by
  unfold UniverseCatalog.addBody UniverseCatalog.find
  by_cases hn : n = name
  · subst hn
    simp [List.lookup_cons]
  · have hb : (n == name) = false := by simpa using hn
    simp only [List.lookup_cons, hb, lookup_filter_bne, hn, if_false]

theorem find_removeBody (catalog : UniverseCatalog) (name n : String) :
    (catalog.removeBody name).find n = if n = name then none else catalog.find n := by
  unfold UniverseCatalog.removeBody UniverseCatalog.find
  simp only [lookup_filter_bne]

theorem removeBody_addBody (catalog : UniverseCatalog) (name : String) (body : Nat)
    (h : catalog.find name = none) :
    (catalog.addBody name body).removeBody name = catalog := by
  unfold UniverseCatalog.find at h
  unfold UniverseCatalog.addBody UniverseCatalog.removeBody
  have h1 := filter_bne_of_lookup_none name catalog.m_bodies h
  simp [List.filter_cons, h1]

theorem set_length_append {α : Type} (x y : α) : ∀ (l : List α),
    (l ++ [x]).set l.length y = l ++ [y]
  | [] => rfl
  | a :: l => by simp [set_length_append x y l]

theorem get?_append_length {α : Type} (x : α) (l : List α) : (l ++ [x]).get? l.length = some x := by
  induction l with
  | nil => rfl
  | cons a l ih => simp

/-! ## Lemmas on the item loop -/

theorem loadBodyItem_bodyNames (builders : Builders) (item : QVariantMap) (s : LoadState) :
    (loadBodyItem builders item s).bodyNames
      = s.bodyNames ++ (if bodyItemBuilds builders item then [itemName builders item] else []) := by
  unfold loadBodyItem
  simp only [buildBody_valid]
  by_cases hb : bodyItemBuilds builders item = true
  · simp only [hb, if_true]
    rfl
  · simp only [hb, if_false, Bool.false_eq_true, List.append_nil]

theorem loadBodyItem_fail_new (builders : Builders) (item : QVariantMap) (s : LoadState)
    (hfind : s.world.catalog.find (itemName builders item) = none)
    (hfail : bodyItemBuilds builders item = false) :
    (loadBodyItem builders item s).world
      = { catalog := s.world.catalog, bodies := s.world.bodies ++ [none] } := by
  unfold itemName at hfind
  unfold loadBodyItem
  simp only [buildBody_valid, hfail, hfind, Bool.false_eq_true, if_false, Option.isNone_none,
    if_true, Option.getD_none, Universe.deleteBody, removeBody_addBody _ _ _ hfind,
    set_length_append]

theorem loadBodyItem_fail_existing (builders : Builders) (item : QVariantMap) (s : LoadState)
    (address : Nat) (hfind : s.world.catalog.find (itemName builders item) = some address)
    (hfail : bodyItemBuilds builders item = false) :
    (loadBodyItem builders item s).world = s.world := by
  unfold itemName at hfind
  unfold loadBodyItem
  simp only [buildBody_valid, hfail, hfind, Bool.false_eq_true, if_false, Option.isNone_some]

theorem loadBodyItem_success_existing (builders : Builders) (item : QVariantMap) (s : LoadState)
    (address : Nat) (body : Body)
    (hfind : s.world.catalog.find (itemName builders item) = some address)
    (hbody : s.world.body address = some body)
    (hok : bodyItemBuilds builders item = true) :
    (loadBodyItem builders item s).world
      = { catalog := s.world.catalog.setBodyInfo (itemName builders item)
            (builders.loadBodyInfo item)
          bodies := s.world.bodies.set address (some
            { body with
              lightSource := none
              geometry := (buildBody builders item s.world
                { s.loader with m_currentBodyName := itemName builders item }).geometry
              visible := (item.valueD "visible" (QVariant.bool true)).toBool
              beginning := itemStartTime builders item
              arcs := (buildBody builders item s.world
                { s.loader with m_currentBodyName := itemName builders item }).arcs }) } := by
  unfold itemName at hfind ⊢
  unfold Universe.body at hbody
  unfold loadBodyItem
  simp only [buildBody_valid, hok, hfind, if_true, Option.getD_some, Universe.modifyBody,
    Universe.body, hbody, buildBody_startTime]

theorem loadItem_body (builders : Builders) (item : QVariantMap) (s : LoadState)
    (h : isBodyItem builders (QVariant.map item) = true) :
    loadItem builders s (QVariant.map item)
      = loadBodyItem builders item
          { s with loader := { s.loader with m_currentBodyName := "" } } := by
  simp only [isBodyItem] at h
  unfold loadItem
  simp only [h, if_true]

theorem loadVisualizerItem_bodyNames (builders : Builders) (item : QVariantMap)
    (s : LoadState) : (loadVisualizerItem builders item s).bodyNames = s.bodyNames := by
  unfold loadVisualizerItem
  cases item.value "tag" <;> cases item.value "body" <;> simp only []
  case string.string tag bodyName =>
    cases s.world.catalog.find bodyName with
    | none => rfl
    | some body =>
      simp only []
      cases (builders.loadVisualizer item s.world s.loader).1 <;> rfl

theorem loadViewpointItem_bodyNames (builders : Builders) (item : QVariantMap)
    (s : LoadState) : (loadViewpointItem builders item s).bodyNames = s.bodyNames := by
  unfold loadViewpointItem
  simp only []
  cases (builders.loadViewpoint item s.world s.loader).1 <;> rfl

theorem loadItem_bodyNames (builders : Builders) (s : LoadState) (v : QVariant) :
    (loadItem builders s v).bodyNames = s.bodyNames ++ (builtName builders v).toList := by
  cases v with
  | map item =>
    by_cases h : isBodyItem builders (QVariant.map item) = true
    · rw [loadItem_body builders item s h, loadBodyItem_bodyNames]
      unfold builtName
      simp only [h, Bool.true_and]
      by_cases hb : bodyItemBuilds builders item = true
      · simp [hb]
      · simp [hb]
    · have hn : builtName builders (QVariant.map item) = none := by
        unfold builtName
        simp [h]
      rw [hn]
      simp only [isBodyItem] at h
      unfold loadItem
      simp only [h, if_false, Bool.false_eq_true, Option.toList_none, List.append_nil]
      split_ifs
      · rw [loadVisualizerItem_bodyNames]
      · rw [loadViewpointItem_bodyNames]
      · rfl
  | invalid => simp [loadItem, builtName]
  | bool b => simp [loadItem, builtName]
  | int i => simp [loadItem, builtName]
  | uint u => simp [loadItem, builtName]
  | longlong i => simp [loadItem, builtName]
  | ulonglong u => simp [loadItem, builtName]
  | double d => simp [loadItem, builtName]
  | string s => simp [loadItem, builtName]
  | list l => simp [loadItem, builtName]

theorem loadItems_bodyNames (builders : Builders) : ∀ (items : List QVariant) (s : LoadState),
    (loadItems builders items s).bodyNames = s.bodyNames ++ items.filterMap (builtName builders)
  | [], s => by simp [loadItems]
  | v :: rest, s => by
    have ih := loadItems_bodyNames builders rest (loadItem builders s v)
    unfold loadItems at ih ⊢
    rw [List.foldl_cons, ih, loadItem_bodyNames]
    cases hb : builtName builders v with
    | none => simp [List.filterMap_cons, hb]
    | some name => simp [List.filterMap_cons, hb]

/-! ## The message log only grows -/

theorem log_refl (a : String) : ∃ t, a = a ++ t := ⟨"", by simp⟩

theorem log_trans {a b c : String} (h1 : ∃ t, b = a ++ t) (h2 : ∃ t, c = b ++ t) :
    ∃ t, c = a ++ t := by
  obtain ⟨t1, rfl⟩ := h1
  obtain ⟨t2, rfl⟩ := h2
  exact ⟨t1 ++ t2, by rw [String.append_assoc]⟩

theorem errorMessage_log (loader : UniverseLoader) (message : String) :
    ∃ t, (loader.errorMessage message).m_messageLog = loader.m_messageLog ++ t := by
  unfold UniverseLoader.errorMessage
  by_cases h : (!loader.m_currentBodyName.isEmpty) = true
  · exact ⟨"Item '" ++ loader.m_currentBodyName ++ "': " ++ message ++ "\n", by
      simp only [h, if_true, String.append_assoc]⟩
  · exact ⟨message ++ "\n", by
      simp only [h, if_false, Bool.false_eq_true, String.append_assoc]⟩

theorem logMessages_log (messages : List String) : ∀ (loader : UniverseLoader),
    ∃ t, (loader.logMessages messages).m_messageLog = loader.m_messageLog ++ t := by
  induction messages with
  | nil => intro loader; exact log_refl _
  | cons m ms ih =>
    intro loader
    exact log_trans (errorMessage_log loader m) (ih (loader.errorMessage m))

theorem loadArcFrame_log (builders : Builders) (frameData : QVariant) (world : Universe)
    (loader : UniverseLoader) :
    ∃ t, (loadArcFrame builders frameData world loader).2.m_messageLog
      = loader.m_messageLog ++ t := by
  unfold loadArcFrame
  cases frameData <;> simp only []
  case string name =>
    unfold loadInertialFrame
    split_ifs
    · exact log_refl _
    · exact log_refl _
    · exact log_refl _
    · exact log_refl _
    · exact errorMessage_log _ _
  case map m => exact logMessages_log _ _
  all_goals exact log_refl _

theorem loadArcComponents_log (builders : Builders) (map : QVariantMap) (world : Universe)
    (arc : Arc) (loader : UniverseLoader) :
    ∃ t, (loadArcComponents builders map world arc loader).2.m_messageLog
      = loader.m_messageLog ++ t := by
  unfold loadArcComponents
  simp only []
  refine log_trans (log_trans ?_ (loadArcFrame_log _ _ _ _)) (loadArcFrame_log _ _ _ _)
  cases map.value "rotationModel" <;> cases map.value "trajectory" <;> simp only [] <;>
    first
    | exact log_refl _
    | exact logMessages_log _ _
    | exact log_trans (logMessages_log _ _) (logMessages_log _ _)

theorem loadArc_log (builders : Builders) (map : QVariantMap) (world : Universe)
    (startTime : ℚ) (loader : UniverseLoader) :
    ∃ t, (loadArc builders map world startTime loader).2.m_messageLog
      = loader.m_messageLog ++ t := by
  unfold loadArc
  cases h : map.value "center" <;> simp only []
  case string name =>
    split_ifs <;>
      first
      | exact log_trans (loadArcComponents_log _ _ _ _ _) (errorMessage_log _ _)
      | exact loadArcComponents_log _ _ _ _ _
  all_goals exact errorMessage_log _ _

theorem loadChronologyLoop_log (builders : Builders) (world : Universe) :
    ∀ (list : List QVariant) (arcs : List Arc) (startTime : ℚ) (loader : UniverseLoader),
    ∃ t, (loadChronologyLoop builders world list arcs startTime loader).2.m_messageLog
      = loader.m_messageLog ++ t
  | [], arcs, startTime, loader => log_refl _
  | v :: rest, arcs, startTime, loader => by
    cases v with
    | map m =>
      have hn := loadArc_log builders m world startTime loader
      rcases hr : loadArc builders m world startTime loader with ⟨o, loader1⟩
      rw [hr] at hn
      cases o with
      | none => simp only [loadChronologyLoop, hr]; exact hn
      | some arc =>
        simp only [loadChronologyLoop, hr]
        exact log_trans hn (loadChronologyLoop_log builders world rest _ _ _)
    | invalid => exact errorMessage_log _ _
    | bool b => exact errorMessage_log _ _
    | int i => exact errorMessage_log _ _
    | uint u => exact errorMessage_log _ _
    | longlong i => exact errorMessage_log _ _
    | ulonglong u => exact errorMessage_log _ _
    | double d => exact errorMessage_log _ _
    | string s => exact errorMessage_log _ _
    | list l => exact errorMessage_log _ _

theorem loadItemGeometry_log (builders : Builders) (item : QVariantMap) (world : Universe)
    (loader : UniverseLoader) :
    ∃ t, (loadItemGeometry builders item world loader).2.2.m_messageLog
      = loader.m_messageLog ++ t := by
  unfold loadItemGeometry
  split_ifs
  · cases item.value "geometry" <;> simp only [] <;>
      first
      | exact errorMessage_log _ _
      | exact logMessages_log _ _
  · exact log_refl _

theorem loadItemStartTime_log (builders : Builders) (item : QVariantMap)
    (loader : UniverseLoader) :
    ∃ t, (loadItemStartTime builders item loader).2.2.m_messageLog
      = loader.m_messageLog ++ t := by
  unfold loadItemStartTime
  simp only []
  split_ifs
  · exact errorMessage_log _ _
  · exact log_refl _
  · exact log_refl _

theorem loadItemArcs_log (builders : Builders) (item : QVariantMap) (world : Universe)
    (startTime : ℚ) (loader : UniverseLoader) :
    ∃ t, (loadItemArcs builders item world startTime loader).2.m_messageLog
      = loader.m_messageLog ++ t := by
  unfold loadItemArcs
  by_cases hv : (item.value "arcs").isValid = true
  · simp only [hv, if_true]
    cases item.value "arcs" <;> simp only [] <;>
      first
      | exact errorMessage_log _ _
      | exact loadChronologyLoop_log _ _ _ _ _ _
  · simp only [hv, if_false, Bool.false_eq_true]
    have h := loadArc_log builders item world startTime loader
    rcases hr : loadArc builders item world startTime loader with ⟨o, loader1⟩
    rw [hr] at h
    cases o <;> exact h

theorem buildBody_log (builders : Builders) (item : QVariantMap) (world : Universe)
    (loader : UniverseLoader) :
    ∃ t, (buildBody builders item world loader).loader.m_messageLog
      = loader.m_messageLog ++ t := by
  unfold buildBody
  exact log_trans (log_trans (loadItemGeometry_log _ _ _ _) (loadItemStartTime_log _ _ _))
    (loadItemArcs_log _ _ _ _ _)

/-! ## More on the body branch -/

theorem value_of_not_contains (m : QVariantMap) (key : String) (h : m.contains key = false) :
    m.value key = QVariant.invalid := by
  unfold QVariantMap.contains at h
  unfold QVariantMap.value
  cases hl : m.lookup key with
  | none => rfl
  | some v => rw [hl] at h; simp at h

theorem find_setBodyInfo (catalog : UniverseCatalog) (name n : String) (info : BodyInfo) :
    (catalog.setBodyInfo name info).find n = catalog.find n := rfl

theorem body_append_none (bodies : List (Option Body)) (catalog catalog1 : UniverseCatalog)
    (address : Nat) :
    Universe.body { catalog := catalog1, bodies := bodies ++ [none] } address
      = Universe.body { catalog := catalog, bodies := bodies } address := by
  unfold Universe.body
  simp only [List.get?_eq_getElem?]
  rcases Nat.lt_trichotomy address bodies.length with h | h | h
  · rw [List.getElem?_append_left h]
  · subst h
    simp
  · rw [List.getElem?_eq_none (by simp; omega), List.getElem?_eq_none (by omega)]

theorem loadBodyItem_success_new (builders : Builders) (item : QVariantMap) (s : LoadState)
    (hfind : s.world.catalog.find (itemName builders item) = none)
    (hok : bodyItemBuilds builders item = true) :
    (loadBodyItem builders item s).world
      = { catalog := (s.world.catalog.addBody (itemName builders item)
            s.world.bodies.length).setBodyInfo (itemName builders item)
            (builders.loadBodyInfo item)
          bodies := s.world.bodies ++ [some
            { name := itemName builders item
              lightSource := none
              geometry := (buildBody builders item
                { catalog := s.world.catalog.addBody (itemName builders item)
                    s.world.bodies.length
                  bodies := s.world.bodies ++ [some { Body.new with
                    name := itemName builders item }] }
                { s.loader with m_currentBodyName := itemName builders item }).geometry
              visible := (item.valueD "visible" (QVariant.bool true)).toBool
              beginning := itemStartTime builders item
              arcs := (buildBody builders item
                { catalog := s.world.catalog.addBody (itemName builders item)
                    s.world.bodies.length
                  bodies := s.world.bodies ++ [some { Body.new with
                    name := itemName builders item }] }
                { s.loader with m_currentBodyName := itemName builders item }).arcs
              visualizers := [] }] } := by
  unfold itemName at hfind ⊢
  unfold loadBodyItem
  simp only [buildBody_valid, hok, hfind, if_true, Option.getD_none, Universe.modifyBody,
    Universe.body, get?_append_length, Option.join, set_length_append, buildBody_startTime]
  rfl

theorem loadBodyItem_fail_loader (builders : Builders) (item : QVariantMap) (s : LoadState)
    (hfail : bodyItemBuilds builders item = false) :
    ∃ earlier : UniverseLoader,
      earlier.m_currentBodyName = itemName builders item ∧
      (∃ t, earlier.m_messageLog = s.loader.m_messageLog ++ t) ∧
      (loadBodyItem builders item s).loader
        = earlier.errorMessage
            ("Skipping body '" ++ itemName builders item ++ "' because of errors.") := by
  unfold loadBodyItem itemName
  simp only [buildBody_valid, hfail, Bool.false_eq_true, if_false]
  refine ⟨_, ?_, ?_, rfl⟩
  · rw [buildBody_name]
  · exact buildBody_log _ _ _ _

/-- What `buildBody` logs for an item without `geometry`, `startTime`,
`arcs` and `center`: the one message of `loadArc`. -/
theorem buildBody_missing_center (builders : Builders) (item : QVariantMap) (world : Universe)
    (loader : UniverseLoader)
    (hgeometry : item.contains "geometry" = false)
    (hstart : item.contains "startTime" = false)
    (harcs : item.contains "arcs" = false)
    (hcenter : item.contains "center" = false) :
    (buildBody builders item world loader).loader
      = loader.errorMessage "Missing center for object." := by
  have h1 := value_of_not_contains item "startTime" hstart
  have h2 := value_of_not_contains item "arcs" harcs
  have h3 := value_of_not_contains item "center" hcenter
  unfold buildBody loadItemArcs loadItemStartTime loadItemGeometry loadArc
  simp only [hgeometry, h1, h2, h3, QVariant.isValid, Bool.false_eq_true, if_false]

theorem bodyItemBuilds_missing_center (builders : Builders) (item : QVariantMap)
    (harcs : item.contains "arcs" = false)
    (hcenter : item.contains "center" = false) :
    bodyItemBuilds builders item = false := by
  have h2 := value_of_not_contains item "arcs" harcs
  have h3 := value_of_not_contains item "center" hcenter
  unfold bodyItemBuilds arcEndTime
  simp only [h2, h3, QVariant.isValid, Bool.false_eq_true, if_false, Option.isSome_none,
    Bool.and_false]

theorem loadCatalogItems_items (builders : Builders) (nested : NestedLoads)
    (contents : QVariantMap) (requireDepth : Nat) (loader : UniverseLoader) (world : Universe)
    (items : List QVariant)
    (hvalid : (contents.value "version").isValid = true)
    (hversion : (contents.value "version").toString builders = "1.0")
    (hcontains : contents.contains "items" = true)
    (hitems : contents.value "items" = QVariant.list items) :
    ∃ s0 : LoadState,
      (contents.contains "require" = false →
        s0 = { loader := { loader with m_currentBodyName := "" }, world := world,
               bodyNames := [] }) ∧
      loadCatalogItems builders nested contents requireDepth loader world
        = loadItems builders items s0 := by
  unfold loadCatalogItems
  simp only [hvalid, hversion, hcontains, hitems, Bool.not_true, Bool.false_eq_true, if_false,
    bne_self_eq_false]
  exact ⟨_, fun h => by simp only [h, Bool.false_eq_true, if_false], rfl⟩

theorem loadItems_append (builders : Builders) (before after : List QVariant) (s : LoadState) :
    loadItems builders (before ++ after) s
      = loadItems builders after (loadItems builders before s) := by
  unfold loadItems
  rw [List.foldl_append]

theorem lineCount_append (a b : String) : lineCount (a ++ b) = lineCount a + lineCount b := by
  unfold lineCount
  simp [String.toList]

/-- An item with a `center` string and without `geometry`, `startTime`,
`arcs`, `trajectory`, `rotationModel`, `trajectoryFrame`, `bodyFrame` and
`endTime` logs nothing while it is read. -/
theorem buildBody_plain (builders : Builders) (item : QVariantMap) (world : Universe)
    (loader : UniverseLoader) (centerName : String)
    (hcenter : item.value "center" = QVariant.string centerName)
    (hgeometry : item.contains "geometry" = false)
    (hstart : item.contains "startTime" = false)
    (harcs : item.contains "arcs" = false)
    (htrajectory : item.contains "trajectory" = false)
    (hrotation : item.contains "rotationModel" = false)
    (htframe : item.contains "trajectoryFrame" = false)
    (hbframe : item.contains "bodyFrame" = false)
    (hend : item.contains "endTime" = false) :
    (buildBody builders item world loader).loader = loader := by
  have h1 := value_of_not_contains item "startTime" hstart
  have h2 := value_of_not_contains item "arcs" harcs
  have h3 := value_of_not_contains item "trajectory" htrajectory
  have h4 := value_of_not_contains item "rotationModel" hrotation
  have h5 := value_of_not_contains item "trajectoryFrame" htframe
  have h6 := value_of_not_contains item "bodyFrame" hbframe
  have h7 := value_of_not_contains item "endTime" hend
  have hd : ¬ DefaultEndTime ≤ DefaultStartTime := by
    unfold DefaultEndTime DefaultStartTime daysToSeconds
    norm_num
  unfold buildBody loadItemArcs loadItemStartTime loadItemGeometry loadArc loadArcComponents
    loadArcFrame
  simp only [hgeometry, hcenter, h1, h2, h3, h4, h5, h6, h7, QVariant.isValid,
    Bool.false_eq_true, if_false, Bool.not_true, hd]

/-- The loader after a body item without `geometry`, `startTime`, `arcs` and
`center`: the message of `loadArc` and the message of the item loop. -/
theorem loadItem_missing_center_loader (builders : Builders) (item : QVariantMap)
    (s : LoadState)
    (hbody : isBodyItem builders (QVariant.map item) = true)
    (hgeometry : item.contains "geometry" = false)
    (hstart : item.contains "startTime" = false)
    (harcs : item.contains "arcs" = false)
    (hcenter : item.contains "center" = false) :
    (loadItem builders s (QVariant.map item)).loader
      = (({ s.loader with m_currentBodyName := itemName builders item } :
            UniverseLoader).errorMessage
          "Missing center for object.").errorMessage
          ("Skipping body '" ++ itemName builders item ++ "' because of errors.") := by
  have hb : ∀ (world : Universe) (loader : UniverseLoader),
      (buildBody builders item world loader).loader
        = loader.errorMessage "Missing center for object." :=
    fun world loader =>
      buildBody_missing_center builders item world loader hgeometry hstart harcs hcenter
  rw [loadItem_body builders item s hbody]
  unfold loadBodyItem itemName
  simp only [buildBody_valid, bodyItemBuilds_missing_center builders item harcs hcenter,
    Bool.false_eq_true, if_false, hb]

theorem errorMessage_lineCount (loader : UniverseLoader) (message : String)
    (hname : lineCount loader.m_currentBodyName = 0) :
    lineCount (loader.errorMessage message).m_messageLog
      = lineCount loader.m_messageLog + lineCount message + 1 := by
  have h1 : lineCount "Item '" = 0 := by decide!
  have h2 : lineCount "': " = 0 := by decide!
  have h3 : lineCount "\n" = 1 := by decide!
  unfold UniverseLoader.errorMessage
  by_cases h : (!loader.m_currentBodyName.isEmpty) = true
  · simp only [h, if_true, lineCount_append, h1, h2, h3, hname]
    omega
  · simp only [h, if_false, Bool.false_eq_true, lineCount_append, h3]

/-- A body item that builds under a name that is not registered: the body
object is created at the next address, registered, and holds the name and at
least one arc. -/
theorem loadItem_new_body (builders : Builders) (item : QVariantMap) (s : LoadState)
    (hbody : isBodyItem builders (QVariant.map item) = true)
    (hfind : s.world.catalog.find (itemName builders item) = none)
    (hok : bodyItemBuilds builders item = true) :
    ∃ body : Body, body.name = itemName builders item ∧ body.arcs ≠ [] ∧
      (loadItem builders s (QVariant.map item)).world
        = { catalog := (s.world.catalog.addBody (itemName builders item)
              s.world.bodies.length).setBodyInfo (itemName builders item)
              (builders.loadBodyInfo item)
            bodies := s.world.bodies ++ [some body] } := by
  have hw := loadBodyItem_success_new builders item
    { s with loader := { s.loader with m_currentBodyName := "" } } hfind hok
  rw [← loadItem_body builders item s hbody] at hw
  exact ⟨_, rfl, buildBody_arcs builders item _ _ (by rw [buildBody_valid, hok]), hw⟩

/-- A body item that builds and gives nothing but a `center` (and fields
the loader does not read while building) leaves the log as it was. -/
theorem loadItem_plain_log (builders : Builders) (item : QVariantMap) (s : LoadState)
    (centerName : String)
    (hbody : isBodyItem builders (QVariant.map item) = true)
    (hok : bodyItemBuilds builders item = true)
    (hcenter : item.value "center" = QVariant.string centerName)
    (hgeometry : item.contains "geometry" = false)
    (hstart : item.contains "startTime" = false)
    (harcs : item.contains "arcs" = false)
    (htrajectory : item.contains "trajectory" = false)
    (hrotation : item.contains "rotationModel" = false)
    (htframe : item.contains "trajectoryFrame" = false)
    (hbframe : item.contains "bodyFrame" = false)
    (hend : item.contains "endTime" = false) :
    (loadItem builders s (QVariant.map item)).loader.m_messageLog = s.loader.m_messageLog := by
  have hq : ∀ (world : Universe) (loader : UniverseLoader),
      (buildBody builders item world loader).loader = loader :=
    fun world loader => buildBody_plain builders item world loader centerName hcenter hgeometry
      hstart harcs htrajectory hrotation htframe hbframe hend
  rw [loadItem_body builders item s hbody]
  unfold loadBodyItem
  simp only [buildBody_valid, hok, if_true, hq]

end Cosmographia

namespace Cosmographia

/-! ## The catalog loader: properties of the specification -/

/-- C5: for a version-1.0 document whose `items` field is a list,
`loadCatalogItems` runs the item loop over the whole list, starting from the
state `s0` that the `require` list leaves (the initial state when there is no
`require`): every element is processed in the state its predecessors leave,
whatever became of them; an element that is not a map appends "Invalid item
in bodies list." to the log and changes nothing else; a body item that does
not build adds no name and the last thing it logs is "Skipping body '<name>'
because of errors." after the earlier log; and the names returned for the
items are exactly the names of the body items that build, in document
order. -/
theorem loadCatalogItems_processes_every_item (builders : Builders) (nested : NestedLoads)
    (contents : QVariantMap) (requireDepth : Nat) (loader : UniverseLoader) (world : Universe)
    (items : List QVariant)
    (hvalid : (contents.value "version").isValid = true)
    (hversion : (contents.value "version").toString builders = "1.0")
    (hcontains : contents.contains "items" = true)
    (hitems : contents.value "items" = QVariant.list items) :
    ∃ s0 : LoadState,
      (contents.contains "require" = false →
        s0 = { loader := { loader with m_currentBodyName := "" }, world := world,
               bodyNames := [] }) ∧
      loadCatalogItems builders nested contents requireDepth loader world
        = loadItems builders items s0 ∧
      (loadCatalogItems builders nested contents requireDepth loader world).bodyNames
        = s0.bodyNames ++ items.filterMap (builtName builders) ∧
      (∀ (before : List QVariant) (v : QVariant) (after : List QVariant),
        items = before ++ v :: after →
        loadCatalogItems builders nested contents requireDepth loader world
          = loadItems builders after (loadItem builders (loadItems builders before s0) v)) ∧
      (∀ (s : LoadState) (v : QVariant), v.isMap = false →
        (loadItem builders s v).loader.m_messageLog
          = s.loader.m_messageLog ++ "Invalid item in bodies list.\n" ∧
        (loadItem builders s v).world = s.world ∧
        (loadItem builders s v).bodyNames = s.bodyNames) ∧
      (∀ (s : LoadState) (item : QVariantMap),
        isBodyItem builders (QVariant.map item) = true →
        bodyItemBuilds builders item = false →
        (loadItem builders s (QVariant.map item)).bodyNames = s.bodyNames ∧
        ∃ earlier : UniverseLoader,
          earlier.m_currentBodyName = itemName builders item ∧
          (∃ t, earlier.m_messageLog = s.loader.m_messageLog ++ t) ∧
          (loadItem builders s (QVariant.map item)).loader
            = earlier.errorMessage
                ("Skipping body '" ++ itemName builders item ++ "' because of errors.")) := by
  obtain ⟨s0, h0, h1⟩ := loadCatalogItems_items builders nested contents requireDepth loader
    world items hvalid hversion hcontains hitems
  refine ⟨s0, h0, h1, ?_, ?_, ?_, ?_⟩
  · rw [h1, loadItems_bodyNames]
  · intro before v after he
    rw [h1, he, loadItems_append]
    rfl
  · intro s v hv
    have hlog : ∀ log : String, log ++ "Invalid item in bodies list." ++ "\n"
        = log ++ "Invalid item in bodies list.\n" := by
      intro log
      rw [String.append_assoc]
      rfl
    cases v with
    | map m => simp [QVariant.isMap] at hv
    | invalid => exact ⟨hlog _, rfl, rfl⟩
    | bool b => exact ⟨hlog _, rfl, rfl⟩
    | int i => exact ⟨hlog _, rfl, rfl⟩
    | uint u => exact ⟨hlog _, rfl, rfl⟩
    | longlong i => exact ⟨hlog _, rfl, rfl⟩
    | ulonglong u => exact ⟨hlog _, rfl, rfl⟩
    | double d => exact ⟨hlog _, rfl, rfl⟩
    | string t => exact ⟨hlog _, rfl, rfl⟩
    | list l => exact ⟨hlog _, rfl, rfl⟩
  · intro s item hb hf
    rw [loadItem_body builders item s hb]
    refine ⟨?_, ?_⟩
    · rw [loadBodyItem_bodyNames]
      simp [hf]
    · exact loadBodyItem_fail_loader builders item _ hf

theorem loadCatalogItems_processes_every_item_witness :
    (loadCatalogItems Builders.none NestedLoads.none
      (sampleDocument [QVariant.int 3, QVariant.map sampleItemNoCenter,
        QVariant.map sampleItemSun]) 0 UniverseLoader.new Universe.empty).bodyNames
      = ["Earth"] := by
  obtain ⟨s0, h0, -, h2, -⟩ := loadCatalogItems_processes_every_item Builders.none
    NestedLoads.none
    (sampleDocument [QVariant.int 3, QVariant.map sampleItemNoCenter,
      QVariant.map sampleItemSun]) 0 UniverseLoader.new Universe.empty
    [QVariant.int 3, QVariant.map sampleItemNoCenter, QVariant.map sampleItemSun]
    (by decide!) (by decide!) (by decide!) rfl
  rw [h2, h0 (by decide!)]
  decide!

/-- C6: a body item whose name is not in the registry and that does not
build (its `geometry` field is not a map, its `startTime` is not a valid
date, or no arc is built: the flag `valid` of the code is false) leaves the
registry as it was before the item: there is no entry for the name, every
other name resolves as before, and every body object is as before (the
object created for the item is destroyed). -/
theorem loadItem_rolls_back_new_body (builders : Builders) (item : QVariantMap)
    (s : LoadState)
    (hbody : isBodyItem builders (QVariant.map item) = true)
    (hnew : s.world.catalog.find (itemName builders item) = none)
    (hfail : bodyItemBuilds builders item = false) :
    (∀ (world : Universe) (loader : UniverseLoader),
      (buildBody builders item world loader).valid = false) ∧
    (loadItem builders s (QVariant.map item)).world.catalog.find (itemName builders item)
      = none ∧
    (loadItem builders s (QVariant.map item)).world.catalog = s.world.catalog ∧
    (∀ n : String, (loadItem builders s (QVariant.map item)).world.catalog.find n
      = s.world.catalog.find n) ∧
    (∀ address : Nat, (loadItem builders s (QVariant.map item)).world.body address
      = s.world.body address) ∧
    (loadItem builders s (QVariant.map item)).bodyNames = s.bodyNames := by
  have hw : (loadItem builders s (QVariant.map item)).world
      = { catalog := s.world.catalog, bodies := s.world.bodies ++ [none] } := by
    rw [loadItem_body builders item s hbody]
    exact loadBodyItem_fail_new builders item _ hnew hfail
  refine ⟨fun world loader => by rw [buildBody_valid, hfail], ?_, ?_, ?_, ?_, ?_⟩
  · rw [hw]
    exact hnew
  · rw [hw]
  · intro n
    rw [hw]
  · intro address
    rw [hw]
    exact body_append_none _ _ _ _
  · rw [loadItem_body builders item s hbody, loadBodyItem_bodyNames]
    simp [hfail]

theorem loadItem_rolls_back_new_body_witness :
    (loadItem Builders.none
      (loadItem Builders.none
        { loader := UniverseLoader.new, world := Universe.empty, bodyNames := [] }
        (QVariant.map sampleItemSun))
      (QVariant.map sampleItemNoCenter)).world.catalog
      = (loadItem Builders.none
          { loader := UniverseLoader.new, world := Universe.empty, bodyNames := [] }
          (QVariant.map sampleItemSun)).world.catalog :=
  (loadItem_rolls_back_new_body Builders.none sampleItemNoCenter
    (loadItem Builders.none
      { loader := UniverseLoader.new, world := Universe.empty, bodyNames := [] }
      (QVariant.map sampleItemSun))
    (by decide!) (by decide!) (by decide!)).2.2.1

/-- An item that gives its arcs, each with a center, in an `arcs` list needs
no `center` field of its own: the document of "Earth" (with a `center`) and
"Moon" (with such a list) registers two bodies. -/
theorem loadCatalogItems_centers_in_arcs_list :
    missingCenter sampleItemArcs = false ∧
    sampleItemArcs.contains "center" = false ∧
    (loadCatalogItems Builders.none NestedLoads.none
      (sampleDocument [QVariant.map sampleItemSun, QVariant.map sampleItemArcs]) 0
      UniverseLoader.new Universe.empty).world.catalog.m_bodies
      = [("Moon", 1), ("Earth", 0)] := by
  decide!

/-- C8, as amended: for a version-1.0 document without `require` whose
`items` are one body item that builds without logging and one body item that
has no `center` field (and no `arcs`, `geometry` or `startTime` field), in
either order, `loadCatalogItems` appends exactly two errors to the message
log, both for the second item: "Missing center for object." from `loadArc`
and "Skipping body '<name>' because of errors." from the item loop, each
ended by a newline and, when the name is not empty, preceded by
"Item '<name>': "; the log grows by exactly two lines when the name holds no
newline.  The name of the first item is the one name returned. -/
theorem loadCatalogItems_missing_center_logs_two_errors (builders : Builders)
    (nested : NestedLoads) (contents : QVariantMap) (requireDepth : Nat)
    (loader : UniverseLoader) (world : Universe) (a b : QVariantMap) (items : List QVariant)
    (hvalid : (contents.value "version").isValid = true)
    (hversion : (contents.value "version").toString builders = "1.0")
    (hrequire : contents.contains "require" = false)
    (hcontains : contents.contains "items" = true)
    (hitems : contents.value "items" = QVariant.list items)
    (horder : items = [QVariant.map a, QVariant.map b] ∨
      items = [QVariant.map b, QVariant.map a])
    (ha : isBodyItem builders (QVariant.map a) = true)
    (hbuilds : bodyItemBuilds builders a = true)
    (hquiet : ∀ s : LoadState,
      (loadItem builders s (QVariant.map a)).loader.m_messageLog = s.loader.m_messageLog)
    (hb : isBodyItem builders (QVariant.map b) = true)
    (hcenter : b.contains "center" = false)
    (harcs : b.contains "arcs" = false)
    (hgeometry : b.contains "geometry" = false)
    (hstart : b.contains "startTime" = false) :
    (loadCatalogItems builders nested contents requireDepth loader world).loader.m_messageLog
      = ((({ loader with m_currentBodyName := itemName builders b } :
              UniverseLoader).errorMessage
            "Missing center for object.").errorMessage
            ("Skipping body '" ++ itemName builders b ++ "' because of errors.")).m_messageLog ∧
    ((itemName builders b).isEmpty = false →
      (loadCatalogItems builders nested contents requireDepth loader world).loader.m_messageLog
        = loader.m_messageLog
          ++ ("Item '" ++ itemName builders b ++ "': " ++ "Missing center for object." ++ "\n")
          ++ ("Item '" ++ itemName builders b ++ "': "
              ++ ("Skipping body '" ++ itemName builders b ++ "' because of errors.")
              ++ "\n")) ∧
    (lineCount (itemName builders b) = 0 →
      lineCount
        (loadCatalogItems builders nested contents requireDepth loader world).loader.m_messageLog
        = lineCount loader.m_messageLog + 2) ∧
    (loadCatalogItems builders nested contents requireDepth loader world).bodyNames
      = [itemName builders a] := by
  obtain ⟨s0, h0, h1⟩ := loadCatalogItems_items builders nested contents requireDepth loader
    world items hvalid hversion hcontains hitems
  have hs0 := h0 hrequire
  have hfail := bodyItemBuilds_missing_center builders b harcs hcenter
  have hnames : (loadItems builders items s0).bodyNames = [itemName builders a] := by
    rw [loadItems_bodyNames, hs0]
    rcases horder with rfl | rfl <;> simp [builtName, ha, hb, hbuilds, hfail]
  have hlog : (loadItems builders items s0).loader.m_messageLog
      = ((({ loader with m_currentBodyName := itemName builders b } :
              UniverseLoader).errorMessage
            "Missing center for object.").errorMessage
            ("Skipping body '" ++ itemName builders b ++ "' because of errors.")).m_messageLog := by
    subst hs0
    rcases horder with rfl | rfl
    · show (loadItem builders (loadItem builders _ (QVariant.map a))
        (QVariant.map b)).loader.m_messageLog = _
      rw [loadItem_missing_center_loader builders b _ hb hgeometry hstart harcs hcenter]
      simp only [UniverseLoader.errorMessage, hquiet]
    · show (loadItem builders (loadItem builders _ (QVariant.map b))
        (QVariant.map a)).loader.m_messageLog = _
      rw [hquiet, loadItem_missing_center_loader builders b _ hb hgeometry hstart harcs hcenter]
  rw [h1]
  refine ⟨hlog, ?_, ?_, hnames⟩
  · intro hne
    rw [hlog]
    unfold UniverseLoader.errorMessage
    simp only [hne, Bool.not_false, if_true, String.append_assoc]
  · intro hline
    rw [hlog, errorMessage_lineCount _ _ hline, errorMessage_lineCount _ _ hline]
    have h1 : lineCount "Missing center for object." = 0 := by decide!
    have h2 : lineCount "Skipping body '" = 0 := by decide!
    have h3 : lineCount "' because of errors." = 0 := by decide!
    simp only [lineCount_append, h1, h2, h3, hline]

theorem loadCatalogItems_missing_center_logs_two_errors_witness :
    lineCount
      (loadCatalogItems Builders.none NestedLoads.none
        (sampleDocument [QVariant.map sampleItemSun, QVariant.map sampleItemNoCenter]) 0
        UniverseLoader.new Universe.empty).loader.m_messageLog
      = lineCount UniverseLoader.new.m_messageLog + 2 :=
  (loadCatalogItems_missing_center_logs_two_errors Builders.none NestedLoads.none
    (sampleDocument [QVariant.map sampleItemSun, QVariant.map sampleItemNoCenter]) 0
    UniverseLoader.new Universe.empty sampleItemSun sampleItemNoCenter
    [QVariant.map sampleItemSun, QVariant.map sampleItemNoCenter]
    (by decide!) (by decide!) (by decide!) (by decide!) rfl (Or.inl rfl)
    (by decide!) (by decide!)
    (fun s => loadItem_plain_log Builders.none sampleItemSun s "Sun" (by decide!) (by decide!)
      rfl (by decide!) (by decide!) (by decide!) (by decide!) (by decide!)
      (by decide!) (by decide!) (by decide!))
    (by decide!) (by decide!) (by decide!) (by decide!) (by decide!)).2.2.1 (by decide!)

/-- Counterexample to C8 as stated: the document of one body item that builds
and one body item without `center` appends two lines to the log, not one. -/
theorem loadCatalogItems_missing_center_two_lines :
    (loadCatalogItems Builders.none NestedLoads.none
      (sampleDocument [QVariant.map sampleItemSun, QVariant.map sampleItemNoCenter]) 0
      UniverseLoader.new Universe.empty).loader.m_messageLog
      = "Item 'Moon': Missing center for object.\nItem 'Moon': Skipping body 'Moon' because of errors.\n" ∧
    lineCount
      (loadCatalogItems Builders.none NestedLoads.none
        (sampleDocument [QVariant.map sampleItemSun, QVariant.map sampleItemNoCenter]) 0
        UniverseLoader.new Universe.empty).loader.m_messageLog
      ≠ lineCount UniverseLoader.new.m_messageLog + 1 := by
  decide!

/-- C9: a body item that builds and whose name is already registered (to a
live body object) leaves the registry pointing to the same object: the name
and every other name resolve as before, no object is created, every other
object is as before, and the object itself takes the newly built arcs (all of
them, in order, in place of the old ones), the new start time as the
beginning of its chronology, the geometry built from the item and the
visibility the item gives (the light source is reset; name and visualizers
stay). -/
theorem loadItem_reloads_registered_body (builders : Builders) (item : QVariantMap)
    (s : LoadState) (address : Nat) (body : Body)
    (hbody : isBodyItem builders (QVariant.map item) = true)
    (hfind : s.world.catalog.find (itemName builders item) = some address)
    (hobject : s.world.body address = some body)
    (hok : bodyItemBuilds builders item = true) :
    (loadItem builders s (QVariant.map item)).world.catalog.find (itemName builders item)
      = some address ∧
    (∀ n : String, (loadItem builders s (QVariant.map item)).world.catalog.find n
      = s.world.catalog.find n) ∧
    (loadItem builders s (QVariant.map item)).world.bodies.length = s.world.bodies.length ∧
    (∀ k : Nat, k ≠ address →
      (loadItem builders s (QVariant.map item)).world.body k = s.world.body k) ∧
    (loadItem builders s (QVariant.map item)).world.body address
      = some
          { name := body.name
            lightSource := none
            geometry := (buildBody builders item s.world
              { s.loader with m_currentBodyName := itemName builders item }).geometry
            visible := (item.valueD "visible" (QVariant.bool true)).toBool
            beginning := itemStartTime builders item
            arcs := (buildBody builders item s.world
              { s.loader with m_currentBodyName := itemName builders item }).arcs
            visualizers := body.visualizers } ∧
    (buildBody builders item s.world
      { s.loader with m_currentBodyName := itemName builders item }).arcs ≠ [] ∧
    (loadItem builders s (QVariant.map item)).bodyNames
      = s.bodyNames ++ [itemName builders item] := by
  have hlt : address < s.world.bodies.length := by
    unfold Universe.body at hobject
    by_contra hge
    rw [List.get?_eq_getElem?, List.getElem?_eq_none (by omega)] at hobject
    simp at hobject
  have hw := loadBodyItem_success_existing builders item
    { s with loader := { s.loader with m_currentBodyName := "" } } address body hfind hobject hok
  rw [← loadItem_body builders item s hbody] at hw
  refine ⟨?_, ?_, ?_, ?_, ?_, ?_, ?_⟩
  · rw [hw]
    exact hfind
  · intro n
    rw [hw]
    rfl
  · rw [hw]
    simp
  · intro k hk
    rw [hw]
    unfold Universe.body
    simp only [List.get?_eq_getElem?]
    rw [List.getElem?_set_ne (fun e => hk e.symm)]
  · rw [hw]
    unfold Universe.body
    simp only [List.get?_eq_getElem?]
    rw [List.getElem?_set_self hlt]
    rfl
  · exact buildBody_arcs builders item _ _ (by rw [buildBody_valid, hok])
  · rw [loadItem_body builders item s hbody, loadBodyItem_bodyNames]
    simp [hok]

theorem loadItem_reloads_registered_body_witness :
    (loadItem Builders.none
      (loadItem Builders.none
        { loader := UniverseLoader.new, world := Universe.empty, bodyNames := [] }
        (QVariant.map (sampleItemNoCenter ++ [("center", QVariant.string "Sun")])))
      (QVariant.map sampleItemArcs)).world.catalog.find "Moon" = some 0 :=
  (loadItem_reloads_registered_body Builders.none sampleItemArcs
    (loadItem Builders.none
      { loader := UniverseLoader.new, world := Universe.empty, bodyNames := [] }
      (QVariant.map (sampleItemNoCenter ++ [("center", QVariant.string "Sun")])))
    0
    { name := "Moon", lightSource := none, geometry := none, visible := true,
      beginning := DefaultStartTime,
      arcs := [{ Arc.new with duration := DefaultEndTime - DefaultStartTime }],
      visualizers := [] }
    (by decide!) (by decide!) (by decide!) (by decide!)).1

/-- C10: a body item that does not build and whose name is already
registered leaves the universe as it was: the name resolves to the same
body, whose arcs, beginning, geometry and visibility are as before, and the
`BodyInfo` kept for the name is as before; no name is returned for the
item. -/
theorem loadItem_keeps_registered_body_on_failure (builders : Builders)
    (item : QVariantMap) (s : LoadState) (address : Nat)
    (hbody : isBodyItem builders (QVariant.map item) = true)
    (hfind : s.world.catalog.find (itemName builders item) = some address)
    (hfail : bodyItemBuilds builders item = false) :
    (loadItem builders s (QVariant.map item)).world = s.world ∧
    (loadItem builders s (QVariant.map item)).world.catalog.find (itemName builders item)
      = some address ∧
    (loadItem builders s (QVariant.map item)).world.body address = s.world.body address ∧
    (loadItem builders s (QVariant.map item)).world.findBody (itemName builders item)
      = s.world.findBody (itemName builders item) ∧
    (loadItem builders s (QVariant.map item)).world.catalog.findInfo (itemName builders item)
      = s.world.catalog.findInfo (itemName builders item) ∧
    (loadItem builders s (QVariant.map item)).bodyNames = s.bodyNames := by
  have hw : (loadItem builders s (QVariant.map item)).world = s.world := by
    rw [loadItem_body builders item s hbody]
    exact loadBodyItem_fail_existing builders item _ address hfind hfail
  refine ⟨hw, ?_, ?_, ?_, ?_, ?_⟩
  · rw [hw]
    exact hfind
  · rw [hw]
  · rw [hw]
  · rw [hw]
  · rw [loadItem_body builders item s hbody, loadBodyItem_bodyNames]
    simp [hfail]

theorem loadItem_keeps_registered_body_on_failure_witness :
    (loadItem Builders.none
      (loadItem Builders.none
        { loader := UniverseLoader.new, world := Universe.empty, bodyNames := [] }
        (QVariant.map sampleItemArcs))
      (QVariant.map sampleItemNoCenter)).world
      = (loadItem Builders.none
          { loader := UniverseLoader.new, world := Universe.empty, bodyNames := [] }
          (QVariant.map sampleItemArcs)).world :=
  (loadItem_keeps_registered_body_on_failure Builders.none sampleItemNoCenter
    (loadItem Builders.none
      { loader := UniverseLoader.new, world := Universe.empty, bodyNames := [] }
      (QVariant.map sampleItemArcs))
    0 (by decide!) (by decide!) (by decide!)).1

end Cosmographia

namespace Cosmographia

/-! ## Lemmas on the frame builders -/

theorem errorMessage_messageLog (loader : UniverseLoader) (message : String) :
    (loader.errorMessage message).m_messageLog
      = loader.m_messageLog
        ++ ((if loader.m_currentBodyName.isEmpty then ""
             else "Item '" ++ loader.m_currentBodyName ++ "': ") ++ message ++ "\n") := by
  unfold UniverseLoader.errorMessage
  cases h : loader.m_currentBodyName.isEmpty
  · simp only [Bool.not_false, if_true, Bool.false_eq_true, if_false, String.append_assoc]
  · simp only [Bool.not_true, Bool.false_eq_true, if_false, if_true, String.append_assoc,
      String.empty_append]

theorem parseAxisLabel_isSome (label : String) :
    (parseAxisLabel label).isSome = true
      ↔ label.toLower ∈ ["x", "+x", "-x", "y", "+y", "-y", "z", "+z", "-z"] := by
  unfold parseAxisLabel
  simp only [Bool.or_eq_true, beq_iff_eq, List.mem_cons, List.mem_singleton, List.mem_nil_iff,
    or_false]
  constructor
  · intro h
    split_ifs at h with h1 h2 h3 h4 h5 h6
    · rcases h1 with h1 | h1 <;> simp [h1]
    · rcases h2 with h2 | h2 <;> simp [h2]
    · rcases h3 with h3 | h3 <;> simp [h3]
    · simp [h4]
    · simp [h5]
    · simp [h6]
    · simp at h
  · intro h
    split_ifs with h1 h2 h3 h4 h5 h6
    · rfl
    · rfl
    · rfl
    · rfl
    · rfl
    · rfl
    · exfalso
      rcases h with h | h | h | h | h | h | h | h | h
      · exact h1 (Or.inl h)
      · exact h1 (Or.inr h)
      · exact h4 h
      · exact h2 (Or.inl h)
      · exact h2 (Or.inr h)
      · exact h5 h
      · exact h3 (Or.inl h)
      · exact h3 (Or.inr h)
      · exact h6 h

theorem orthogonalAxes_iff (a b : Axis) : orthogonalAxes a b = true ↔ a.line ≠ b.line := by
  unfold orthogonalAxes
  simp

theorem orthogonalAxes_self (a : Axis) :
    orthogonalAxes a a = false ∧ orthogonalAxes a a.negate = false ∧
      orthogonalAxes a.negate a = false := by
  cases a <;> decide

theorem isZero_zero : Vector3d.isZero { x := 0, y := 0, z := 0 } = true := by
  unfold Vector3d.isZero
  norm_num

theorem squaredNorm_pos (v : Vector3d) (h : v.isZero = false) : 0 < v.squaredNorm := by
  unfold Vector3d.squaredNorm
  by_contra hle
  have hx := mul_self_nonneg v.x
  have hy := mul_self_nonneg v.y
  have hz := mul_self_nonneg v.z
  have h0 : v.x * v.x = 0 ∧ v.y * v.y = 0 ∧ v.z * v.z = 0 := by
    refine ⟨?_, ?_, ?_⟩ <;> linarith
  have ex : v.x = 0 := mul_self_eq_zero.mp h0.1
  have ey : v.y = 0 := mul_self_eq_zero.mp h0.2.1
  have ez : v.z = 0 := mul_self_eq_zero.mp h0.2.2
  unfold Vector3d.isZero at h
  rw [ex, ey, ez] at h
  norm_num at h

theorem normalize_squaredNorm (v : Vector3d) (h : v.isZero = false) :
    v.normalize.squaredNorm = 1 := by
  unfold Vector3d.normalize ScaledVector3d.squaredNorm
  exact div_self (ne_of_gt (squaredNorm_pos v h))

end Cosmographia

namespace Cosmographia

/-! ## Arcs, frames and typed builders: properties of the specification -/

/-- C11: `loadArc` does not fail when the `center` field names an entity that
is not in the registry: on the map with the one field `center` = "Sun" and the
empty registry it returns an arc, whose center is the null pointer that
`catalog->find` gave, and logs nothing. -/
theorem loadArc_unregistered_center :
    Universe.empty.catalog.find "Sun" = none ∧
    loadArc Builders.none [("center", QVariant.string "Sun")] Universe.empty DefaultStartTime
        UniverseLoader.new
      = (some { Arc.new with center := none, duration := DefaultEndTime - DefaultStartTime },
         UniverseLoader.new) := by
  decide!

/-- C12: `loadBodyFixedFrame` returns a frame if and only if `body` is a
string that names an entity of the registry, and then the frame is the
body-fixed frame of that entity; `loadRelativePosition` and
`loadRelativeVelocity` return a direction if and only if `observer` and
`target` are both strings that name entities of the registry, and then the
direction is the one from that observer to that target; in every other case
the result is null. -/
theorem loadBodyFixedFrame_iff_registered (map : QVariantMap) (world : Universe)
    (loader : UniverseLoader) :
    ((loadBodyFixedFrame map world loader).1.isSome = true ↔
      ∃ bodyName body, map.value "body" = QVariant.string bodyName ∧
        world.catalog.find bodyName = some body) ∧
    (∀ bodyName body, map.value "body" = QVariant.string bodyName →
      world.catalog.find bodyName = some body →
      (loadBodyFixedFrame map world loader).1 = some (LoadedFrame.bodyFixed body)) ∧
    ((loadBodyFixedFrame map world loader).1.isSome = false →
      (loadBodyFixedFrame map world loader).1 = none) ∧
    ((loadRelativePosition map world).isSome = true ↔
      ∃ observerName targetName observer target,
        map.value "observer" = QVariant.string observerName ∧
        map.value "target" = QVariant.string targetName ∧
        world.catalog.find observerName = some observer ∧
        world.catalog.find targetName = some target) ∧
    (∀ observerName targetName observer target,
      map.value "observer" = QVariant.string observerName →
      map.value "target" = QVariant.string targetName →
      world.catalog.find observerName = some observer →
      world.catalog.find targetName = some target →
      loadRelativePosition map world
        = some (TwoVectorFrameDirection.relativePosition observer target)) ∧
    ((loadRelativePosition map world).isSome = false → loadRelativePosition map world = none) ∧
    ((loadRelativeVelocity map world).isSome = true ↔
      ∃ observerName targetName observer target,
        map.value "observer" = QVariant.string observerName ∧
        map.value "target" = QVariant.string targetName ∧
        world.catalog.find observerName = some observer ∧
        world.catalog.find targetName = some target) ∧
    (∀ observerName targetName observer target,
      map.value "observer" = QVariant.string observerName →
      map.value "target" = QVariant.string targetName →
      world.catalog.find observerName = some observer →
      world.catalog.find targetName = some target →
      loadRelativeVelocity map world
        = some (TwoVectorFrameDirection.relativeVelocity observer target)) ∧
    ((loadRelativeVelocity map world).isSome = false →
      loadRelativeVelocity map world = none) := by
  refine ⟨?_, ?_, ?_, ?_, ?_, ?_, ?_, ?_, ?_⟩
  · unfold loadBodyFixedFrame
    cases hb : map.value "body" <;> simp only []
    case string bodyName =>
      cases hf : world.catalog.find bodyName with
      | none =>
        simp only [Option.isSome_none, Bool.false_eq_true, false_iff, not_exists, not_and]
        intro n b hn
        cases hn
        rw [hf]
        simp
      | some body => simp [hf]
    all_goals simp
  · intro bodyName body hb hf
    unfold loadBodyFixedFrame
    simp only [hb, hf]
  · intro h
    cases hr : (loadBodyFixedFrame map world loader).1 with
    | none => rfl
    | some f => rw [hr] at h; simp at h
  · unfold loadRelativePosition
    cases ho : map.value "observer" <;> cases ht : map.value "target" <;> simp only []
    case string.string observerName targetName =>
      cases hf : world.catalog.find observerName with
      | none => simp [hf]
      | some observer =>
        cases hg : world.catalog.find targetName with
        | none => simp [hg]
        | some target => simp [hf, hg]
    all_goals simp
  · intro observerName targetName observer target ho ht hf hg
    unfold loadRelativePosition
    simp only [ho, ht, hf, hg]
  · intro h
    cases hr : loadRelativePosition map world with
    | none => rfl
    | some f => rw [hr] at h; simp at h
  · unfold loadRelativeVelocity
    cases ho : map.value "observer" <;> cases ht : map.value "target" <;> simp only []
    case string.string observerName targetName =>
      cases hf : world.catalog.find observerName with
      | none => simp [hf]
      | some observer =>
        cases hg : world.catalog.find targetName with
        | none => simp [hg]
        | some target => simp [hf, hg]
    all_goals simp
  · intro observerName targetName observer target ho ht hf hg
    unfold loadRelativeVelocity
    simp only [ho, ht, hf, hg]
  · intro h
    cases hr : loadRelativeVelocity map world with
    | none => rfl
    | some f => rw [hr] at h; simp at h

/-- C18: `loadTwoVectorFrame` returns a frame only if `primary` and
`secondary` are maps, `primaryAxis` and `secondaryAxis` are strings that are
valid axis labels (one of x, +x, -x, y, +y, -y, z, +z, -z once lowered), the
two axes are orthogonal (they lie on different lines: never an axis with
itself or its negation) and both directions are built by `loadFrameVector`,
the frame being made of the two directions and the two axes; a request whose
two labels give axes that are not orthogonal returns null, with the error
about orthogonal axes in the log when the four fields have the right
types. -/
theorem loadTwoVectorFrame_requirements (builders : Builders)
    (stringToDouble : String → Option ℚ) (map : QVariantMap) (world : Universe)
    (loader : UniverseLoader) :
    (∀ frame, (loadTwoVectorFrame builders stringToDouble map world loader).1 = some frame →
      ∃ primary secondary primaryLabel secondaryLabel primaryAxis secondaryAxis p s,
        map.value "primary" = QVariant.map primary ∧
        map.value "secondary" = QVariant.map secondary ∧
        map.value "primaryAxis" = QVariant.string primaryLabel ∧
        map.value "secondaryAxis" = QVariant.string secondaryLabel ∧
        parseAxisLabel primaryLabel = some primaryAxis ∧
        parseAxisLabel secondaryLabel = some secondaryAxis ∧
        primaryLabel.toLower ∈ ["x", "+x", "-x", "y", "+y", "-y", "z", "+z", "-z"] ∧
        secondaryLabel.toLower ∈ ["x", "+x", "-x", "y", "+y", "-y", "z", "+z", "-z"] ∧
        orthogonalAxes primaryAxis secondaryAxis = true ∧
        primaryAxis ≠ secondaryAxis ∧ primaryAxis ≠ secondaryAxis.negate ∧
        (loadFrameVector builders stringToDouble primary world loader).1 = some p ∧
        (loadFrameVector builders stringToDouble secondary world
          (loadFrameVector builders stringToDouble primary world loader).2).1 = some s ∧
        frame = LoadedFrame.twoVector p primaryAxis s secondaryAxis) ∧
    (∀ primaryLabel secondaryLabel primaryAxis secondaryAxis,
      map.value "primaryAxis" = QVariant.string primaryLabel →
      map.value "secondaryAxis" = QVariant.string secondaryLabel →
      parseAxisLabel primaryLabel = some primaryAxis →
      parseAxisLabel secondaryLabel = some secondaryAxis →
      orthogonalAxes primaryAxis secondaryAxis = false →
      (loadTwoVectorFrame builders stringToDouble map world loader).1 = none ∧
      ((map.value "primary").isMap = true → (map.value "secondary").isMap = true →
        loadTwoVectorFrame builders stringToDouble map world loader
          = (none, loader.errorMessage
              "Bad two vector frame. Primary and secondary axes must be orthogonal"))) ∧
    (∀ label : String, (parseAxisLabel label).isSome = true
      ↔ label.toLower ∈ ["x", "+x", "-x", "y", "+y", "-y", "z", "+z", "-z"]) ∧
    (∀ a : Axis, orthogonalAxes a a = false ∧ orthogonalAxes a a.negate = false ∧
      orthogonalAxes a.negate a = false) := by
  refine ⟨?_, ?_, parseAxisLabel_isSome, orthogonalAxes_self⟩
  · intro frame h
    unfold loadTwoVectorFrame at h
    cases hp : map.value "primary" <;> rw [hp] at h <;> simp only [reduceCtorEq] at h
    rename_i primary
    cases hs : map.value "secondary" <;> rw [hs] at h <;> simp only [reduceCtorEq] at h
    rename_i secondary
    cases hpa : map.value "primaryAxis" <;> rw [hpa] at h <;> simp only [reduceCtorEq] at h
    rename_i primaryLabel
    cases hsa : map.value "secondaryAxis" <;> rw [hsa] at h <;> simp only [reduceCtorEq] at h
    rename_i secondaryLabel
    cases ha1 : parseAxisLabel primaryLabel <;> rw [ha1] at h <;>
      simp only [reduceCtorEq] at h
    rename_i primaryAxis
    cases ha2 : parseAxisLabel secondaryLabel <;> rw [ha2] at h <;>
      simp only [reduceCtorEq] at h
    rename_i secondaryAxis
    cases ho : orthogonalAxes primaryAxis secondaryAxis
    · rw [ho] at h
      simp at h
    · rw [ho] at h
      simp only [Bool.not_true, Bool.false_eq_true, if_false] at h
      cases h1 : (loadFrameVector builders stringToDouble primary world loader).1 with
      | none => rw [h1] at h; simp at h
      | some p =>
        cases h2 : (loadFrameVector builders stringToDouble secondary world
            (loadFrameVector builders stringToDouble primary world loader).2).1 with
        | none => rw [h1, h2] at h; simp at h
        | some s =>
          rw [h1, h2] at h
          simp only [Option.some.injEq] at h
          refine ⟨primary, secondary, primaryLabel, secondaryLabel, primaryAxis, secondaryAxis,
            p, s, rfl, rfl, rfl, rfl, ha1, ha2, ?_, ?_, ho, ?_, ?_, h1, h2, h.symm⟩
          · exact (parseAxisLabel_isSome primaryLabel).mp (by rw [ha1]; rfl)
          · exact (parseAxisLabel_isSome secondaryLabel).mp (by rw [ha2]; rfl)
          · intro e
            rw [e, (orthogonalAxes_self secondaryAxis).1] at ho
            exact Bool.noConfusion ho
          · intro e
            rw [e, (orthogonalAxes_self secondaryAxis).2.2] at ho
            exact Bool.noConfusion ho
  · intro primaryLabel secondaryLabel primaryAxis secondaryAxis hpa hsa ha1 ha2 ho
    refine ⟨?_, ?_⟩
    · unfold loadTwoVectorFrame
      cases hp : map.value "primary" <;> simp only []
      cases hs : map.value "secondary" <;> simp only [hpa, hsa, ha1, ha2, ho, Bool.not_false,
        if_true]
    · intro hp hs
      unfold loadTwoVectorFrame
      cases hp1 : map.value "primary" <;> rw [hp1] at hp <;>
        simp only [QVariant.isMap, Bool.false_eq_true] at hp
      cases hs1 : map.value "secondary" <;> rw [hs1] at hs <;>
        simp only [QVariant.isMap, Bool.false_eq_true] at hs
      simp only [hpa, hsa, ha1, ha2, ho, Bool.not_false, if_true]

/-- C19: `loadConstantFrameVector` returns null and logs an error when the
`direction` is missing, when it is not a vector, and when it is a zero vector
(in particular [0,0,0]); the zero test comes before the normalization, so
that every direction it returns holds the vector read from `direction`, which
is not zero, divided by its length: a vector of length 1. -/
theorem loadConstantFrameVector_rejects_zero (builders : Builders)
    (stringToDouble : String → Option ℚ) (map : QVariantMap) (world : Universe)
    (loader : UniverseLoader) :
    ((map.value "direction").isValid = false →
      loadConstantFrameVector builders stringToDouble map world loader
        = (none, loader.errorMessage "Direction missing for ConstantVector")) ∧
    ((map.value "direction").isValid = true →
      (vec3Value stringToDouble (map.value "direction")).2 = false →
      loadConstantFrameVector builders stringToDouble map world loader
        = (none, loader.errorMessage "Invalid vector given for ConstantVector direction")) ∧
    ((map.value "direction").isValid = true →
      (vec3Value stringToDouble (map.value "direction")).2 = true →
      (vec3Value stringToDouble (map.value "direction")).1.isZero = true →
      loadConstantFrameVector builders stringToDouble map world loader
        = (none, loader.errorMessage
            "Zero vector is not permitted for ConstantVector direction")) ∧
    (vec3Value stringToDouble (map.value "direction") = ({ x := 0, y := 0, z := 0 }, true) →
      loadConstantFrameVector builders stringToDouble map world loader
        = (none, loader.errorMessage
            "Zero vector is not permitted for ConstantVector direction")) ∧
    (∀ direction, (loadConstantFrameVector builders stringToDouble map world loader).1
        = some direction →
      (vec3Value stringToDouble (map.value "direction")).2 = true ∧
      (vec3Value stringToDouble (map.value "direction")).1 ≠ { x := 0, y := 0, z := 0 } ∧
      0 < (vec3Value stringToDouble (map.value "direction")).1.squaredNorm ∧
      (vec3Value stringToDouble (map.value "direction")).1.normalize.squaredNorm = 1 ∧
      ∃ frame, direction = TwoVectorFrameDirection.constant frame
        (vec3Value stringToDouble (map.value "direction")).1.normalize) := by
  refine ⟨?_, ?_, ?_, ?_, ?_⟩
  · intro h
    unfold loadConstantFrameVector
    simp only [h, Bool.not_false, if_true]
  · intro h hv
    unfold loadConstantFrameVector
    simp only [h, hv, Bool.not_true, Bool.false_eq_true, if_false, Bool.not_false, if_true]
  · intro h hv hz
    unfold loadConstantFrameVector
    simp only [h, hv, hz, Bool.not_true, Bool.false_eq_true, if_false, if_true]
  · intro hv
    have hvalid : (map.value "direction").isValid = true := by
      cases hd : map.value "direction" <;> first | rfl | (rw [hd] at hv; simp [vec3Value] at hv)
    unfold loadConstantFrameVector
    simp only [hvalid, hv, isZero_zero, Bool.not_true, Bool.false_eq_true, if_false, if_true]
  · intro direction h
    unfold loadConstantFrameVector at h
    cases hvalid : (map.value "direction").isValid
    · simp [hvalid] at h
    · cases hv : (vec3Value stringToDouble (map.value "direction")).2
      · simp [hvalid, hv] at h
      · cases hz : (vec3Value stringToDouble (map.value "direction")).1.isZero
        · simp only [hvalid, hv, hz, Bool.not_true, Bool.false_eq_true, if_false] at h
          refine ⟨rfl, ?_, squaredNorm_pos _ hz, normalize_squaredNorm _ hz, ?_⟩
          · intro e
            rw [e, isZero_zero] at hz
            exact Bool.noConfusion hz
          · cases hf : (loadConstantFrame builders (map.value "frame") world loader).1 with
            | none => rw [hf] at h; simp at h
            | some f =>
              rw [hf] at h
              simp only [Option.some.injEq] at h
              exact ⟨f, h.symm⟩
        · simp [hvalid, hv, hz] at h

/-- C20: when the `type` field is a string outside the recognised set of
the builder, each of `loadTrajectory`, `loadRotationModel`, `loadFrame` and
`loadFrameVector` returns null and calls `errorMessage` with a text that
holds the type between quotes (`loadFrame` after the message of
`loadInertialFrame`, which holds it too); `errorMessage` appends the text
and a newline to the log, after "Item '<name>': " when an item is
current. -/
theorem typed_builders_reject_unknown_type (builders : Builders) (types : TypeBuilders)
    (stringToDouble : String → Option ℚ) (map : QVariantMap) (world : Universe)
    (loader : UniverseLoader) (type : String)
    (htype : map.value "type" = QVariant.string type) :
    (type ∉ ["FixedPoint", "FixedSpherical", "Keplerian", "Builtin", "InterpolatedStates",
        "TLE"] →
      loadTrajectory builders types map loader
        = (none, loader.errorMessage ("Unknown trajectory type '" ++ type ++ "'"))) ∧
    (type ∉ ["Fixed", "Uniform", "Builtin", "Interpolated"] →
      loadRotationModel builders types map loader
        = (none, loader.errorMessage ("Unknown rotation model type '" ++ type ++ "'"))) ∧
    (type ∉ ["BodyFixed", "TwoVector", "EclipticJ2000", "EquatorJ2000", "EquatorB1950",
        "ICRF"] →
      loadFrame builders stringToDouble map world loader
        = (none, (loader.errorMessage ("Unknown inertial frame: '" ++ type ++ "'")).errorMessage
            ("Unknown frame type '" ++ type ++ "'"))) ∧
    (type ∉ ["RelativePosition", "RelativeVelocity", "ConstantVector"] →
      loadFrameVector builders stringToDouble map world loader
        = (none, loader.errorMessage
            ("Unknoown TwoVector frame direction type '" ++ type ++ "'"))) ∧
    (∀ (l : UniverseLoader) (message : String),
      (l.errorMessage message).m_messageLog
        = l.m_messageLog
          ++ ((if l.m_currentBodyName.isEmpty then ""
               else "Item '" ++ l.m_currentBodyName ++ "': ") ++ message ++ "\n")) := by
  refine ⟨?_, ?_, ?_, ?_, errorMessage_messageLog⟩
  · intro h
    simp only [List.mem_cons, List.mem_singleton, List.mem_nil_iff, or_false, not_or] at h
    obtain ⟨h1, h2, h3, h4, h5, h6⟩ := h
    unfold loadTrajectory
    simp only [htype, QVariant.isString, QVariant.toString, Bool.not_true, Bool.false_eq_true,
      if_false, beq_iff_eq, h1, h2, h3, h4, h5, h6]
  · intro h
    simp only [List.mem_cons, List.mem_singleton, List.mem_nil_iff, or_false, not_or] at h
    obtain ⟨h1, h2, h3, h4⟩ := h
    unfold loadRotationModel
    simp only [htype, QVariant.isString, QVariant.toString, Bool.not_true, Bool.false_eq_true,
      if_false, beq_iff_eq, h1, h2, h3, h4]
  · intro h
    simp only [List.mem_cons, List.mem_singleton, List.mem_nil_iff, or_false, not_or] at h
    obtain ⟨h1, h2, h3, h4, h5, h6⟩ := h
    unfold loadFrame loadInertialFrame
    simp only [htype, QVariant.isString, QVariant.toString, Bool.not_true, Bool.false_eq_true,
      if_false, beq_iff_eq, h1, h2, h3, h4, h5, h6]
  · intro h
    simp only [List.mem_cons, List.mem_singleton, List.mem_nil_iff, or_false, not_or] at h
    obtain ⟨h1, h2, h3⟩ := h
    unfold loadFrameVector
    simp only [htype, beq_iff_eq, h1, h2, h3, if_false]

theorem typed_builders_reject_unknown_type_witness :
    loadTrajectory Builders.none TypeBuilders.none [("type", QVariant.string "Spiral")]
        { m_currentBodyName := "Moon", m_messageLog := "" }
      = (none, { m_currentBodyName := "Moon",
                 m_messageLog := "Item 'Moon': Unknown trajectory type 'Spiral'\n" }) := by
  have h := (typed_builders_reject_unknown_type Builders.none TypeBuilders.none
    (fun _ => none) [("type", QVariant.string "Spiral")] Universe.empty
    { m_currentBodyName := "Moon", m_messageLog := "" } "Spiral" rfl).1 (by decide!)
  rw [h]
  decide!

end Cosmographia

namespace Cosmographia

/-! ## The nested loads of a depth -/

theorem loadRequired_congr (nested1 nested2 : NestedLoads) (requireDepth : Nat)
    (hssc : ∀ fileName loader world,
      nested1.loadSSC fileName requireDepth loader world
        = nested2.loadSSC fileName requireDepth loader world)
    (hfile : ∀ fileName loader world,
      nested1.loadCatalogFile fileName requireDepth loader world
        = nested2.loadCatalogFile fileName requireDepth loader world) :
    loadRequired nested1 requireDepth = loadRequired nested2 requireDepth := by
  funext s v
  unfold loadRequired
  cases v <;> simp only [hssc, hfile]

theorem loadCatalogItems_congr (builders : Builders) (nested1 nested2 : NestedLoads)
    (contents : QVariantMap) (requireDepth : Nat) (loader : UniverseLoader) (world : Universe)
    (hssc : ∀ fileName loader world,
      nested1.loadSSC fileName requireDepth loader world
        = nested2.loadSSC fileName requireDepth loader world)
    (hfile : ∀ fileName loader world,
      nested1.loadCatalogFile fileName requireDepth loader world
        = nested2.loadCatalogFile fileName requireDepth loader world) :
    loadCatalogItems builders nested1 contents requireDepth loader world
      = loadCatalogItems builders nested2 contents requireDepth loader world := by
  unfold loadCatalogItems
  rw [loadRequired_congr nested1 nested2 requireDepth hssc hfile]

/-- A document without `require` is loaded without a nested load. -/
theorem loadCatalogItems_without_require (builders : Builders) (nested1 nested2 : NestedLoads)
    (contents : QVariantMap) (requireDepth : Nat) (loader : UniverseLoader) (world : Universe)
    (h : contents.contains "require" = false) :
    loadCatalogItems builders nested1 contents requireDepth loader world
      = loadCatalogItems builders nested2 contents requireDepth loader world := by
  unfold loadCatalogItems
  simp only [h, Bool.false_eq_true, if_false]

theorem contains_insert (m : QVariantMap) (key k : String) (value : QVariant) :
    QVariantMap.contains (QVariantMap.insert m key value) k = (k == key || m.contains k) := by
  unfold QVariantMap.contains QVariantMap.insert
  by_cases h : k = key
  · subst h
    simp [List.lookup_cons]
  · have hb : (k == key) = false := by simpa using h
    simp only [List.lookup_cons, hb, lookup_filter_bne, h, if_false, Bool.false_or]

theorem loadSSC_nested (fs : FileSystem) (builders : Builders) (nested1 nested2 : NestedLoads)
    (fileName : String) (requireDepth : Nat) (loader : UniverseLoader) (world : Universe) :
    loadSSC fs builders nested1 fileName requireDepth loader world
      = loadSSC fs builders nested2 fileName requireDepth loader world := by
  unfold loadSSC
  cases fs.readAll (fs.canonicalFilePath (loader.dataFileName fileName)) with
  | none => rfl
  | some text =>
    simp only []
    rw [loadCatalogItems_without_require builders nested1 nested2 _ _ _ _
      (by simp only [contains_insert]; rfl)]

theorem loadCatalogFile_congr (fs : FileSystem) (builders : Builders)
    (nested1 nested2 : NestedLoads) (fileName : String) (requireDepth : Nat)
    (loader : UniverseLoader) (world : Universe)
    (hssc : ∀ fileName loader world,
      nested1.loadSSC fileName (requireDepth + 1) loader world
        = nested2.loadSSC fileName (requireDepth + 1) loader world)
    (hfile : ∀ fileName loader world,
      nested1.loadCatalogFile fileName (requireDepth + 1) loader world
        = nested2.loadCatalogFile fileName (requireDepth + 1) loader world) :
    loadCatalogFile fs builders nested1 fileName requireDepth loader world
      = loadCatalogFile fs builders nested2 fileName requireDepth loader world := by
  unfold loadCatalogFile
  simp only [loadCatalogItems_congr builders nested1 nested2 _ (requireDepth + 1) _ _ hssc hfile]

theorem loadCatalogFile_deep (fs : FileSystem) (builders : Builders)
    (nested1 nested2 : NestedLoads) (fileName : String) (requireDepth : Nat)
    (loader : UniverseLoader) (world : Universe) (h : 10 < requireDepth) :
    loadCatalogFile fs builders nested1 fileName requireDepth loader world
      = loadCatalogFile fs builders nested2 fileName requireDepth loader world := by
  unfold loadCatalogFile
  have h' : requireDepth > 10 := h
  simp only [h', if_true]

/-- Unrolling the file loads further than the depth guard lets them go changes
nothing. -/
theorem requiredLoads_stable (fs : FileSystem) (builders : Builders) :
    ∀ (k requireDepth n m : Nat), 11 - requireDepth ≤ k → k ≤ n → k ≤ m →
      ∀ (fileName : String) (loader : UniverseLoader) (world : Universe),
        loadCatalogFile fs builders (requiredLoads fs builders n) fileName requireDepth loader
            world
          = loadCatalogFile fs builders (requiredLoads fs builders m) fileName requireDepth
              loader world := by
  intro k
  induction k with
  | zero =>
    intro requireDepth n m hk _ _ fileName loader world
    exact loadCatalogFile_deep fs builders _ _ fileName requireDepth loader world (by omega)
  | succ k ih =>
    intro requireDepth n m hk hn hm fileName loader world
    by_cases hd : 10 < requireDepth
    · exact loadCatalogFile_deep fs builders _ _ fileName requireDepth loader world hd
    · obtain ⟨n', rfl⟩ : ∃ n', n = n' + 1 := ⟨n - 1, by omega⟩
      obtain ⟨m', rfl⟩ : ∃ m', m = m' + 1 := ⟨m - 1, by omega⟩
      apply loadCatalogFile_congr
      · intro f l w
        exact loadSSC_nested fs builders _ _ f (requireDepth + 1) l w
      · intro f l w
        exact ih (requireDepth + 1) n' m' (by omega) (by omega) (by omega) f l w

/-- The file loads satisfy the equation of the program: `loadCatalogFile`
at a depth runs its body with the file loads themselves as the nested
loads. -/
theorem fileLoads_loadCatalogFile (fs : FileSystem) (builders : Builders) (fileName : String)
    (requireDepth : Nat) (loader : UniverseLoader) (world : Universe) :
    (fileLoads fs builders).loadCatalogFile fileName requireDepth loader world
      = loadCatalogFile fs builders (fileLoads fs builders) fileName requireDepth loader
          world := by
  show loadCatalogFile fs builders (requiredLoads fs builders (11 - requireDepth)) fileName
    requireDepth loader world = _
  by_cases hd : 10 < requireDepth
  · exact loadCatalogFile_deep fs builders _ _ fileName requireDepth loader world hd
  · obtain ⟨n, hn⟩ : ∃ n, 11 - requireDepth = n + 1 := ⟨10 - requireDepth, by omega⟩
    rw [hn]
    apply loadCatalogFile_congr
    · intro f l w
      exact loadSSC_nested fs builders _ _ f (requireDepth + 1) l w
    · intro f l w
      show loadCatalogFile fs builders (requiredLoads fs builders n) f (requireDepth + 1) l w
        = loadCatalogFile fs builders (requiredLoads fs builders (11 - (requireDepth + 1))) f
            (requireDepth + 1) l w
      exact requiredLoads_stable fs builders n (requireDepth + 1) n _ (by omega) (le_refl _)
        (by omega) f l w

theorem fileLoads_loadSSC (fs : FileSystem) (builders : Builders) (fileName : String)
    (requireDepth : Nat) (loader : UniverseLoader) (world : Universe) :
    (fileLoads fs builders).loadSSC fileName requireDepth loader world
      = loadSSC fs builders (fileLoads fs builders) fileName requireDepth loader world :=
  loadSSC_nested fs builders _ _ fileName requireDepth loader world

/-! ## What the messages leave alone

A member `π` of the loader that `errorMessage` does not change is not changed
by reading an item. -/

theorem logMessages_frame {α : Type} (π : UniverseLoader → α)
    (hπ : ∀ l m, π (UniverseLoader.errorMessage l m) = π l) (messages : List String) :
    ∀ (loader : UniverseLoader), π (loader.logMessages messages) = π loader := by
  induction messages with
  | nil => intro loader; rfl
  | cons m ms ih =>
    intro loader
    show π ((loader.errorMessage m).logMessages ms) = _
    rw [ih, hπ]

theorem loadArcFrame_frame {α : Type} (π : UniverseLoader → α)
    (hπ : ∀ l m, π (UniverseLoader.errorMessage l m) = π l) (builders : Builders)
    (frameData : QVariant) (world : Universe) (loader : UniverseLoader) :
    π (loadArcFrame builders frameData world loader).2 = π loader := by
  unfold loadArcFrame
  cases frameData <;> simp only []
  case string name =>
    unfold loadInertialFrame
    split_ifs <;> first | rfl | exact hπ _ _
  case map m => rw [logMessages_frame π hπ]

theorem loadArcComponents_frame {α : Type} (π : UniverseLoader → α)
    (hπ : ∀ l m, π (UniverseLoader.errorMessage l m) = π l) (builders : Builders)
    (map : QVariantMap) (world : Universe) (arc : Arc) (loader : UniverseLoader) :
    π (loadArcComponents builders map world arc loader).2 = π loader := by
  unfold loadArcComponents
  simp only []
  rw [loadArcFrame_frame π hπ, loadArcFrame_frame π hπ]
  cases map.value "rotationModel" <;> cases map.value "trajectory" <;>
    simp only [logMessages_frame π hπ]

theorem loadArc_frame {α : Type} (π : UniverseLoader → α)
    (hπ : ∀ l m, π (UniverseLoader.errorMessage l m) = π l) (builders : Builders)
    (map : QVariantMap) (world : Universe) (startTime : ℚ) (loader : UniverseLoader) :
    π (loadArc builders map world startTime loader).2 = π loader := by
  unfold loadArc
  cases h : map.value "center" <;> simp only [hπ]
  case string name =>
    split_ifs <;> simp only [hπ, loadArcComponents_frame π hπ]

theorem loadChronologyLoop_frame {α : Type} (π : UniverseLoader → α)
    (hπ : ∀ l m, π (UniverseLoader.errorMessage l m) = π l) (builders : Builders)
    (world : Universe) :
    ∀ (list : List QVariant) (arcs : List Arc) (startTime : ℚ) (loader : UniverseLoader),
    π (loadChronologyLoop builders world list arcs startTime loader).2 = π loader
  | [], arcs, startTime, loader => rfl
  | v :: rest, arcs, startTime, loader => by
    cases v with
    | map m =>
      have hn := loadArc_frame π hπ builders m world startTime loader
      rcases hr : loadArc builders m world startTime loader with ⟨o, loader1⟩
      rw [hr] at hn
      cases o with
      | none => simp only [loadChronologyLoop, hr]; exact hn
      | some arc =>
        simp only [loadChronologyLoop, hr]
        rw [loadChronologyLoop_frame π hπ builders world rest]
        exact hn
    | invalid => exact hπ _ _
    | bool b => exact hπ _ _
    | int i => exact hπ _ _
    | uint u => exact hπ _ _
    | longlong i => exact hπ _ _
    | ulonglong u => exact hπ _ _
    | double d => exact hπ _ _
    | string s => exact hπ _ _
    | list l => exact hπ _ _

theorem loadItemGeometry_frame {α : Type} (π : UniverseLoader → α)
    (hπ : ∀ l m, π (UniverseLoader.errorMessage l m) = π l) (builders : Builders)
    (item : QVariantMap) (world : Universe) (loader : UniverseLoader) :
    π (loadItemGeometry builders item world loader).2.2 = π loader := by
  unfold loadItemGeometry
  split_ifs
  · cases item.value "geometry" <;> simp only [hπ, logMessages_frame π hπ]
  · rfl

theorem loadItemStartTime_frame {α : Type} (π : UniverseLoader → α)
    (hπ : ∀ l m, π (UniverseLoader.errorMessage l m) = π l) (builders : Builders)
    (item : QVariantMap) (loader : UniverseLoader) :
    π (loadItemStartTime builders item loader).2.2 = π loader := by
  unfold loadItemStartTime
  simp only []
  split_ifs <;> first | rfl | exact hπ _ _

theorem loadItemArcs_frame {α : Type} (π : UniverseLoader → α)
    (hπ : ∀ l m, π (UniverseLoader.errorMessage l m) = π l) (builders : Builders)
    (item : QVariantMap) (world : Universe) (startTime : ℚ) (loader : UniverseLoader) :
    π (loadItemArcs builders item world startTime loader).2 = π loader := by
  unfold loadItemArcs
  by_cases hv : (item.value "arcs").isValid = true
  · simp only [hv, if_true]
    cases item.value "arcs" <;>
      simp only [hπ, loadChronology, loadChronologyLoop_frame π hπ]
  · simp only [hv, if_false, Bool.false_eq_true]
    have h := loadArc_frame π hπ builders item world startTime loader
    rcases hr : loadArc builders item world startTime loader with ⟨o, loader1⟩
    rw [hr] at h
    cases o <;> exact h

theorem buildBody_frame {α : Type} (π : UniverseLoader → α)
    (hπ : ∀ l m, π (UniverseLoader.errorMessage l m) = π l) (builders : Builders)
    (item : QVariantMap) (world : Universe) (loader : UniverseLoader) :
    π (buildBody builders item world loader).loader = π loader := by
  unfold buildBody
  simp only [loadItemArcs_frame π hπ, loadItemStartTime_frame π hπ,
    loadItemGeometry_frame π hπ]

theorem loadBodyItem_frame {α : Type} (π : UniverseLoader → α)
    (hπ : ∀ l m, π (UniverseLoader.errorMessage l m) = π l)
    (hname : ∀ (l : UniverseLoader) (name : String),
      π { l with m_currentBodyName := name } = π l)
    (builders : Builders) (item : QVariantMap) (s : LoadState) :
    π (loadBodyItem builders item s).loader = π s.loader := by
  unfold loadBodyItem
  simp only []
  split_ifs <;> simp only [hπ, hname, buildBody_frame π hπ]

theorem loadVisualizerItem_frame {α : Type} (π : UniverseLoader → α)
    (hπ : ∀ l m, π (UniverseLoader.errorMessage l m) = π l)
    (builders : Builders) (item : QVariantMap) (s : LoadState) :
    π (loadVisualizerItem builders item s).loader = π s.loader := by
  unfold loadVisualizerItem
  cases item.value "tag" <;> cases item.value "body" <;> simp only [hπ]
  case string.string tag bodyName =>
    cases s.world.catalog.find bodyName with
    | none => simp only [hπ]
    | some body =>
      simp only []
      cases (builders.loadVisualizer item s.world s.loader).1 <;>
        simp only [logMessages_frame π hπ]

theorem loadViewpointItem_frame {α : Type} (π : UniverseLoader → α)
    (hπ : ∀ l m, π (UniverseLoader.errorMessage l m) = π l)
    (builders : Builders) (item : QVariantMap) (s : LoadState) :
    π (loadViewpointItem builders item s).loader = π s.loader := by
  unfold loadViewpointItem
  simp only []
  cases (builders.loadViewpoint item s.world s.loader).1 <;>
    simp only [logMessages_frame π hπ]

/-- One turn of the item loop changes no member of the loader but the name of
the current item and the message log. -/
theorem loadItem_frame {α : Type} (π : UniverseLoader → α)
    (hπ : ∀ l m, π (UniverseLoader.errorMessage l m) = π l)
    (hname : ∀ (l : UniverseLoader) (name : String),
      π { l with m_currentBodyName := name } = π l)
    (builders : Builders) (s : LoadState) (v : QVariant) :
    π (loadItem builders s v).loader = π s.loader := by
  unfold loadItem
  cases v <;> simp only [hπ, hname]
  case map item =>
    split_ifs
    · rw [loadBodyItem_frame π hπ hname]
      exact hname _ _
    · rw [loadVisualizerItem_frame π hπ]
      exact hname _ _
    · rw [loadViewpointItem_frame π hπ]
      exact hname _ _
    · exact hname _ _

theorem loadItems_frame {α : Type} (π : UniverseLoader → α)
    (hπ : ∀ l m, π (UniverseLoader.errorMessage l m) = π l)
    (hname : ∀ (l : UniverseLoader) (name : String),
      π { l with m_currentBodyName := name } = π l)
    (builders : Builders) : ∀ (items : List QVariant) (s : LoadState),
    π (loadItems builders items s).loader = π s.loader
  | [], s => rfl
  | v :: rest, s => by
    have ih := loadItems_frame π hπ hname builders rest (loadItem builders s v)
    unfold loadItems at ih ⊢
    rw [List.foldl_cons, ih, loadItem_frame π hπ hname]

/-! ## The log grows, the set of loaded files stays -/

theorem loadBodyItem_log (builders : Builders) (item : QVariantMap) (s : LoadState) :
    ∃ t, (loadBodyItem builders item s).loader.m_messageLog = s.loader.m_messageLog ++ t := by
  cases hb : bodyItemBuilds builders item
  · obtain ⟨earlier, -, hlog, he⟩ := loadBodyItem_fail_loader builders item s hb
    rw [he]
    exact log_trans hlog (errorMessage_log _ _)
  · unfold loadBodyItem
    simp only [buildBody_valid, hb, if_true]
    exact buildBody_log builders item _ _

theorem loadVisualizerItem_log (builders : Builders) (item : QVariantMap) (s : LoadState) :
    ∃ t, (loadVisualizerItem builders item s).loader.m_messageLog
      = s.loader.m_messageLog ++ t := by
  unfold loadVisualizerItem
  cases item.value "tag" <;> cases item.value "body" <;> simp only [] <;>
    try exact errorMessage_log _ _
  case string.string tag bodyName =>
    cases s.world.catalog.find bodyName with
    | none => exact errorMessage_log _ _
    | some body =>
      simp only []
      cases (builders.loadVisualizer item s.world s.loader).1 <;> exact logMessages_log _ _

theorem loadViewpointItem_log (builders : Builders) (item : QVariantMap) (s : LoadState) :
    ∃ t, (loadViewpointItem builders item s).loader.m_messageLog
      = s.loader.m_messageLog ++ t := by
  unfold loadViewpointItem
  simp only []
  cases (builders.loadViewpoint item s.world s.loader).1 <;> exact logMessages_log _ _

theorem loadItem_log (builders : Builders) (s : LoadState) (v : QVariant) :
    ∃ t, (loadItem builders s v).loader.m_messageLog = s.loader.m_messageLog ++ t := by
  unfold loadItem
  cases v <;> simp only [] <;> try exact errorMessage_log _ _
  case map item =>
    split_ifs
    · exact loadBodyItem_log builders item _
    · exact loadVisualizerItem_log builders item _
    · exact loadViewpointItem_log builders item _
    · exact log_refl _

theorem grows_refl (loader : UniverseLoader) : loader.grows loader :=
  ⟨rfl, rfl, rfl, log_refl _⟩

theorem grows_trans {a b c : UniverseLoader} (h1 : a.grows b) (h2 : b.grows c) : a.grows c :=
  ⟨h2.1.trans h1.1, h2.2.1.trans h1.2.1, h2.2.2.1.trans h1.2.2.1,
    log_trans h1.2.2.2 h2.2.2.2⟩

theorem errorMessage_grows (loader : UniverseLoader) (message : String) :
    loader.grows (loader.errorMessage message) := ⟨rfl, rfl, rfl, errorMessage_log _ _⟩

theorem hasDepthError_grows {a b : UniverseLoader} (h : a.grows b)
    (he : hasDepthError a.m_messageLog) : hasDepthError b.m_messageLog := by
  obtain ⟨before, after, he⟩ := he
  obtain ⟨t, ht⟩ := h.2.2.2
  exact ⟨before, after ++ t, by rw [ht, he, String.append_assoc]⟩

theorem loadItem_grows (builders : Builders) (s : LoadState) (v : QVariant) :
    s.loader.grows (loadItem builders s v).loader :=
  ⟨loadItem_frame (fun l => l.m_loadedCatalogFiles) (fun _ _ => rfl) (fun _ _ => rfl)
    builders s v,
   loadItem_frame (fun l => l.m_dataSearchPath) (fun _ _ => rfl) (fun _ _ => rfl)
    builders s v,
   loadItem_frame (fun l => l.m_modelSearchPath) (fun _ _ => rfl) (fun _ _ => rfl)
    builders s v, loadItem_log builders s v⟩

theorem loadItems_grows (builders : Builders) : ∀ (items : List QVariant) (s : LoadState),
    s.loader.grows (loadItems builders items s).loader
  | [], s => grows_refl _
  | v :: rest, s => by
    have ih := loadItems_grows builders rest (loadItem builders s v)
    unfold loadItems at ih ⊢
    rw [List.foldl_cons]
    exact grows_trans (loadItem_grows builders s v) ih

theorem loadRequired_grows (nested : NestedLoads) (requireDepth : Nat)
    (h : nested.grow requireDepth) (s : LoadState) (v : QVariant) :
    s.loader.grows (loadRequired nested requireDepth s v).loader := by
  unfold loadRequired
  cases v with
  | string fileName =>
    simp only []
    split_ifs
    · exact (h fileName s.loader s.world).1
    · exact (h fileName s.loader s.world).2
  | invalid => exact grows_refl _
  | bool b => exact grows_refl _
  | int i => exact grows_refl _
  | uint u => exact grows_refl _
  | longlong i => exact grows_refl _
  | ulonglong u => exact grows_refl _
  | double d => exact grows_refl _
  | list l => exact grows_refl _
  | map m => exact grows_refl _

theorem foldl_loadRequired_grows (nested : NestedLoads) (requireDepth : Nat)
    (h : nested.grow requireDepth) : ∀ (requireList : List QVariant) (s : LoadState),
    s.loader.grows (requireList.foldl (loadRequired nested requireDepth) s).loader
  | [], s => grows_refl _
  | v :: rest, s => by
    rw [List.foldl_cons]
    exact grows_trans (loadRequired_grows nested requireDepth h s v)
      (foldl_loadRequired_grows nested requireDepth h rest _)

/-- Past the version check, `loadCatalogItems` reads the `require` property
and then the `items` property. -/
theorem loadCatalogItems_parts (builders : Builders) (nested : NestedLoads)
    (contents : QVariantMap) (requireDepth : Nat) (loader : UniverseLoader) (world : Universe)
    (hvalid : (contents.value "version").isValid = true)
    (hversion : (contents.value "version").toString builders = "1.0") :
    loadCatalogItems builders nested contents requireDepth loader world
      = itemsPart builders contents (requirePart nested requireDepth contents
          { loader := { loader with m_currentBodyName := "" }, world := world,
            bodyNames := [] }) := by
  unfold loadCatalogItems itemsPart requirePart
  simp only [hvalid, hversion, Bool.not_true, Bool.false_eq_true, if_false, bne_self_eq_false]

theorem requirePart_grows (nested : NestedLoads) (requireDepth : Nat)
    (h : nested.grow requireDepth) (contents : QVariantMap) (s : LoadState) :
    s.loader.grows (requirePart nested requireDepth contents s).loader := by
  unfold requirePart
  split_ifs
  · cases contents.value "require" with
    | list l => exact foldl_loadRequired_grows nested requireDepth h l s
    | invalid => exact errorMessage_grows _ _
    | bool b => exact errorMessage_grows _ _
    | int i => exact errorMessage_grows _ _
    | uint u => exact errorMessage_grows _ _
    | longlong i => exact errorMessage_grows _ _
    | ulonglong u => exact errorMessage_grows _ _
    | double d => exact errorMessage_grows _ _
    | string t => exact errorMessage_grows _ _
    | map m => exact errorMessage_grows _ _
  · exact grows_refl _

theorem itemsPart_grows (builders : Builders) (contents : QVariantMap) (s : LoadState) :
    s.loader.grows (itemsPart builders contents s).loader := by
  unfold itemsPart
  split_ifs
  · exact grows_refl _
  · cases contents.value "items" with
    | list l => exact loadItems_grows builders l s
    | invalid => exact errorMessage_grows _ _
    | bool b => exact errorMessage_grows _ _
    | int i => exact errorMessage_grows _ _
    | uint u => exact errorMessage_grows _ _
    | longlong i => exact errorMessage_grows _ _
    | ulonglong u => exact errorMessage_grows _ _
    | double d => exact errorMessage_grows _ _
    | string t => exact errorMessage_grows _ _
    | map m => exact errorMessage_grows _ _

theorem loadCatalogItems_grows (builders : Builders) (nested : NestedLoads)
    (contents : QVariantMap) (requireDepth : Nat) (loader : UniverseLoader) (world : Universe)
    (h : nested.grow requireDepth) :
    loader.grows (loadCatalogItems builders nested contents requireDepth loader world).loader := by
  have h0 : loader.grows { loader with m_currentBodyName := "" } :=
    ⟨rfl, rfl, rfl, log_refl _⟩
  by_cases hv : (contents.value "version").isValid = true
  · by_cases hver : (contents.value "version").toString builders = "1.0"
    · rw [loadCatalogItems_parts builders nested contents requireDepth loader world hv hver]
      exact grows_trans h0 (grows_trans (requirePart_grows nested requireDepth h contents _)
        (itemsPart_grows builders contents _))
    · have hb : ((contents.value "version").toString builders != "1.0") = true := by
        simpa using hver
      unfold loadCatalogItems
      simp only [hv, hb, Bool.not_true, Bool.false_eq_true, if_false, if_true]
      exact grows_trans h0 (errorMessage_grows _ _)
  · have hv' : (contents.value "version").isValid = false := by simpa using hv
    unfold loadCatalogItems
    simp only [hv', Bool.not_false, if_true]
    exact grows_trans h0 (errorMessage_grows _ _)

theorem none_grow (requireDepth : Nat) : NestedLoads.none.grow requireDepth :=
  fun _ loader _ => ⟨grows_refl loader, grows_refl loader⟩

theorem loadSSC_grows (fs : FileSystem) (builders : Builders) (nested : NestedLoads)
    (fileName : String) (requireDepth : Nat) (loader : UniverseLoader) (world : Universe) :
    loader.grows (loadSSC fs builders nested fileName requireDepth loader world).2.1 := by
  rw [loadSSC_nested fs builders nested NestedLoads.none]
  unfold loadSSC
  simp only []
  cases hr : fs.readAll (fs.canonicalFilePath (loader.dataFileName fileName)) with
  | none => exact errorMessage_grows _ _
  | some text =>
    simp only []
    have h := loadCatalogItems_grows builders NestedLoads.none
      (QVariantMap.insert
        (QVariantMap.insert (QVariantMap.insert [] "name" (QVariant.string fileName))
          "version" (QVariant.string "1.0"))
        "items" (QVariant.list (sscItems builders
          (fs.sscObjects (fs.canonicalFilePath (loader.dataFileName fileName))))))
      (requireDepth + 1)
      { loader with
        m_dataSearchPath := fs.absolutePath (loader.dataFileName fileName) ++ "/data"
        m_modelSearchPath := fs.absolutePath (loader.dataFileName fileName) ++ "/models"
        m_textureSearchPath :=
          fs.absolutePath (loader.dataFileName fileName) ++ "/textures/medres"
        m_texturesInModelDirectory := false }
      world (none_grow _)
    exact ⟨h.1, rfl, rfl, h.2.2.2⟩

theorem loadCatalogFile_grows (fs : FileSystem) (builders : Builders) (nested : NestedLoads)
    (fileName : String) (requireDepth : Nat) (loader : UniverseLoader) (world : Universe)
    (h : nested.grow (requireDepth + 1)) :
    loader.grows (loadCatalogFile fs builders nested fileName requireDepth loader world).2.1 := by
  unfold loadCatalogFile
  simp only []
  split_ifs
  · exact grows_refl _
  · exact errorMessage_grows _ _
  · cases hr : fs.readAll (fs.canonicalFilePath (loader.dataFileName fileName)) with
    | none => exact errorMessage_grows _ _
    | some text =>
      simp only []
      cases hp : fs.parse text with
      | error e => exact errorMessage_grows _ _
      | ok result =>
        simp only []
        split_ifs
        · exact errorMessage_grows _ _
        · have hg := loadCatalogItems_grows builders nested result.toMap (requireDepth + 1)
            { loader with
              m_dataSearchPath := fs.absolutePath (loader.dataFileName fileName)
              m_modelSearchPath := fs.absolutePath (loader.dataFileName fileName) }
            world h
          exact ⟨hg.1, rfl, rfl, hg.2.2.2⟩

theorem requiredLoads_grow (fs : FileSystem) (builders : Builders) :
    ∀ (n requireDepth : Nat), (requiredLoads fs builders n).grow requireDepth
  | 0, requireDepth => none_grow requireDepth
  | n + 1, requireDepth => fun fileName loader world =>
    ⟨loadSSC_grows fs builders _ fileName requireDepth loader world,
     loadCatalogFile_grows fs builders _ fileName requireDepth loader world
       (requiredLoads_grow fs builders n (requireDepth + 1))⟩

theorem fileLoads_grow (fs : FileSystem) (builders : Builders) (requireDepth : Nat) :
    (fileLoads fs builders).grow requireDepth :=
  fun fileName loader world =>
    ⟨loadSSC_grows fs builders _ fileName requireDepth loader world,
     loadCatalogFile_grows fs builders _ fileName requireDepth loader world
       (requiredLoads_grow fs builders _ (requireDepth + 1))⟩

/-! ## The depth guard on a chain of requires -/

theorem contains_of_value_list (contents : QVariantMap) (key : String) (l : List QVariant)
    (h : contents.value key = QVariant.list l) : contents.contains key = true := by
  unfold QVariantMap.value at h
  unfold QVariantMap.contains
  cases hl : contents.lookup key with
  | none => rw [hl] at h; cases h
  | some v => rfl

theorem errorMessage_hasDepthError (loader : UniverseLoader) :
    hasDepthError
      (loader.errorMessage "'require' is nested too deeply (recursive requires?)").m_messageLog :=
  ⟨loader.m_messageLog
      ++ (if loader.m_currentBodyName.isEmpty then ""
          else "Item '" ++ loader.m_currentBodyName ++ "': "), "", by
    rw [errorMessage_messageLog]
    simp only [String.append_assoc, String.append_empty]
    rfl⟩

theorem loadRequired_file (nested : NestedLoads) (requireDepth : Nat) (s : LoadState)
    (required : String) (hssc : required.toLower.endsWith ".ssc" = false) :
    (loadRequired nested requireDepth s (QVariant.string required)).loader
      = (nested.loadCatalogFile required requireDepth s.loader s.world).2.1 := by
  unfold loadRequired
  simp only [hssc, Bool.false_eq_true, if_false]

/-- A document whose `require` list names a catalog file whose load logs the
depth error has the depth error in its log. -/
theorem loadCatalogItems_reports (builders : Builders) (nested : NestedLoads)
    (contents : QVariantMap) (requireDepth : Nat) (loader : UniverseLoader) (world : Universe)
    (requireList : List QVariant) (required : String)
    (hgrow : nested.grow requireDepth)
    (hvalid : (contents.value "version").isValid = true)
    (hversion : (contents.value "version").toString builders = "1.0")
    (hrequire : contents.value "require" = QVariant.list requireList)
    (hmem : QVariant.string required ∈ requireList)
    (hssc : required.toLower.endsWith ".ssc" = false)
    (herror : ∀ (l : UniverseLoader) (w : Universe), loader.grows l →
      hasDepthError (nested.loadCatalogFile required requireDepth l w).2.1.m_messageLog) :
    hasDepthError
      (loadCatalogItems builders nested contents requireDepth loader world).loader.m_messageLog := by
  obtain ⟨before, after, rfl⟩ := List.append_of_mem hmem
  have h0 : loader.grows { loader with m_currentBodyName := "" } :=
    ⟨rfl, rfl, rfl, log_refl _⟩
  have hc := contains_of_value_list contents "require" _ hrequire
  rw [loadCatalogItems_parts builders nested contents requireDepth loader world hvalid hversion]
  refine hasDepthError_grows (itemsPart_grows builders contents _) ?_
  have hpart : requirePart nested requireDepth contents
      { loader := { loader with m_currentBodyName := "" }, world := world, bodyNames := [] }
      = after.foldl (loadRequired nested requireDepth)
          (loadRequired nested requireDepth
            (before.foldl (loadRequired nested requireDepth)
              { loader := { loader with m_currentBodyName := "" }, world := world,
                bodyNames := [] })
            (QVariant.string required)) := by
    unfold requirePart
    rw [if_pos hc, hrequire]
    simp only [List.foldl_append, List.foldl_cons]
  rw [hpart]
  refine hasDepthError_grows (foldl_loadRequired_grows nested requireDepth hgrow after _) ?_
  rw [loadRequired_file nested requireDepth _ required hssc]
  exact herror _ _ (grows_trans h0 (foldl_loadRequired_grows nested requireDepth hgrow before _))

/-- A file that opens to a document, unfolded. -/
theorem document_eq_some (fs : FileSystem) (loader : UniverseLoader) (fileName : String)
    (contents : QVariantMap) (h : fs.document loader fileName = some contents) :
    ∃ text result, fs.readAll (fs.canonicalFilePath (loader.dataFileName fileName)) = some text ∧
      fs.parse text = Except.ok result ∧ result.toMap = contents := by
  unfold FileSystem.document at h
  cases hr : fs.readAll (fs.canonicalFilePath (loader.dataFileName fileName)) with
  | none => rw [hr] at h; cases h
  | some text =>
    rw [hr] at h
    simp only [] at h
    cases hp : fs.parse text with
    | error e => rw [hp] at h; cases h
    | ok result =>
      rw [hp] at h
      simp only [Option.some.injEq] at h
      exact ⟨text, result, rfl, hp, h⟩

/-- The load of a file that opens to a document that is not empty, below the
depth guard and not marked as loaded: the items of the document, loaded one
level deeper with the directory of the file as the search path. -/
theorem isEmpty_of_version (contents : QVariantMap)
    (hvalid : (contents.value "version").isValid = true) : contents.isEmpty = false := by
  cases contents with
  | nil => cases hvalid
  | cons a l => rfl

theorem loadCatalogFile_document (fs : FileSystem) (builders : Builders) (nested : NestedLoads)
    (fileName : String) (requireDepth : Nat) (loader : UniverseLoader) (world : Universe)
    (contents : QVariantMap)
    (hloaded : loader.m_loadedCatalogFiles.contains
      (fs.canonicalFilePath (loader.dataFileName fileName)) = false)
    (hdepth : requireDepth ≤ 10)
    (hdocument : fs.document loader fileName = some contents)
    (hne : contents.isEmpty = false) :
    loadCatalogFile fs builders nested fileName requireDepth loader world
      = ((loadCatalogItems builders nested contents (requireDepth + 1)
            { loader with
              m_dataSearchPath := fs.absolutePath (loader.dataFileName fileName)
              m_modelSearchPath := fs.absolutePath (loader.dataFileName fileName) }
            world).bodyNames,
         { (loadCatalogItems builders nested contents (requireDepth + 1)
            { loader with
              m_dataSearchPath := fs.absolutePath (loader.dataFileName fileName)
              m_modelSearchPath := fs.absolutePath (loader.dataFileName fileName) }
            world).loader with
           m_dataSearchPath := loader.m_dataSearchPath
           m_modelSearchPath := loader.m_modelSearchPath },
         (loadCatalogItems builders nested contents (requireDepth + 1)
            { loader with
              m_dataSearchPath := fs.absolutePath (loader.dataFileName fileName)
              m_modelSearchPath := fs.absolutePath (loader.dataFileName fileName) }
            world).world) := by
  obtain ⟨text, result, hr, hp, rfl⟩ := document_eq_some fs loader fileName contents hdocument
  have hd : ¬ requireDepth > 10 := by omega
  unfold loadCatalogFile
  simp only [hloaded, hd, hr, hp, hne, Bool.false_eq_true, if_false]

/-- On a set of files each of which requires a file of the set, the load of
a file of the set logs the depth error. -/
theorem cycle_reports (fs : FileSystem) (builders : Builders) (onCycle : String → Prop)
    (loaded : List String) (directories : String → Prop)
    (hcycle : ∀ f, onCycle f → ∀ loader : UniverseLoader,
      loader.m_loadedCatalogFiles = loaded → directories loader.m_dataSearchPath →
      loaded.contains (fs.canonicalFilePath (loader.dataFileName f)) = false ∧
      directories (fs.absolutePath (loader.dataFileName f)) ∧
      ∃ g, onCycle g ∧ fs.requires builders loader f g) :
    ∀ (k requireDepth : Nat), 11 - requireDepth ≤ k → requireDepth ≤ 11 →
      ∀ (f : String) (loader : UniverseLoader) (world : Universe), onCycle f →
        loader.m_loadedCatalogFiles = loaded → directories loader.m_dataSearchPath →
        hasDepthError
          ((fileLoads fs builders).loadCatalogFile f requireDepth loader world).2.1.m_messageLog := by
  intro k
  induction k with
  | zero =>
    intro requireDepth hk hd f loader world hf hl hdir
    obtain ⟨hnot, -, -⟩ := hcycle f hf loader hl hdir
    rw [fileLoads_loadCatalogFile]
    have hdeep : requireDepth > 10 := by omega
    unfold loadCatalogFile
    simp only [hl, hnot, hdeep, Bool.false_eq_true, if_false, if_true]
    exact errorMessage_hasDepthError loader
  | succ k ih =>
    intro requireDepth hk hd f loader world hf hl hdir
    obtain ⟨hnot, hnext, g, hg, contents, requireList, hdoc, hvalid, hversion, hrequire, hmem,
      hssc⟩ := hcycle f hf loader hl hdir
    by_cases hdeep : requireDepth > 10
    · rw [fileLoads_loadCatalogFile]
      unfold loadCatalogFile
      simp only [hl, hnot, hdeep, Bool.false_eq_true, if_false, if_true]
      exact errorMessage_hasDepthError loader
    · rw [fileLoads_loadCatalogFile,
        loadCatalogFile_document fs builders _ f requireDepth loader world contents
          (by rw [hl]; exact hnot) (by omega) hdoc (isEmpty_of_version contents hvalid)]
      refine loadCatalogItems_reports builders _ contents (requireDepth + 1) _ world requireList
        g (fileLoads_grow fs builders _) hvalid hversion hrequire hmem hssc ?_
      intro l w hgrows
      exact ih (requireDepth + 1) (by omega) (by omega) g l w hg
        (by rw [hgrows.1]; exact hl) (by rw [hgrows.2.1]; exact hnext)

end Cosmographia

namespace Cosmographia

/-! ## Documents and catalog files: properties of the specification -/

/-- C13: for a document whose `version` is absent or whose string form is not
"1.0", `loadCatalogItems` returns the empty list of names, leaves the universe
as it was and logs one error ("Version missing from catalog file", or
"Unsupported catalog file version <v> (only version 1.0 allowed)"); the result
is the same whatever the nested loads are and whatever else the document
holds, so that no `require` entry is resolved and no item is processed. -/
theorem loadCatalogItems_rejects_version (builders : Builders) (nested : NestedLoads)
    (contents : QVariantMap) (requireDepth : Nat) (loader : UniverseLoader) (world : Universe)
    (hversion : (contents.value "version").isValid = false ∨
      (contents.value "version").toString builders ≠ "1.0") :
    (loadCatalogItems builders nested contents requireDepth loader world).bodyNames = [] ∧
    (loadCatalogItems builders nested contents requireDepth loader world).world = world ∧
    (∃ message : String,
      (loadCatalogItems builders nested contents requireDepth loader world).loader
        = ({ loader with m_currentBodyName := "" } : UniverseLoader).errorMessage message ∧
      (loadCatalogItems builders nested contents requireDepth loader world).loader.m_messageLog
        = loader.m_messageLog ++ (message ++ "\n") ∧
      ((contents.value "version").isValid = false →
        message = "Version missing from catalog file") ∧
      ((contents.value "version").isValid = true →
        message = "Unsupported catalog file version "
          ++ (contents.value "version").toString builders ++ " (only version 1.0 allowed)")) ∧
    (∀ (nested2 : NestedLoads) (requireDepth2 : Nat),
      loadCatalogItems builders nested2 contents requireDepth2 loader world
        = loadCatalogItems builders nested contents requireDepth loader world) ∧
    (∀ contents2 : QVariantMap, contents2.value "version" = contents.value "version" →
      loadCatalogItems builders nested contents2 requireDepth loader world
        = loadCatalogItems builders nested contents requireDepth loader world) := by
  have hlog : ∀ message : String,
      (({ loader with m_currentBodyName := "" } : UniverseLoader).errorMessage
        message).m_messageLog = loader.m_messageLog ++ (message ++ "\n") := by
    intro message
    rw [errorMessage_messageLog]
    simp only [String.append_assoc]
    rfl
  cases hv : (contents.value "version").isValid
  · have h : ∀ (n : NestedLoads) (d : Nat) (c : QVariantMap),
        c.value "version" = contents.value "version" →
        loadCatalogItems builders n c d loader world
          = { loader := ({ loader with m_currentBodyName := "" } :
                UniverseLoader).errorMessage "Version missing from catalog file",
              world := world, bodyNames := [] } := by
      intro n d c hc
      unfold loadCatalogItems
      simp only [hc, hv, Bool.not_false, if_true]
    rw [h nested requireDepth contents rfl]
    refine ⟨rfl, rfl, ⟨_, rfl, hlog _, fun _ => rfl, fun hc => by cases hc⟩, ?_, ?_⟩
    · intro nested2 requireDepth2
      exact h nested2 requireDepth2 contents rfl
    · intro contents2 hc
      exact h nested requireDepth contents2 hc
  · have hne : (contents.value "version").toString builders ≠ "1.0" := by
      rcases hversion with h | h
      · rw [hv] at h
        cases h
      · exact h
    have hb : ((contents.value "version").toString builders != "1.0") = true := by
      simpa using hne
    have h : ∀ (n : NestedLoads) (d : Nat) (c : QVariantMap),
        c.value "version" = contents.value "version" →
        loadCatalogItems builders n c d loader world
          = { loader := ({ loader with m_currentBodyName := "" } :
                UniverseLoader).errorMessage
                ("Unsupported catalog file version "
                  ++ (contents.value "version").toString builders
                  ++ " (only version 1.0 allowed)"),
              world := world, bodyNames := [] } := by
      intro n d c hc
      unfold loadCatalogItems
      simp only [hc, hv, hb, Bool.not_true, Bool.false_eq_true, if_false, if_true]
    rw [h nested requireDepth contents rfl]
    refine ⟨rfl, rfl, ⟨_, rfl, hlog _, (fun hc => by cases hc), fun _ => rfl⟩, ?_, ?_⟩
    · intro nested2 requireDepth2
      exact h nested2 requireDepth2 contents rfl
    · intro contents2 hc
      exact h nested requireDepth contents2 hc

theorem loadCatalogItems_rejects_version_witness :
    (UniverseLoader.new.loadCatalogItems sampleFileSystem Builders.none
      [("version", QVariant.string "2.0"),
       ("require", QVariant.list [QVariant.string "earth.json"]),
       ("items", QVariant.list [QVariant.map sampleItemSun])] Universe.empty).world
      = Universe.empty :=
  (loadCatalogItems_rejects_version Builders.none (fileLoads sampleFileSystem Builders.none)
    [("version", QVariant.string "2.0"),
     ("require", QVariant.list [QVariant.string "earth.json"]),
     ("items", QVariant.list [QVariant.map sampleItemSun])] 0 UniverseLoader.new
    Universe.empty (Or.inr (by decide!))).2.1

/-- C14: `loadCatalogFile` terminates on every file system.  The nested loads
that a load at depth `requireDepth` makes are loads at depth
`requireDepth + 1`, and a load deeper than 10 makes none, so that the measure
`11 - requireDepth` bounds the nesting: unrolling the recursion `11 -
requireDepth` levels or more gives one and the same result, which satisfies
the equations of the program.  On a cycle (a set of catalog files, not
marked as loaded, each of which is a version-1.0 document that requires a
file of the set) the load of a file of the set leaves the line "'require' is
nested too deeply (recursive requires?)" in the message log. -/
theorem loadCatalogFile_terminates (fs : FileSystem) (builders : Builders) :
    (∀ (nested1 nested2 : NestedLoads) (fileName : String) (requireDepth : Nat)
        (loader : UniverseLoader) (world : Universe),
      (∀ f l w, nested1.loadSSC f (requireDepth + 1) l w
        = nested2.loadSSC f (requireDepth + 1) l w) →
      (∀ f l w, nested1.loadCatalogFile f (requireDepth + 1) l w
        = nested2.loadCatalogFile f (requireDepth + 1) l w) →
      loadCatalogFile fs builders nested1 fileName requireDepth loader world
        = loadCatalogFile fs builders nested2 fileName requireDepth loader world) ∧
    (∀ (nested1 nested2 : NestedLoads) (fileName : String) (requireDepth : Nat)
        (loader : UniverseLoader) (world : Universe), 10 < requireDepth →
      loadCatalogFile fs builders nested1 fileName requireDepth loader world
        = loadCatalogFile fs builders nested2 fileName requireDepth loader world) ∧
    (∀ (n requireDepth : Nat) (fileName : String) (loader : UniverseLoader) (world : Universe),
      11 - requireDepth ≤ n →
      loadCatalogFile fs builders (requiredLoads fs builders n) fileName requireDepth loader
          world
        = (fileLoads fs builders).loadCatalogFile fileName requireDepth loader world) ∧
    (∀ (fileName : String) (requireDepth : Nat) (loader : UniverseLoader) (world : Universe),
      (fileLoads fs builders).loadCatalogFile fileName requireDepth loader world
        = loadCatalogFile fs builders (fileLoads fs builders) fileName requireDepth loader
            world ∧
      (fileLoads fs builders).loadSSC fileName requireDepth loader world
        = loadSSC fs builders (fileLoads fs builders) fileName requireDepth loader world) ∧
    (∀ (onCycle : String → Prop) (loaded : List String) (directories : String → Prop),
      (∀ f, onCycle f → ∀ loader : UniverseLoader,
        loader.m_loadedCatalogFiles = loaded → directories loader.m_dataSearchPath →
        loaded.contains (fs.canonicalFilePath (loader.dataFileName f)) = false ∧
        directories (fs.absolutePath (loader.dataFileName f)) ∧
        ∃ g, onCycle g ∧ fs.requires builders loader f g) →
      ∀ (f : String) (requireDepth : Nat) (loader : UniverseLoader) (world : Universe),
        onCycle f → requireDepth ≤ 11 →
        loader.m_loadedCatalogFiles = loaded → directories loader.m_dataSearchPath →
        hasDepthError
          ((fileLoads fs builders).loadCatalogFile f requireDepth loader
            world).2.1.m_messageLog) := by
  refine ⟨?_, ?_, ?_, ?_, ?_⟩
  · intro nested1 nested2 fileName requireDepth loader world h1 h2
    exact loadCatalogFile_congr fs builders nested1 nested2 fileName requireDepth loader world
      h1 h2
  · intro nested1 nested2 fileName requireDepth loader world h
    exact loadCatalogFile_deep fs builders nested1 nested2 fileName requireDepth loader world h
  · intro n requireDepth fileName loader world h
    exact requiredLoads_stable fs builders (11 - requireDepth) requireDepth n
      (11 - requireDepth) (le_refl _) h (le_refl _) fileName loader world
  · intro fileName requireDepth loader world
    exact ⟨fileLoads_loadCatalogFile fs builders fileName requireDepth loader world,
      fileLoads_loadSSC fs builders fileName requireDepth loader world⟩
  · intro onCycle loaded directories hcycle f requireDepth loader world hf hd hl hdir
    exact cycle_reports fs builders onCycle loaded directories hcycle (11 - requireDepth)
      requireDepth (le_refl _) hd f loader world hf hl hdir

/-- The files `a.json` and `b.json` of the sample file system require each
other: the load of `a.json` logs the depth error. -/
theorem loadCatalogFile_terminates_witness :
    hasDepthError
      ((fileLoads sampleFileSystem Builders.none).loadCatalogFile "a.json" 0 UniverseLoader.new
        Universe.empty).2.1.m_messageLog := by
  refine (loadCatalogFile_terminates sampleFileSystem Builders.none).2.2.2.2
    (fun f => f = "a.json" ∨ f = "b.json") [] (fun directory => directory = "") ?_
    "a.json" 0 UniverseLoader.new Universe.empty (Or.inl rfl) (by omega) rfl rfl
  intro f hf loader hl hdir
  have hpath : ∀ name : String, loader.dataFileName name = "" ++ "/" ++ name := by
    intro name
    unfold UniverseLoader.dataFileName
    rw [hdir]
  refine ⟨rfl, rfl, ?_⟩
  rcases hf with rfl | rfl
  · refine ⟨"b.json", Or.inr rfl, (sampleRequiring "b.json").toMap, [QVariant.string "b.json"],
      ?_, ?_, ?_, ?_, ?_, ?_⟩
    · unfold FileSystem.document
      rw [hpath]
      rfl
    · decide!
    · decide!
    · rfl
    · exact List.mem_singleton.mpr rfl
    · decide!
  · refine ⟨"a.json", Or.inl rfl, (sampleRequiring "a.json").toMap, [QVariant.string "a.json"],
      ?_, ?_, ?_, ?_, ?_, ?_⟩
    · unfold FileSystem.document
      rw [hpath]
      rfl
    · decide!
    · decide!
    · rfl
    · exact List.mem_singleton.mpr rfl
    · decide!

/-- C15, as amended: a catalog file of the native format (not `.ssc`) whose
canonical path is not marked as loaded is rejected by the depth guard exactly
when it is reached at a require depth greater than 10: then it is not opened,
contributes nothing and the depth error is logged; at a depth of 10 or less
it is opened, and the document it holds is processed one level deeper.  The
top-level file is at depth 0, and a `require` entry is loaded at the depth of
the document that holds it, which is one more than the depth of its file. -/
theorem loadCatalogFile_depth_guard (fs : FileSystem) (builders : Builders)
    (nested : NestedLoads) (fileName : String) (requireDepth : Nat) (loader : UniverseLoader)
    (world : Universe)
    (hloaded : loader.m_loadedCatalogFiles.contains
      (fs.canonicalFilePath (loader.dataFileName fileName)) = false) :
    (10 < requireDepth →
      loadCatalogFile fs builders nested fileName requireDepth loader world
        = ([], loader.errorMessage "'require' is nested too deeply (recursive requires?)",
           world)) ∧
    (requireDepth ≤ 10 →
      fs.readAll (fs.canonicalFilePath (loader.dataFileName fileName)) = none →
      loadCatalogFile fs builders nested fileName requireDepth loader world
        = ([], loader.errorMessage
            ("Cannot open required file " ++ fs.canonicalFilePath (loader.dataFileName fileName)),
           world)) ∧
    (requireDepth ≤ 10 → ∀ contents : QVariantMap,
      fs.document loader fileName = some contents → contents.isEmpty = false →
      loadCatalogFile fs builders nested fileName requireDepth loader world
        = ((loadCatalogItems builders nested contents (requireDepth + 1)
              { loader with
                m_dataSearchPath := fs.absolutePath (loader.dataFileName fileName)
                m_modelSearchPath := fs.absolutePath (loader.dataFileName fileName) }
              world).bodyNames,
           { (loadCatalogItems builders nested contents (requireDepth + 1)
              { loader with
                m_dataSearchPath := fs.absolutePath (loader.dataFileName fileName)
                m_modelSearchPath := fs.absolutePath (loader.dataFileName fileName) }
              world).loader with
             m_dataSearchPath := loader.m_dataSearchPath
             m_modelSearchPath := loader.m_modelSearchPath },
           (loadCatalogItems builders nested contents (requireDepth + 1)
              { loader with
                m_dataSearchPath := fs.absolutePath (loader.dataFileName fileName)
                m_modelSearchPath := fs.absolutePath (loader.dataFileName fileName) }
              world).world)) ∧
    (fileName.toLower.endsWith ".ssc" = false →
      loader.loadCatalogFile fs builders fileName world
        = loadCatalogFile fs builders (fileLoads fs builders) fileName 0 loader world) ∧
    (∀ (s : LoadState) (required : String), required.toLower.endsWith ".ssc" = false →
      loadRequired nested requireDepth s (QVariant.string required)
        = { loader := (nested.loadCatalogFile required requireDepth s.loader s.world).2.1,
            world := (nested.loadCatalogFile required requireDepth s.loader s.world).2.2,
            bodyNames := s.bodyNames
              ++ (nested.loadCatalogFile required requireDepth s.loader s.world).1 }) := by
  refine ⟨?_, ?_, ?_, ?_, ?_⟩
  · intro hd
    have hd' : requireDepth > 10 := hd
    unfold loadCatalogFile
    simp only [hloaded, hd', Bool.false_eq_true, if_false, if_true]
  · intro hd hr
    have hd' : ¬ requireDepth > 10 := by omega
    unfold loadCatalogFile
    simp only [hloaded, hd', hr, Bool.false_eq_true, if_false]
  · intro hd contents hdoc hne
    exact loadCatalogFile_document fs builders nested fileName requireDepth loader world
      contents hloaded hd hdoc hne
  · intro hssc
    unfold UniverseLoader.loadCatalogFile
    simp only [hssc, Bool.false_eq_true, if_false]
    exact fileLoads_loadCatalogFile fs builders fileName 0 loader world
  · intro s required hssc
    unfold loadRequired
    simp only [hssc, Bool.false_eq_true, if_false]

theorem loadCatalogFile_depth_guard_witness :
    loadCatalogFile sampleFileSystem Builders.none NestedLoads.none "a.json" 11
        UniverseLoader.new Universe.empty
      = ([], UniverseLoader.new.errorMessage
          "'require' is nested too deeply (recursive requires?)", Universe.empty) :=
  (loadCatalogFile_depth_guard sampleFileSystem Builders.none NestedLoads.none "a.json" 11
    UniverseLoader.new Universe.empty rfl).1 (by omega)

/-- Counterexample to C15 as stated: an SSC file reached at require depth 11
is opened and its item is loaded, without a depth error (the chain `c0.json`,
..., `c10.json` of the sample file system ends in `moons.ssc`), and a catalog
file that is marked as loaded is skipped at depth 11 without a depth
error. -/
theorem loadSSC_at_depth_eleven :
    (loadRequired (fileLoads sampleFileSystem Builders.none) 11
      { loader := UniverseLoader.new, world := Universe.empty, bodyNames := [] }
      (QVariant.string "moons.ssc")).bodyNames = ["Sol/Earth/Moon"] ∧
    (loadRequired (fileLoads sampleFileSystem Builders.none) 11
      { loader := UniverseLoader.new, world := Universe.empty, bodyNames := [] }
      (QVariant.string "moons.ssc")).loader.m_messageLog = "" ∧
    (UniverseLoader.new.loadCatalogFile sampleFileSystem Builders.none "c0.json"
      Universe.empty).1 = ["Sol/Earth/Moon"] ∧
    (UniverseLoader.new.loadCatalogFile sampleFileSystem Builders.none "c0.json"
      Universe.empty).2.1.m_messageLog = "" ∧
    ((UniverseLoader.new.loadCatalogFile sampleFileSystem Builders.none "c0.json"
      Universe.empty).2.2.findBody "Sol/Earth/Moon").isSome = true ∧
    loadCatalogFile sampleFileSystem Builders.none (fileLoads sampleFileSystem Builders.none)
        "a.json" 11 { UniverseLoader.new with m_loadedCatalogFiles := ["/a.json"] }
        Universe.empty
      = ([], { UniverseLoader.new with m_loadedCatalogFiles := ["/a.json"] },
         Universe.empty) := by
  decide!

/-- C16: no load marks a file as loaded.  `loadCatalogFile` and `loadSSC`,
called directly or through a `require` list at any depth, leave the set
`m_loadedCatalogFiles` as it was: the sources declare `setCatalogLoaded` and
define it nowhere, and nothing else adds to the set.  The test that opens
`loadCatalogFile` (`m_loadedCatalogFiles.contains(path)`, "File is already
loaded") does skip a file whose canonical path is in the set, silently and
without a change to the loader or the universe, but after a completed load the
path is not in the set.  So a load that is repeated in a session is not
skipped: after the load of `earth.json` by a new loader the set is empty as
before, and the second load of the same file returns the name "Earth" again
and logs the two errors of the file again. -/
theorem loadCatalogFile_repeated_not_skipped :
    (∀ (fs : FileSystem) (builders : Builders) (fileName : String) (loader : UniverseLoader)
        (world : Universe),
      (loader.loadCatalogFile fs builders fileName world).2.1.m_loadedCatalogFiles
        = loader.m_loadedCatalogFiles) ∧
    (∀ (fs : FileSystem) (builders : Builders) (fileName : String) (requireDepth : Nat)
        (loader : UniverseLoader) (world : Universe),
      ((fileLoads fs builders).loadCatalogFile fileName requireDepth loader
          world).2.1.m_loadedCatalogFiles = loader.m_loadedCatalogFiles ∧
      ((fileLoads fs builders).loadSSC fileName requireDepth loader
          world).2.1.m_loadedCatalogFiles = loader.m_loadedCatalogFiles) ∧
    (∀ (fs : FileSystem) (builders : Builders) (nested : NestedLoads) (fileName : String)
        (requireDepth : Nat) (loader : UniverseLoader) (world : Universe),
      loader.m_loadedCatalogFiles.contains
          (fs.canonicalFilePath (loader.dataFileName fileName)) = true →
      loadCatalogFile fs builders nested fileName requireDepth loader world
        = ([], loader, world)) ∧
    UniverseLoader.new.m_loadedCatalogFiles = [] ∧
    (UniverseLoader.new.loadCatalogFile sampleFileSystem Builders.none "earth.json"
      Universe.empty).1 = ["Earth"] ∧
    (UniverseLoader.new.loadCatalogFile sampleFileSystem Builders.none "earth.json"
      Universe.empty).2.1.m_loadedCatalogFiles = [] ∧
    (UniverseLoader.new.loadCatalogFile sampleFileSystem Builders.none "earth.json"
      Universe.empty).2.1.m_messageLog
      = "Item 'Moon': Missing center for object.\nItem 'Moon': Skipping body 'Moon' because of errors.\n" ∧
    ((UniverseLoader.new.loadCatalogFile sampleFileSystem Builders.none "earth.json"
        Universe.empty).2.1.loadCatalogFile sampleFileSystem Builders.none "earth.json"
      (UniverseLoader.new.loadCatalogFile sampleFileSystem Builders.none "earth.json"
        Universe.empty).2.2).1 = ["Earth"] ∧
    ((UniverseLoader.new.loadCatalogFile sampleFileSystem Builders.none "earth.json"
        Universe.empty).2.1.loadCatalogFile sampleFileSystem Builders.none "earth.json"
      (UniverseLoader.new.loadCatalogFile sampleFileSystem Builders.none "earth.json"
        Universe.empty).2.2).2.1.m_messageLog
      = "Item 'Moon': Missing center for object.\nItem 'Moon': Skipping body 'Moon' because of errors.\nItem 'Moon': Missing center for object.\nItem 'Moon': Skipping body 'Moon' because of errors.\n" := by
  refine ⟨?_, ?_, ?_, rfl, ?_⟩
  · intro fs builders fileName loader world
    unfold UniverseLoader.loadCatalogFile
    split_ifs
    · exact ((fileLoads_grow fs builders 0) fileName loader world).1.1
    · exact ((fileLoads_grow fs builders 0) fileName loader world).2.1
  · intro fs builders fileName requireDepth loader world
    exact ⟨((fileLoads_grow fs builders requireDepth) fileName loader world).2.1,
      ((fileLoads_grow fs builders requireDepth) fileName loader world).1.1⟩
  · intro fs builders nested fileName requireDepth loader world hloaded
    unfold loadCatalogFile
    simp only [hloaded, if_true]
  · decide!

/-- C17, as amended: for a version-1.0 document whose `items` value is
present and is not a list, `loadCatalogItems` logs "items is not a list." and
processes no item; it returns the names that the files of its `require` list
gave (the `require` list has been loaded by then, with what it registered),
and the empty list when the document has no `require` property. -/
theorem loadCatalogItems_items_not_list (builders : Builders) (nested : NestedLoads)
    (contents : QVariantMap) (requireDepth : Nat) (loader : UniverseLoader) (world : Universe)
    (hvalid : (contents.value "version").isValid = true)
    (hversion : (contents.value "version").toString builders = "1.0")
    (hcontains : contents.contains "items" = true)
    (hitems : (contents.value "items").isList = false) :
    loadCatalogItems builders nested contents requireDepth loader world
      = { loader := (requirePart nested requireDepth contents
            { loader := { loader with m_currentBodyName := "" }, world := world,
              bodyNames := [] }).loader.errorMessage "items is not a list.",
          world := (requirePart nested requireDepth contents
            { loader := { loader with m_currentBodyName := "" }, world := world,
              bodyNames := [] }).world,
          bodyNames := (requirePart nested requireDepth contents
            { loader := { loader with m_currentBodyName := "" }, world := world,
              bodyNames := [] }).bodyNames } ∧
    (contents.contains "require" = false →
      loadCatalogItems builders nested contents requireDepth loader world
        = { loader := ({ loader with m_currentBodyName := "" } :
              UniverseLoader).errorMessage "items is not a list.",
            world := world, bodyNames := [] }) ∧
    (∀ requireList : List QVariant, contents.value "require" = QVariant.list requireList →
      (loadCatalogItems builders nested contents requireDepth loader world).bodyNames
        = (requireList.foldl (loadRequired nested requireDepth)
            { loader := { loader with m_currentBodyName := "" }, world := world,
              bodyNames := [] }).bodyNames) := by
  have hr : loadCatalogItems builders nested contents requireDepth loader world
      = { loader := (requirePart nested requireDepth contents
            { loader := { loader with m_currentBodyName := "" }, world := world,
              bodyNames := [] }).loader.errorMessage "items is not a list.",
          world := (requirePart nested requireDepth contents
            { loader := { loader with m_currentBodyName := "" }, world := world,
              bodyNames := [] }).world,
          bodyNames := (requirePart nested requireDepth contents
            { loader := { loader with m_currentBodyName := "" }, world := world,
              bodyNames := [] }).bodyNames } := by
    rw [loadCatalogItems_parts builders nested contents requireDepth loader world hvalid
      hversion]
    unfold itemsPart
    simp only [hcontains, Bool.not_true, Bool.false_eq_true, if_false]
    cases hi : contents.value "items" with
    | list l =>
      rw [hi] at hitems
      exact Bool.noConfusion hitems
    | _ => rfl
  refine ⟨hr, ?_, ?_⟩
  · intro hc
    rw [hr]
    unfold requirePart
    simp only [hc, Bool.false_eq_true, if_false]
  · intro requireList hl
    rw [hr]
    unfold requirePart
    rw [if_pos (contains_of_value_list contents "require" requireList hl), hl]

theorem loadCatalogItems_items_not_list_witness :
    (UniverseLoader.new.loadCatalogItems sampleFileSystem Builders.none
      [("version", QVariant.string "1.0"), ("items", QVariant.string "none")]
      Universe.empty)
      = { loader := UniverseLoader.new.errorMessage "items is not a list.",
          world := Universe.empty, bodyNames := [] } :=
  (loadCatalogItems_items_not_list Builders.none (fileLoads sampleFileSystem Builders.none)
    [("version", QVariant.string "1.0"), ("items", QVariant.string "none")] 0
    UniverseLoader.new Universe.empty (by decide!) (by decide!) (by decide!)
    (by decide!)).2.1 (by decide!)

/-- Counterexample to C17 as stated: the document that requires `earth.json`
and whose `items` value is a string returns the name "Earth", not the empty
list; the body is registered. -/
theorem loadCatalogItems_items_not_list_names :
    (UniverseLoader.new.loadCatalogItems sampleFileSystem Builders.none
      [("version", QVariant.string "1.0"),
       ("require", QVariant.list [QVariant.string "earth.json"]),
       ("items", QVariant.string "none")] Universe.empty).bodyNames = ["Earth"] ∧
    ((UniverseLoader.new.loadCatalogItems sampleFileSystem Builders.none
      [("version", QVariant.string "1.0"),
       ("require", QVariant.list [QVariant.string "earth.json"]),
       ("items", QVariant.string "none")] Universe.empty).world.findBody "Earth").isSome
      = true := by
  decide!

end Cosmographia

namespace Cosmographia

/-! ## Lemmas on chronologies -/

theorem arcEndTime_eq (builders : Builders) (map : QVariantMap) (startTime : ℚ) :
    arcEndTime builders map startTime
      = if (map.value "center").isString = true ∧ (declaredEndTime builders map).2 = true
            ∧ startTime < (declaredEndTime builders map).1
        then some (declaredEndTime builders map).1 else none := by
  unfold arcEndTime declaredEndTime
  cases h : map.value "center" <;> simp [QVariant.isString]

/-- What `loadArc` returns, by the center and the declared end time. -/
theorem loadArc_cases (builders : Builders) (map : QVariantMap) (world : Universe)
    (startTime : ℚ) (loader : UniverseLoader) :
    (((map.value "center").isString = true ∧ (declaredEndTime builders map).2 = true
        ∧ startTime < (declaredEndTime builders map).1) →
      ∃ arc, (loadArc builders map world startTime loader).1 = some arc ∧
        arc.duration = (declaredEndTime builders map).1 - startTime ∧ 0 < arc.duration) ∧
    (¬ ((map.value "center").isString = true ∧ (declaredEndTime builders map).2 = true
        ∧ startTime < (declaredEndTime builders map).1) →
      (loadArc builders map world startTime loader).1 = none) := by
  have h := loadArc_eq builders map world startTime loader
  rw [arcEndTime_eq] at h
  refine ⟨fun hc => ?_, fun hc => ?_⟩
  · exact h.1 _ (if_pos hc)
  · exact h.2 (if_neg hc)

theorem loadChronologyLoop_accepted (builders : Builders) (world : Universe) :
    ∀ (list : List QVariant) (arcs : List Arc) (startTime : ℚ) (loader : UniverseLoader),
    (ChronologyAccepted builders list startTime →
      ∃ built, (loadChronologyLoop builders world list arcs startTime loader).1 = arcs ++ built
        ∧ built.length = list.length
        ∧ built.map (fun arc => arc.duration)
            = differences startTime (declaredEndTimes builders list)) ∧
    (¬ ChronologyAccepted builders list startTime →
      (loadChronologyLoop builders world list arcs startTime loader).1 = [])
  | [], arcs, startTime, loader => by
    refine ⟨fun _ => ⟨[], by simp [loadChronologyLoop], rfl, rfl⟩, fun h => ?_⟩
    exact absurd ⟨by simp, List.Chain.nil⟩ h
  | v :: rest, arcs, startTime, loader => by
    have hacc : ChronologyAccepted builders (v :: rest) startTime ↔
        (v.isMap = true ∧ (v.toMap.value "center").isString = true
          ∧ (declaredEndTime builders v.toMap).2 = true
          ∧ startTime < (declaredEndTime builders v.toMap).1)
        ∧ ChronologyAccepted builders rest (declaredEndTime builders v.toMap).1 := by
      unfold ChronologyAccepted declaredEndTimes
      simp only [List.mem_cons, forall_eq_or_imp, List.map_cons, List.chain_cons]
      tauto
    cases v with
    | map m =>
      have ha := loadArc_cases builders m world startTime loader
      rcases hr : loadArc builders m world startTime loader with ⟨o, loader1⟩
      rw [hr] at ha
      by_cases hc : (QVariantMap.value m "center").isString = true
          ∧ (declaredEndTime builders m).2 = true
          ∧ startTime < (declaredEndTime builders m).1
      · obtain ⟨arc, ho, hd, -⟩ := ha.1 hc
        simp only at ho
        subst ho
        have hn : startTime + arc.duration = (declaredEndTime builders m).1 := by
          rw [hd]; ring
        have ih := loadChronologyLoop_accepted builders world rest (arcs ++ [arc])
          (declaredEndTime builders m).1 loader1
        simp only [loadChronologyLoop, hr, hn]
        rw [hacc]
        simp only [QVariant.isMap, QVariant.toMap, true_and]
        refine ⟨fun hb => ?_, fun hb => ih.2 (fun h => hb ⟨hc, h⟩)⟩
        obtain ⟨built, h1, h2, h3⟩ := ih.1 hb.2
        refine ⟨arc :: built, by rw [h1]; simp, by simp [h2], ?_⟩
        show arc.duration :: built.map (fun arc => arc.duration) = _
        rw [h3, hd]
        rfl
      · have ho : o = none := ha.2 hc
        subst ho
        simp only [loadChronologyLoop, hr]
        rw [hacc]
        simp only [QVariant.isMap, QVariant.toMap, true_and]
        exact ⟨fun hb => absurd hb.1 hc, fun _ => trivial⟩
    | invalid => rw [hacc]; simp [loadChronologyLoop, QVariant.isMap]
    | bool b => rw [hacc]; simp [loadChronologyLoop, QVariant.isMap]
    | int i => rw [hacc]; simp [loadChronologyLoop, QVariant.isMap]
    | uint u => rw [hacc]; simp [loadChronologyLoop, QVariant.isMap]
    | longlong i => rw [hacc]; simp [loadChronologyLoop, QVariant.isMap]
    | ulonglong u => rw [hacc]; simp [loadChronologyLoop, QVariant.isMap]
    | double d => rw [hacc]; simp [loadChronologyLoop, QVariant.isMap]
    | string s => rw [hacc]; simp [loadChronologyLoop, QVariant.isMap]
    | list l => rw [hacc]; simp [loadChronologyLoop, QVariant.isMap]

theorem arcIntervals_eq_zip : ∀ (arcs : List Arc) (startTime : ℚ) (ends : List ℚ),
    arcs.map (fun arc => arc.duration) = differences startTime ends →
    arcIntervals startTime arcs = List.zip (startTime :: ends) ends
  | [], startTime, ends, h => by
    cases ends with
    | nil => rfl
    | cons e es => simp [differences] at h
  | arc :: rest, startTime, ends, h => by
    cases ends with
    | nil => simp [differences] at h
    | cons e es =>
      simp only [List.map_cons, differences, List.cons.injEq] at h
      have he : startTime + arc.duration = e := by rw [h.1]; ring
      simp only [arcIntervals, he, List.zip_cons_cons]
      rw [arcIntervals_eq_zip rest e es h.2]

theorem chain_le_getLastD : ∀ (ends : List ℚ) (startTime : ℚ),
    List.Chain (fun a b => a < b) startTime ends → startTime ≤ ends.getLastD startTime
  | [], startTime, _ => le_refl _
  | e :: es, startTime, h => by
    rw [List.chain_cons] at h
    rw [List.getLastD_cons]
    exact le_trans (le_of_lt h.1) (chain_le_getLastD es e h.2)

/-- The intervals between the instants of an increasing list cover every
instant from the first to the last once, and no other instant. -/
theorem coverCount_zip : ∀ (ends : List ℚ) (startTime t : ℚ),
    List.Chain (fun a b => a < b) startTime ends →
    coverCount (List.zip (startTime :: ends) ends) t
      = if startTime ≤ t ∧ t < ends.getLastD startTime then 1 else 0
  | [], startTime, t, _ => by
    have : ¬ (startTime ≤ t ∧ t < startTime) := fun h => absurd h.2 (not_lt.mpr h.1)
    simp [coverCount, this]
  | e :: es, startTime, t, h => by
    rw [List.chain_cons] at h
    have ih := coverCount_zip es e t h.2
    have hl := chain_le_getLastD es e h.2
    unfold coverCount at ih ⊢
    rw [List.zip_cons_cons, List.filter_cons, List.getLastD_cons]
    by_cases h1 : startTime ≤ t <;> by_cases h2 : t < e <;> by_cases h3 : t < es.getLastD e
    all_goals simp only [h1, h2, h3, decide_True, decide_False, Bool.and_self, Bool.and_false,
      Bool.false_and, Bool.false_eq_true, if_true, if_false, List.length_cons, ih, and_self,
      and_false, false_and, true_and, and_true]
    all_goals first
      | rfl
      | (exfalso; linarith)
      | (have h4 : ¬ e ≤ t := not_le.mpr h2
         simp only [h4, if_false])
      | (have h4 : e ≤ t := not_lt.mp h2
         simp only [h4, if_true])

theorem differences_pos : ∀ (ends : List ℚ) (startTime : ℚ),
    List.Chain (fun a b => a < b) startTime ends →
    ∀ d ∈ differences startTime ends, 0 < d
  | [], _, _ => by simp [differences]
  | e :: es, startTime, h => by
    rw [List.chain_cons] at h
    intro d hd
    simp only [differences, List.mem_cons] at hd
    rcases hd with rfl | hd
    · exact sub_pos.mpr h.1
    · exact differences_pos es e h.2 d hd

/-! ## Lemmas on the pattern of a value with a unit -/

theorem isDigit_not_isSpace {c : Char} (h : isDigit c = true) : isSpace c = false := by
  unfold isDigit at h
  unfold isSpace
  simp only [decide_eq_true_eq] at h
  simp only [Bool.or_eq_false_iff, decide_eq_false_iff_not]
  omega

theorem isDigit_not_isLetter {c : Char} (h : isDigit c = true) : isLetter c = false := by
  unfold isDigit at h
  unfold isLetter
  simp only [decide_eq_true_eq] at h
  simp only [Bool.or_eq_false_iff, decide_eq_false_iff_not]
  omega

theorem isLetter_not_isSpace {c : Char} (h : isLetter c = true) : isSpace c = false := by
  unfold isLetter at h
  unfold isSpace
  simp only [Bool.or_eq_true, decide_eq_true_eq] at h
  simp only [Bool.or_eq_false_iff, decide_eq_false_iff_not]
  omega

theorem isSpace_not_isLetter {c : Char} (h : isSpace c = true) : isLetter c = false := by
  cases hl : isLetter c with
  | false => rfl
  | true => rw [isLetter_not_isSpace hl] at h; cases h

theorem isSign_not_isSpace {c : Char} (h : isSign c = true) : isSpace c = false := by
  unfold isSign at h
  simp only [Bool.or_eq_true, beq_iff_eq] at h
  rcases h with rfl | rfl <;> decide

theorem isExponentMark_not_isSpace {c : Char} (h : isExponentMark c = true) :
    isSpace c = false := by
  unfold isExponentMark at h
  simp only [Bool.or_eq_true, beq_iff_eq] at h
  rcases h with rfl | rfl <;> decide

/-- A run of `p` before a list that does not begin with a `p`: `dropWhile`
and `takeWhile` split the two. -/
theorem dropWhile_takeWhile_append {α : Type} (p : α → Bool) :
    ∀ (a b : List α), (∀ x ∈ a, p x = true) → (∀ x, b.head? = some x → p x = false) →
    (a ++ b).dropWhile p = b ∧ (a ++ b).takeWhile p = a
  | [], b, _, hb => by
    cases b with
    | nil => exact ⟨rfl, rfl⟩
    | cons x t =>
      have hx := hb x rfl
      simp [List.dropWhile, List.takeWhile, hx]
  | y :: a, b, ha, hb => by
    have hy := ha y (List.mem_cons_self _ _)
    have ih := dropWhile_takeWhile_append p a b (fun x hx => ha x (List.mem_cons_of_mem _ hx)) hb
    simp [List.dropWhile, List.takeWhile, hy, ih]

theorem takeWhile_all {α : Type} (p : α → Bool) : ∀ (l : List α),
    (l.takeWhile p).all p = true
  | [] => rfl
  | x :: l => by
    cases hx : p x with
    | false => simp [List.takeWhile, hx]
    | true => simp [List.takeWhile, hx, takeWhile_all p l]

theorem head?_append_cases {α : Type} (a b : List α) (x : α)
    (h : (a ++ b).head? = some x) : x ∈ a ∨ b.head? = some x := by
  cases a with
  | nil => exact Or.inr h
  | cons y t =>
    simp only [List.cons_append, List.head?_cons, Option.some.injEq] at h
    exact Or.inl (h ▸ List.mem_cons_self _ _)

theorem dropSign_eq (cs : List Char) :
    ∃ sign, cs = sign ++ dropSign cs ∧ ∀ c ∈ sign, isSign c = true := by
  cases cs with
  | nil => exact ⟨[], rfl, by simp⟩
  | cons c t =>
    cases hc : isSign c with
    | true => exact ⟨[c], by simp [dropSign, hc], by simp [hc]⟩
    | false => exact ⟨[], by simp [dropSign, hc], by simp⟩

theorem digits_last (cs : List Char) (hne : cs.isEmpty = false) (h : cs.all isDigit = true) :
    ∃ init d, cs = init ++ [d] ∧ isDigit d = true := by
  rcases List.eq_nil_or_concat cs with rfl | ⟨init, d, hcs⟩
  · cases hne
  · rw [List.concat_eq_append] at hcs
    subst hcs
    refine ⟨init, d, rfl, ?_⟩
    rw [List.all_eq_true] at h
    exact h d (by simp)

theorem isMantissaText_last (cs : List Char) (h : isMantissaText cs = true) :
    ∃ init d, cs = init ++ [d] ∧ isDigit d = true := by
  unfold isMantissaText at h
  have hsplit := List.takeWhile_append_dropWhile isDigit cs
  cases hd : cs.dropWhile isDigit with
  | nil =>
    rw [hd] at h
    simp only [Bool.not_eq_true'] at h
    have hall : cs.all isDigit = true := by
      rw [List.all_eq_true]
      exact List.dropWhile_eq_nil_iff.mp hd
    exact digits_last cs h hall
  | cons c fraction =>
    rw [hd] at h hsplit
    simp only [Bool.and_eq_true, beq_iff_eq, Bool.not_eq_true'] at h
    obtain ⟨init, d, hf, hdigit⟩ := digits_last fraction h.1.2 h.2
    refine ⟨cs.takeWhile isDigit ++ c :: init, d, ?_, hdigit⟩
    rw [hf] at hsplit
    rw [List.append_assoc, List.cons_append]
    exact hsplit.symm

theorem isExponentText_last (cs : List Char) (h : isExponentText cs = true) :
    ∃ init d, cs = init ++ [d] ∧ isDigit d = true := by
  unfold isExponentText at h
  simp only [Bool.and_eq_true, Bool.not_eq_true'] at h
  obtain ⟨init, d, hf, hdigit⟩ := digits_last (dropSign cs) h.1 h.2
  obtain ⟨sign, hs, -⟩ := dropSign_eq cs
  refine ⟨sign ++ init, d, ?_, hdigit⟩
  rw [List.append_assoc, ← hf]
  exact hs

/-- A text of the number pattern ends in a digit. -/
theorem isNumberText_last (cs : List Char) (h : isNumberText cs = true) :
    ∃ init d, cs = init ++ [d] ∧ isDigit d = true := by
  unfold isNumberText at h
  obtain ⟨sign, hs, -⟩ := dropSign_eq cs
  have hsplit := List.takeWhile_append_dropWhile (fun c => !isExponentMark c) (dropSign cs)
  simp only [] at h
  cases hd : (dropSign cs).dropWhile (fun c => !isExponentMark c) with
  | nil =>
    rw [hd] at h
    obtain ⟨init, d, hf, hdigit⟩ := isMantissaText_last _ h
    refine ⟨sign ++ init, d, ?_, hdigit⟩
    rw [List.append_assoc, ← hf]
    exact hs
  | cons mark exponent =>
    rw [hd] at h hsplit
    simp only [Bool.and_eq_true] at h
    obtain ⟨init, d, hf, hdigit⟩ := isExponentText_last _ h.2
    refine ⟨sign ++ ((dropSign cs).takeWhile (fun c => !isExponentMark c) ++ mark :: init), d,
      ?_, hdigit⟩
    have : sign ++ ((dropSign cs).takeWhile (fun c => !isExponentMark c) ++ mark :: init)
        ++ [d] = sign ++ ((dropSign cs).takeWhile (fun c => !isExponentMark c)
          ++ mark :: (init ++ [d])) := by simp
    rw [this, ← hf, hsplit]
    exact hs

theorem isMantissaText_head (c : Char) (cs : List Char) (h : isMantissaText (c :: cs) = true) :
    isSpace c = false := by
  unfold isMantissaText at h
  cases hc : isDigit c with
  | true => exact isDigit_not_isSpace hc
  | false =>
    simp only [List.dropWhile, hc, Bool.and_eq_true, beq_iff_eq] at h
    rw [h.1.1]
    decide

/-- A text of the number pattern is not empty and does not begin with white
space. -/
theorem isNumberText_head (cs : List Char) (h : isNumberText cs = true) :
    ∃ c rest, cs = c :: rest ∧ isSpace c = false := by
  cases cs with
  | nil => exact absurd h (by decide)
  | cons c rest =>
    refine ⟨c, rest, rfl, ?_⟩
    cases hsign : isSign c with
    | true => exact isSign_not_isSpace hsign
    | false =>
      cases hmark : isExponentMark c with
      | true => exact isExponentMark_not_isSpace hmark
      | false =>
        unfold isNumberText at h
        simp only [dropSign, hsign, Bool.false_eq_true, if_false, List.dropWhile,
          List.takeWhile, hmark, Bool.not_false] at h
        cases hd : rest.dropWhile (fun c => !isExponentMark c) with
        | nil =>
          rw [hd] at h
          exact isMantissaText_head c rest h
        | cons mark exponent =>
          rw [hd] at h
          simp only [Bool.and_eq_true] at h
          exact isMantissaText_head c _ h.1

theorem all_reverse_mem {p : Char → Bool} {w : List Char} (h : w.all p = true) :
    ∀ x ∈ w.reverse, p x = true := by
  intro x hx
  rw [List.all_eq_true] at h
  exact h x (List.mem_reverse.mp hx)

/-- A string that is white space, a number, white space, letters and white
space has the number and the letters as its captured texts. -/
theorem capturedTexts_complete (s number unitString : List Char)
    (h : MatchesValueUnits s number unitString) :
    capturedTextsFromEnd (s.dropWhile isSpace).reverse = some (number, unitString) := by
  obtain ⟨w1, w2, w3, rfl, h1, h2, h3, hn, hu⟩ := h
  obtain ⟨c, rest, hc, hcs⟩ := isNumberText_head number hn
  obtain ⟨init, d, hd, hdig⟩ := isNumberText_last number hn
  have hrev : number.reverse = d :: init.reverse := by rw [hd]; simp
  have hnhead : ∀ x, number.reverse.head? = some x → isDigit x = true := by
    intro x hx
    rw [hrev] at hx
    simp only [List.head?_cons, Option.some.injEq] at hx
    exact hx ▸ hdig
  have hstart : (w1 ++ number ++ w2 ++ unitString ++ w3).dropWhile isSpace
      = number ++ w2 ++ unitString ++ w3 := by
    have : w1 ++ number ++ w2 ++ unitString ++ w3
        = w1 ++ (number ++ w2 ++ unitString ++ w3) := by simp
    rw [this]
    refine (dropWhile_takeWhile_append isSpace w1 _ ?_ ?_).1
    · rw [List.all_eq_true] at h1; exact h1
    · intro x hx
      rw [hc] at hx
      simp only [List.cons_append, List.head?_cons, Option.some.injEq] at hx
      exact hx ▸ hcs
  have hreverse : (number ++ w2 ++ unitString ++ w3).reverse
      = w3.reverse ++ (unitString.reverse ++ (w2.reverse ++ number.reverse)) := by simp
  have hspace : (w2.reverse ++ number.reverse).dropWhile isSpace = number.reverse :=
    (dropWhile_takeWhile_append isSpace _ _ (all_reverse_mem h2)
      (fun x hx => isDigit_not_isSpace (hnhead x hx))).1
  have hletters : ∀ x, (w2.reverse ++ number.reverse).head? = some x → isLetter x = false := by
    intro x hx
    rcases head?_append_cases _ _ x hx with hw | hw
    · exact isSpace_not_isLetter (all_reverse_mem h2 x hw)
    · exact isDigit_not_isLetter (hnhead x hw)
  have hunit := dropWhile_takeWhile_append isLetter unitString.reverse
    (w2.reverse ++ number.reverse) (all_reverse_mem hu) hletters
  have hfrom : (w3.reverse ++ (unitString.reverse ++ (w2.reverse ++ number.reverse))).dropWhile
      isSpace = (unitString.reverse ++ (w2.reverse ++ number.reverse)).dropWhile isSpace := by
    rcases List.eq_nil_or_concat unitString with hnil | ⟨uinit, l, hcat⟩
    · subst hnil
      simp only [List.reverse_nil, List.nil_append]
      rw [hspace, ← List.append_assoc]
      refine (dropWhile_takeWhile_append isSpace _ _ ?_
        (fun x hx => isDigit_not_isSpace (hnhead x hx))).1
      intro x hx
      rcases List.mem_append.mp hx with hw | hw
      · exact all_reverse_mem h3 x hw
      · exact all_reverse_mem h2 x hw
    · rw [List.concat_eq_append] at hcat
      have hl : isLetter l = true := by
        rw [List.all_eq_true] at hu
        exact hu l (by rw [hcat]; simp)
      have hu2 : unitString.reverse = l :: uinit.reverse := by rw [hcat]; simp
      have h4 := (dropWhile_takeWhile_append isSpace w3.reverse
        (unitString.reverse ++ (w2.reverse ++ number.reverse)) (all_reverse_mem h3) ?_).1
      · rw [h4, hu2]
        simp [List.dropWhile, isLetter_not_isSpace hl]
      · intro x hx
        rw [hu2] at hx
        simp only [List.cons_append, List.head?_cons, Option.some.injEq] at hx
        exact isLetter_not_isSpace (hx ▸ hl)
  unfold capturedTextsFromEnd
  rw [hstart, hreverse, hfrom]
  rcases List.eq_nil_or_concat unitString with hnil | ⟨uinit, l, hcat⟩
  · subst hnil
    simp only [List.reverse_nil, List.nil_append] at hunit ⊢
    rw [hspace]
    have h5 := dropWhile_takeWhile_append isLetter [] number.reverse (by simp)
      (fun x hx => isDigit_not_isLetter (hnhead x hx))
    simp only [List.nil_append] at h5
    have h6 := (dropWhile_takeWhile_append isSpace [] number.reverse (by simp)
      (fun x hx => isDigit_not_isSpace (hnhead x hx))).1
    simp only [List.nil_append] at h6
    simp only [h5.1, h5.2, h6, List.reverse_reverse, hn, if_true, List.reverse_nil]
  · rw [List.concat_eq_append] at hcat
    have hl : isLetter l = true := by
      rw [List.all_eq_true] at hu
      exact hu l (by rw [hcat]; simp)
    have hu2 : unitString.reverse = l :: uinit.reverse := by rw [hcat]; simp
    have h7 : (unitString.reverse ++ (w2.reverse ++ number.reverse)).dropWhile isSpace
        = unitString.reverse ++ (w2.reverse ++ number.reverse) := by
      rw [hu2]
      simp [List.dropWhile, isLetter_not_isSpace hl]
    simp only [h7, hunit.1, hunit.2, hspace, List.reverse_reverse, hn, if_true]

theorem split_reverse (a t2 f t3 d3 t4 d4 : List Char) (e2 : t2 ++ f = a.reverse)
    (e3 : t3 ++ d3 = f) (e4 : t4 ++ d4 = d3) :
    a = d4.reverse ++ t4.reverse ++ t3.reverse ++ t2.reverse := by
  have h : a = a.reverse.reverse := (List.reverse_reverse a).symm
  rw [h, ← e2, ← e3, ← e4]
  simp

/-- The captured texts of a string are a number and letters between white
space that make up the string. -/
theorem capturedTexts_sound (s number unitString : List Char)
    (h : capturedTextsFromEnd (s.dropWhile isSpace).reverse = some (number, unitString)) :
    MatchesValueUnits s number unitString := by
  unfold capturedTextsFromEnd at h
  simp only [] at h
  split at h
  case isFalse => cases h
  case isTrue hnum =>
    simp only [Option.some.injEq, Prod.mk.injEq] at h
    obtain ⟨h1, h2⟩ := h
    have e1 := List.takeWhile_append_dropWhile isSpace s
    have e2 := List.takeWhile_append_dropWhile isSpace (s.dropWhile isSpace).reverse
    have e3 := List.takeWhile_append_dropWhile isLetter
      ((s.dropWhile isSpace).reverse.dropWhile isSpace)
    have e4 := List.takeWhile_append_dropWhile isSpace
      (((s.dropWhile isSpace).reverse.dropWhile isSpace).dropWhile isLetter)
    refine ⟨s.takeWhile isSpace,
      ((((s.dropWhile isSpace).reverse.dropWhile isSpace).dropWhile isLetter).takeWhile
        isSpace).reverse,
      ((s.dropWhile isSpace).reverse.takeWhile isSpace).reverse, ?_, takeWhile_all _ _, ?_, ?_,
      ?_, ?_⟩
    · have e5 := split_reverse _ _ _ _ _ _ _ e2 e3 e4
      rw [h1, h2] at e5
      exact (e1.symm.trans (congrArg (fun l => s.takeWhile isSpace ++ l) e5)).trans
        (by simp only [List.append_assoc])
    · rw [List.all_reverse]; exact takeWhile_all _ _
    · rw [List.all_reverse]; exact takeWhile_all _ _
    · rw [← h1]; exact hnum
    · rw [← h2, List.all_reverse]; exact takeWhile_all _ _

/-- The captured texts of a string, by what the pattern says. -/
theorem valueUnitsCapturedTexts_iff (s number unitString : String) :
    valueUnitsCapturedTexts s = some (number, unitString)
      ↔ MatchesValueUnits s.toList number.toList unitString.toList := by
  unfold valueUnitsCapturedTexts
  constructor
  · intro h
    cases hc : capturedTextsFromEnd (s.toList.dropWhile isSpace).reverse with
    | none => rw [hc] at h; cases h
    | some r =>
      obtain ⟨a, b⟩ := r
      rw [hc] at h
      simp only [Option.some.injEq, Prod.mk.injEq] at h
      obtain ⟨h1, h2⟩ := h
      subst h1 h2
      exact capturedTexts_sound _ a b hc
  · intro h
    rw [capturedTexts_complete _ _ _ h]
    rfl

theorem valueUnitsCapturedTexts_none (s : String)
    (h : ¬ ∃ number unitString, MatchesValueUnits s.toList number unitString) :
    valueUnitsCapturedTexts s = none := by
  unfold valueUnitsCapturedTexts
  cases hc : capturedTextsFromEnd (s.toList.dropWhile isSpace).reverse with
  | none => rfl
  | some r =>
    obtain ⟨a, b⟩ := r
    exact absurd ⟨a, b, capturedTexts_sound _ a b hc⟩ h

/-- A number with letters right after it matches the pattern. -/
theorem valueUnitsCapturedTexts_append (number unitString : String)
    (hnumber : isNumberText number.toList = true)
    (hletters : unitString.toList.all isLetter = true) :
    valueUnitsCapturedTexts (number ++ unitString) = some (number, unitString) := by
  rw [valueUnitsCapturedTexts_iff]
  exact ⟨[], [], [], by simp, rfl, rfl, rfl, hnumber, hletters⟩

/-- A number alone matches the pattern, without a unit. -/
theorem valueUnitsCapturedTexts_number (number : String)
    (hnumber : isNumberText number.toList = true) :
    valueUnitsCapturedTexts number = some (number, "") := by
  rw [valueUnitsCapturedTexts_iff]
  exact ⟨[], [], [], by simp, rfl, rfl, rfl, hnumber, rfl⟩

theorem convertDistance_kilometer (value : ℚ) (unit : DistanceUnit) :
    convertDistance value unit DistanceUnit.Unit_Kilometer
      = value * distanceUnitConversion unit := by
  simp [convertDistance, distanceUnitConversion]

theorem convertTime_second (value : ℚ) (unit : TimeUnit) :
    convertTime value unit TimeUnit.Unit_Second = value * timeUnitConversion unit := by
  simp [convertTime, timeUnitConversion]

/-- The distance of a string that matches the pattern. -/
theorem distanceValue_matched (s number unitString : String) (defaultUnit : DistanceUnit)
    (defaultValue : ℚ) (h : valueUnitsCapturedTexts s = some (number, unitString)) :
    distanceValue (QVariant.string s) defaultUnit defaultValue
      = if (if !unitString.isEmpty then parseDistanceUnit unitString else defaultUnit)
            = DistanceUnit.InvalidDistanceUnit then (0, false)
        else (numberValue number
          * distanceUnitConversion
              (if !unitString.isEmpty then parseDistanceUnit unitString else defaultUnit),
          true) := by
  unfold distanceValue
  simp only [h, convertDistance_kilometer]

/-- The duration of a string that matches the pattern. -/
theorem durationValue_matched (s number unitString : String) (defaultUnit : TimeUnit)
    (defaultValue : ℚ) (h : valueUnitsCapturedTexts s = some (number, unitString)) :
    durationValue (QVariant.string s) defaultUnit defaultValue
      = if (if !unitString.isEmpty then parseTimeUnit unitString else defaultUnit)
            = TimeUnit.InvalidTimeUnit then (0, false)
        else (numberValue number
          * timeUnitConversion
              (if !unitString.isEmpty then parseTimeUnit unitString else defaultUnit),
          true) := by
  unfold durationValue
  simp only [h, convertTime_second]

theorem distanceValue_unmatched (s : String) (defaultUnit : DistanceUnit) (defaultValue : ℚ)
    (h : valueUnitsCapturedTexts s = none) :
    distanceValue (QVariant.string s) defaultUnit defaultValue = (0, false) := by
  unfold distanceValue
  simp only [h, if_true]

theorem durationValue_unmatched (s : String) (defaultUnit : TimeUnit) (defaultValue : ℚ)
    (h : valueUnitsCapturedTexts s = none) :
    durationValue (QVariant.string s) defaultUnit defaultValue = (0, false) := by
  unfold durationValue
  simp only [h, if_true]

/-- The distance of a number with a suffix right after it. -/
theorem distanceValue_append (number unitString : String) (defaultUnit : DistanceUnit)
    (defaultValue : ℚ) (hnumber : isNumberText number.toList = true)
    (hletters : unitString.toList.all isLetter = true) (hsuffix : unitString.isEmpty = false) :
    distanceValue (QVariant.string (number ++ unitString)) defaultUnit defaultValue
      = if parseDistanceUnit unitString = DistanceUnit.InvalidDistanceUnit then (0, false)
        else (numberValue number * distanceUnitConversion (parseDistanceUnit unitString),
          true) := by
  rw [distanceValue_matched _ _ _ _ _ (valueUnitsCapturedTexts_append _ _ hnumber hletters)]
  simp only [hsuffix, Bool.not_false, if_true]

/-- The duration of a number with a suffix right after it. -/
theorem durationValue_append (number unitString : String) (defaultUnit : TimeUnit)
    (defaultValue : ℚ) (hnumber : isNumberText number.toList = true)
    (hletters : unitString.toList.all isLetter = true) (hsuffix : unitString.isEmpty = false) :
    durationValue (QVariant.string (number ++ unitString)) defaultUnit defaultValue
      = if parseTimeUnit unitString = TimeUnit.InvalidTimeUnit then (0, false)
        else (numberValue number * timeUnitConversion (parseTimeUnit unitString), true) := by
  rw [durationValue_matched _ _ _ _ _ (valueUnitsCapturedTexts_append _ _ hnumber hletters)]
  simp only [hsuffix, Bool.not_false, if_true]

theorem distanceValue_double (n : ℚ) (defaultUnit : DistanceUnit) (defaultValue : ℚ) :
    distanceValue (QVariant.double n) defaultUnit defaultValue
      = if defaultUnit = DistanceUnit.InvalidDistanceUnit then (0, false)
        else (n * distanceUnitConversion defaultUnit, true) := by
  unfold distanceValue
  simp only [convertDistance_kilometer]

theorem durationValue_double (n : ℚ) (defaultUnit : TimeUnit) (defaultValue : ℚ) :
    durationValue (QVariant.double n) defaultUnit defaultValue
      = if defaultUnit = TimeUnit.InvalidTimeUnit then (0, false)
        else (n * timeUnitConversion defaultUnit, true) := by
  unfold durationValue
  simp only [convertTime_second]

theorem parseDistanceUnit_invalid (unitString : String)
    (h : unitString ∉ ["mm", "cm", "m", "km", "au"]) :
    parseDistanceUnit unitString = DistanceUnit.InvalidDistanceUnit := by
  simp only [List.mem_cons, List.mem_singleton, List.not_mem_nil, or_false, not_or] at h
  unfold parseDistanceUnit
  simp [h.1, h.2.1, h.2.2.1, h.2.2.2.1, h.2.2.2.2]

theorem parseTimeUnit_invalid (unitString : String)
    (h : unitString ∉ ["ms", "s", "m", "h", "d", "y", "a"]) :
    parseTimeUnit unitString = TimeUnit.InvalidTimeUnit := by
  simp only [List.mem_cons, List.mem_singleton, List.not_mem_nil, or_false, not_or] at h
  unfold parseTimeUnit
  simp [h.1, h.2.1, h.2.2.1, h.2.2.2.1, h.2.2.2.2.1, h.2.2.2.2.2.1, h.2.2.2.2.2.2]

/-! ## Lemmas on the live updates -/

theorem mem_hashValues (hash : List (String × Nat)) (key : String) (address : Nat) :
    address ∈ hashValues hash key ↔ (key, address) ∈ hash := by
  unfold hashValues
  simp only [List.mem_map, List.mem_filter, beq_iff_eq]
  constructor
  · rintro ⟨⟨k, a⟩, ⟨hmem, hk⟩, ha⟩
    simp only at hk ha
    subst hk ha
    exact hmem
  · intro h
    exact ⟨(key, address), ⟨h, rfl⟩, rfl⟩

theorem foldl_modify_get (f : TleTrajectory → TleTrajectory) (hf : ∀ t, f (f t) = f t) :
    ∀ (addresses : List Nat) (heap : List TleTrajectory) (a : Nat),
    (addresses.foldl (fun h address => h.modify f address) heap)[a]?
      = if a ∈ addresses then heap[a]?.map f else heap[a]?
  | [], heap, a => by simp
  | x :: xs, heap, a => by
    rw [List.foldl_cons, foldl_modify_get f hf xs (heap.modify f x) a, List.getElem?_modify]
    cases hget : heap[a]? with
    | none => simp
    | some t =>
      by_cases hx : x = a
      · subst hx
        simp [hf]
      · have hx2 : ¬ a = x := fun h => hx h.symm
        simp [hx, hx2]

theorem foldl_updateTrajectory_none (create : String → String → Option TleTrajectory)
    (tleData : TleRecord) (hc : create tleData.line1 tleData.line2 = none) :
    ∀ (addresses : List Nat) (heap : List TleTrajectory),
    addresses.foldl (updateTrajectory create tleData) heap = heap
  | [], _ => rfl
  | x :: xs, heap => by
    rw [List.foldl_cons, foldl_updateTrajectory_none create tleData hc xs]
    simp only [updateTrajectory, hc]

theorem foldl_updateTrajectory_get (create : String → String → Option TleTrajectory)
    (tleData : TleRecord) (addresses : List Nat) (heap : List TleTrajectory) (a : Nat) :
    (addresses.foldl (updateTrajectory create tleData) heap)[a]?
      = if a ∈ addresses then
          match create tleData.line1 tleData.line2 with
          | some tempTle => heap[a]?.map (fun t => t.copy tempTle)
          | none => heap[a]?
        else heap[a]? := by
  cases hc : create tleData.line1 tleData.line2 with
  | none =>
    rw [foldl_updateTrajectory_none create tleData hc]
    simp
  | some tempTle =>
    have hfun : updateTrajectory create tleData
        = fun h address => h.modify (fun t => t.copy tempTle) address := by
      funext h address
      simp only [updateTrajectory, hc]
    rw [hfun]
    exact foldl_modify_get (fun t => t.copy tempTle) (fun _ => rfl) addresses heap a

/-- The trajectory at an address after one pending record. -/
theorem processUpdate_get (create : String → String → Option TleTrajectory) (s : LiveUpdates)
    (tleData : TleRecord) (a : Nat) :
    (processUpdate create s tleData).trajectories[a]?
      = if (TleKey tleData.source tleData.name, a) ∈ s.m_tleTrajectories then
          match create tleData.line1 tleData.line2 with
          | some tempTle => s.trajectories[a]?.map (fun t => t.copy tempTle)
          | none => s.trajectories[a]?
        else s.trajectories[a]? := by
  unfold processUpdate
  simp only [foldl_updateTrajectory_get, mem_hashValues]

theorem foldl_updateTrajectory_length (create : String → String → Option TleTrajectory)
    (tleData : TleRecord) : ∀ (addresses : List Nat) (heap : List TleTrajectory),
    (addresses.foldl (updateTrajectory create tleData) heap).length = heap.length
  | [], _ => rfl
  | x :: xs, heap => by
    rw [List.foldl_cons, foldl_updateTrajectory_length create tleData xs]
    unfold updateTrajectory
    cases create tleData.line1 tleData.line2 with
    | none => rfl
    | some tempTle => exact List.length_modify _ _ _

theorem processUpdate_length (create : String → String → Option TleTrajectory)
    (s : LiveUpdates) (tleData : TleRecord) :
    (processUpdate create s tleData).trajectories.length = s.trajectories.length :=
  foldl_updateTrajectory_length create tleData _ _

theorem drain_registrations (create : String → String → Option TleTrajectory) :
    ∀ (updates : List TleRecord) (s : LiveUpdates),
    (updates.foldl (processUpdate create) s).m_tleTrajectories = s.m_tleTrajectories
      ∧ (updates.foldl (processUpdate create) s).trajectories.length = s.trajectories.length
      ∧ (updates.foldl (processUpdate create) s).m_resourceRequests = s.m_resourceRequests
  | [], _ => ⟨rfl, rfl, rfl⟩
  | r :: rest, s => by
    rw [List.foldl_cons]
    have ih := drain_registrations create rest (processUpdate create s r)
    exact ⟨ih.1, ih.2.1.trans (processUpdate_length create s r), ih.2.2⟩

/-- The pending records that do not touch the trajectory at an address leave
it as it is: those with another key and those whose lines do not parse. -/
theorem drain_frame (create : String → String → Option TleTrajectory) (a : Nat) :
    ∀ (updates : List TleRecord) (s : LiveUpdates),
    (∀ r ∈ updates, (TleKey r.source r.name, a) ∈ s.m_tleTrajectories →
      create r.line1 r.line2 = none) →
    (updates.foldl (processUpdate create) s).trajectories[a]? = s.trajectories[a]?
  | [], _, _ => rfl
  | r :: rest, s, h => by
    rw [List.foldl_cons]
    have ih := drain_frame create a rest (processUpdate create s r)
      (fun r2 hr2 hmem => h r2 (List.mem_cons_of_mem _ hr2) hmem)
    rw [ih, processUpdate_get]
    by_cases hmem : (TleKey r.source r.name, a) ∈ s.m_tleTrajectories
    · rw [if_pos hmem, h r (List.mem_cons_self _ _) hmem]
    · rw [if_neg hmem]

/-- The trajectory at an address after the pending records, when one of them
parses and has a key of the trajectory, and those after it do not touch the
trajectory. -/
theorem drain_hit (create : String → String → Option TleTrajectory) (a : Nat)
    (tleData : TleRecord) (tempTle : TleTrajectory)
    (hcreate : create tleData.line1 tleData.line2 = some tempTle) :
    ∀ (before after : List TleRecord) (s : LiveUpdates) (old : TleTrajectory),
    (TleKey tleData.source tleData.name, a) ∈ s.m_tleTrajectories →
    s.trajectories[a]? = some old →
    (∀ r ∈ after, (TleKey r.source r.name, a) ∈ s.m_tleTrajectories →
      create r.line1 r.line2 = none) →
    ((before ++ tleData :: after).foldl (processUpdate create) s).trajectories[a]?
      = some (old.copy tempTle) := by
  intro before after s old hmem hold hafter
  rw [List.foldl_append, List.foldl_cons]
  have hreg := drain_registrations create before s
  have hlen : a < (before.foldl (processUpdate create) s).trajectories.length := by
    rw [hreg.2.1]
    exact (List.getElem?_eq_some.mp hold).1
  have hframe := drain_frame create a after
    (processUpdate create (before.foldl (processUpdate create) s) tleData)
    (fun r hr hm => hafter r hr (hreg.1 ▸ hm))
  rw [hframe, processUpdate_get, hreg.1, if_pos hmem, hcreate]
  rw [List.getElem?_eq_getElem hlen]
  rfl

/-! ## Lemmas on calendar dates -/

/-- The days before a year, in closed form. -/
theorem daysBeforeYear_eq (year : Nat) :
    daysBeforeYear year + (year + 99) / 100
      = 365 * year + (year + 3) / 4 + (year + 399) / 400 := by
  induction year with
  | zero => rfl
  | succ y ih =>
    unfold daysBeforeYear isLeapYear
    simp only [Bool.or_eq_true, Bool.and_eq_true, beq_iff_eq, bne_iff_ne, ne_eq]
    split_ifs with h <;> omega

/-- The days before a month, in closed form. -/
theorem daysBeforeMonth_eq (year month : Nat) (h1 : 1 ≤ month) (h2 : month ≤ 12) :
    daysBeforeMonth year month
      = (if month ≤ 2 then 31 * (month - 1)
         else (153 * (month - 3) + 2) / 5 + 59 + (if isLeapYear year then 1 else 0)) := by
  have hm : month = 1 ∨ month = 2 ∨ month = 3 ∨ month = 4 ∨ month = 5 ∨ month = 6 ∨ month = 7
      ∨ month = 8 ∨ month = 9 ∨ month = 10 ∨ month = 11 ∨ month = 12 := by omega
  rcases hm with rfl | rfl | rfl | rfl | rfl | rfl | rfl | rfl | rfl | rfl | rfl | rfl <;>
    simp [daysBeforeMonth, daysInMonth] <;> split_ifs <;> rfl

/-- The Julian Day number of a day is its count of days in the Gregorian
calendar, up to a constant. -/
theorem julianDayNumber_eq (year month day : Nat) (h1 : 1 ≤ month) (h2 : month ≤ 12) :
    julianDayNumber year month day = dayCount year month day + 1721059 := by
  unfold julianDayNumber dayCount
  have hy := daysBeforeYear_eq year
  rw [daysBeforeMonth_eq year month h1 h2]
  unfold isLeapYear
  simp only [Bool.or_eq_true, Bool.and_eq_true, beq_iff_eq, bne_iff_ne, ne_eq]
  generalize daysBeforeYear year = n at hy ⊢
  by_cases hle : month ≤ 2
  · have ha : (14 - month) / 12 = 1 := by omega
    simp only [ha, hle, if_true]
    have e1 : (year + 4800 - 1) / 4 = (year + 3) / 4 + 1199 := by omega
    have e2 : (year + 4800 - 1) / 100 = (year + 99) / 100 + 47 := by omega
    have e3 : (year + 4800 - 1) / 400 = (year + 399) / 400 + 11 := by omega
    have e4 : (153 * (month + 12 * 1 - 3) + 2) / 5 = 31 * (month - 1) + 306 := by omega
    have e5 : (year + 99) / 100 ≤ (year + 3) / 4 := by omega
    rw [e1, e2, e3, e4]
    generalize (year + 3) / 4 = a4 at *
    generalize (year + 99) / 100 = a100 at *
    generalize (year + 399) / 400 = a400 at *
    omega
  · have ha : (14 - month) / 12 = 0 := by omega
    simp only [ha, hle, if_false]
    have e1 : (year + 4800 - 0) / 4 = year / 4 + 1200 := by omega
    have e2 : (year + 4800 - 0) / 100 = year / 100 + 48 := by omega
    have e3 : (year + 4800 - 0) / 400 = year / 400 + 12 := by omega
    have e4 : month + 12 * 0 - 3 = month - 3 := by omega
    have f1 : (year + 3) / 4 = year / 4 + (if year % 4 = 0 then 0 else 1) := by
      split_ifs <;> omega
    have f2 : (year + 99) / 100 = year / 100 + (if year % 100 = 0 then 0 else 1) := by
      split_ifs <;> omega
    have f3 : (year + 399) / 400 = year / 400 + (if year % 400 = 0 then 0 else 1) := by
      split_ifs <;> omega
    have f4 : year / 100 ≤ year / 4 := by omega
    have f5 : year % 400 = 0 → year % 100 = 0 := by omega
    have f6 : year % 100 = 0 → year % 4 = 0 := by omega
    rw [e1, e2, e3, e4]
    rw [f1, f2, f3] at hy
    generalize (153 * (month - 3) + 2) / 5 = mm at *
    clear e1 e2 e3 e4 f1 f2 f3 ha h1 h2
    by_cases c4 : year % 4 = 0
    · by_cases c100 : year % 100 = 0
      · by_cases c400 : year % 400 = 0
        · simp only [c4, c100, c400, if_true, not_true_eq_false, and_false, or_true] at hy ⊢
          omega
        · simp only [c4, c100, c400, if_true, if_false, not_true_eq_false, and_false,
            or_false] at hy ⊢
          omega
      · have c400 : ¬ year % 400 = 0 := fun h => c100 (f5 h)
        simp only [c4, c100, c400, if_true, if_false, not_false_eq_true, and_true,
          or_false] at hy ⊢
        omega
    · have c100 : ¬ year % 100 = 0 := fun h => c4 (f6 h)
      have c400 : ¬ year % 400 = 0 := fun h => c100 (f5 h)
      simp only [c4, c100, c400, if_false, not_false_eq_true, and_true, false_and,
        or_false] at hy ⊢
      omega

theorem dayCount_J2000 : dayCount 2000 1 1 = 730486 := by
  have h := daysBeforeYear_eq 2000
  rw [dayCount, daysBeforeMonth_eq 2000 1 (by omega) (by omega)]
  norm_num at h ⊢
  omega

/-- The seconds of a calendar date are those of its Julian Day. -/
theorem toTDBSec_eq_julianDay (d : QDateTime) (h1 : 1 ≤ d.month) (h2 : d.month ≤ 12) :
    GregorianDate.toTDBSec
        { year := d.year, month := d.month, day := d.day, hour := d.hour, minute := d.minute,
          second := d.second, usec := d.msec * 1000 }
      = (julianDay d - J2000) * 86400 := by
  unfold GregorianDate.toTDBSec julianDay J2000
  simp only []
  rw [julianDayNumber_eq _ _ _ h1 h2, dayCount_J2000]
  push_cast
  ring

end Cosmographia

namespace Cosmographia

/-! ## Arcs and chronologies: properties of the specification -/

/-- C21: every arc `loadArc` returns has the duration `endTime - startTime`,
which is positive, where `endTime` is the `endTime` field read by `dateValue`
or `DefaultEndTime` when the field is not there; `loadArc` returns null when
the field is there but is not a valid date, and when the end time is not
after the start time. -/
theorem loadArc_duration (builders : Builders) (map : QVariantMap) (world : Universe)
    (startTime : ℚ) (loader : UniverseLoader) :
    (∀ arc, (loadArc builders map world startTime loader).1 = some arc →
      arc.duration = (declaredEndTime builders map).1 - startTime ∧ 0 < arc.duration) ∧
    ((map.value "endTime").isValid = true →
      declaredEndTime builders map = dateValue builders (map.value "endTime")) ∧
    ((map.value "endTime").isValid = false →
      declaredEndTime builders map = (DefaultEndTime, true)) ∧
    ((map.value "endTime").isValid = true →
      (dateValue builders (map.value "endTime")).2 = false →
      loadArc builders map world startTime loader
        = (none, (loadArcComponents builders map world
            { Arc.new with
              center := world.catalog.find ((map.value "center").toString builders) }
            loader).2.errorMessage "Invalid endTime specified.")
        ∨ loadArc builders map world startTime loader
            = (none, loader.errorMessage "Missing center for object.")) ∧
    ((declaredEndTime builders map).1 ≤ startTime →
      (loadArc builders map world startTime loader).1 = none) ∧
    ((map.value "center").isString = true → (declaredEndTime builders map).2 = true →
      startTime < (declaredEndTime builders map).1 →
      (loadArc builders map world startTime loader).1.isSome = true) := by
  have h := loadArc_cases builders map world startTime loader
  refine ⟨?_, ?_, ?_, ?_, ?_, ?_⟩
  · intro arc ha
    by_cases hc : (map.value "center").isString = true ∧ (declaredEndTime builders map).2 = true
        ∧ startTime < (declaredEndTime builders map).1
    · obtain ⟨arc1, h1, h2, h3⟩ := h.1 hc
      rw [ha] at h1
      cases h1
      exact ⟨h2, h3⟩
    · rw [h.2 hc] at ha
      cases ha
  · intro hv
    unfold declaredEndTime
    rw [if_pos hv]
  · intro hv
    unfold declaredEndTime
    simp only [hv, Bool.false_eq_true, if_false]
  · intro hv hd
    unfold loadArc
    cases hcenter : map.value "center" with
    | string name =>
      left
      simp only [hv, hd, if_true, Bool.not_false, QVariant.toString]
    | _ => right; rfl
  · intro hle
    exact h.2 (fun hc => absurd hc.2.2 (not_lt.mpr hle))
  · intro h1 h2 h3
    obtain ⟨arc, ha, -, -⟩ := h.1 ⟨h1, h2, h3⟩
    rw [ha]
    rfl

/-- C22: the arcs `loadChronology` returns are contiguous.  The loop builds
the arc that follows at the end time of the arc it has just built; the
result is empty or has an arc for every element of the list, and it is empty
when an element is not a map, has no string `center` or no valid end time, or
when the start time and the declared end times do not increase strictly.
When they do, the durations are the steps from each end time to the next, all
positive, the k-th arc covers the instants from the end time before it (the
start time for the first) up to its own, and every instant from the start
time up to the last end time is in one arc, every other instant in none. -/
theorem loadChronology_contiguous (builders : Builders) (world : Universe)
    (list : List QVariant) (startTime : ℚ) (loader : UniverseLoader) :
    (∀ (m : QVariantMap) (rest : List QVariant) (arcs : List Arc) (nextStartTime : ℚ)
        (l1 l2 : UniverseLoader) (arc : Arc),
      loadArc builders m world nextStartTime l1 = (some arc, l2) →
      loadChronologyLoop builders world (QVariant.map m :: rest) arcs nextStartTime l1
        = loadChronologyLoop builders world rest (arcs ++ [arc])
            (declaredEndTime builders m).1 l2) ∧
    ((loadChronology builders list world startTime loader).1 = [] ∨
      (loadChronology builders list world startTime loader).1.length = list.length) ∧
    (¬ ChronologyAccepted builders list startTime →
      (loadChronology builders list world startTime loader).1 = []) ∧
    (∀ v ∈ list, (v.isMap = false ∨ (v.toMap.value "center").isString = false
        ∨ (declaredEndTime builders v.toMap).2 = false) →
      (loadChronology builders list world startTime loader).1 = []) ∧
    (¬ List.Chain (fun a b => a < b) startTime (declaredEndTimes builders list) →
      (loadChronology builders list world startTime loader).1 = []) ∧
    (ChronologyAccepted builders list startTime →
      (loadChronology builders list world startTime loader).1.length = list.length ∧
      (loadChronology builders list world startTime loader).1.map (fun arc => arc.duration)
        = differences startTime (declaredEndTimes builders list) ∧
      (∀ arc ∈ (loadChronology builders list world startTime loader).1, 0 < arc.duration) ∧
      arcIntervals startTime (loadChronology builders list world startTime loader).1
        = List.zip (startTime :: declaredEndTimes builders list)
            (declaredEndTimes builders list) ∧
      ∀ t, coverCount
          (arcIntervals startTime (loadChronology builders list world startTime loader).1) t
        = if startTime ≤ t ∧ t < (declaredEndTimes builders list).getLastD startTime
          then 1 else 0) := by
  have h := loadChronologyLoop_accepted builders world list [] startTime loader
  have hno : ¬ ChronologyAccepted builders list startTime →
      (loadChronology builders list world startTime loader).1 = [] := h.2
  refine ⟨?_, ?_, hno, ?_, ?_, ?_⟩
  · intro m rest arcs nextStartTime l1 l2 arc ha
    have hc := loadArc_cases builders m world nextStartTime l1
    have hd : arc.duration = (declaredEndTime builders m).1 - nextStartTime := by
      by_cases hcond : (QVariantMap.value m "center").isString = true
          ∧ (declaredEndTime builders m).2 = true
          ∧ nextStartTime < (declaredEndTime builders m).1
      · obtain ⟨arc1, h1, h2, -⟩ := hc.1 hcond
        rw [ha] at h1
        cases h1
        exact h2
      · have := hc.2 hcond
        rw [ha] at this
        cases this
    have hn : nextStartTime + arc.duration = (declaredEndTime builders m).1 := by
      rw [hd]; ring
    simp only [loadChronologyLoop, ha, hn]
  · by_cases hacc : ChronologyAccepted builders list startTime
    · obtain ⟨built, h1, h2, -⟩ := h.1 hacc
      right
      unfold loadChronology
      rw [h1, List.nil_append, h2]
    · exact Or.inl (hno hacc)
  · intro v hv hbad
    apply hno
    intro hacc
    have := hacc.1 v hv
    rcases hbad with hb | hb | hb
    · rw [this.1] at hb; cases hb
    · rw [this.2.1] at hb; cases hb
    · rw [this.2.2] at hb; cases hb
  · intro hchain
    exact hno (fun hacc => hchain hacc.2)
  · intro hacc
    obtain ⟨built, h1, h2, h3⟩ := h.1 hacc
    have h1' : (loadChronology builders list world startTime loader).1 = built := by
      unfold loadChronology
      rw [h1, List.nil_append]
    rw [h1']
    have hz := arcIntervals_eq_zip built startTime (declaredEndTimes builders list) h3
    refine ⟨h2, h3, ?_, hz, ?_⟩
    · intro arc harc
      apply differences_pos _ _ hacc.2
      rw [← h3]
      exact List.mem_map_of_mem _ harc
    · intro t
      rw [hz]
      exact coverCount_zip _ _ t hacc.2

/-- The chronology of the sample list from J2000: two arcs, of one day and of
two days. -/
theorem loadChronology_sampleArcs :
    ((loadChronology Builders.none sampleArcs Universe.empty 0 UniverseLoader.new).1.map
      (fun arc => arc.duration)) = [86400, 172800] ∧
    arcIntervals 0 (loadChronology Builders.none sampleArcs Universe.empty 0
      UniverseLoader.new).1 = [(0, 86400), (86400, 259200)] ∧
    (loadChronology Builders.none sampleArcs Universe.empty 86400 UniverseLoader.new).1
      = [] := by
  decide!

/-! ## Values with units and dates: properties of the specification -/

/-- C23: the unit round trip.  For every string made of a number and one of
the units mm, cm, m, km, au, `distanceValue` succeeds, and its result `d`, in
kilometers, is what `distanceValue` gives for the bare number `d` with the
default unit kilometers (whatever the default unit and the default value of
the first call). -/
theorem distanceValue_round_trip (number unitString : String)
    (hnumber : isNumberText number.toList = true)
    (hunit : unitString ∈ ["mm", "cm", "m", "km", "au"])
    (defaultUnit : DistanceUnit) (defaultValue defaultValue2 : ℚ) :
    (distanceValue (QVariant.string (number ++ unitString)) defaultUnit defaultValue).2 = true ∧
    distanceValue
        (QVariant.double
          (distanceValue (QVariant.string (number ++ unitString)) defaultUnit defaultValue).1)
        DistanceUnit.Unit_Kilometer defaultValue2
      = distanceValue (QVariant.string (number ++ unitString)) defaultUnit defaultValue := by
  have h : (unitString.toList.all isLetter = true ∧ unitString.isEmpty = false)
      ∧ parseDistanceUnit unitString ≠ DistanceUnit.InvalidDistanceUnit := by
    simp only [List.mem_cons, List.mem_singleton, List.not_mem_nil, or_false] at hunit
    rcases hunit with rfl | rfl | rfl | rfl | rfl <;> exact ⟨⟨by decide, by decide⟩, by decide⟩
  rw [distanceValue_append _ _ _ _ hnumber h.1.1 h.1.2, if_neg h.2, distanceValue_double]
  refine ⟨rfl, ?_⟩
  rw [if_neg (by decide)]
  simp [distanceUnitConversion]

theorem distanceValue_round_trip_witness :
    (distanceValue (QVariant.string ("2.5" ++ "cm")) DistanceUnit.Unit_AU 7).2 = true ∧
    distanceValue
        (QVariant.double
          (distanceValue (QVariant.string ("2.5" ++ "cm")) DistanceUnit.Unit_AU 7).1)
        DistanceUnit.Unit_Kilometer 0
      = distanceValue (QVariant.string ("2.5" ++ "cm")) DistanceUnit.Unit_AU 7 :=
  distanceValue_round_trip "2.5" "cm" (by decide) (by decide) DistanceUnit.Unit_AU 7 0

/-- C24: for a number `n`, `distanceValue` returns `n * k(u)` kilometers and
`durationValue` returns `n * t(u)` seconds, where `k` is mm: 1e-6, cm: 1e-5,
m: 1e-3, km: 1, au: 149597870.691 and `t` is ms: 0.001, s: 1, m: 60,
h: 3600, d: 86400, y and a: 365.25 * 86400, and `u` is the suffix of the
string of the number and the suffix or, for a bare number (a double or an
integer) and for a string without suffix, the default unit of the caller. -/
theorem values_scale_by_unit (number : String) (hnumber : isNumberText number.toList = true)
    (defaultDistance : DistanceUnit) (defaultTime : TimeUnit)
    (hdistance : defaultDistance ≠ DistanceUnit.InvalidDistanceUnit)
    (htime : defaultTime ≠ TimeUnit.InvalidTimeUnit) (defaultValue : ℚ) :
    (∀ u ∈ ["mm", "cm", "m", "km", "au"],
      distanceValue (QVariant.string (number ++ u)) defaultDistance defaultValue
        = (numberValue number * distanceUnitConversion (parseDistanceUnit u), true)) ∧
    (distanceUnitConversion (parseDistanceUnit "mm") = 1 / 1000000 ∧
      distanceUnitConversion (parseDistanceUnit "cm") = 1 / 100000 ∧
      distanceUnitConversion (parseDistanceUnit "m") = 1 / 1000 ∧
      distanceUnitConversion (parseDistanceUnit "km") = 1 ∧
      distanceUnitConversion (parseDistanceUnit "au") = 149597870691 / 1000) ∧
    (∀ u ∈ ["ms", "s", "m", "h", "d", "y", "a"],
      durationValue (QVariant.string (number ++ u)) defaultTime defaultValue
        = (numberValue number * timeUnitConversion (parseTimeUnit u), true)) ∧
    (timeUnitConversion (parseTimeUnit "ms") = 1 / 1000 ∧
      timeUnitConversion (parseTimeUnit "s") = 1 ∧
      timeUnitConversion (parseTimeUnit "m") = 60 ∧
      timeUnitConversion (parseTimeUnit "h") = 3600 ∧
      timeUnitConversion (parseTimeUnit "d") = 86400 ∧
      timeUnitConversion (parseTimeUnit "y") = 36525 / 100 * 86400 ∧
      timeUnitConversion (parseTimeUnit "a") = 36525 / 100 * 86400) ∧
    distanceValue (QVariant.string number) defaultDistance defaultValue
      = (numberValue number * distanceUnitConversion defaultDistance, true) ∧
    durationValue (QVariant.string number) defaultTime defaultValue
      = (numberValue number * timeUnitConversion defaultTime, true) ∧
    (∀ n : ℚ, distanceValue (QVariant.double n) defaultDistance defaultValue
      = (n * distanceUnitConversion defaultDistance, true)) ∧
    (∀ n : ℤ, distanceValue (QVariant.int n) defaultDistance defaultValue
      = ((n : ℚ) * distanceUnitConversion defaultDistance, true)) ∧
    (∀ n : ℚ, durationValue (QVariant.double n) defaultTime defaultValue
      = (n * timeUnitConversion defaultTime, true)) ∧
    (∀ n : ℤ, durationValue (QVariant.int n) defaultTime defaultValue
      = ((n : ℚ) * timeUnitConversion defaultTime, true)) := by
  refine ⟨?_, by decide!, ?_, by decide!, ?_, ?_, ?_, ?_, ?_, ?_⟩
  · intro u hu
    have h : (u.toList.all isLetter = true ∧ u.isEmpty = false)
        ∧ parseDistanceUnit u ≠ DistanceUnit.InvalidDistanceUnit := by
      simp only [List.mem_cons, List.mem_singleton, List.not_mem_nil, or_false] at hu
      rcases hu with rfl | rfl | rfl | rfl | rfl <;> exact ⟨⟨by decide, by decide⟩, by decide⟩
    rw [distanceValue_append _ _ _ _ hnumber h.1.1 h.1.2, if_neg h.2]
  · intro u hu
    have h : (u.toList.all isLetter = true ∧ u.isEmpty = false)
        ∧ parseTimeUnit u ≠ TimeUnit.InvalidTimeUnit := by
      simp only [List.mem_cons, List.mem_singleton, List.not_mem_nil, or_false] at hu
      rcases hu with rfl | rfl | rfl | rfl | rfl | rfl | rfl <;>
        exact ⟨⟨by decide, by decide⟩, by decide⟩
    rw [durationValue_append _ _ _ _ hnumber h.1.1 h.1.2, if_neg h.2]
  · rw [distanceValue_matched _ _ _ _ _ (valueUnitsCapturedTexts_number _ hnumber)]
    have he : (!("" : String).isEmpty) = false := by decide
    simp only [he, Bool.false_eq_true, if_false, hdistance]
  · rw [durationValue_matched _ _ _ _ _ (valueUnitsCapturedTexts_number _ hnumber)]
    have he : (!("" : String).isEmpty) = false := by decide
    simp only [he, Bool.false_eq_true, if_false, htime]
  · intro n
    rw [distanceValue_double, if_neg hdistance]
  · intro n
    unfold distanceValue
    simp only [hdistance, if_false, convertDistance_kilometer]
  · intro n
    rw [durationValue_double, if_neg htime]
  · intro n
    unfold durationValue
    simp only [htime, if_false, convertTime_second]

theorem values_scale_by_unit_witness :
    distanceValue (QVariant.string ("1.5e3" ++ "m")) DistanceUnit.Unit_AU 0
      = (numberValue "1.5e3" * distanceUnitConversion (parseDistanceUnit "m"), true) ∧
    numberValue "1.5e3" = 1500 :=
  ⟨(values_scale_by_unit "1.5e3" (by decide) DistanceUnit.Unit_AU TimeUnit.Unit_Day
      (by decide) (by decide) 0).1 "m" (by decide), by decide!⟩

/-- C25: a number followed by letters that are not a unit of the parser in
question makes `distanceValue` and `durationValue` signal failure, whatever
the default unit: the distance units are mm, cm, m, km, au and the time units
ms, s, m, h, d, y, a, in this case of the letters only, so that "KM" and "AU"
fail, and so do the distance units mm, cm, km and au in `durationValue` (m
is the minute there).  A string that does not match the pattern of a number
with an optional unit fails too. -/
theorem values_reject_unknown_suffix (number suffix : String)
    (hnumber : isNumberText number.toList = true)
    (hletters : suffix.toList.all isLetter = true) (hsuffix : suffix.isEmpty = false)
    (defaultDistance : DistanceUnit) (defaultTime : TimeUnit) (defaultValue : ℚ) :
    (suffix ∉ ["mm", "cm", "m", "km", "au"] →
      distanceValue (QVariant.string (number ++ suffix)) defaultDistance defaultValue
        = (0, false)) ∧
    (suffix ∉ ["ms", "s", "m", "h", "d", "y", "a"] →
      durationValue (QVariant.string (number ++ suffix)) defaultTime defaultValue
        = (0, false)) ∧
    (∀ u ∈ ["KM", "AU", "Km", "Au", "MM", "CM", "M"],
      distanceValue (QVariant.string (number ++ u)) defaultDistance defaultValue
        = (0, false)) ∧
    (∀ u ∈ ["mm", "cm", "km", "au", "MS", "S", "M", "H", "D", "Y", "A"],
      durationValue (QVariant.string (number ++ u)) defaultTime defaultValue = (0, false)) ∧
    durationValue (QVariant.string (number ++ "m")) defaultTime defaultValue
      = (numberValue number * 60, true) ∧
    (∀ s : String, (¬ ∃ n u, MatchesValueUnits s.toList n u) →
      distanceValue (QVariant.string s) defaultDistance defaultValue = (0, false) ∧
      durationValue (QVariant.string s) defaultTime defaultValue = (0, false)) := by
  refine ⟨?_, ?_, ?_, ?_, ?_, ?_⟩
  · intro h
    rw [distanceValue_append _ _ _ _ hnumber hletters hsuffix,
      if_pos (parseDistanceUnit_invalid _ h)]
  · intro h
    rw [durationValue_append _ _ _ _ hnumber hletters hsuffix,
      if_pos (parseTimeUnit_invalid _ h)]
  · intro u hu
    have h : (u.toList.all isLetter = true ∧ u.isEmpty = false)
        ∧ parseDistanceUnit u = DistanceUnit.InvalidDistanceUnit := by
      simp only [List.mem_cons, List.mem_singleton, List.not_mem_nil, or_false] at hu
      rcases hu with rfl | rfl | rfl | rfl | rfl | rfl | rfl <;>
        exact ⟨⟨by decide, by decide⟩, by decide⟩
    rw [distanceValue_append _ _ _ _ hnumber h.1.1 h.1.2, if_pos h.2]
  · intro u hu
    have h : (u.toList.all isLetter = true ∧ u.isEmpty = false)
        ∧ parseTimeUnit u = TimeUnit.InvalidTimeUnit := by
      simp only [List.mem_cons, List.mem_singleton, List.not_mem_nil, or_false] at hu
      rcases hu with rfl | rfl | rfl | rfl | rfl | rfl | rfl | rfl | rfl | rfl | rfl <;>
        exact ⟨⟨by decide, by decide⟩, by decide⟩
    rw [durationValue_append _ _ _ _ hnumber h.1.1 h.1.2, if_pos h.2]
  · rw [durationValue_append _ _ _ _ hnumber (by decide) (by decide), if_neg (by decide)]
    rfl
  · intro s hs
    have h := valueUnitsCapturedTexts_none s hs
    exact ⟨distanceValue_unmatched _ _ _ h, durationValue_unmatched _ _ _ h⟩

theorem values_reject_unknown_suffix_witness :
    distanceValue (QVariant.string ("12" ++ "KM")) DistanceUnit.Unit_Kilometer 1 = (0, false) ∧
    ¬ (∃ n u, MatchesValueUnits "1.".toList n u) ∧
    valueUnitsCapturedTexts "5 k m" = none :=
  ⟨(values_reject_unknown_suffix "12" "KM" (by decide) (by decide) (by decide)
      DistanceUnit.Unit_Kilometer TimeUnit.Unit_Second 1).1 (by decide),
    (by
      rintro ⟨n, u, h⟩
      have h2 := capturedTexts_complete _ n u h
      have h3 : capturedTextsFromEnd (List.dropWhile isSpace "1.".toList).reverse = none := by
        decide!
      rw [h3] at h2
      cases h2),
    (by decide!)⟩

/-- C26: for a double `jd`, and for an integer `jd` of the type
`QVariant::Int`, `dateValue` signals success and returns
`(jd - J2000) * 86400` seconds; for a value that is neither a string nor a
number (invalid, a boolean, a list, a map) it signals failure, and so it does
for a string that is not a valid ISO date (one for which
`QDateTime::fromString` gives no valid date); the seconds of a failure are 0.
But an integer of the type `UInt`, `LongLong` or `ULongLong` is rejected like
a value that is no number, whereas `durationValue` and `distanceValue`, which
convert with `toDouble`, accept the same variants: the body item with the
start time 2451545 as a `ULongLong` is skipped with "Invalid startTime
specified", and with the same day as a double it is registered. -/
theorem dateValue_rejects_wide_integers (builders : Builders) :
    (∀ jd : ℚ, dateValue builders (QVariant.double jd) = ((jd - J2000) * 86400, true)) ∧
    (∀ jd : ℤ, dateValue builders (QVariant.int jd) = (((jd : ℚ) - J2000) * 86400, true)) ∧
    (∀ jd : ℕ, dateValue builders (QVariant.uint jd) = (0, false)) ∧
    (∀ jd : ℤ, dateValue builders (QVariant.longlong jd) = (0, false)) ∧
    (∀ jd : ℕ, dateValue builders (QVariant.ulonglong jd) = (0, false)) ∧
    (∀ jd : ℕ, durationValue (QVariant.ulonglong jd) TimeUnit.Unit_Day 0
        = ((jd : ℚ) * 86400, true) ∧
      durationValue (QVariant.longlong jd) TimeUnit.Unit_Day 0 = ((jd : ℚ) * 86400, true) ∧
      durationValue (QVariant.uint jd) TimeUnit.Unit_Day 0 = ((jd : ℚ) * 86400, true) ∧
      (distanceValue (QVariant.ulonglong jd) DistanceUnit.Unit_Kilometer 0).2 = true) ∧
    dateValue builders QVariant.invalid = (0, false) ∧
    (∀ b, dateValue builders (QVariant.bool b) = (0, false)) ∧
    (∀ l, dateValue builders (QVariant.list l) = (0, false)) ∧
    (∀ m, dateValue builders (QVariant.map m) = (0, false)) ∧
    (∀ s, builders.isoDateToSeconds s = none →
      dateValue builders (QVariant.string s) = (0, false)) ∧
    (∀ s tsec, builders.isoDateToSeconds s = some tsec →
      dateValue builders (QVariant.string s) = (tsec, true)) ∧
    (UniverseLoader.new.loadCatalogItems sampleFileSystem Builders.none
        (sampleDocument [QVariant.map sampleItemDated]) Universe.empty).bodyNames = [] ∧
    (UniverseLoader.new.loadCatalogItems sampleFileSystem Builders.none
        (sampleDocument [QVariant.map sampleItemDated]) Universe.empty).loader.m_messageLog
      = "Item 'Earth': Invalid startTime specified\nItem 'Earth': Skipping body 'Earth' because of errors.\n" ∧
    (UniverseLoader.new.loadCatalogItems sampleFileSystem Builders.none
        (sampleDocument [QVariant.map sampleItemDatedDouble]) Universe.empty).bodyNames
      = ["Earth"] := by
  refine ⟨fun _ => rfl, fun _ => rfl, fun _ => rfl, fun _ => rfl, fun _ => rfl, ?_, rfl,
    fun _ => rfl, fun _ => rfl, fun _ => rfl, ?_, ?_, ?_, ?_, ?_⟩
  · intro jd
    refine ⟨?_, ?_, ?_, ?_⟩
    · simp [durationValue, convertTime, timeUnitConversion]
    · simp [durationValue, convertTime, timeUnitConversion]
    · simp [durationValue, convertTime, timeUnitConversion]
    · simp [distanceValue]
  · intro s h
    unfold dateValue
    simp only [h]
  · intro s tsec h
    unfold dateValue
    simp only [h]
  · decide!
  · decide!
  · decide!

/-! ## Live updates: properties of the specification -/

/-- C28: for a pending TLE record whose lines parse, `processUpdates`
overwrites in place the state of every TLE trajectory registered under the
key of the record with the state derived from the new lines: the step for
the record does so for the object at every address registered under the key,
and that is the state of the object after the drain when no later pending
record touches it.  The registered instances are the same after the drain
as before: the same addresses under the same keys, and an object at the same
addresses. -/
theorem processUpdates_overwrites_in_place (create : String → String → Option TleTrajectory)
    (s : LiveUpdates) (before after : List TleRecord) (tleData : TleRecord)
    (tempTle : TleTrajectory) (hpending : s.m_tleUpdates = before ++ tleData :: after)
    (hparse : create tleData.line1 tleData.line2 = some tempTle) :
    (∀ (t : LiveUpdates) (address : Nat) (old : TleTrajectory),
      (TleKey tleData.source tleData.name, address) ∈ t.m_tleTrajectories →
      t.trajectories[address]? = some old →
      (processUpdate create t tleData).trajectories[address]? = some (old.copy tempTle)
        ∧ (old.copy tempTle).state = tempTle.state) ∧
    (∀ (address : Nat) (old : TleTrajectory),
      (TleKey tleData.source tleData.name, address) ∈ s.m_tleTrajectories →
      s.trajectories[address]? = some old →
      (∀ r ∈ after, (TleKey r.source r.name, address) ∈ s.m_tleTrajectories →
        create r.line1 r.line2 = none) →
      (processUpdates create s).trajectories[address]? = some (old.copy tempTle)) ∧
    (processUpdates create s).m_tleTrajectories = s.m_tleTrajectories ∧
    (processUpdates create s).trajectories.length = s.trajectories.length ∧
    (∀ address : Nat, (processUpdates create s).trajectories[address]?.isSome
      = s.trajectories[address]?.isSome) := by
  have hreg := drain_registrations create s.m_tleUpdates s
  refine ⟨?_, ?_, hreg.1, hreg.2.1, ?_⟩
  · intro t address old hmem hold
    rw [processUpdate_get, if_pos hmem, hparse, hold]
    exact ⟨rfl, rfl⟩
  · intro address old hmem hold hafter
    show (s.m_tleUpdates.foldl (processUpdate create) s).trajectories[address]? = _
    rw [hpending]
    exact drain_hit create address tleData tempTle hparse before after s old hmem hold hafter
  · intro address
    have hlen : (processUpdates create s).trajectories.length = s.trajectories.length :=
      hreg.2.1
    by_cases h : address < s.trajectories.length
    · rw [List.getElem?_eq_getElem h, List.getElem?_eq_getElem (hlen ▸ h)]
      rfl
    · rw [List.getElem?_eq_none (not_lt.mp h), List.getElem?_eq_none (hlen ▸ not_lt.mp h)]

theorem processUpdates_overwrites_in_place_witness :
    (processUpdates sampleCreate sampleLiveUpdatesTwo).trajectories[0]?
      = some (TleTrajectory.copy { state := [1] } { state := [15, 14] }) ∧
    (processUpdates sampleCreate sampleLiveUpdatesTwo).trajectories
      = [{ state := [15, 14] }, { state := [2] }, { state := [15, 14] }] :=
  ⟨(processUpdates_overwrites_in_place sampleCreate sampleLiveUpdatesTwo []
      [TleRecord.mk "celestrak" "HST" "garbled" ""]
      (TleRecord.mk "celestrak" "ISS" "1 25544U 98067A" "2 25544  51.64")
      { state := [15, 14] } rfl (by decide!)).2.1 0 { state := [1] } (by decide!) rfl
      (fun r hr _ => by
        rw [List.mem_singleton] at hr
        subst hr
        decide!),
    by decide!⟩

/-- C29: `TleKey` gives the same key for the source "a!b" with the name "c"
and for the source "a" with the name "b!c", so that draining an update for
the first pair overwrites the trajectory registered under the second pair
and replaces the cache entry of the second pair. -/
theorem TleKey_collision :
    (("a!b", "c") : String × String) ≠ ("a", "b!c") ∧
    TleKey "a!b" "c" = TleKey "a" "b!c" ∧
    sampleLiveUpdates.m_tleTrajectories = [(TleKey "a" "b!c", 0)] ∧
    sampleLiveUpdates.m_tleUpdates
      = [TleRecord.mk "a!b" "c" "1 00005U 58002B" "2 00005  34.2"] ∧
    sampleLiveUpdates.trajectories[0]? = some { state := [8, 7] } ∧
    (processUpdates sampleCreate sampleLiveUpdates).trajectories[0]?
      = some { state := [15, 13] } ∧
    sampleLiveUpdates.m_tleCache.lookup (TleKey "a" "b!c")
      = some (TleRecord.mk "a" "b!c" "1 25544U" "2 25544") ∧
    (processUpdates sampleCreate sampleLiveUpdates).m_tleCache.lookup (TleKey "a" "b!c")
      = some (TleRecord.mk "a!b" "c" "1 00005U 58002B" "2 00005  34.2") := by
  decide!

/-- C30: for a pending TLE record whose two lines do not parse,
`processUpdates` leaves the trajectories registered under the key of the
record as they were: the step for the record changes no trajectory and no
registration, and after the drain the object at an address registered under
the key is the one from before, when no other pending record that parses
has a key of that address. -/
theorem processUpdates_keeps_on_bad_lines (create : String → String → Option TleTrajectory)
    (s : LiveUpdates) (tleData : TleRecord)
    (hbad : create tleData.line1 tleData.line2 = none) :
    (∀ t : LiveUpdates, (processUpdate create t tleData).trajectories = t.trajectories
      ∧ (processUpdate create t tleData).m_tleTrajectories = t.m_tleTrajectories) ∧
    (∀ address : Nat, (TleKey tleData.source tleData.name, address) ∈ s.m_tleTrajectories →
      (∀ r ∈ s.m_tleUpdates, r ≠ tleData →
        (TleKey r.source r.name, address) ∈ s.m_tleTrajectories →
        create r.line1 r.line2 = none) →
      (processUpdates create s).trajectories[address]? = s.trajectories[address]?) ∧
    ((∀ r ∈ s.m_tleUpdates, create r.line1 r.line2 = none) →
      (processUpdates create s).trajectories = s.trajectories) := by
  refine ⟨?_, ?_, ?_⟩
  · intro t
    exact ⟨foldl_updateTrajectory_none create tleData hbad _ _, rfl⟩
  · intro address _ hothers
    refine drain_frame create address s.m_tleUpdates s ?_
    intro r hr hmem
    by_cases h : r = tleData
    · rw [h]; exact hbad
    · exact hothers r hr h hmem
  · intro hall
    apply List.ext_getElem?
    intro address
    exact drain_frame create address s.m_tleUpdates s (fun r hr _ => hall r hr)

theorem processUpdates_keeps_on_bad_lines_witness :
    (processUpdates sampleCreate sampleLiveUpdatesTwo).trajectories[1]?
      = sampleLiveUpdatesTwo.trajectories[1]? :=
  (processUpdates_keeps_on_bad_lines sampleCreate sampleLiveUpdatesTwo
    (TleRecord.mk "celestrak" "HST" "garbled" "") (by decide!)).2.1 1
    (by decide!)
    (fun r hr hne hmem => by
      have h : r = TleRecord.mk "celestrak" "ISS" "1 25544U 98067A" "2 25544  51.64"
          ∨ r = TleRecord.mk "celestrak" "HST" "garbled" "" := by
        simpa [sampleLiveUpdatesTwo] using hr
      rcases h with h | h
      · subst h
        revert hmem
        decide!
      · exact absurd h hne)

/-! ## Julian Days and calendar dates -/

/-- C27: for a calendar date and time that `QDateTime::fromString` reads from
a string, `dateValue` gives for the string the seconds it gives for the
Julian Day of that instant, `(jd - J2000) * 86400`; and for the noon of a
day, the seconds it gives for the Julian Day number as an integer. -/
theorem dateValue_julianDay_agrees (builders : Builders)
    (fromString : String → Option QDateTime)
    (hbuilders : builders.isoDateToSeconds = isoDateToSeconds fromString)
    (dateString : String) (d : QDateTime) (hparse : fromString dateString = some d)
    (hmonth : 1 ≤ d.month ∧ d.month ≤ 12) :
    dateValue builders (QVariant.string dateString)
      = dateValue builders (QVariant.double (julianDay d)) ∧
    dateValue builders (QVariant.string dateString) = ((julianDay d - J2000) * 86400, true) ∧
    (d.hour = 12 → d.minute = 0 → d.second = 0 → d.msec = 0 →
      dateValue builders (QVariant.string dateString)
        = dateValue builders (QVariant.int (julianDayNumber d.year d.month d.day))) := by
  have h : dateValue builders (QVariant.string dateString)
      = ((julianDay d - J2000) * 86400, true) := by
    unfold dateValue
    simp only [hbuilders, isoDateToSeconds, hparse,
      toTDBSec_eq_julianDay d hmonth.1 hmonth.2]
  refine ⟨h, h, ?_⟩
  intro h1 h2 h3 h4
  rw [h]
  unfold dateValue julianDay daysToSeconds
  simp only [h1, h2, h3, h4]
  push_cast
  norm_num

theorem dateValue_julianDay_agrees_witness :
    dateValue sampleDateBuilders (QVariant.string "2000-01-02T00:00:00")
      = dateValue sampleDateBuilders
          (QVariant.double (julianDay (QDateTime.mk 2000 1 2 0 0 0 0))) ∧
    julianDay (QDateTime.mk 2000 1 2 0 0 0 0) = 4903091 / 2 ∧
    dateValue sampleDateBuilders (QVariant.double (4903091 / 2)) = (43200, true) :=
  ⟨(dateValue_julianDay_agrees sampleDateBuilders sampleFromString rfl "2000-01-02T00:00:00"
      (QDateTime.mk 2000 1 2 0 0 0 0) (by decide!) (by decide)).1,
    (by decide!), (by decide!)⟩

end Cosmographia

namespace Cosmographia

/-! ## Lemmas on the cache and the resource requests -/

theorem lookup_filter_ne (key other : String) (h : other ≠ key) :
    ∀ hash : List (String × TleRecord),
    (hash.filter (fun entry => entry.1 != key)).lookup other = hash.lookup other
  | [] => rfl
  | (k, v) :: rest => by
    have ih := lookup_filter_ne key other h rest
    by_cases hk : k = key
    · subst hk
      have hne : (other == k) = false := by simpa using h
      simp [List.filter, List.lookup, hne, ih]
    · have hk2 : (k != key) = true := by simpa using hk
      simp only [List.filter, hk2, List.lookup, ih]

theorem hashInsert_lookup (hash : List (String × TleRecord)) (key other : String)
    (value : TleRecord) :
    (hashInsert hash key value).lookup other
      = if other = key then some value else hash.lookup other := by
  unfold hashInsert
  by_cases h : other = key
  · subst h
    simp [List.lookup]
  · have hne : (other == key) = false := by simpa using h
    simp only [List.lookup, hne, if_neg h]
    exact lookup_filter_ne key other h hash

theorem lastPending_cons (r : TleRecord) (rest : List TleRecord) (key : String) :
    lastPending (r :: rest) key
      = match lastPending rest key with
        | some last => some last
        | none => if TleKey r.source r.name = key then some r else none := by
  unfold lastPending
  rw [List.reverse_cons, List.find?_append]
  cases h : rest.reverse.find? (fun r => TleKey r.source r.name == key) with
  | some last => rfl
  | none =>
    by_cases hk : TleKey r.source r.name = key
    · simp [List.find?, hk]
    · have hne : (TleKey r.source r.name == key) = false := by simpa using hk
      simp [List.find?, hne, hk]

/-- The cache after the pending records: for a key, the last pending record
with the key, or the entry from before when there is none. -/
theorem drain_cache (create : String → String → Option TleTrajectory) (key : String) :
    ∀ (updates : List TleRecord) (s : LiveUpdates),
    (updates.foldl (processUpdate create) s).m_tleCache.lookup key
      = match lastPending updates key with
        | some last => some last
        | none => s.m_tleCache.lookup key
  | [], _ => rfl
  | r :: rest, s => by
    rw [List.foldl_cons, drain_cache create key rest, lastPending_cons]
    cases lastPending rest key with
    | some last => rfl
    | none =>
      show (hashInsert s.m_tleCache (TleKey r.source r.name) r).lookup key = _
      rw [hashInsert_lookup]
      by_cases hk : TleKey r.source r.name = key
      · simp [hk]
      · have hk2 : ¬ key = TleKey r.source r.name := fun h => hk h.symm
        simp [hk, hk2]

theorem lastPending_none (key : String) : ∀ (updates : List TleRecord),
    (∀ r ∈ updates, TleKey r.source r.name ≠ key) → lastPending updates key = none
  | [], _ => rfl
  | r :: rest, h => by
    rw [lastPending_cons, lastPending_none key rest (fun x hx => h x (List.mem_cons_of_mem _ hx))]
    simp [h r (List.mem_cons_self _ _)]

theorem lastPending_some (key : String) : ∀ (updates : List TleRecord) (r : TleRecord),
    r ∈ updates → TleKey r.source r.name = key →
    ∃ last, lastPending updates key = some last ∧ last ∈ updates
      ∧ TleKey last.source last.name = key
  | [], _, h, _ => by cases h
  | x :: rest, r, h, hk => by
    rw [lastPending_cons]
    cases hl : lastPending rest key with
    | some last =>
      have hmem : r ∈ rest ∨ r = x := by
        rcases List.mem_cons.mp h with h1 | h1
        · exact Or.inr h1
        · exact Or.inl h1
      by_cases hr : ∃ y ∈ rest, TleKey y.source y.name = key
      · obtain ⟨y, hy, hyk⟩ := hr
        obtain ⟨last2, h1, h2, h3⟩ := lastPending_some key rest y hy hyk
        rw [hl] at h1
        cases h1
        exact ⟨last, rfl, List.mem_cons_of_mem _ h2, h3⟩
      · have hnone := lastPending_none key rest (fun y hy hyk => hr ⟨y, hy, hyk⟩)
        rw [hl] at hnone
        cases hnone
    | none =>
      rcases List.mem_cons.mp h with h1 | h1
      · subst h1
        exact ⟨r, by simp [hk], List.mem_cons_self _ _, hk⟩
      · obtain ⟨last2, h2, -, -⟩ := lastPending_some key rest r h1 hk
        rw [hl] at h2
        cases h2

/-- The steps of the drain do not read the pending queue. -/
theorem drain_queue (create : String → String → Option TleTrajectory) :
    ∀ (updates queue : List TleRecord) (s : LiveUpdates),
    updates.foldl (processUpdate create) { s with m_tleUpdates := queue }
      = { (updates.foldl (processUpdate create) s) with m_tleUpdates := queue }
  | [], _, _ => rfl
  | r :: rest, queue, s => by
    rw [List.foldl_cons, List.foldl_cons]
    exact drain_queue create rest queue (processUpdate create s r)

theorem mem_setInsert (set : List String) (value x : String) :
    x ∈ setInsert set value ↔ x ∈ set ∨ x = value := by
  unfold setInsert
  by_cases h : set.contains value = true
  · rw [if_pos h]
    constructor
    · exact Or.inl
    · rintro (h1 | h1)
      · exact h1
      · subst h1
        simpa using h
  · rw [if_neg h]
    simp

/-- The resource requests after `loadTleTrajectory`: the source is inserted
when the three strings are there, the source is not empty and the cache has
no record for the key; otherwise the set is as before. -/
theorem loadTleTrajectory_requests (create : String → String → Option TleTrajectory)
    (builders : Builders) (info : QVariantMap) (s : LiveUpdates) (loader : UniverseLoader) :
    (loadTleTrajectory create builders info s loader).2.1.m_resourceRequests
      = if ((info.value "name").isString && (info.value "line1").isString
            && (info.value "line2").isString
            && !((info.value "source").toString builders).isEmpty
            && (s.m_tleCache.lookup (TleKey ((info.value "source").toString builders)
                  ((info.value "name").toString builders))).isNone) = true
        then setInsert s.m_resourceRequests ((info.value "source").toString builders)
        else s.m_resourceRequests := by
  unfold loadTleTrajectory
  simp only []
  cases h1 : (info.value "name").isString
  · simp
  cases h2 : (info.value "line1").isString
  · simp
  cases h3 : (info.value "line2").isString
  · simp
  cases h4 : ((info.value "source").toString builders).isEmpty
  · cases h5 : s.m_tleCache.lookup (TleKey ((info.value "source").toString builders)
        ((info.value "name").toString builders)) with
    | none =>
      simp only [Bool.not_true, Bool.not_false, Bool.false_eq_true, if_false, if_true, h5,
        Option.isNone_none, Bool.and_self, Bool.true_and]
      split <;> [rfl; (split <;> rfl)]
    | some cached =>
      simp only [Bool.not_true, Bool.not_false, Bool.false_eq_true, if_false, if_true, h5,
        Option.isNone_some, Bool.and_false, Bool.and_self, Bool.true_and]
      split <;> [rfl; (split <;> rfl)]
  · simp only [Bool.not_true, Bool.not_false, Bool.false_eq_true, if_false, if_true,
      Bool.and_false, Bool.false_and, Bool.and_self, Bool.true_and]
    split <;> [rfl; (split <;> rfl)]

/-- No operation of the loader removes a resource request. -/
theorem run_requests (create : String → String → Option TleTrajectory) (builders : Builders)
    (state : LiveUpdates × UniverseLoader) (op : LiveOperation) (x : String)
    (hx : x ∈ state.1.m_resourceRequests) :
    x ∈ (op.run create builders state).1.m_resourceRequests := by
  cases op with
  | updateTle source name line1 line2 => exact hx
  | processUpdates =>
    show x ∈ (Cosmographia.processUpdates create state.1).m_resourceRequests
    have h := (drain_registrations create state.1.m_tleUpdates state.1)
    unfold Cosmographia.processUpdates
    simp only []
    rw [h.2.2]
    exact hx
  | loadTleTrajectory info =>
    show x ∈ (Cosmographia.loadTleTrajectory create builders info state.1
      state.2).2.1.m_resourceRequests
    rw [loadTleTrajectory_requests]
    split
    · exact (mem_setInsert _ _ _).mpr (Or.inl hx)
    · exact hx
  | resourceRequests => exact hx

theorem runs_requests (create : String → String → Option TleTrajectory) (builders : Builders)
    (x : String) : ∀ (ops : List LiveOperation) (state : LiveUpdates × UniverseLoader),
    x ∈ state.1.m_resourceRequests →
    x ∈ (ops.foldl (LiveOperation.run create builders) state).1.m_resourceRequests
  | [], _, hx => hx
  | op :: rest, state, hx => by
    rw [List.foldl_cons]
    exact runs_requests create builders x rest _ (run_requests create builders state op x hx)

/-! ## Lemmas on the body information -/

theorem std_max_eq {α : Type} [LinearOrder α] (a b : α) : std.max a b = max a b := by
  unfold std.max
  split_ifs with h
  · exact (max_eq_right (le_of_lt h)).symm
  · exact (max_eq_left (not_lt.mp h)).symm

theorem std_min_eq {α : Type} [LinearOrder α] (a b : α) : std.min a b = min a b := by
  unfold std.min
  split_ifs with h
  · exact (min_eq_right (le_of_lt h)).symm
  · exact (min_eq_left (not_lt.mp h)).symm

theorem loadTrajectoryPlotInfo_samples (qt : ValueConversions) (info : BodyInfoData)
    (plot : QVariantMap) :
    (loadTrajectoryPlotInfo qt info plot).trajectoryPlotSamples
      = if (plot.value "sampleCount").canConvertInt = true then
          ((std.max 100 (std.min 50000 ((plot.value "sampleCount").toInt qt))) % 2 ^ 32).toNat
        else info.trajectoryPlotSamples := by
  unfold loadTrajectoryPlotInfo
  simp only []
  split_ifs <;> rfl

theorem loadTrajectoryPlotInfo_fade (qt : ValueConversions) (info : BodyInfoData)
    (plot : QVariantMap) :
    (loadTrajectoryPlotInfo qt info plot).trajectoryPlotFade
      = if (plot.value "fade").canConvertDouble = true then
          std.max 0 (std.min 1 ((plot.value "fade").toDouble qt.stringToDouble))
        else info.trajectoryPlotFade := by
  unfold loadTrajectoryPlotInfo
  simp only []
  split_ifs <;> rfl

theorem clamp_samples (count : Int) :
    (((std.max 100 (std.min 50000 count)) % 2 ^ 32).toNat : Int) = max 100 (min 50000 count)
      ∧ 100 ≤ ((std.max 100 (std.min 50000 count)) % 2 ^ 32).toNat
      ∧ ((std.max 100 (std.min 50000 count)) % 2 ^ 32).toNat ≤ 50000 := by
  rw [std_max_eq, std_min_eq]
  have h1 : (100 : Int) ≤ max 100 (min 50000 count) := le_max_left _ _
  have h2 : max 100 (min 50000 count) ≤ (50000 : Int) := max_le (by norm_num) (min_le_left _ _)
  generalize max 100 (min 50000 count) = c at h1 h2
  omega

theorem clamp_fade (fade : ℚ) :
    std.max 0 (std.min 1 fade) = max 0 (min 1 fade)
      ∧ 0 ≤ std.max 0 (std.min 1 fade) ∧ std.max 0 (std.min 1 fade) ≤ 1 := by
  rw [std_max_eq, std_min_eq]
  exact ⟨rfl, le_max_left _ _, max_le (by norm_num) (min_le_left _ _)⟩

theorem loadBodyInfo_plot (qt : ValueConversions) (defaults : BodyInfoData)
    (item plot : QVariantMap) (h : item.value "trajectoryPlot" = QVariant.map plot) :
    ∃ info, loadBodyInfo qt defaults item = loadTrajectoryPlotInfo qt info plot := by
  unfold loadBodyInfo
  simp only [h]
  exact ⟨_, rfl⟩

/-! ## Lemmas on the color ramp -/

theorem loadColorRampLoop_eq (qt : ValueConversions) (colorsList : List QVariant) :
    ∀ (remaining i : Nat) (ramp : ColorRamp), ramp.colors.length = 5 →
    ramp.opacities.length = 5 → i ≤ 5 →
    (i + remaining ≤ 5 →
      ∃ result, loadColorRampLoop qt colorsList remaining i ramp = Except.ok result
        ∧ result.colorCount = ramp.colorCount) ∧
    (5 < i + remaining →
      loadColorRampLoop qt colorsList remaining i ramp = Except.error 5)
  | 0, i, ramp, _, _, hi => ⟨fun _ => ⟨ramp, rfl, rfl⟩, fun h => by omega⟩
  | remaining + 1, i, ramp, hc, ho, hi => by
    unfold loadColorRampLoop arrayWrite
    rw [hc, ho]
    by_cases h5 : i < 5
    · simp only [h5, if_true]
      have ih := loadColorRampLoop_eq qt colorsList remaining (i + 1)
        { ramp with
          colors := ramp.colors.set i
            (some (colorValue qt (colorsList.getD (i * 2) QVariant.invalid) Spectrum.White))
          opacities := ramp.opacities.set i
            (some (doubleValue qt (colorsList.getD (i * 2 + 1) QVariant.invalid) 1)) }
        (by simp [hc]) (by simp [ho]) (by omega)
      refine ⟨fun h => ?_, fun h => ?_⟩
      · exact ih.1 (by omega)
      · exact ih.2 (by omega)
    · have e : i = 5 := by omega
      subst e
      simp only [Nat.lt_irrefl, if_false]
      refine ⟨fun h => by omega, fun _ => ?_⟩
      first | rfl | trivial

/-! ## Lemmas on the default value of a distance or duration -/

theorem distanceValue_default (v : QVariant) (defaultUnit : DistanceUnit) (d1 d2 : ℚ) :
    distanceValue v defaultUnit d1 = distanceValue v defaultUnit d2 := by
  unfold distanceValue
  cases v with
  | string s =>
    simp only []
    cases valueUnitsCapturedTexts s with
    | none => simp
    | some p => rfl
  | _ => rfl

theorem durationValue_default (v : QVariant) (defaultUnit : TimeUnit) (d1 d2 : ℚ) :
    durationValue v defaultUnit d1 = durationValue v defaultUnit d2 := by
  unfold durationValue
  cases v with
  | string s =>
    simp only []
    cases valueUnitsCapturedTexts s with
    | none => simp
    | some p => rfl
  | _ => rfl

theorem distanceValue_failure (v : QVariant) (defaultUnit : DistanceUnit) (d : ℚ)
    (h : (distanceValue v defaultUnit d).2 = false) : (distanceValue v defaultUnit d).1 = 0 := by
  unfold distanceValue at h ⊢
  simp only [] at h ⊢
  split_ifs at h ⊢ with h1
  rfl

theorem durationValue_failure (v : QVariant) (defaultUnit : TimeUnit) (d : ℚ)
    (h : (durationValue v defaultUnit d).2 = false) : (durationValue v defaultUnit d).1 = 0 := by
  unfold durationValue at h ⊢
  simp only [] at h ⊢
  split_ifs at h ⊢ with h1
  rfl

/-! ## Lemmas on the texture search path -/

/-- A document without `require` changes no member of the loader but the name
of the current item and the message log. -/
theorem loadCatalogItems_frame_without_require {α : Type} (π : UniverseLoader → α)
    (hπ : ∀ l m, π (UniverseLoader.errorMessage l m) = π l)
    (hname : ∀ (l : UniverseLoader) (name : String),
      π { l with m_currentBodyName := name } = π l)
    (builders : Builders) (nested : NestedLoads) (contents : QVariantMap)
    (requireDepth : Nat) (loader : UniverseLoader) (world : Universe)
    (h : contents.contains "require" = false) :
    π (loadCatalogItems builders nested contents requireDepth loader world).loader
      = π loader := by
  unfold loadCatalogItems
  simp only [h, Bool.false_eq_true, if_false]
  split_ifs
  · simp only [hπ, hname]
  · simp only [hπ, hname]
  · simp only [hname]
  · cases contents.value "items" <;> simp only [hπ, hname]
    rw [loadItems_frame π hπ hname]
    exact hname _ _

theorem loadSSC_texture (fs : FileSystem) (builders : Builders) (nested : NestedLoads)
    (fileName : String) (requireDepth : Nat) (loader : UniverseLoader) (world : Universe) :
    (loadSSC fs builders nested fileName requireDepth loader world).2.1.m_textureSearchPath
      = match fs.readAll (fs.canonicalFilePath (loader.dataFileName fileName)) with
        | none => loader.m_textureSearchPath
        | some _ => fs.absolutePath (loader.dataFileName fileName) ++ "/textures/medres" := by
  unfold loadSSC
  simp only []
  cases hr : fs.readAll (fs.canonicalFilePath (loader.dataFileName fileName)) with
  | none => rfl
  | some text =>
    simp only []
    exact loadCatalogItems_frame_without_require (fun l => l.m_textureSearchPath)
      (fun _ _ => rfl) (fun _ _ => rfl) builders nested _ _ _ _
      (by simp only [contains_insert]; rfl)

/-! ## Lemmas on the components of an arc -/

theorem dateValue_congr (builders1 builders2 : Builders)
    (h : builders2.isoDateToSeconds = builders1.isoDateToSeconds) (v : QVariant) :
    dateValue builders2 v = dateValue builders1 v := by
  unfold dateValue
  rw [h]

theorem arcEndTime_congr (builders1 builders2 : Builders) (map1 map2 : QVariantMap)
    (startTime : ℚ) (h : builders2.isoDateToSeconds = builders1.isoDateToSeconds)
    (hcenter : map2.value "center" = map1.value "center")
    (hend : map2.value "endTime" = map1.value "endTime") :
    arcEndTime builders2 map2 startTime = arcEndTime builders1 map1 startTime := by
  unfold arcEndTime
  rw [hcenter, hend]
  simp only [dateValue_congr builders1 builders2 h]

theorem loadArcComponents_trajectory (builders : Builders) (map : QVariantMap)
    (world : Universe) (arc : Arc) (loader : UniverseLoader) :
    (loadArcComponents builders map world arc loader).1.trajectory
      = match map.value "trajectory" with
        | QVariant.map m =>
          (match (builders.loadTrajectory m world loader).1 with
            | some trajectory => some trajectory
            | none => arc.trajectory)
        | _ => arc.trajectory := by
  unfold loadArcComponents
  simp only []
  cases map.value "trajectory" <;> cases map.value "rotationModel" <;> simp only [] <;>
    (repeat' split) <;> simp_all

theorem loadArcComponents_rotationModel (builders : Builders) (map : QVariantMap)
    (world : Universe) (arc : Arc) (loader : UniverseLoader)
    (h : ∀ m l, map.value "rotationModel" = QVariant.map m →
      (builders.loadRotationModel m world l).1 = none) :
    (loadArcComponents builders map world arc loader).1.rotationModel = arc.rotationModel := by
  unfold loadArcComponents
  simp only []
  cases hr : map.value "rotationModel" <;> cases map.value "trajectory" <;> simp only [] <;>
    (repeat' split) <;> simp_all

theorem loadArcComponents_trajectoryFrame (builders : Builders) (map : QVariantMap)
    (world : Universe) (arc : Arc) (loader : UniverseLoader)
    (h : ∀ l, (loadArcFrame builders (map.value "trajectoryFrame") world l).1 = none) :
    (loadArcComponents builders map world arc loader).1.trajectoryFrame
      = arc.trajectoryFrame := by
  unfold loadArcComponents
  simp only []
  cases map.value "rotationModel" <;> cases map.value "trajectory" <;> simp only [] <;>
    (repeat' split) <;> simp_all

theorem loadArcComponents_bodyFrame (builders : Builders) (map : QVariantMap)
    (world : Universe) (arc : Arc) (loader : UniverseLoader)
    (h : ∀ l, (loadArcFrame builders (map.value "bodyFrame") world l).1 = none) :
    (loadArcComponents builders map world arc loader).1.bodyFrame = arc.bodyFrame := by
  unfold loadArcComponents
  simp only []
  cases map.value "rotationModel" <;> cases map.value "trajectory" <;> simp only [] <;>
    (repeat' split) <;> simp_all

/-- The arc `loadArc` returns is the arc of `loadArcComponents` with the
duration set. -/
theorem loadArc_some (builders : Builders) (map : QVariantMap) (world : Universe)
    (startTime : ℚ) (loader : UniverseLoader) (arc : Arc)
    (h : (loadArc builders map world startTime loader).1 = some arc) :
    ∃ centerName duration, map.value "center" = QVariant.string centerName
      ∧ arc = { (loadArcComponents builders map world
          { Arc.new with center := world.catalog.find centerName } loader).1 with
          duration := duration } := by
  unfold loadArc at h
  cases hc : map.value "center" <;> rw [hc] at h <;> simp only [] at h
  case string centerName =>
    refine ⟨centerName, ?_⟩
    split_ifs at h
    all_goals (simp only [Option.some.injEq] at h; exact ⟨_, rfl, h.symm⟩)
  all_goals exact absurd h (by simp)

/-! ## Lemmas on the file with counts that overflow -/

theorem overflowFile_length : overflowFile.length = 11680 := by
  have h2 : overflowFields.length = 192 := by decide!
  simp only [overflowFile, List.length_append, List.length_replicate, h2]

theorem overflowFile_table :
    headerCoeffTable overflowFile
      = List.replicate 11 (JplEphCoeffInfo.mk 0 65536 65536) ++ [JplEphCoeffInfo.mk 0 0 0] := by
  have h2 : 192 ≤ overflowFields.length := by decide!
  unfold overflowFile
  rw [headerCoeffTable_header _ _ h2]
  decide!

theorem overflowFile_quotient : headerQuotient overflowFile = 2 := by
  have h2 : 192 ≤ overflowFields.length := by decide!
  unfold overflowFile
  rw [headerQuotient_header _ _ h2]
  decide!

theorem overflowFile_recordCount (platform : Platform) :
    headerRecordCount platform overflowFile = 2 := by
  unfold headerRecordCount
  rw [overflowFile_quotient, castToUInt_eq platform 2 (by norm_num) (by norm_num)]
  decide!

theorem overflowFile_requiredSize (platform : Platform) :
    requiredSize platform overflowFile = 11680 := by
  unfold requiredSize recordSize
  rw [overflowFile_recordCount platform, overflowFile_table]
  decide!

theorem overflowFile_number : headerEphemNumber overflowFile = 406 := by
  have h2 : 192 ≤ overflowFields.length := by decide!
  unfold overflowFile
  rw [headerEphemNumber_header _ _ h2]
  decide!

theorem overflowFile_info : headerCoeffInfo overflowFile 0 = JplEphCoeffInfo.mk 0 65536 65536 := by
  rw [← headerCoeffTable_getD overflowFile 0 (by omega), overflowFile_table]
  rfl

end Cosmographia

namespace Cosmographia

/-! ## Claims on the live updates and the resource requests -/

/-- C31: `updateTle` only appends to the pending queue: the records that were
pending stay in front in their order, and the cache, the registrations, the
trajectories and the resource requests are untouched.  `processUpdates`
handles the pending records in the order of arrival (the record that came in
last is handled after all the earlier ones); afterwards the pending queue is
empty, the cache entry of a key is the last pending record with that key when
there is a pending record with it, and the entry from before the drain
otherwise.  A second `processUpdates` with nothing enqueued in between changes
nothing. -/
theorem updateTle_appends_processUpdates_drains
    (create : String → String → Option TleTrajectory) (s : LiveUpdates)
    (source name line1 line2 : String) :
    ((updateTle s source name line1 line2).m_tleUpdates
        = s.m_tleUpdates ++ [TleRecord.mk source name line1 line2]
      ∧ (updateTle s source name line1 line2).m_tleCache = s.m_tleCache
      ∧ (updateTle s source name line1 line2).m_tleTrajectories = s.m_tleTrajectories
      ∧ (updateTle s source name line1 line2).trajectories = s.trajectories
      ∧ (updateTle s source name line1 line2).m_resourceRequests = s.m_resourceRequests)
    ∧ processUpdates create (updateTle s source name line1 line2)
        = { (processUpdate create (processUpdates create s)
              (TleRecord.mk source name line1 line2)) with m_tleUpdates := [] }
    ∧ (processUpdates create s).m_tleUpdates = []
    ∧ (∀ key : String, ∀ r ∈ s.m_tleUpdates, TleKey r.source r.name = key →
        ∃ last, lastPending s.m_tleUpdates key = some last
          ∧ last ∈ s.m_tleUpdates ∧ TleKey last.source last.name = key
          ∧ (processUpdates create s).m_tleCache.lookup key = some last)
    ∧ (∀ key : String, (∀ r ∈ s.m_tleUpdates, TleKey r.source r.name ≠ key) →
        (processUpdates create s).m_tleCache.lookup key = s.m_tleCache.lookup key)
    ∧ processUpdates create (processUpdates create s) = processUpdates create s := by
  refine ⟨⟨rfl, rfl, rfl, rfl, rfl⟩, ?_, rfl, ?_, ?_, rfl⟩
  · show ({ ((s.m_tleUpdates ++ [TleRecord.mk source name line1 line2]).foldl
        (processUpdate create) { s with m_tleUpdates := _ }) with m_tleUpdates := [] }
        : LiveUpdates) = _
    rw [drain_queue, List.foldl_append]
    rfl
  · intro key r hr hk
    obtain ⟨last, h1, h2, h3⟩ := lastPending_some key s.m_tleUpdates r hr hk
    refine ⟨last, h1, h2, h3, ?_⟩
    show (s.m_tleUpdates.foldl (processUpdate create) s).m_tleCache.lookup key = _
    rw [drain_cache, h1]
  · intro key h
    show (s.m_tleUpdates.foldl (processUpdate create) s).m_tleCache.lookup key = _
    rw [drain_cache, lastPending_none key _ h]

/-- C32, as amended: the resource requests only grow except through
`clearResourceRequests`.  For a TLE definition whose `name`, `line1` and
`line2` are strings and whose `source` is not empty, `loadTleTrajectory` adds
the source to the set when the cache has no record for the key, and leaves the
set as it is when the key is cached; no sequence of the other operations
(the load of a TLE trajectory, `updateTle`, `processUpdates`,
`resourceRequests`) removes an element; `clearResourceRequests` empties the
set and changes nothing else. -/
theorem resourceRequests_grow (create : String → String → Option TleTrajectory)
    (builders : Builders) (info : QVariantMap) (s : LiveUpdates) (loader : UniverseLoader)
    (hname : (info.value "name").isString = true)
    (hline1 : (info.value "line1").isString = true)
    (hline2 : (info.value "line2").isString = true)
    (hsource : ((info.value "source").toString builders).isEmpty = false) :
    (s.m_tleCache.lookup (TleKey ((info.value "source").toString builders)
          ((info.value "name").toString builders)) = none →
        (loadTleTrajectory create builders info s loader).2.1.m_resourceRequests
            = setInsert s.m_resourceRequests ((info.value "source").toString builders)
          ∧ (info.value "source").toString builders
              ∈ (loadTleTrajectory create builders info s loader).2.1.m_resourceRequests)
    ∧ (∀ cached, s.m_tleCache.lookup (TleKey ((info.value "source").toString builders)
          ((info.value "name").toString builders)) = some cached →
        (loadTleTrajectory create builders info s loader).2.1.m_resourceRequests
          = s.m_resourceRequests)
    ∧ (∀ (ops : List LiveOperation) (state : LiveUpdates × UniverseLoader),
        ∀ x ∈ state.1.m_resourceRequests,
        x ∈ (ops.foldl (LiveOperation.run create builders) state).1.m_resourceRequests)
    ∧ (∀ state : LiveUpdates × UniverseLoader,
        LiveOperation.resourceRequests.run create builders state = state
          ∧ resourceRequests state.1 = state.1.m_resourceRequests)
    ∧ (clearResourceRequests s).m_resourceRequests = []
    ∧ clearResourceRequests s = { s with m_resourceRequests := [] } := by
  refine ⟨?_, ?_, ?_, fun _ => ⟨rfl, rfl⟩, rfl, rfl⟩
  · intro hcache
    have h : (loadTleTrajectory create builders info s loader).2.1.m_resourceRequests
        = setInsert s.m_resourceRequests ((info.value "source").toString builders) := by
      rw [loadTleTrajectory_requests, hname, hline1, hline2, hsource, hcache]
      rfl
    refine ⟨h, ?_⟩
    rw [h]
    exact (mem_setInsert _ _ _).mpr (Or.inr rfl)
  · intro cached hcache
    rw [loadTleTrajectory_requests, hname, hline1, hline2, hsource, hcache]
    rfl
  · intro ops state x hx
    exact runs_requests create builders x ops state hx

/-- The definition of the ISS with the source "celestrak" and its two lines,
in a loader that has loaded nothing: the source is requested, and
`clearResourceRequests` empties the set. -/
theorem resourceRequests_grow_witness :
    (sampleTleInfo.value "name").isString = true
    ∧ (sampleTleInfo.value "line1").isString = true
    ∧ (sampleTleInfo.value "line2").isString = true
    ∧ ((sampleTleInfo.value "source").toString Builders.none).isEmpty = false
    ∧ (loadTleTrajectory sampleCreate Builders.none sampleTleInfo LiveUpdates.new
        UniverseLoader.new).2.1.m_resourceRequests = ["celestrak"]
    ∧ (clearResourceRequests (loadTleTrajectory sampleCreate Builders.none sampleTleInfo
        LiveUpdates.new UniverseLoader.new).2.1).m_resourceRequests = [] :=
  have h := resourceRequests_grow sampleCreate Builders.none sampleTleInfo LiveUpdates.new
    UniverseLoader.new (by decide!) (by decide!) (by decide!) (by decide!)
  ⟨by decide!, by decide!, by decide!, by decide!, (h.1 (by decide!)).1.trans (by decide!),
    rfl⟩

/-- Counterexample to C32 as stated: a TLE definition with the source
"celestrak" and no lines, in a loader whose cache is empty.  The source is
not empty and the key has no cached record, yet `loadTleTrajectory` returns
at the test of `line1`, before the source is looked at, and the set of the
resource requests stays empty. -/
theorem resourceRequests_grow_counterexample :
    ((sampleTleInfoNoLines.value "source").toString Builders.none).isEmpty = false
    ∧ LiveUpdates.new.m_tleCache.lookup
        (TleKey ((sampleTleInfoNoLines.value "source").toString Builders.none)
          ((sampleTleInfoNoLines.value "name").toString Builders.none)) = none
    ∧ (loadTleTrajectory sampleCreate Builders.none sampleTleInfoNoLines LiveUpdates.new
        UniverseLoader.new).2.1.m_resourceRequests = []
    ∧ (sampleTleInfoNoLines.value "source").toString Builders.none
        ∉ (loadTleTrajectory sampleCreate Builders.none sampleTleInfoNoLines LiveUpdates.new
            UniverseLoader.new).2.1.m_resourceRequests := by
  have h : (loadTleTrajectory sampleCreate Builders.none sampleTleInfoNoLines LiveUpdates.new
      UniverseLoader.new).2.1.m_resourceRequests = [] := by decide!
  refine ⟨by decide!, by decide!, h, ?_⟩
  rw [h]
  exact List.not_mem_nil _

/-! ## Claims on the body information and the color ramp -/

/-- C33: for every `trajectoryPlot` map, `loadTrajectoryPlotInfo` sets the
sample count exactly when `sampleCount` converts to an integer, and then to
that integer clamped to 100..50000; it sets the fade fraction exactly when
`fade` converts to a double, and then to that double clamped to 0..1.  So the
`BodyInfo` that `loadBodyInfo` makes of an item whose `trajectoryPlot` is a map
with such a `sampleCount` (with such a `fade`) has a sample count between 100
and 50000 (a fade between 0 and 1), whatever the constructor gave. -/
theorem loadTrajectoryPlotInfo_clamps (qt : ValueConversions) (info defaults : BodyInfoData)
    (plot item : QVariantMap) :
    ((plot.value "sampleCount").canConvertInt = true →
      ((loadTrajectoryPlotInfo qt info plot).trajectoryPlotSamples : Int)
          = max 100 (min 50000 ((plot.value "sampleCount").toInt qt))
        ∧ 100 ≤ (loadTrajectoryPlotInfo qt info plot).trajectoryPlotSamples
        ∧ (loadTrajectoryPlotInfo qt info plot).trajectoryPlotSamples ≤ 50000)
    ∧ ((plot.value "sampleCount").canConvertInt = false →
      (loadTrajectoryPlotInfo qt info plot).trajectoryPlotSamples = info.trajectoryPlotSamples)
    ∧ ((plot.value "fade").canConvertDouble = true →
      (loadTrajectoryPlotInfo qt info plot).trajectoryPlotFade
          = max 0 (min 1 ((plot.value "fade").toDouble qt.stringToDouble))
        ∧ 0 ≤ (loadTrajectoryPlotInfo qt info plot).trajectoryPlotFade
        ∧ (loadTrajectoryPlotInfo qt info plot).trajectoryPlotFade ≤ 1)
    ∧ ((plot.value "fade").canConvertDouble = false →
      (loadTrajectoryPlotInfo qt info plot).trajectoryPlotFade = info.trajectoryPlotFade)
    ∧ (item.value "trajectoryPlot" = QVariant.map plot →
      (plot.value "sampleCount").canConvertInt = true →
      100 ≤ (loadBodyInfo qt defaults item).trajectoryPlotSamples
        ∧ (loadBodyInfo qt defaults item).trajectoryPlotSamples ≤ 50000)
    ∧ (item.value "trajectoryPlot" = QVariant.map plot →
      (plot.value "fade").canConvertDouble = true →
      0 ≤ (loadBodyInfo qt defaults item).trajectoryPlotFade
        ∧ (loadBodyInfo qt defaults item).trajectoryPlotFade ≤ 1) := by
  refine ⟨fun h => ?_, fun h => ?_, fun h => ?_, fun h => ?_, fun hp h => ?_, fun hp h => ?_⟩
  · rw [loadTrajectoryPlotInfo_samples, if_pos h]
    exact clamp_samples _
  · rw [loadTrajectoryPlotInfo_samples, if_neg (by rw [h]; decide)]
  · rw [loadTrajectoryPlotInfo_fade, if_pos h]
    exact clamp_fade _
  · rw [loadTrajectoryPlotInfo_fade, if_neg (by rw [h]; decide)]
  · obtain ⟨start, hs⟩ := loadBodyInfo_plot qt defaults item plot hp
    rw [hs, loadTrajectoryPlotInfo_samples, if_pos h]
    exact (clamp_samples _).2
  · obtain ⟨start, hs⟩ := loadBodyInfo_plot qt defaults item plot hp
    rw [hs, loadTrajectoryPlotInfo_fade, if_pos h]
    exact (clamp_fade _).2

/-- An item whose trajectory plot asks for 7 samples and a fade of 5/2 gets
100 samples and the fade 1. -/
theorem loadBodyInfo_sampleItemPlot :
    (loadBodyInfo ValueConversions.none sampleBodyInfo sampleItemPlot).trajectoryPlotSamples
        = 100
      ∧ (loadBodyInfo ValueConversions.none sampleBodyInfo sampleItemPlot).trajectoryPlotFade
        = 1 := by
  decide!

/-- C35, on the code: the color ramp of `loadParticleEmitter` takes
`colorCount` to be half the length of the `colors` list, with no bound.  With
at most five pairs every write is inside the arrays of five elements and the
color count is the number of pairs; with six pairs or more the loop writes at
index 5, outside the arrays, as it does for the list of twelve values
`sampleColors`. -/
theorem loadColorRamp_writes_outside (qt : ValueConversions) (colorsList : List QVariant) :
    (colorsList.length % 2 ^ 32 / 2 ≤ 5 →
      ∃ ramp, loadColorRamp qt (QVariant.list colorsList) = Except.ok ramp
        ∧ ramp.colorCount = colorsList.length % 2 ^ 32 / 2)
    ∧ (5 < colorsList.length % 2 ^ 32 / 2 →
      loadColorRamp qt (QVariant.list colorsList) = Except.error 5)
    ∧ loadColorRamp ValueConversions.none sampleColors = Except.error 5 := by
  have h := loadColorRampLoop_eq qt colorsList (colorsList.length % 2 ^ 32 / 2) 0
    { colors := [some Spectrum.White, none, none, none, none]
      opacities := [some 1, none, none, none, none]
      colorCount := colorsList.length % 2 ^ 32 / 2 } rfl rfl (by omega)
  have hs := loadColorRampLoop_eq ValueConversions.none sampleColors.toList 6 0
    { colors := [some Spectrum.White, none, none, none, none]
      opacities := [some 1, none, none, none, none]
      colorCount := 6 } rfl rfl (by omega)
  refine ⟨fun h5 => ?_, fun h5 => ?_, hs.2 (by omega)⟩
  · exact h.1 (by omega)
  · exact h.2 (by omega)

/-- C39: the result and the `ok` flag of `distanceValue` and of
`durationValue` do not depend on the argument `defaultValue`; whenever the
flag is false the number is 0, and so it is for an invalid variant, which is
what a field that is absent from its map gives. -/
theorem values_ignore_defaultValue (v : QVariant) (distanceUnit : DistanceUnit)
    (timeUnit : TimeUnit) (d1 d2 : ℚ) (map : QVariantMap) (key : String) :
    distanceValue v distanceUnit d1 = distanceValue v distanceUnit d2
    ∧ durationValue v timeUnit d1 = durationValue v timeUnit d2
    ∧ ((distanceValue v distanceUnit d1).2 = false → (distanceValue v distanceUnit d1).1 = 0)
    ∧ ((durationValue v timeUnit d1).2 = false → (durationValue v timeUnit d1).1 = 0)
    ∧ distanceValue QVariant.invalid distanceUnit d1 = (0, false)
    ∧ durationValue QVariant.invalid timeUnit d1 = (0, false)
    ∧ (map.contains key = false →
        distanceValue (map.value key) distanceUnit d1 = (0, false)
          ∧ durationValue (map.value key) timeUnit d1 = (0, false)) := by
  refine ⟨distanceValue_default v distanceUnit d1 d2, durationValue_default v timeUnit d1 d2,
    distanceValue_failure v distanceUnit d1, durationValue_failure v timeUnit d1, rfl, rfl,
    fun h => ?_⟩
  rw [value_of_not_contains map key h]
  exact ⟨rfl, rfl⟩

/-! ## Claims on the message log, the search paths and the earlier loader -/

/-- C34, on the code: `errorMessage` appends to the log the message and a
newline, after "Item '<name>': " when the name of the current item is not
empty, and leaves the earlier text as it is.  The name of the current item
is reset when `loadCatalogItems` starts and at each item, but not after the
last item: after the load of `earth.json`, whose last item is the body
"Moon", the name is still "Moon", and the line that a later load of a missing
file logs, outside every item, carries the prefix "Item 'Moon': ". -/
theorem errorMessage_keeps_last_item_name :
    (∀ (loader : UniverseLoader) (message : String),
      (loader.errorMessage message).m_messageLog
        = loader.m_messageLog
          ++ ((if loader.m_currentBodyName.isEmpty then ""
               else "Item '" ++ loader.m_currentBodyName ++ "': ") ++ message ++ "\n"))
    ∧ (UniverseLoader.new.loadCatalogFile sampleFileSystem Builders.none "earth.json"
        Universe.empty).2.1.m_currentBodyName = "Moon"
    ∧ (UniverseLoader.new.loadCatalogFile sampleFileSystem Builders.none "earth.json"
        Universe.empty).2.1.m_messageLog
      = "Item 'Moon': Missing center for object.\nItem 'Moon': Skipping body 'Moon' because of errors.\n"
    ∧ ((UniverseLoader.new.loadCatalogFile sampleFileSystem Builders.none "earth.json"
          Universe.empty).2.1.loadCatalogFile sampleFileSystem Builders.none "missing.json"
        (UniverseLoader.new.loadCatalogFile sampleFileSystem Builders.none "earth.json"
          Universe.empty).2.2).2.1.m_messageLog
      = "Item 'Moon': Missing center for object.\nItem 'Moon': Skipping body 'Moon' because of errors.\nItem 'Moon': Cannot open required file /missing.json\n" := by
  refine ⟨errorMessage_messageLog, ?_, ?_, ?_⟩ <;> decide!

/-- C36, on the code: `loadCatalogFile` and `loadSSC` leave the data search
path and the model search path as they were before the call, whatever the
outcome.  `loadSSC` sets the texture search path to the directory
`textures/medres` of the SSC file and does not set it back: after the load
of an SSC file that opens, directly or through the `require` list of a
catalog file, the texture search path is that directory, as for `moons.ssc`
and for `c10.json`, which requires it. -/
theorem loadSSC_keeps_texture_path (fs : FileSystem) (builders : Builders)
    (fileName : String) (requireDepth : Nat) (loader : UniverseLoader) (world : Universe) :
    ((fileLoads fs builders).loadCatalogFile fileName requireDepth loader
        world).2.1.m_dataSearchPath = loader.m_dataSearchPath
    ∧ ((fileLoads fs builders).loadCatalogFile fileName requireDepth loader
        world).2.1.m_modelSearchPath = loader.m_modelSearchPath
    ∧ ((fileLoads fs builders).loadSSC fileName requireDepth loader
        world).2.1.m_dataSearchPath = loader.m_dataSearchPath
    ∧ ((fileLoads fs builders).loadSSC fileName requireDepth loader
        world).2.1.m_modelSearchPath = loader.m_modelSearchPath
    ∧ ((fileLoads fs builders).loadSSC fileName requireDepth loader
        world).2.1.m_textureSearchPath
      = (match fs.readAll (fs.canonicalFilePath (loader.dataFileName fileName)) with
        | none => loader.m_textureSearchPath
        | some _ => fs.absolutePath (loader.dataFileName fileName) ++ "/textures/medres")
    ∧ UniverseLoader.new.m_textureSearchPath = ""
    ∧ (UniverseLoader.new.loadCatalogFile sampleFileSystem Builders.none "moons.ssc"
        Universe.empty).2.1.m_textureSearchPath = "/textures/medres"
    ∧ (UniverseLoader.new.loadCatalogFile sampleFileSystem Builders.none "c10.json"
        Universe.empty).2.1.m_textureSearchPath = "/textures/medres" := by
  have h := fileLoads_grow fs builders requireDepth fileName loader world
  refine ⟨h.2.2.1, h.2.2.2.1, h.1.2.1, h.1.2.2.1, ?_, rfl, by decide!, by decide!⟩
  exact loadSSC_texture fs builders _ fileName requireDepth loader world

/-- C37, on the code: in the earlier loader, `loadArc` hands the inertial
frame that a string `bodyFrame` names to `setTrajectoryFrame`: the body frame
of the arc stays unset and the trajectory frame is the one `bodyFrame` names,
whatever `trajectoryFrame` gave.  For the arc with the trajectory frame
"EclipticJ2000" and the body frame "EquatorJ2000" the earlier loader gives
the trajectory frame EquatorJ2000 and no body frame, the current loader the
trajectory frame EclipticJ2000 and the body frame EquatorJ2000.  The two
loaders know the same four names of inertial frames. -/
theorem legacy_loadArc_bodyFrame_sets_trajectoryFrame (builders : LegacyBuilders)
    (map : QVariantMap) (world : Universe) (centerName name : String) (frame : Frame) :
    (map.value "center" = QVariant.string centerName →
      map.value "bodyFrame" = QVariant.string name →
      Legacy.loadInertialFrame name = some frame →
      (Legacy.loadArc builders map world).map (fun arc => (arc.trajectoryFrame, arc.bodyFrame))
        = some (some frame, none))
    ∧ (∀ loader : UniverseLoader,
        (loadInertialFrame name loader).1 = Legacy.loadInertialFrame name)
    ∧ (Legacy.loadArc LegacyBuilders.none sampleArcFrames Universe.empty).map
        (fun arc => (arc.trajectoryFrame, arc.bodyFrame))
      = some (some Frame.equatorJ2000, none)
    ∧ (loadArc Builders.none sampleArcFrames Universe.empty DefaultStartTime
        UniverseLoader.new).1.map (fun arc => (arc.trajectoryFrame, arc.bodyFrame))
      = some (some Frame.eclipticJ2000, some Frame.equatorJ2000) := by
  refine ⟨fun hc hb hf => ?_, fun loader => ?_, by decide!, by decide!⟩
  · unfold Legacy.loadArc
    simp only [hc, hb, hf, Option.map_some', Option.some.injEq, Prod.mk.injEq]
    refine ⟨trivial, ?_⟩
    (repeat' split) <;> rfl
  · unfold loadInertialFrame Legacy.loadInertialFrame
    split_ifs <;> rfl

/-! ## Claims on the counts of an ephemeris file and on the arcs -/

/-- C38, as amended: `JPLEphemeris::load` computes with the header counts in
unsigned 32-bit arithmetic and checks none of them.  For a slot 0..10 whose
`coeffCount` and `granuleCount` are at least 1 and whose products
`coeffCount * granuleCount` and `granuleCount * recordCount` are below
`2 ^ 32`, nothing wraps around: the degree handed to the trajectory is
`coeffCount - 1` (so degree + 1 = coeffCount), the number of triples read for
each record is the product `coeffCount * granuleCount`, the granule count of
the trajectory is the product `granuleCount * recordCount`, and the granule
duration is the record duration divided by a `granuleCount` that is not
zero. -/
theorem load_counts_in_range (platform : Platform) (c : List Byte) (eph : JPLEphemeris)
    (k : Nat) (h : load platform c = some eph) (hk : k < 11)
    (hc : 1 ≤ (headerCoeffInfo c k).coeffCount)
    (hg : 1 ≤ (headerCoeffInfo c k).granuleCount)
    (hcg : (headerCoeffInfo c k).coeffCount * (headerCoeffInfo c k).granuleCount < 2 ^ 32)
    (hgr : (headerCoeffInfo c k).granuleCount * headerRecordCount platform c < 2 ^ 32) :
    ∃ t, eph.trajectory k = some t
      ∧ t.degree + 1 = (headerCoeffInfo c k).coeffCount
      ∧ t.degree = (headerCoeffInfo c k).coeffCount - 1
      ∧ tripleCount (headerCoeffInfo c k)
          = (headerCoeffInfo c k).coeffCount * (headerCoeffInfo c k).granuleCount
      ∧ t.granuleCount = (headerCoeffInfo c k).granuleCount * headerRecordCount platform c
      ∧ ((headerCoeffInfo c k).granuleCount : ℚ) ≠ 0
      ∧ t.granuleLength
          = daysToSeconds (headerDaysPerRecord c) / (headerCoeffInfo c k).granuleCount := by
  obtain ⟨-, -, -, rfl⟩ := load_eq_some platform c eph h
  refine ⟨_, by rw [buildEphemeris_trajectory, if_pos hk], ?_⟩
  have hget : (headerCoeffTable c).getD k default = headerCoeffInfo c k :=
    headerCoeffTable_getD c k (by omega)
  have hlt : (headerCoeffInfo c k).coeffCount < 2 ^ 32 := uint32At_lt _ _
  have e : (headerCoeffInfo c k).coeffCount + 2 ^ 32 - 1
      = ((headerCoeffInfo c k).coeffCount - 1) + 2 ^ 32 := by omega
  have hdeg : ((headerCoeffInfo c k).coeffCount + 2 ^ 32 - 1) % 2 ^ 32
      = (headerCoeffInfo c k).coeffCount - 1 := by
    rw [e, Nat.add_mod_right, Nat.mod_eq_of_lt (by omega)]
  simp only [makeTrajectory, hget, tripleCount, hdeg, Nat.mod_eq_of_lt hcg,
    Nat.mod_eq_of_lt hgr]
  refine ⟨by omega, trivial, trivial, trivial, ?_, trivial⟩
  exact_mod_cast (by omega : (headerCoeffInfo c k).granuleCount ≠ 0)

/-- Slot 3 of the sample file has 2 coefficients in 1 granule and there are 2
records; its trajectory has degree 1 and 2 granules. -/
theorem load_counts_in_range_witness :
    load samplePlatform sampleFile = some sampleEphemeris
    ∧ headerCoeffInfo sampleFile 3 = JplEphCoeffInfo.mk 0 2 1
    ∧ headerRecordCount samplePlatform sampleFile = 2
    ∧ ∃ t, sampleEphemeris.trajectory 3 = some t ∧ t.degree + 1 = 2 ∧ t.granuleCount = 2 := by
  have h := load_counts_in_range samplePlatform sampleFile sampleEphemeris 3
    (sampleFile_load samplePlatform) (by omega)
    (by rw [sampleFile_info]; decide) (by rw [sampleFile_info])
    (by rw [sampleFile_info]; decide)
    (by rw [sampleFile_info, sampleFile_recordCount samplePlatform]; decide)
  obtain ⟨t, ht, hd, -, -, hg, -, -⟩ := h
  rw [sampleFile_info] at hd
  rw [sampleFile_info, sampleFile_recordCount samplePlatform] at hg
  exact ⟨sampleFile_load samplePlatform, sampleFile_info, sampleFile_recordCount samplePlatform,
    t, ht, hd, hg⟩

/-- Counterexample to C38 as stated: a file whose slots 0..10 declare 65536
coefficients in 65536 granules.  The product of the two counts is `2 ^ 32`,
which wraps around to 0: `load` reads no triple for the slot, takes the two
records to be 16 bytes each, and succeeds on the file of 11680 bytes. -/
theorem load_counts_wrap_around :
    overflowFile.length = 11680
    ∧ (load samplePlatform overflowFile).isSome = true
    ∧ headerCoeffInfo overflowFile 0 = JplEphCoeffInfo.mk 0 65536 65536
    ∧ (headerCoeffInfo overflowFile 0).coeffCount * (headerCoeffInfo overflowFile 0).granuleCount
        = 2 ^ 32
    ∧ tripleCount (headerCoeffInfo overflowFile 0) = 0
    ∧ requiredSize samplePlatform overflowFile = 11680 := by
  refine ⟨overflowFile_length, ?_, overflowFile_info, ?_, ?_,
    overflowFile_requiredSize samplePlatform⟩
  · rw [load_eq samplePlatform overflowFile
      (by rw [overflowFile_requiredSize samplePlatform, overflowFile_length])
      overflowFile_number]
    rfl
  · rw [overflowFile_info]
    decide
  · rw [overflowFile_info]
    decide

/-- A slot whose counts are zero gets a trajectory of degree `2 ^ 32 - 1`, and
its granule duration is a division by zero. -/
theorem makeTrajectory_zero_counts (objectCoeffs : List (List ℚ)) (recordCount : Nat)
    (startSec secsPerRecord : ℚ) :
    (makeTrajectory [JplEphCoeffInfo.mk 0 0 0] objectCoeffs recordCount startSec
        secsPerRecord 0).degree = 4294967295
    ∧ (makeTrajectory [JplEphCoeffInfo.mk 0 0 0] objectCoeffs recordCount startSec
        secsPerRecord 0).granuleLength = secsPerRecord / ((0 : Nat) : ℚ) :=
  ⟨rfl, rfl⟩

/-- C40: `loadArc` returns an arc exactly when `center` is a string and the
end time (the default when the field is absent) is valid and later than the
start time; the outcome is the same for every map with the same `center` and
`endTime` and for all builders, whatever `trajectory`, `rotationModel`,
`trajectoryFrame` and `bodyFrame` hold.  When the builder of one of these
fails, the arc that is returned lacks that component.  A body item that
builds is registered and its name is among the returned names; so it is for
the item "Probe", whose trajectory has the unknown type "Bogus": the name is
returned, the body is registered, its one arc has no trajectory, and the log
holds the line of the unknown type. -/
theorem loadArc_success_ignores_components (builders : Builders) (map : QVariantMap)
    (world : Universe) (startTime : ℚ) (loader : UniverseLoader) :
    ((loadArc builders map world startTime loader).1.isSome = true ↔
      (map.value "center").isString = true ∧ (declaredEndTime builders map).2 = true
        ∧ startTime < (declaredEndTime builders map).1)
    ∧ (∀ (builders2 : Builders) (map2 : QVariantMap) (world2 : Universe)
        (loader2 : UniverseLoader),
        builders2.isoDateToSeconds = builders.isoDateToSeconds →
        map2.value "center" = map.value "center" →
        map2.value "endTime" = map.value "endTime" →
        (loadArc builders2 map2 world2 startTime loader2).1.isSome
          = (loadArc builders map world startTime loader).1.isSome)
    ∧ (∀ arc, (loadArc builders map world startTime loader).1 = some arc →
        (∀ m, map.value "trajectory" = QVariant.map m →
          (builders.loadTrajectory m world loader).1 = none → arc.trajectory = none)
        ∧ ((∀ m l, map.value "rotationModel" = QVariant.map m →
            (builders.loadRotationModel m world l).1 = none) → arc.rotationModel = none)
        ∧ ((∀ l, (loadArcFrame builders (map.value "trajectoryFrame") world l).1 = none) →
            arc.trajectoryFrame = none)
        ∧ ((∀ l, (loadArcFrame builders (map.value "bodyFrame") world l).1 = none) →
            arc.bodyFrame = none))
    ∧ (∀ (item : QVariantMap) (s : LoadState),
        isBodyItem builders (QVariant.map item) = true →
        s.world.catalog.find (itemName builders item) = none →
        bodyItemBuilds builders item = true →
        (loadItem builders s (QVariant.map item)).bodyNames
            = s.bodyNames ++ [itemName builders item]
          ∧ (loadItem builders s (QVariant.map item)).world.catalog.find
              (itemName builders item) = some s.world.bodies.length)
    ∧ loadTrajectory Builders.none TypeBuilders.none [("type", QVariant.string "Bogus")]
          { UniverseLoader.new with m_currentBodyName := "Probe" }
        = (none, { UniverseLoader.new with
            m_currentBodyName := "Probe"
            m_messageLog := "Item 'Probe': Unknown trajectory type 'Bogus'\n" })
    ∧ (loadCatalogItems Builders.unknownTypes NestedLoads.none
        (sampleDocument [QVariant.map sampleItemBogus]) 0 UniverseLoader.new
        Universe.empty).bodyNames = ["Probe"]
    ∧ (loadCatalogItems Builders.unknownTypes NestedLoads.none
        (sampleDocument [QVariant.map sampleItemBogus]) 0 UniverseLoader.new
        Universe.empty).world.catalog.find "Probe" = some 0
    ∧ ((loadCatalogItems Builders.unknownTypes NestedLoads.none
        (sampleDocument [QVariant.map sampleItemBogus]) 0 UniverseLoader.new
        Universe.empty).world.findBody "Probe").map
          (fun body => body.arcs.map (fun arc => arc.trajectory)) = some [none]
    ∧ (loadCatalogItems Builders.unknownTypes NestedLoads.none
        (sampleDocument [QVariant.map sampleItemBogus]) 0 UniverseLoader.new
        Universe.empty).loader.m_messageLog
      = "Item 'Probe': Unknown trajectory type 'Bogus'\n" := by
  refine ⟨?_, ?_, ?_, ?_, by decide!, by decide!, by decide!, by decide!, by decide!⟩
  · rw [loadArc_isSome, arcEndTime_eq]
    split_ifs with h
    · exact ⟨fun _ => h, fun _ => rfl⟩
    · exact ⟨fun hf => absurd hf (by simp), fun hc => absurd hc h⟩
  · intro builders2 map2 world2 loader2 hb hcenter hend
    rw [loadArc_isSome, loadArc_isSome, arcEndTime_congr builders builders2 map map2 startTime
      hb hcenter hend]
  · intro arc harc
    obtain ⟨centerName, duration, -, rfl⟩ := loadArc_some builders map world startTime loader
      arc harc
    refine ⟨fun m hm hnone => ?_, fun h => ?_, fun h => ?_, fun h => ?_⟩
    · show (loadArcComponents builders map world _ loader).1.trajectory = none
      rw [loadArcComponents_trajectory, hm]
      simp only [hnone]
      rfl
    · show (loadArcComponents builders map world _ loader).1.rotationModel = none
      rw [loadArcComponents_rotationModel builders map world _ loader h]
      rfl
    · show (loadArcComponents builders map world _ loader).1.trajectoryFrame = none
      rw [loadArcComponents_trajectoryFrame builders map world _ loader h]
      rfl
    · show (loadArcComponents builders map world _ loader).1.bodyFrame = none
      rw [loadArcComponents_bodyFrame builders map world _ loader h]
      rfl
  · intro item s hbody hfind hok
    constructor
    · rw [loadItem_body builders item s hbody, loadBodyItem_bodyNames, hok]
      rfl
    · obtain ⟨body, -, -, hw⟩ := loadItem_new_body builders item s hbody hfind hok
      rw [hw]
      show ((s.world.catalog.addBody (itemName builders item)
        s.world.bodies.length).setBodyInfo (itemName builders item)
        (builders.loadBodyInfo item)).find (itemName builders item) = _
      rw [find_setBodyInfo, find_addBody, if_pos rfl]

end Cosmographia
